import Mathlib

/-!
# SOL asset registry and component serializer: a shallow embedding of
`AssetManager.cpp`, `Serializer.cpp` and `Prefab.cpp`

The development follows the C++ source function by function.

* `std::unordered_map<K, V>` is an association list `UMap K V` read in iteration
  order.  The functions do not require the keys to be distinct; `UMap.WF` states
  it, and it is a hypothesis only where a statement needs it.  A key inserted by
  `operator[]` goes to the end of the list.
* The rapidjson DOM is the inductive type `JValue`; an object is the list of its
  members in document order (rapidjson's `AddMember` does not look for an
  existing member of the same name).
* A rapidjson assertion (`RAPIDJSON_ASSERT`) that fails ends the call: the
  functions that can hit one return `Except World World`, the error carrying
  the state reached when the assertion failed.
* Everything outside the class — the random engine, the file system, the
  texture, font and audio services, the log — is a field of `World`.
* An operation the C++ standard leaves undefined (the use of an iterator or of
  a reference into an `unordered_map` after the element was erased, a cast to
  a type the object does not have) ends the call in the same way.
* A position in a `std::string` is a `size_t`: arithmetic on positions is
  modulo `2 ^ 64`.  A `float` or `double` carries its mathematical value.
* The component records, declared outside the sources at hand, have the fields
  that `Serializer.cpp` reads and writes; a deserializer is the list of its
  statements for a given reader (`Statements`), run by `runStatements`.
* A `rapidjson::Writer` is the sequence of the calls made on it (`Writer`), which
  is its text token by token; `Writer.document` is the value `Document::Parse`
  builds from that text.
-/

namespace SOL

/-! ## `std::unordered_map` -/

/-- An unordered map, as the list of its entries in iteration order. -/
abbrev UMap (K V : Type) := List (K × V)

namespace UMap

variable {K V : Type} [DecidableEq K]

/-- The value stored under `k` (`find`), if any. -/
def find? : UMap K V → K → Option V
  | [], _ => none
  | (k', v) :: m, k => if k' = k then some v else find? m k

/-- Whether `k` is a key (`count(k) != 0`). -/
def contains (m : UMap K V) (k : K) : Bool := (find? m k).isSome

/-- The call `erase(k)`. -/
def erase (m : UMap K V) (k : K) : UMap K V := m.filter (fun e => decide (e.1 ≠ k))

/-- The map after evaluating `m[k]`: an absent key is inserted with a
value-initialised value. -/
def index [Inhabited V] (m : UMap K V) (k : K) : UMap K V :=
  if contains m k then m else m ++ [(k, default)]

/-- The value that `m[k]` refers to. -/
def get [Inhabited V] (m : UMap K V) (k : K) : V := (find? m k).getD default

/-- Apply `f` in place to the value stored under `k`. -/
def modify (m : UMap K V) (k : K) (f : V → V) : UMap K V :=
  m.map (fun e => if e.1 = k then (e.1, f e.2) else e)

/-- The statement `m[k] = f (m[k])`: `operator[]`, then a mutation through the
reference it returns. -/
def update [Inhabited V] (m : UMap K V) (k : K) (f : V → V) : UMap K V :=
  modify (index m k) k f

/-- The keys in iteration order. -/
def keys (m : UMap K V) : List K := m.map Prod.fst

/-- The representation invariant of a map: no key occurs twice. -/
def WF (m : UMap K V) : Prop := (keys m).Nodup

instance (m : UMap K V) : Decidable (WF m) := by
  unfold WF; exact inferInstance

end UMap

/-! ## rapidjson values -/

/-- A rapidjson `Value`. A number parsed as an integer is `number`; a number
with a fraction or an exponent is `real` (rapidjson stores it as a `double`;
here it carries its mathematical value, rounding is left out). -/
inductive JValue where
  | null
  | bool (b : Bool)
  | number (n : Int)
  | real (q : ℚ)
  | str (s : String)
  | arr (xs : List JValue)
  | obj (ms : List (String × JValue))

namespace JValue

instance : Inhabited JValue := ⟨JValue.null⟩

/-- The range `MemberBegin() .. MemberEnd()`; asserts `IsObject()`. -/
def members : JValue → Option (List (String × JValue))
  | obj ms => some ms
  | _ => none

/-- The search `FindMember(name)` on a member list: the first member of that name. -/
def findMember : List (String × JValue) → String → Option JValue
  | [], _ => none
  | (k, v) :: ms, name => if k = name then some v else findMember ms name

/-- The test `HasMember(name)`; asserts `IsObject()`. -/
def HasMember (v : JValue) (name : String) : Option Bool :=
  (members v).map (fun ms => (findMember ms name).isSome)

/-- The access `operator[](name)`; asserts `IsObject()` and that the member exists. -/
def member (v : JValue) (name : String) : Option JValue :=
  (members v).bind (fun ms => findMember ms name)

/-- The getter `GetUint64()`; asserts `IsUint64()`. -/
def GetUint64 : JValue → Option Nat
  | number n => if 0 ≤ n ∧ n < 2 ^ 64 then some n.toNat else none
  | _ => none

/-- The getter `GetString()`; asserts `IsString()`. -/
def GetString : JValue → Option String
  | str s => some s
  | _ => none

/-- The call `AddMember(name, value, allocator)`: appends a member, whatever the names
already present. It asserts `IsObject()`; every call below is on an object. -/
def AddMember (v : JValue) (name : String) (value : JValue) : JValue :=
  match v with
  | obj ms => obj (ms ++ [(name, value)])
  | other => other

end JValue

/-- The characters a `const char*` denotes: those before the first NUL. This is
what `std::string::c_str()` hands to `rapidjson::Value(const Ch*, Allocator&)`
and what constructing a `std::string` from `GetString()` keeps. -/
def c_str (s : String) : String := ⟨s.data.takeWhile (fun c => decide (c ≠ Char.ofNat 0))⟩

/-! ## Identifiers -/

/-- The class `UUID`: its `uint64_t m_UUID`. -/
abbrev UUID := Nat

/-- The statics `s_Engine` and `s_UniformDistribution`: the sequence of values
the `std::mt19937_64` engine yields, and how many were drawn so far. -/
structure Engine where
  draws : Nat → Nat
  pos : Nat

/-! ## External services -/

/-- Modelled from the spec: the class `Texture` of `SOL/Graphics/Texture.h`
(image load service, `load(path) -> handle`, `unload(handle)`); the handle is
identified with the path it was loaded from. -/
structure Texture where
  handle : Option String := none
deriving DecidableEq, Repr, Inhabited

/-- Modelled from the spec: the class `Font` of `SOL/Graphics/Font.h` (font load
service, `load(path) -> handle`, `unload(handle)`). -/
structure Font where
  handle : Option String := none
deriving DecidableEq, Repr, Inhabited

/-- Modelled from the spec: `Texture::LoadTexture(path)`. -/
def Texture.LoadTexture (_ : Texture) (path : String) : Texture := ⟨some path⟩

/-- Modelled from the spec: `Texture::UnloadTexture()`. -/
def Texture.UnloadTexture (_ : Texture) : Texture := ⟨none⟩

/-- Modelled from the spec: `Font::LoadFont(path)`. -/
def Font.LoadFont (_ : Font) (path : String) : Font := ⟨some path⟩

/-- Modelled from the spec: `Font::UnloadFont()`. -/
def Font.UnloadFont (_ : Font) : Font := ⟨none⟩

/-- A call into an external load/unload primitive. The unload of a texture or a
font records the handle that was released. -/
inductive ExtCall where
  | LoadTexture (path : String)
  | UnloadTexture (released : Option String)
  | LoadFont (path : String)
  | UnloadFont (released : Option String)
  | LoadAudio (name path : String)
  | UnLoadAudio (name : String)
deriving DecidableEq, Repr

/-! ## The registry -/

/-- The enumeration `AssetManager::Asset_Type`. -/
inductive Asset_Type where
  | ASSET_TEXTURES
  | ASSET_AUDIO
  | ASSET_FONT
  | MAX_ASSET_TYPE
  | UNKNOWN_ASSET_TYPE
deriving DecidableEq, Repr

open Asset_Type

/-- The type `std::pair<Texture, std::string>`: the asset and its name. -/
abbrev TexPathPair := Texture × String

/-- The type `std::pair<Font, std::string>`: the asset and its name. -/
abbrev FontPathPair := Font × String

/-- The inner map of `m_EditorMap`: identifier to (name, file path). -/
abbrev EditorEntries := UMap UUID (String × String)

/-- The data members of `class AssetManager`. -/
structure AssetManager where
  m_textureMap : UMap UUID TexPathPair := []
  m_audioMap : UMap UUID String := []
  m_fontMap : UMap UUID FontPathPair := []
  m_EditorMap : UMap Asset_Type EditorEntries := []
  m_assetFilepath : String := "./Json/assets_serialized.json"
  m_FontPair : FontPathPair := default
  m_TexPair : TexPathPair := default

/-- The registry together with everything it talks to. `files` maps a path that
can be opened for reading to the result of parsing its text (`none`: a parse
error); `writable` tells whether `std::ofstream` can open the output file;
`calls` are the external primitives invoked so far; `log` are the messages
handed to the `ANALYTICS_*` logging calls. -/
structure World where
  am : AssetManager := {}
  s_Engine : Engine
  files : UMap String (Option JValue) := []
  writable : Bool := true
  calls : List ExtCall := []
  log : List String := []

namespace World

/-- Modelled from the spec: the logging calls `ANALYTICS_INFO`,
`ANALYTICS_CRITICAL` and `ANALYTICS_ERROR` (declared outside the sources at
hand) emit a diagnostic; their argument is evaluated by the caller. -/
def ANALYTICS (w : World) (msg : String) : World := { w with log := w.log ++ [msg] }

/-- Record a call into an external primitive. -/
def call (w : World) (c : ExtCall) : World := { w with calls := w.calls ++ [c] }

/-- The inner map `m_EditorMap[K]` refers to. -/
def editor (w : World) (K : Asset_Type) : EditorEntries := UMap.get w.am.m_EditorMap K

/-- Evaluating `m_EditorMap[K]`: the inner map is created when absent. -/
def touchEditor (w : World) (K : Asset_Type) : World :=
  { w with am := { w.am with m_EditorMap := UMap.index w.am.m_EditorMap K } }

/-- The statement `m_EditorMap[K][uuid] = f (m_EditorMap[K][uuid])`. -/
def setEditor (w : World) (K : Asset_Type) (uuid : UUID)
    (f : String × String → String × String) : World :=
  { w with am := { w.am with
      m_EditorMap := UMap.update w.am.m_EditorMap K (fun inner => UMap.update inner uuid f) } }

/-- Evaluating `m_EditorMap[K][uuid]` for reading. -/
def touchEntry (w : World) (K : Asset_Type) (uuid : UUID) : World :=
  { w with am := { w.am with
      m_EditorMap := UMap.update w.am.m_EditorMap K (fun inner => UMap.index inner uuid) } }

/-- Evaluating `m_audioMap[uuid]` for reading. -/
def touchAudio (w : World) (uuid : UUID) : World :=
  { w with am := { w.am with m_audioMap := UMap.index w.am.m_audioMap uuid } }

/-- The statement `m_textureMap[uuid] = f (m_textureMap[uuid])`. -/
def setTexture (w : World) (uuid : UUID) (f : TexPathPair → TexPathPair) : World :=
  { w with am := { w.am with m_textureMap := UMap.update w.am.m_textureMap uuid f } }

/-- The statement `m_fontMap[uuid] = f (m_fontMap[uuid])`. -/
def setFont (w : World) (uuid : UUID) (f : FontPathPair → FontPathPair) : World :=
  { w with am := { w.am with m_fontMap := UMap.update w.am.m_fontMap uuid f } }

/-- The statement `m_audioMap[uuid] = f (m_audioMap[uuid])`. -/
def setAudio (w : World) (uuid : UUID) (f : String → String) : World :=
  { w with am := { w.am with m_audioMap := UMap.update w.am.m_audioMap uuid f } }

/-- A freshly constructed registry in a world with the given random engine and
readable files. -/
def fresh (e : Engine) (files : UMap String (Option JValue)) : World :=
  { s_Engine := e, files := files }

end World

/-- The constructor `UUID::UUID()`: the next 64-bit value of the engine. -/
def UUID.random (w : World) : UUID × World :=
  (w.s_Engine.draws w.s_Engine.pos % 2 ^ 64,
   { w with s_Engine := { w.s_Engine with pos := w.s_Engine.pos + 1 } })

/-- The function `UUID::generateUUID()`. -/
def UUID.generateUUID (w : World) : UUID × World := UUID.random w

/-! ## Persistence: `SerializeEditorMap` -/

/-- The object built for one entry: `{"UUID": uuid, "filepath": path}`. -/
def assetObj (uuid : UUID) (assetPair : String × String) : JValue :=
  ((JValue.obj []).AddMember "UUID" (JValue.number (uuid : Nat))).AddMember
    "filepath" (JValue.str (c_str assetPair.2))

/-- The loop over one kind's entries: each adds a member named after the
entry's display name to the kind's object. -/
def serializeEntries (entries : EditorEntries) (section_ : JValue) : JValue :=
  entries.foldl
    (fun acc e => acc.AddMember (c_str e.2.1) (assetObj e.1 e.2)) section_

/-- The document `SerializeEditorMap` builds: a kind gets its top-level member
only when the outer map has that kind as a key. -/
def editorMapDocument (_editormap : UMap Asset_Type EditorEntries) : JValue :=
  let doc := JValue.obj []
  let doc := if UMap.contains _editormap ASSET_TEXTURES then
      doc.AddMember "textures"
        (serializeEntries (UMap.get _editormap ASSET_TEXTURES) (JValue.obj []))
    else doc
  let doc := if UMap.contains _editormap ASSET_AUDIO then
      doc.AddMember "audios"
        (serializeEntries (UMap.get _editormap ASSET_AUDIO) (JValue.obj []))
    else doc
  let doc := if UMap.contains _editormap ASSET_FONT then
      doc.AddMember "fonts"
        (serializeEntries (UMap.get _editormap ASSET_FONT) (JValue.obj []))
    else doc
  doc

/-- The output file of `SerializeEditorMap`. -/
def serializedPath : String := "./Json/assets_serialized.json"

/-- The function `AssetManager::SerializeEditorMap`. -/
def SerializeEditorMap (_editormap : UMap Asset_Type EditorEntries) (w : World) : World :=
  let doc := editorMapDocument _editormap
  let w := if UMap.contains _editormap ASSET_TEXTURES then
      w.ANALYTICS "Texture successfully saved." else w
  if w.writable then
    ({ w with files := UMap.update w.files serializedPath (fun _ => some doc) }).ANALYTICS
      "Assets serialized to assets.json"
  else
    w.ANALYTICS "Failed to open file for writing."

/-! ## Textures -/

/-- The scan of `load*`: whether some entry of the kind has this file path. -/
def pathLoaded (entries : EditorEntries) (_filepath : String) : Bool :=
  entries.any (fun e => decide (_filepath = e.2.2))

/-- The function `AssetManager::loadTexture`. -/
def loadTexture (_name _filepath : String) (w : World) : World :=
  let w := w.touchEditor ASSET_TEXTURES
  if pathLoaded (w.editor ASSET_TEXTURES) _filepath then
    w.ANALYTICS (_name ++ " has already been loaded")
  else
    let (texUUID, w) := UUID.generateUUID w
    let w := (w.setTexture texUUID (fun v => (v.1.LoadTexture _filepath, v.2))).call
      (ExtCall.LoadTexture _filepath)
    let w := w.setTexture texUUID (fun v => (v.1, _name))
    let w := w.setEditor ASSET_TEXTURES texUUID (fun v => (_name, v.2))
    let w := w.setEditor ASSET_TEXTURES texUUID (fun v => (v.1, _filepath))
    let w := w.touchEntry ASSET_TEXTURES texUUID
    let w := w.ANALYTICS
      ((UMap.get (w.editor ASSET_TEXTURES) texUUID).1 ++ "Texture successfully loaded.")
    SerializeEditorMap w.am.m_EditorMap w

/-- The function `AssetManager::unloadTexture`. -/
def unloadTexture (_uuid : UUID) (w : World) : World :=
  let w := { w with am := { w.am with m_textureMap := UMap.erase w.am.m_textureMap _uuid } }
  let w := w.touchEditor ASSET_TEXTURES
  { w with am := { w.am with
      m_EditorMap := UMap.modify w.am.m_EditorMap ASSET_TEXTURES (fun inner => UMap.erase inner _uuid) } }

/-- The function `AssetManager::modifyTexture`. -/
def modifyTexture (_texUUID : UUID) (_filepath : String) (w : World) : World :=
  let released := (UMap.get w.am.m_textureMap _texUUID).1.handle
  let w := (w.setTexture _texUUID (fun v => (v.1.UnloadTexture, v.2))).call
    (ExtCall.UnloadTexture released)
  let w := (w.setTexture _texUUID (fun v => (v.1.LoadTexture _filepath, v.2))).call
    (ExtCall.LoadTexture _filepath)
  let w := w.setEditor ASSET_TEXTURES _texUUID (fun v => (v.1, _filepath))
  let w := w.touchEntry ASSET_TEXTURES _texUUID
  w.ANALYTICS
    ((UMap.get (w.editor ASSET_TEXTURES) _texUUID).1 ++ "Textures successfully modified.")

/-- The function `AssetManager::getTextureMap`. -/
def getTextureMap (w : World) : UMap UUID TexPathPair := w.am.m_textureMap

/-- The loop of `getTextureUUID` and `getFontUUID`: the key of the first entry
whose name is `_name`. -/
def firstNamed {A : Type} : UMap UUID (A × String) → String → Option UUID
  | [], _ => none
  | (uuid, v) :: m, _name => if v.2 = _name then some uuid else firstNamed m _name

/-- The function `AssetManager::getTextureUUID`. -/
def getTextureUUID (_name : String) (w : World) : UUID × World :=
  match firstNamed w.am.m_textureMap _name with
  | some uuid => (uuid, w)
  | none => UUID.random w

/-- The function `AssetManager::getTexture`. -/
def getTexture (_UUID : UUID) (w : World) : TexPathPair × World :=
  let w := { w with am := { w.am with m_TexPair := default } }
  if UMap.contains w.am.m_textureMap _UUID then
    (UMap.get w.am.m_textureMap _UUID, w)
  else
    (w.am.m_TexPair, w)

/-! ## Audio -/

/-- The function `AssetManager::loadAudio`. -/
def loadAudio (_name _filepath : String) (w : World) : World :=
  let w := w.touchEditor ASSET_AUDIO
  if pathLoaded (w.editor ASSET_AUDIO) _filepath then
    w.ANALYTICS (_name ++ "Audio has already been loaded")
  else
    let w := w.call (ExtCall.LoadAudio _name _filepath)
    let (audioUUID, w) := UUID.generateUUID w
    let w := w.setAudio audioUUID (fun _ => _name)
    let w := w.setEditor ASSET_AUDIO audioUUID (fun v => (_name, v.2))
    let w := w.setEditor ASSET_AUDIO audioUUID (fun v => (v.1, _filepath))
    let w := w.touchEntry ASSET_AUDIO audioUUID
    let w := w.ANALYTICS
      ((UMap.get (w.editor ASSET_AUDIO) audioUUID).1 ++ " Audio successfully loaded.")
    SerializeEditorMap w.am.m_EditorMap w

/-- The body of the loop of `unloadAudio` for one entry of the audio editor
map; every `m_audioMap[_uuid]` is an `operator[]` access. -/
def unloadAudioStep (_uuid : UUID) (acc : Bool × World) (e : UUID × (String × String)) :
    Bool × World :=
  if _uuid = e.1 then
    let w := acc.2.touchAudio _uuid
    let w := w.ANALYTICS (UMap.get w.am.m_audioMap _uuid ++ "Loaded audio found")
    let w := w.touchAudio _uuid
    let w := w.call (ExtCall.UnLoadAudio (UMap.get w.am.m_audioMap _uuid))
    let w := w.touchAudio _uuid
    let w := w.ANALYTICS
      (UMap.get w.am.m_audioMap _uuid ++ "Audio found in m_EditorMap was deleted")
    (true, w)
  else acc

/-- The state after the matching iteration of the loop of `unloadAudio`. -/
def unloadAudioFound (_uuid : UUID) (w : World) : World :=
  (unloadAudioStep _uuid (false, w) (_uuid, ("", ""))).2

/-- The function `AssetManager::unloadAudio`. The message of the last branch is
built from `m_audioMap[_uuid]`, evaluated after the erase. -/
def unloadAudio (_uuid : UUID) (w : World) : World :=
  let w := w.touchEditor ASSET_AUDIO
  let r := (w.editor ASSET_AUDIO).foldl (unloadAudioStep _uuid) (false, w)
  let found := r.1
  let w := r.2
  let w := { w with am := { w.am with m_audioMap := UMap.erase w.am.m_audioMap _uuid } }
  let w := w.touchEditor ASSET_AUDIO
  let w := { w with am := { w.am with
      m_EditorMap := UMap.modify w.am.m_EditorMap ASSET_AUDIO (fun inner => UMap.erase inner _uuid) } }
  if !found then
    let w := w.touchAudio _uuid
    w.ANALYTICS (UMap.get w.am.m_audioMap _uuid ++ " Audio does not exist in m_EditorMap")
  else w

/-- The function `AssetManager::getAudioMap`. -/
def getAudioMap (w : World) : UMap UUID String := w.am.m_audioMap

/-- The loop of `getAudioUUID`: the key of the first entry whose name is
`_name`. -/
def firstNamedAudio : UMap UUID String → String → Option UUID
  | [], _ => none
  | (uuid, v) :: m, _name => if v = _name then some uuid else firstNamedAudio m _name

/-- The function `AssetManager::getAudioUUID`. -/
def getAudioUUID (_name : String) (w : World) : UUID × World :=
  match firstNamedAudio w.am.m_audioMap _name with
  | some uuid => (uuid, w)
  | none => UUID.random w

/-! ## Fonts -/

/-- The function `AssetManager::loadFont`. -/
def loadFont (_name _filepath : String) (w : World) : World :=
  let w := w.touchEditor ASSET_FONT
  if pathLoaded (w.editor ASSET_FONT) _filepath then
    w.ANALYTICS (_name ++ "Font has already been loaded")
  else
    let (texUUID, w) := UUID.generateUUID w
    let w := (w.setFont texUUID (fun v => (v.1.LoadFont _filepath, v.2))).call
      (ExtCall.LoadFont _filepath)
    let w := w.setFont texUUID (fun v => (v.1, _name))
    let w := w.setEditor ASSET_FONT texUUID (fun v => (_name, v.2))
    let w := w.setEditor ASSET_FONT texUUID (fun v => (v.1, _filepath))
    let w := w.touchEntry ASSET_FONT texUUID
    let w := w.ANALYTICS
      ((UMap.get (w.editor ASSET_FONT) texUUID).1 ++ "Font successfully loaded.")
    SerializeEditorMap w.am.m_EditorMap w

/-- The function `AssetManager::unloadFont`. -/
def unloadFont (_uuid : UUID) (w : World) : World :=
  let w := { w with am := { w.am with m_fontMap := UMap.erase w.am.m_fontMap _uuid } }
  let w := w.touchEditor ASSET_FONT
  { w with am := { w.am with
      m_EditorMap := UMap.modify w.am.m_EditorMap ASSET_FONT (fun inner => UMap.erase inner _uuid) } }

/-- The function `AssetManager::modifyFont`. -/
def modifyFont (_fontUUID : UUID) (_filepath : String) (w : World) : World :=
  let released := (UMap.get w.am.m_fontMap _fontUUID).1.handle
  let w := (w.setFont _fontUUID (fun v => (v.1.UnloadFont, v.2))).call
    (ExtCall.UnloadFont released)
  let w := (w.setFont _fontUUID (fun v => (v.1.LoadFont _filepath, v.2))).call
    (ExtCall.LoadFont _filepath)
  let w := w.setEditor ASSET_FONT _fontUUID (fun v => (v.1, _filepath))
  let w := w.touchEntry ASSET_FONT _fontUUID
  w.ANALYTICS
    ((UMap.get (w.editor ASSET_FONT) _fontUUID).1 ++ "Textures successfully modified.")

/-- The function `AssetManager::getFontMap`. -/
def getFontMap (w : World) : UMap UUID FontPathPair := w.am.m_fontMap

/-- The function `AssetManager::getFontUUID`. -/
def getFontUUID (_name : String) (w : World) : UUID × World :=
  match firstNamed w.am.m_fontMap _name with
  | some uuid => (uuid, w)
  | none => UUID.random w

/-- The function `AssetManager::getFont`. -/
def getFont (_UUID : UUID) (w : World) : FontPathPair × World :=
  let w := { w with am := { w.am with m_FontPair := default } }
  if UMap.contains w.am.m_fontMap _UUID then
    (UMap.get w.am.m_fontMap _UUID, w)
  else
    (w.am.m_FontPair, w)

/-! ## Initialisation: `initAssetManager` -/

/-- The reads at the head of each loop body of `initAssetManager`:
`it->value["UUID"].GetUint64()` and `it->value["filepath"].GetString()`, the
latter converted to a `std::string`. `none` when a rapidjson assertion fails. -/
def readEntry (value : JValue) : Option (UUID × String) :=
  match (value.member "UUID").bind JValue.GetUint64 with
  | none => none
  | some uuid =>
    match (value.member "filepath").bind JValue.GetString with
    | none => none
    | some s => some (uuid, c_str s)

/-- One iteration of the loop over the members of `"textures"`. -/
def initTexture (name : String) (value : JValue) (w : World) : Except World World :=
  let tex_name := c_str name
  match readEntry value with
  | none => .error w
  | some (texUUID, filepath) =>
    let w := (w.setTexture texUUID (fun v => (v.1.LoadTexture filepath, v.2))).call
      (ExtCall.LoadTexture filepath)
    let w := w.setTexture texUUID (fun v => (v.1, tex_name))
    let w := w.setEditor ASSET_TEXTURES texUUID (fun v => (tex_name, v.2))
    let w := w.setEditor ASSET_TEXTURES texUUID (fun v => (v.1, filepath))
    .ok w

/-- One iteration of the loop over the members of `"audios"`. -/
def initAudio (name : String) (value : JValue) (w : World) : Except World World :=
  let audio_name := c_str name
  match readEntry value with
  | none => .error w
  | some (audioUUID, filepath) =>
    let w := w.call (ExtCall.LoadAudio audio_name filepath)
    let w := w.setAudio audioUUID (fun _ => audio_name)
    let w := w.setEditor ASSET_AUDIO audioUUID (fun v => (audio_name, v.2))
    let w := w.setEditor ASSET_AUDIO audioUUID (fun v => (v.1, filepath))
    .ok w

/-- One iteration of the loop over the members of `"fonts"`. The editor map is
written under `Asset_Type::ASSET_TEXTURES`, as in the source. -/
def initFont (name : String) (value : JValue) (w : World) : Except World World :=
  let font_name := c_str name
  match readEntry value with
  | none => .error w
  | some (fontUUID, filepath) =>
    let w := (w.setFont fontUUID (fun v => (v.1.LoadFont filepath, v.2))).call
      (ExtCall.LoadFont filepath)
    let w := w.setFont fontUUID (fun v => (v.1, font_name))
    let w := w.setEditor ASSET_TEXTURES fontUUID (fun v => (font_name, v.2))
    let w := w.setEditor ASSET_TEXTURES fontUUID (fun v => (v.1, filepath))
    .ok w

/-- A loop `for (it = MemberBegin(); it != MemberEnd(); ++it)` whose body is
`step`; it stops at the first failed assertion. -/
def initLoop (step : String → JValue → World → Except World World) :
    List (String × JValue) → World → Except World World
  | [], w => .ok w
  | (name, value) :: ms, w =>
    match step name value w with
    | .error e => .error e
    | .ok w' => initLoop step ms w'

/-- One of the three blocks `if (doc.HasMember(key)) { ... }` of
`initAssetManager`. -/
def initSection (key : String) (step : String → JValue → World → Except World World)
    (done : String) (doc : JValue) (w : World) : Except World World :=
  match doc.HasMember key with
  | none => .error w
  | some false => .ok w
  | some true =>
    match (doc.member key).bind JValue.members with
    | none => .error w
    | some ms =>
      match initLoop step ms w with
      | .error e => .error e
      | .ok w' => .ok (w'.ANALYTICS done)

/-- The function `AssetManager::initAssetManager`. -/
def initAssetManager (w : World) : Except World World :=
  match UMap.find? w.files w.am.m_assetFilepath with
  | none => .ok (w.ANALYTICS "Failed to open asset file:")
  | some none => .ok (w.ANALYTICS "Failed to parse assets JSON file.")
  | some (some doc) =>
    match initSection "textures" initTexture "Textures successfully deserialized." doc w with
    | .error e => .error e
    | .ok w =>
      match initSection "audios" initAudio "Audios successfully initialized." doc w with
      | .error e => .error e
      | .ok w => initSection "fonts" initFont "Fonts successfully deserialized." doc w

/-- The state a call ended in, whether it returned or failed an assertion. -/
def finalState : Except World World → World
  | .ok w => w
  | .error w => w

/-- Whether a call returned (no assertion failed). -/
def returned : Except World World → Bool
  | .ok _ => true
  | .error _ => false

/-! ## The uniform operation set of the three asset kinds

The registry has one member function per kind and operation. The definitions
below only select the member function of a kind, so that a statement about
"each kind K" is one statement. -/

/-- The three kinds that have a store: image, audio, font. -/
def Asset_Type.IsKind (K : Asset_Type) : Prop :=
  K = ASSET_TEXTURES ∨ K = ASSET_AUDIO ∨ K = ASSET_FONT

/-- The two kinds whose store holds a resource handle: image and font. -/
def Asset_Type.HasHandle (K : Asset_Type) : Prop :=
  K = ASSET_TEXTURES ∨ K = ASSET_FONT

instance (K : Asset_Type) : Decidable K.IsKind := by
  unfold Asset_Type.IsKind; exact inferInstance

instance (K : Asset_Type) : Decidable K.HasHandle := by
  unfold Asset_Type.HasHandle; exact inferInstance

/-- A store entry seen uniformly: the path its handle was loaded from (`none`
for a handle that is not loaded, and for audio, which stores no handle) and the
display name. -/
abbrev StoreEntry := Option String × String

/-- The Typed Resource Store of a kind: `m_textureMap`, `m_audioMap` or
`m_fontMap`, entry by entry in iteration order. -/
def World.store (w : World) : Asset_Type → UMap UUID StoreEntry
  | ASSET_TEXTURES => w.am.m_textureMap.map (fun e => (e.1, (e.2.1.handle, e.2.2)))
  | ASSET_AUDIO => w.am.m_audioMap.map (fun e => (e.1, ((none : Option String), e.2)))
  | ASSET_FONT => w.am.m_fontMap.map (fun e => (e.1, (e.2.1.handle, e.2.2)))
  | _ => []

/-- The store of a kind and the editor map agree on identifiers and display
names: the store of `K` has `i` with name `n` exactly when the editor map has an
entry `(K, i)` with name `n`. -/
def Consistent (w : World) : Prop :=
  ∀ K : Asset_Type, K.IsKind → ∀ (i : UUID) (n : String),
    (∃ h, UMap.find? (w.store K) i = some (h, n)) ↔
      (∃ p, UMap.find? (w.editor K) i = some (n, p))

/-- The handle a store entry of kind `K` holds after a load from `p`. -/
def loadedHandle (K : Asset_Type) (p : String) : Option String :=
  if K = ASSET_AUDIO then none else some p

/-- The operation `load(name, path)` of kind `K`. -/
def load : Asset_Type → String → String → World → World
  | ASSET_TEXTURES => loadTexture
  | ASSET_AUDIO => loadAudio
  | ASSET_FONT => loadFont
  | _ => fun _ _ w => w

/-- The operation `unload(id)` of kind `K`. -/
def unload : Asset_Type → UUID → World → World
  | ASSET_TEXTURES => unloadTexture
  | ASSET_AUDIO => unloadAudio
  | ASSET_FONT => unloadFont
  | _ => fun _ w => w

/-- The operation `modify(id, newPath)` of kind `K` (image and font only). -/
def modify : Asset_Type → UUID → String → World → World
  | ASSET_TEXTURES => modifyTexture
  | ASSET_FONT => modifyFont
  | _ => fun _ _ w => w

/-- The operation `getUUIDByName(name)` of kind `K`. -/
def getUUID : Asset_Type → String → World → UUID × World
  | ASSET_TEXTURES => getTextureUUID
  | ASSET_AUDIO => getAudioUUID
  | ASSET_FONT => getFontUUID
  | _ => fun _ w => (0, w)

/-- The operation `get(id)` of kind `K` (image and font only), the returned
entry seen as a `StoreEntry`. -/
def get : Asset_Type → UUID → World → StoreEntry × World
  | ASSET_TEXTURES => fun i w => (((getTexture i w).1.1.handle, (getTexture i w).1.2), (getTexture i w).2)
  | ASSET_FONT => fun i w => (((getFont i w).1.1.handle, (getFont i w).1.2), (getFont i w).2)
  | _ => fun _ w => ((none, ""), w)

/-- The external load primitive of kind `K` invoked by `load(name, path)`. -/
def loadCall (K : Asset_Type) (name path : String) : ExtCall :=
  match K with
  | ASSET_AUDIO => ExtCall.LoadAudio name path
  | ASSET_FONT => ExtCall.LoadFont path
  | _ => ExtCall.LoadTexture path

/-- The external release of a handle of kind `K` (image and font only). -/
def releaseCall (K : Asset_Type) (released : Option String) : ExtCall :=
  match K with
  | ASSET_FONT => ExtCall.UnloadFont released
  | _ => ExtCall.UnloadTexture released

/-- The identifier the next call of `UUID::UUID()` yields. -/
def nextUUID (w : World) : UUID := w.s_Engine.draws w.s_Engine.pos % 2 ^ 64

/-- The warning `load(name, path)` of kind `K` logs for a path already loaded. -/
def duplicateWarning : Asset_Type → String → String
  | ASSET_AUDIO, name => name ++ "Audio has already been loaded"
  | ASSET_FONT, name => name ++ "Font has already been loaded"
  | _, name => name ++ " has already been loaded"

/-- The top-level key of a kind in the persisted document. -/
def sectionKey : Asset_Type → String
  | ASSET_TEXTURES => "textures"
  | ASSET_AUDIO => "audios"
  | ASSET_FONT => "fonts"
  | _ => ""

/-- The members of the object a document holds under the top-level key of kind
`K` (none when the key is missing or its value is not an object). -/
def sectionMembers (doc : JValue) (K : Asset_Type) : List (String × JValue) :=
  match (doc.member (sectionKey K)).bind JValue.members with
  | some ms => ms
  | none => []

/-- A document contains an editor-map entry of kind `K`: the object under the
key of `K` has the member `SerializeEditorMap` builds for the entry, keyed by
the display name and holding `{"UUID": id, "filepath": path}` (name and path as
the C strings handed to rapidjson). -/
def docContains (doc : JValue) (K : Asset_Type) (e : UUID × (String × String)) : Prop :=
  (c_str e.2.1, assetObj e.1 e.2) ∈ sectionMembers doc K

/-! ## The loops of `initAssetManager`, entry by entry

The definitions of this section name the parts of `initAssetManager`, so that
the statements about it can speak of one section and of one entry. -/

/-- The statements of the body of the textures loop that follow the reads. -/
def textureEntry (tex_name : String) (texUUID : UUID) (filepath : String) (w : World) : World :=
  let w := (w.setTexture texUUID (fun v => (v.1.LoadTexture filepath, v.2))).call
    (ExtCall.LoadTexture filepath)
  let w := w.setTexture texUUID (fun v => (v.1, tex_name))
  let w := w.setEditor ASSET_TEXTURES texUUID (fun v => (tex_name, v.2))
  w.setEditor ASSET_TEXTURES texUUID (fun v => (v.1, filepath))

/-- The statements of the body of the audios loop that follow the reads. -/
def audioEntry (audio_name : String) (audioUUID : UUID) (filepath : String) (w : World) :
    World :=
  let w := w.call (ExtCall.LoadAudio audio_name filepath)
  let w := w.setAudio audioUUID (fun _ => audio_name)
  let w := w.setEditor ASSET_AUDIO audioUUID (fun v => (audio_name, v.2))
  w.setEditor ASSET_AUDIO audioUUID (fun v => (v.1, filepath))

/-- The statements of the body of the fonts loop that follow the reads; the
editor map is written under `Asset_Type::ASSET_TEXTURES`, as in the source. -/
def fontEntry (font_name : String) (fontUUID : UUID) (filepath : String) (w : World) : World :=
  let w := (w.setFont fontUUID (fun v => (v.1.LoadFont filepath, v.2))).call
    (ExtCall.LoadFont filepath)
  let w := w.setFont fontUUID (fun v => (v.1, font_name))
  let w := w.setEditor ASSET_TEXTURES fontUUID (fun v => (font_name, v.2))
  w.setEditor ASSET_TEXTURES fontUUID (fun v => (v.1, filepath))

/-- The statements that follow the reads in the loop of the section of kind
`K`. -/
def entryOf : Asset_Type → String → UUID → String → World → World
  | ASSET_TEXTURES => textureEntry
  | ASSET_AUDIO => audioEntry
  | ASSET_FONT => fontEntry
  | _ => fun _ _ _ w => w

/-- The loop body of the section of kind `K`. -/
def sectionStep : Asset_Type → String → JValue → World → Except World World
  | ASSET_TEXTURES => initTexture
  | ASSET_AUDIO => initAudio
  | ASSET_FONT => initFont
  | _ => fun _ _ w => .ok w

/-- The message logged when the loop of the section of kind `K` has ended. -/
def sectionDone : Asset_Type → String
  | ASSET_TEXTURES => "Textures successfully deserialized."
  | ASSET_AUDIO => "Audios successfully initialized."
  | ASSET_FONT => "Fonts successfully deserialized."
  | _ => ""

/-- The block of `initAssetManager` for the section of kind `K`. -/
def initKind (K : Asset_Type) (doc : JValue) (w : World) : Except World World :=
  initSection (sectionKey K) (sectionStep K) (sectionDone K) doc w

/-- The part of `initAssetManager` that follows a successful parse: the three
blocks in the order textures, audios, fonts. -/
def initDocument (doc : JValue) (w : World) : Except World World :=
  match initKind ASSET_TEXTURES doc w with
  | .error e => .error e
  | .ok w =>
    match initKind ASSET_AUDIO doc w with
    | .error e => .error e
    | .ok w => initKind ASSET_FONT doc w

/-- The kind under which the loop of the section of kind `K` files its
editor-map entries: the fonts loop files them under the texture kind. -/
def editorKind : Asset_Type → Asset_Type
  | ASSET_FONT => ASSET_TEXTURES
  | K => K

/-- What the reads of a loop yield, for the members that pass the assertions:
the name as a `std::string`, the identifier and the file path. -/
def parsedEntries (ms : List (String × JValue)) : List (String × UUID × String) :=
  ms.filterMap (fun e => (readEntry e.2).map (fun r => (c_str e.1, r.1, r.2)))

/-- The statements after the reads, run for a list of entries of kind `K`. -/
def populate (K : Asset_Type) (es : List (String × UUID × String)) (w : World) : World :=
  es.foldl (fun w e => entryOf K e.1 e.2.1 e.2.2 w) w

/-- The entries of the section of kind `K` of a document, as read. -/
def sectionEntries (doc : JValue) (K : Asset_Type) : List (String × UUID × String) :=
  parsedEntries (sectionMembers doc K)

/-- Every member of a list passes the assertions of the reads. -/
def entriesOk (ms : List (String × JValue)) : Bool :=
  ms.all (fun e => (readEntry e.2).isSome)

/-- The section of kind `K` is absent, or it is an object all of whose members
pass the assertions of the reads. -/
def wellFormedSection (doc : JValue) (K : Asset_Type) : Bool :=
  match doc.member (sectionKey K) with
  | none => true
  | some v =>
    match v.members with
    | none => false
    | some ms => entriesOk ms

/-- The document is an object and its three sections are well-formed. -/
def wellFormed (doc : JValue) : Bool :=
  doc.members.isSome && wellFormedSection doc ASSET_TEXTURES &&
    wellFormedSection doc ASSET_AUDIO && wellFormedSection doc ASSET_FONT

/-- The state after the sections that come before the section of kind `K`
were read. -/
def populatedBefore (K : Asset_Type) (doc : JValue) (w : World) : World :=
  match K with
  | ASSET_AUDIO => populate ASSET_TEXTURES (sectionEntries doc ASSET_TEXTURES) w
  | ASSET_FONT =>
    populate ASSET_AUDIO (sectionEntries doc ASSET_AUDIO)
      (populate ASSET_TEXTURES (sectionEntries doc ASSET_TEXTURES) w)
  | _ => w

/-- The sections that come before the section of kind `K` are well-formed. -/
def wellFormedBefore (K : Asset_Type) (doc : JValue) : Bool :=
  match K with
  | ASSET_AUDIO => wellFormedSection doc ASSET_TEXTURES
  | ASSET_FONT => wellFormedSection doc ASSET_TEXTURES && wellFormedSection doc ASSET_AUDIO
  | _ => true

/-- The state after the three sections were read. -/
def populated (doc : JValue) (w : World) : World :=
  populate ASSET_FONT (sectionEntries doc ASSET_FONT) (populatedBefore ASSET_FONT doc w)

/-- The value `{"UUID": u, "filepath": p}` of a persisted entry. -/
def entryValue (u : UUID) (p : String) : JValue :=
  .obj [("UUID", .number (u : Nat)), ("filepath", .str p)]

/-- The document `{"textures": {name_j: {"UUID": u_j, "filepath": p_j}, ...}}`
whose only section is `"textures"`. -/
def texturesDocument (entries : List (String × UUID × String)) : JValue :=
  .obj [("textures", .obj (entries.map (fun e => (e.1, entryValue e.2.1 e.2.2))))]

/-- The state `initAssetManager` ends in. -/
def initialized (w : World) : World := finalState (initAssetManager w)

/-- The same state with another log. -/
def World.withLog (w : World) (l : List String) : World := { w with log := l }

/-- The statements `m[k] = v` for a list of pairs, in order. -/
def UMap.assignAll {K V : Type} [DecidableEq K] [Inhabited V] (m : UMap K V)
    (kvs : List (K × V)) : UMap K V :=
  kvs.foldl (fun m kv => UMap.update m kv.1 (fun _ => kv.2)) m

/-- The store entries the loop of kind `K` assigns for a list of entries. -/
def storeAssignments (K : Asset_Type) (es : List (String × UUID × String)) :
    List (UUID × StoreEntry) :=
  es.map (fun e => (e.2.1, (loadedHandle K e.2.2, e.1)))

/-- The editor-map entries a loop assigns for a list of entries. -/
def editorAssignments (es : List (String × UUID × String)) :
    List (UUID × (String × String)) :=
  es.map (fun e => (e.2.1, (e.1, e.2.2)))

/-- A string without NUL character: the `const char*` view keeps all of it. -/
def NulFree (s : String) : Prop := c_str s = s

instance (s : String) : Decidable (NulFree s) := by
  unfold NulFree; exact inferInstance

/-! ## File names: `determineFileType` and `extractFilenameWithPath` -/

/-- The call `s.find_last_of(c)`: the position of the last occurrence of `c`;
`none` stands for `std::string::npos`. -/
def find_last_of : List Char → Char → Option Nat
  | [], _ => none
  | x :: xs, c =>
    match find_last_of xs c with
    | some i => some (i + 1)
    | none => if x = c then some 0 else none

/-- The call `s.substr(pos, count)`: the characters from `pos` on, at most
`count` of them; `none` when `pos > s.size()` (`std::out_of_range`). -/
def substr (s : List Char) (pos count : Nat) : Option (List Char) :=
  if pos ≤ s.length then some ((s.drop pos).take count) else none

/-- The call `s.substr(pos)`: the characters from `pos` to the end (`count`
defaults to `npos`, which is larger than every length); `none` when
`pos > s.size()`. -/
def substrFrom (s : List Char) (pos : Nat) : Option (List Char) :=
  if pos ≤ s.length then some (s.drop pos) else none

/-- The value of an expression of type `size_t`: arithmetic is modulo `2 ^ 64`. -/
def size_t (z : Int) : Nat := (z % 2 ^ 64).toNat

/-- The function `AssetManager::determineFileType`. The lambda handed to
`std::transform` is `std::tolower` on each character. -/
def determineFileType (filePath : String) : Option Asset_Type :=
  match find_last_of filePath.data '.' with
  | some lastDotPos =>
    match substrFrom filePath.data lastDotPos with
    | none => none
    | some extension =>
      let extension := String.mk (extension.map Char.toLower)
      if extension = ".png" then some ASSET_TEXTURES
      else if extension = ".wav" ∨ extension = ".ogg" then some ASSET_AUDIO
      else if extension = ".ttf" then some ASSET_FONT
      else some UNKNOWN_ASSET_TYPE
  | none => some UNKNOWN_ASSET_TYPE

/-- The function `AssetManager::extractFilenameWithPath`. -/
def extractFilenameWithPath (filePath : String) : Option String :=
  let lastSlashPos : Nat :=
    match find_last_of filePath.data '/' with
    | some pos => pos
    | none => size_t (-1)
  let lastDotPos : Nat :=
    match find_last_of filePath.data '.' with
    | some pos => pos
    | none => filePath.length
  (substr filePath.data (size_t ((lastSlashPos : Int) + 1))
    (size_t ((lastDotPos : Int) - lastSlashPos - 1))).map String.mk

/-- Two characters that are equal, or the upper-case and the lower-case form of
one ASCII letter. -/
def sameLetter (a b : Char) : Prop :=
  a = b ∨ (a.isUpper = true ∧ b = a.toLower) ∨ (b.isUpper = true ∧ a = b.toLower)

instance (a b : Char) : Decidable (sameLetter a b) := by
  unfold sameLetter; exact inferInstance

/-- Two strings that differ only in the case of ASCII letters. -/
def DifferOnlyInCase (s s' : String) : Prop := List.Forall₂ sameLetter s.data s'.data

instance (s s' : String) : Decidable (DifferOnlyInCase s s') := by
  unfold DifferOnlyInCase; exact inferInstance

/-! ## Teardown: `unloadAssetManager` -/

/-- One of the three range-based `for` loops of `unloadAssetManager` over
`m_EditorMap[K]`, given the elements still to visit. The body calls the
`unload` of the kind, which erases the element the loop stands on: the node is
destroyed, so the read of `assetPair.first` and the increment of the iterator
that follow are undefined, and the call ends there in the state reached. -/
def unloadLoop (K : Asset_Type) (suffix : String) :
    List (UUID × (String × String)) → World → Except World World
  | [], w => .ok w
  | (uuid, assetPair) :: rest, w =>
    let w := unload K uuid w
    if UMap.contains (w.editor K) uuid then
      unloadLoop K suffix rest (w.ANALYTICS (assetPair.1 ++ suffix))
    else .error w

/-- The function `AssetManager::unloadAssetManager`. -/
def unloadAssetManager (w : World) : Except World World :=
  let w := w.touchEditor ASSET_TEXTURES
  match unloadLoop ASSET_TEXTURES "Texture Unloaded." (w.editor ASSET_TEXTURES) w with
  | .error e => .error e
  | .ok w =>
    let w := w.touchEditor ASSET_AUDIO
    match unloadLoop ASSET_AUDIO "Audio Unloaded." (w.editor ASSET_AUDIO) w with
    | .error e => .error e
    | .ok w =>
      let w := w.touchEditor ASSET_FONT
      match unloadLoop ASSET_FONT "Font Unloaded." (w.editor ASSET_FONT) w with
      | .error e => .error e
      | .ok w =>
        .ok { w with am := { w.am with
          m_textureMap := [], m_audioMap := [], m_fontMap := [], m_EditorMap := [] } }

/-- A fresh registry that finds, as its asset file, what `SerializeEditorMap`
wrote for the editor map `r` from the state `w`. -/
def freshOver (r : UMap Asset_Type EditorEntries) (w : World) (eng : Engine) : World :=
  World.fresh eng (SerializeEditorMap r w).files

/-! ## Sequences of registry operations -/

instance : Fintype Asset_Type :=
  Fintype.ofList
    [ASSET_TEXTURES, ASSET_AUDIO, ASSET_FONT, MAX_ASSET_TYPE, UNKNOWN_ASSET_TYPE]
    (by intro x; cases x <;> simp)

/-- A registry operation. The operation `init doc` is `initAssetManager` run
when the asset file holds the document `doc`. -/
inductive Op where
  | init (doc : JValue)
  | load (K : Asset_Type) (name path : String)
  | unload (K : Asset_Type) (id : UUID)
  | modify (K : Asset_Type) (id : UUID) (path : String)

/-- The state in which the asset file holds the document `doc`. -/
def World.withAssetFile (w : World) (doc : JValue) : World :=
  { w with files := UMap.update w.files w.am.m_assetFilepath (fun _ => some doc) }

/-- The state an operation ends in. -/
def Op.run : Op → World → World
  | .init doc, w => initialized (w.withAssetFile doc)
  | .load K name path, w => SOL.load K name path w
  | .unload K id, w => SOL.unload K id w
  | .modify K id path, w => SOL.modify K id path w

/-- The state a sequence of operations ends in. -/
def runOps (ops : List Op) (w : World) : World := ops.foldl (fun w op => op.run w) w

/-- No two live assets share an identifier: no store has an identifier twice,
and no identifier is a key of the stores of two kinds. -/
def DistinctIdentifiers (w : World) : Prop :=
  (∀ K : Asset_Type, UMap.WF (w.store K)) ∧
  ∀ (K K' : Asset_Type) (i : UUID), K ≠ K' →
    UMap.contains (w.store K) i = true → UMap.contains (w.store K') i = false

/-- The operation meets no identifier that is already the key of an asset: the
identifier a `load` draws is a key of no store; the identifier handed to
`unload` or `modify` is not a key of the store of another kind; the document
read by `init` passes the reads, and an identifier of one of its sections is
neither in another section nor a key of the store of another kind. -/
def Op.collisionFree : Op → World → Prop
  | .init doc, w =>
    wellFormed doc = true ∧
    ∀ K K' : Asset_Type, K.IsKind → K'.IsKind → K ≠ K' → ∀ e ∈ sectionEntries doc K,
      UMap.contains (w.store K') e.2.1 = false ∧ ∀ e' ∈ sectionEntries doc K', e'.2.1 ≠ e.2.1
  | .load _ _ _, w => ∀ K' : Asset_Type, UMap.contains (w.store K') (nextUUID w) = false
  | .unload K id, w => ∀ K' : Asset_Type, K' ≠ K → UMap.contains (w.store K') id = false
  | .modify K id _, w => ∀ K' : Asset_Type, K' ≠ K → UMap.contains (w.store K') id = false

instance (op : Op) (w : World) : Decidable (op.collisionFree w) := by
  cases op <;> unfold Op.collisionFree <;> exact inferInstance

/-- Every operation of the sequence, run in turn from `w`, is collision-free. -/
def CollisionFree : List Op → World → Prop
  | [], _ => True
  | op :: ops, w => op.collisionFree w ∧ CollisionFree ops (op.run w)

/-! ## rapidjson getters used by the component deserializers -/

namespace JValue

/-- The test `IsArray()`. -/
def IsArray : JValue → Bool
  | arr _ => true
  | _ => false

/-- The test `IsNumber()`. -/
def IsNumber : JValue → Bool
  | number _ => true
  | real _ => true
  | _ => false

/-- The getter `GetInt()`; asserts `IsInt()`: an integer that fits `int`. -/
def GetInt : JValue → Option Int
  | number n => if -(2 ^ 31 : Int) ≤ n ∧ n < 2 ^ 31 then some n else none
  | _ => none

/-- The getter `GetUint()`; asserts `IsUint()`: an integer that fits `unsigned`. -/
def GetUint : JValue → Option Nat
  | number n => if 0 ≤ n ∧ n < 2 ^ 32 then some n.toNat else none
  | _ => none

/-- The getter `GetFloat()`; asserts `IsNumber()`. The value is the number
itself: the rounding of the conversion to `float` is left out. -/
def GetFloat : JValue → Option ℚ
  | number n => some (n : ℚ)
  | real q => some q
  | _ => none

/-- The getter `GetBool()`; asserts `IsBool()`. -/
def GetBool : JValue → Option Bool
  | bool b => some b
  | _ => none

/-- The getter `GetArray()`; asserts `IsArray()`. An element is then read with
`operator[](i)`, which asserts `i < Size()`: the list access `xs[i]?`. -/
def GetArray : JValue → Option (List JValue)
  | arr xs => some xs
  | _ => none

/-- The getter `GetObj()` followed by `MemberBegin()` and the reads of the
iterator: the first member of an object. Asserts `IsObject()`; on an object
without member the iterator is the end iterator, whose reads are undefined. -/
def firstMember : JValue → Option (String × JValue)
  | obj (m :: _) => some m
  | _ => none

end JValue

/-! ## Components

The component records are declared outside the sources at hand; each is
modelled with the fields that `Serializer.cpp` reads and writes. A `float`
carries its mathematical value. -/

/-- Modelled from the spec: the two-dimensional vector of the engine. -/
structure Vec2 where
  x : ℚ := 0
  y : ℚ := 0
deriving DecidableEq

/-- Modelled from the spec: the three-dimensional vector of the engine. -/
structure Vec3 where
  x : ℚ := 0
  y : ℚ := 0
  z : ℚ := 0
deriving DecidableEq

/-- Modelled from the spec: the record `TransformComponent`. -/
structure TransformComponent where
  m_EntityIdentity : Int := 0
  m_Transform : Vec2 := {}
  m_TransformZ : ℚ := 0
  m_Scale : Vec2 := {}
  m_Rotation : ℚ := 0
deriving DecidableEq

/-- Modelled from the spec: the record `MovementComponent`. -/
structure MovementComponent where
  m_EntityIdentity : Int := 0
  m_Direction : Vec2 := {}
  m_Speed : ℚ := 0
deriving DecidableEq

/-- Modelled from the spec: the record `PrimitiveComponent`. -/
structure PrimitiveComponent where
  m_EntityIdentity : Int := 0
  m_PrimitiveID : Int := 0
  m_Offset : ℚ := 0
  m_Color : Vec3 := {}
  m_Alpha : ℚ := 0
deriving DecidableEq

/-- Modelled from the spec: the record `SpriteComponent`. -/
structure SpriteComponent where
  m_EntityIdentity : Int := 0
  m_TexKey : String := ""
  UUID : Nat := 0
  m_SpriteWidth : ℚ := 0
  m_SpriteHeight : ℚ := 0
  m_Alpha : ℚ := 0
  m_Color : Vec3 := {}
deriving DecidableEq

/-- Modelled from the spec: the record `NameComponent`. -/
structure NameComponent where
  m_EntityIdentity : Int := 0
  m_name : String := ""
deriving DecidableEq

/-- Modelled from the spec: the record `PlayerComponent`. -/
structure PlayerComponent where
  m_EntityIdentity : Int := 0
  transformAmount : Int := 0
  moveSpeed : Int := 0
deriving DecidableEq

/-- Modelled from the spec: the rigid body `m_body` of a
`RigidBody2DComponent`, with the fields `Serializer.cpp` reads and writes. -/
structure Body where
  position : Vec2 := {}
  width : Vec2 := {}
  mass : ℚ := 0
  bodytype : Int := 0
  friction : ℚ := 0
deriving DecidableEq

/-- Modelled from the spec: the record `RigidBody2DComponent`. -/
structure RigidBody2DComponent where
  m_EntityIdentity : Int := 0
  m_body : Body := {}
  m_offset : Int := 0
deriving DecidableEq

/-- Modelled from the spec: the record `CameraComponent`. The serializer reads
`m_IsActive`, the deserializer writes `m_Active`: the record has both. -/
structure CameraComponent where
  m_EntityIdentity : Int := 0
  m_IsActive : Bool := false
  m_Active : Bool := false
  m_SmoothDampActive : Bool := false
  m_FOV : ℚ := 0
  m_PerspectiveNear : ℚ := 0
  m_PerspectiveFar : ℚ := 0
  m_OrthoFar : ℚ := 0
  m_OrthoNear : ℚ := 0
  m_OrthoSize : ℚ := 0
  m_CameraDistance : ℚ := 0
  velocity : Vec2 := {}
deriving DecidableEq

/-- Modelled from the spec: the record `FontComponent`. -/
structure FontComponent where
  m_EntityIdentity : Int := 0
  UUID : Nat := 0
  text : String := ""
  color : Vec3 := {}
deriving DecidableEq

/-- Modelled from the spec: the record `AnimationComponent`. -/
structure AnimationComponent where
  m_EntityIdentity : Int := 0
  m_MaxFrame : Int := 0
  m_CurrentFrameIndex : Int := 0
  m_StartingAnimationIndex : Int := 0
  m_Interval : ℚ := 0
deriving DecidableEq

/-- Modelled from the spec: the record `GemComponent`. -/
structure GemComponent where
  m_EntityIdentity : Int := 0
deriving DecidableEq

/-- Modelled from the spec: the record `UIComponent`. -/
structure UIComponent where
  m_EntityIdentity : Int := 0
deriving DecidableEq

/-- Modelled from the spec: the record `AudioComponent::AudioControl`. -/
structure AudioControl where
  UUID : Nat := 0
  m_AudioKey : String := ""
  m_IsLooping : Bool := false
  m_Volume : ℚ := 0
deriving DecidableEq

/-- Modelled from the spec: the record `AudioComponent`. -/
structure AudioComponent where
  m_EntityIdentity : Int := 0
  m_AudioControlMap : UMap String AudioControl := []
deriving DecidableEq

/-- Modelled from the spec: the record `EnemyComponent`. -/
structure EnemyComponent where
  m_EntityIdentity : Int := 0
  m_maxDelta : Vec2 := {}
deriving DecidableEq

/-- Modelled from the spec: the record `TileComponent`; the enumeration
`TileType` carries its numeric value. -/
structure TileComponent where
  m_EntityIdentity : Int := 0
  m_TileType : Nat := 0
deriving DecidableEq

/-- Modelled from the spec: the record `CPPScriptComponent`; `m_Scripts` maps
the numeric value of a `CPPScript_Type` to a script pointer, `none` for
`nullptr`. -/
structure CPPScriptComponent where
  m_EntityIdentity : Int := 0
  m_Scripts : UMap Nat (Option Nat) := []
deriving DecidableEq

/-! ## The component deserializers of `Serializer.cpp`

A deserializer is a sequence of statements that write the record. What each
statement reads comes from the reader alone, so the sequence is laid out for a
given reader: `some f` is a statement whose reads succeed and that changes the
record by `f`; `none` is a statement one of whose reads fails a rapidjson
assertion. -/

/-- The statements of a deserializer for a given reader, in program order. -/
abbrev Statements (T : Type) := List (Option (T → T))

/-- Run the statements: the record after the last one, or, when a statement
fails an assertion, the record reached before it. -/
def runStatements {T : Type} : Statements T → T → Except T T
  | [], c => .ok c
  | none :: _, c => .error c
  | some f :: rest, c => runStatements rest (f c)

/-- The block `if (reader.HasMember(key)) { ... reader[key] ... }`; `HasMember`
asserts `IsObject()`. -/
def ifMember {T : Type} (reader : JValue) (key : String) (body : JValue → Statements T) :
    Statements T :=
  match reader.HasMember key with
  | none => [none]
  | some false => []
  | some true =>
    match reader.member key with
    | none => [none]
    | some v => body v

/-- The block `if (reader.HasMember(key) && reader[key].IsArray())
{ const auto& array = reader[key].GetArray(); ... }`. -/
def ifArrayMember {T : Type} (reader : JValue) (key : String)
    (body : List JValue → Statements T) : Statements T :=
  ifMember reader key (fun v =>
    match v with
    | .arr xs => body xs
    | _ => [])

/-- The block `if (reader.HasMember(key)) { const auto& array =
reader[key].GetArray(); ... }`; `GetArray` asserts `IsArray()`. -/
def ifMemberArray {T : Type} (reader : JValue) (key : String)
    (body : List JValue → Statements T) : Statements T :=
  ifMember reader key (fun v =>
    match v.GetArray with
    | some xs => body xs
    | none => [none])

/-- The read `array[i].GetFloat()`. -/
def floatAt (array : List JValue) (i : Nat) : Option ℚ := array[i]?.bind JValue.GetFloat

/-- The conversion `(int) f` of a `float`: truncation toward zero, undefined
when the result does not fit `int`. -/
def toInt (f : ℚ) : Option Int :=
  let t : Int := if 0 ≤ f then Rat.floor f else Rat.ceil f
  if -(2 ^ 31 : Int) ≤ t ∧ t < 2 ^ 31 then some t else none

/-- The state a call ended in, whether it returned or failed an assertion. -/
def Except.reached {T : Type} : Except T T → T
  | .ok c => c
  | .error c => c

/-- Apply a function to the state a call ended in. -/
def Except.both {T U : Type} (f : T → U) : Except T T → Except U U
  | .ok c => .ok (f c)
  | .error c => .error (f c)

/-- The statements of `DeserializeTransformComponent`. -/
def transformStatements (reader : JValue) : Statements TransformComponent :=
  ifMember reader "Identity" (fun v =>
    [v.GetInt.map (fun i c => { c with m_EntityIdentity := i })]) ++
  ifArrayMember reader "Transform" (fun array =>
    [(floatAt array 0).map (fun a c => { c with m_Transform := { c.m_Transform with x := a } }),
     (floatAt array 1).map (fun a c => { c with m_Transform := { c.m_Transform with y := a } }),
     (floatAt array 2).map (fun a c => { c with m_TransformZ := a })]) ++
  ifArrayMember reader "Scale" (fun array =>
    [(floatAt array 0).map (fun a c => { c with m_Scale := { c.m_Scale with x := a } }),
     (floatAt array 1).map (fun a c => { c with m_Scale := { c.m_Scale with y := a } })]) ++
  ifMember reader "Rotation" (fun v =>
    if v.IsNumber then [v.GetFloat.map (fun a c => { c with m_Rotation := a })] else [])

/-- The function `Serializer::DeserializeTransformComponent`. -/
def DeserializeTransformComponent (reader : JValue) (component : TransformComponent) :
    Except TransformComponent TransformComponent :=
  runStatements (transformStatements reader) component

/-- The statements of `DeserializeMovementComponent`. -/
def movementStatements (reader : JValue) : Statements MovementComponent :=
  ifMember reader "Identity" (fun v =>
    [v.GetInt.map (fun i c => { c with m_EntityIdentity := i })]) ++
  ifArrayMember reader "Direction" (fun array =>
    [(floatAt array 0).map (fun a c => { c with m_Direction := { c.m_Direction with x := a } }),
     (floatAt array 1).map (fun a c => { c with m_Direction := { c.m_Direction with y := a } })]) ++
  ifMember reader "Speed" (fun v =>
    if v.IsNumber then [v.GetFloat.map (fun a c => { c with m_Speed := a })] else [])

/-- The function `Serializer::DeserializeMovementComponent`. -/
def DeserializeMovementComponent (reader : JValue) (component : MovementComponent) :
    Except MovementComponent MovementComponent :=
  runStatements (movementStatements reader) component

/-- The statements of `DeserializePrimitiveComponent`. -/
def primitiveStatements (reader : JValue) : Statements PrimitiveComponent :=
  ifMember reader "Identity" (fun v =>
    [v.GetInt.map (fun i c => { c with m_EntityIdentity := i })]) ++
  ifMember reader "PrimitiveID" (fun v =>
    [v.GetInt.map (fun i c => { c with m_PrimitiveID := i })]) ++
  ifMember reader "Offset" (fun v =>
    [v.GetFloat.map (fun a c => { c with m_Offset := a })]) ++
  ifArrayMember reader "Color" (fun colorArray =>
    if colorArray.length = 3 then
      [(floatAt colorArray 0).map (fun a c => { c with m_Color := { c.m_Color with x := a } }),
       (floatAt colorArray 1).map (fun a c => { c with m_Color := { c.m_Color with y := a } }),
       (floatAt colorArray 2).map (fun a c => { c with m_Color := { c.m_Color with z := a } })]
    else []) ++
  ifMember reader "Alpha" (fun v =>
    [v.GetFloat.map (fun a c => { c with m_Alpha := a })])

/-- The function `Serializer::DeserializePrimitiveComponent`. -/
def DeserializePrimitiveComponent (reader : JValue) (component : PrimitiveComponent) :
    Except PrimitiveComponent PrimitiveComponent :=
  runStatements (primitiveStatements reader) component

/-- The statements of `DeserializeSpriteComponent`. -/
def spriteStatements (reader : JValue) : Statements SpriteComponent :=
  ifMember reader "Identity" (fun v =>
    [v.GetInt.map (fun i c => { c with m_EntityIdentity := i })]) ++
  ifMember reader "TexKey" (fun v =>
    [v.GetString.map (fun s c => { c with m_TexKey := c_str s })]) ++
  ifMember reader "UUID" (fun v =>
    [v.GetUint64.map (fun u c => { c with UUID := u })]) ++
  ifMember reader "Width" (fun v =>
    [v.GetFloat.map (fun a c => { c with m_SpriteWidth := a })]) ++
  ifMember reader "Height" (fun v =>
    [v.GetFloat.map (fun a c => { c with m_SpriteHeight := a })]) ++
  ifMember reader "Alpha" (fun v =>
    [v.GetFloat.map (fun a c => { c with m_Alpha := a })]) ++
  ifArrayMember reader "Color" (fun colorArray =>
    if colorArray.length = 3 then
      [(floatAt colorArray 0).map (fun a c => { c with m_Color := { c.m_Color with x := a } }),
       (floatAt colorArray 1).map (fun a c => { c with m_Color := { c.m_Color with y := a } }),
       (floatAt colorArray 2).map (fun a c => { c with m_Color := { c.m_Color with z := a } })]
    else [])

/-- The function `Serializer::DeserializeSpriteComponent`. -/
def DeserializeSpriteComponent (reader : JValue) (component : SpriteComponent) :
    Except SpriteComponent SpriteComponent :=
  runStatements (spriteStatements reader) component

/-- The statements of `DeserializeNameComponent`. -/
def nameStatements (reader : JValue) : Statements NameComponent :=
  ifMember reader "Identity" (fun v =>
    [v.GetInt.map (fun i c => { c with m_EntityIdentity := i })]) ++
  ifMember reader "Name" (fun v =>
    [v.GetString.map (fun s c => { c with m_name := c_str s })])

/-- The function `Serializer::DeserializeNameComponent`. -/
def DeserializeNameComponent (reader : JValue) (component : NameComponent) :
    Except NameComponent NameComponent :=
  runStatements (nameStatements reader) component

/-- The statements of `DeserializePlayerComponent`. -/
def playerStatements (reader : JValue) : Statements PlayerComponent :=
  ifMember reader "Identity" (fun v =>
    [v.GetInt.map (fun i c => { c with m_EntityIdentity := i })]) ++
  ifMember reader "TransformAmount" (fun v =>
    [v.GetInt.map (fun i c => { c with transformAmount := i })]) ++
  ifMember reader "MoveSpeed" (fun v =>
    [v.GetInt.map (fun i c => { c with moveSpeed := i })])

/-- The function `Serializer::DeserializePlayerComponent`. -/
def DeserializePlayerComponent (reader : JValue) (component : PlayerComponent) :
    Except PlayerComponent PlayerComponent :=
  runStatements (playerStatements reader) component

/-- The local variables `Scale`, `Mass` and `body_type` of
`DeserializeRigidBody2DComponent`, value-initialised. -/
structure RigidLocals where
  Scale : Vec2 := {}
  Mass : ℚ := 0
  body_type : Int := 0

/-- The statements of `DeserializeRigidBody2DComponent`, on the record and the
local variables. The member function `Body::Set(scale, mass, type)` is declared
outside the sources at hand: it is the parameter `BodySet`. -/
def rigidBodyStatements (BodySet : Body → Vec2 → ℚ → Int → Body) (reader : JValue) :
    Statements (RigidBody2DComponent × RigidLocals) :=
  ifMember reader "Identity" (fun v =>
    [v.GetInt.map (fun i s => ({ s.1 with m_EntityIdentity := i }, s.2))]) ++
  ifArrayMember reader "Position" (fun Pos =>
    [(floatAt Pos 0).map (fun a s =>
        ({ s.1 with m_body := { s.1.m_body with
            position := { s.1.m_body.position with x := a } } }, s.2)),
     (floatAt Pos 1).map (fun a s =>
        ({ s.1 with m_body := { s.1.m_body with
            position := { s.1.m_body.position with y := a } } }, s.2))]) ++
  ifArrayMember reader "Width" (fun Width =>
    [(floatAt Width 0).map (fun a s => (s.1, { s.2 with Scale := { s.2.Scale with x := a } })),
     (floatAt Width 1).map (fun a s => (s.1, { s.2 with Scale := { s.2.Scale with y := a } }))]) ++
  ifMember reader "Mass" (fun v =>
    [v.GetFloat.map (fun a s => (s.1, { s.2 with Mass := a }))]) ++
  ifMember reader "BodyType" (fun v =>
    [v.GetInt.map (fun i s => (s.1, { s.2 with body_type := i }))]) ++
  [some (fun s =>
    ({ s.1 with m_body := BodySet s.1.m_body s.2.Scale s.2.Mass s.2.body_type }, s.2))] ++
  ifMember reader "Offset" (fun v =>
    [(v.GetFloat.bind toInt).map (fun i s => ({ s.1 with m_offset := i }, s.2))]) ++
  ifMember reader "Friction" (fun v =>
    [v.GetFloat.map (fun a s =>
        ({ s.1 with m_body := { s.1.m_body with friction := a } }, s.2))])

/-- The function `Serializer::DeserializeRigidBody2DComponent`. -/
def DeserializeRigidBody2DComponent (BodySet : Body → Vec2 → ℚ → Int → Body)
    (reader : JValue) (component : RigidBody2DComponent) :
    Except RigidBody2DComponent RigidBody2DComponent :=
  Except.both Prod.fst (runStatements (rigidBodyStatements BodySet reader) (component, {}))

/-- The statements of `DeserializeCameraComponent`. The field of view is read
from the key `m_FOV`, twice; the velocity is read with the array elements
exchanged, as in the source. -/
def cameraStatements (reader : JValue) : Statements CameraComponent :=
  ifMember reader "Identity" (fun v =>
    [v.GetInt.map (fun i c => { c with m_EntityIdentity := i })]) ++
  ifMember reader "m_Active" (fun v =>
    [v.GetBool.map (fun b c => { c with m_Active := b })]) ++
  ifMember reader "m_SmoothDampActive" (fun v =>
    [v.GetBool.map (fun b c => { c with m_SmoothDampActive := b })]) ++
  ifMember reader "m_FOV" (fun v =>
    [v.GetFloat.map (fun a c => { c with m_FOV := a })]) ++
  ifMember reader "m_FOV" (fun v =>
    [v.GetFloat.map (fun a c => { c with m_FOV := a })]) ++
  ifMember reader "m_PerspectiveNear" (fun v =>
    [v.GetFloat.map (fun a c => { c with m_PerspectiveNear := a })]) ++
  ifMember reader "m_PerspectiveFar" (fun v =>
    [v.GetFloat.map (fun a c => { c with m_PerspectiveFar := a })]) ++
  ifMember reader "m_OrthoFar" (fun v =>
    [v.GetFloat.map (fun a c => { c with m_OrthoFar := a })]) ++
  ifMember reader "m_OrthoNear" (fun v =>
    [v.GetFloat.map (fun a c => { c with m_OrthoNear := a })]) ++
  ifMember reader "m_OrthoSize" (fun v =>
    [v.GetFloat.map (fun a c => { c with m_OrthoSize := a })]) ++
  ifMember reader "m_CameraDistance" (fun v =>
    [v.GetFloat.map (fun a c => { c with m_CameraDistance := a })]) ++
  ifArrayMember reader "velocity" (fun velocity =>
    [(floatAt velocity 1).map (fun a c => { c with velocity := { c.velocity with x := a } }),
     (floatAt velocity 0).map (fun a c => { c with velocity := { c.velocity with y := a } })])

/-- The function `Serializer::DeserializeCameraComponent`. -/
def DeserializeCameraComponent (reader : JValue) (component : CameraComponent) :
    Except CameraComponent CameraComponent :=
  runStatements (cameraStatements reader) component

/-- The statements of `DeserializeFontComponent`. -/
def fontStatements (reader : JValue) : Statements FontComponent :=
  ifMember reader "Identity" (fun v =>
    [v.GetInt.map (fun i c => { c with m_EntityIdentity := i })]) ++
  ifMember reader "UUID" (fun v =>
    [v.GetUint64.map (fun u c => { c with UUID := u })]) ++
  ifMember reader "Text" (fun v =>
    [v.GetString.map (fun s c => { c with text := c_str s })]) ++
  ifMemberArray reader "Color" (fun col =>
    [(floatAt col 0).map (fun a c => { c with color := { c.color with x := a } }),
     (floatAt col 1).map (fun a c => { c with color := { c.color with y := a } }),
     (floatAt col 2).map (fun a c => { c with color := { c.color with z := a } })])

/-- The function `Serializer::DeserializeFontComponent`. -/
def DeserializeFontComponent (reader : JValue) (component : FontComponent) :
    Except FontComponent FontComponent :=
  runStatements (fontStatements reader) component

/-- The statements of `DeserializeAnimationComponent`. -/
def animationStatements (reader : JValue) : Statements AnimationComponent :=
  ifMember reader "Identity" (fun v =>
    [v.GetInt.map (fun i c => { c with m_EntityIdentity := i })]) ++
  ifMember reader "MaxFrame" (fun v =>
    [v.GetInt.map (fun i c => { c with m_MaxFrame := i })]) ++
  ifMember reader "CurrentFrameIndex" (fun v =>
    [v.GetInt.map (fun i c => { c with m_CurrentFrameIndex := i })]) ++
  ifMember reader "StartingAnimIndex" (fun v =>
    [v.GetInt.map (fun i c => { c with m_StartingAnimationIndex := i })]) ++
  ifMember reader "Interval" (fun v =>
    [v.GetFloat.map (fun a c => { c with m_Interval := a })])

/-- The function `Serializer::DeserializeAnimationComponent`. -/
def DeserializeAnimationComponent (reader : JValue) (component : AnimationComponent) :
    Except AnimationComponent AnimationComponent :=
  runStatements (animationStatements reader) component

/-- The statements of `DeserializeGemComponent`. -/
def gemStatements (reader : JValue) : Statements GemComponent :=
  ifMember reader "Identity" (fun v =>
    [v.GetInt.map (fun i c => { c with m_EntityIdentity := i })])

/-- The function `Serializer::DeserializeGemComponent`. -/
def DeserializeGemComponent (reader : JValue) (component : GemComponent) :
    Except GemComponent GemComponent :=
  runStatements (gemStatements reader) component

/-- The statements of `DeserializeUIComponent`. -/
def uiStatements (reader : JValue) : Statements UIComponent :=
  ifMember reader "Identity" (fun v =>
    [v.GetInt.map (fun i c => { c with m_EntityIdentity := i })])

/-- The function `Serializer::DeserializeUIComponent`. -/
def DeserializeUIComponent (reader : JValue) (component : UIComponent) :
    Except UIComponent UIComponent :=
  runStatements (uiStatements reader) component

/-- The statements that fill the local `buffer` of the loop of
`DeserializeAudioComponent` from the value of the first member of an element. -/
def audioControlStatements (value : JValue) : Statements AudioControl :=
  ifMember value "UUID" (fun v =>
    [v.GetUint64.map (fun u b => { b with UUID := u })]) ++
  ifMember value "AudioKey" (fun v =>
    [v.GetString.map (fun s b => { b with m_AudioKey := c_str s })]) ++
  ifMember value "Loop" (fun v =>
    [v.GetBool.map (fun l b => { b with m_IsLooping := l })]) ++
  ifMember value "Volume" (fun v =>
    [v.GetFloat.map (fun a b => { b with m_Volume := a })])

/-- The call `m.emplace(k, v)`: an entry is inserted only when `k` is not a key. -/
def UMap.emplace {K V : Type} [DecidableEq K] (m : UMap K V) (k : K) (v : V) : UMap K V :=
  if UMap.contains m k then m else m ++ [(k, v)]

/-- One iteration of the loop of `DeserializeAudioComponent`: the element is
read as an object, its first member gives the name and the control, and the
pair is emplaced into `m_AudioControlMap`. -/
def audioControlStatement (element : JValue) : Option (AudioComponent → AudioComponent) :=
  match element.firstMember with
  | none => none
  | some (name, value) =>
    match runStatements (audioControlStatements value) {} with
    | .error _ => none
    | .ok buffer =>
      some (fun c => { c with
        m_AudioControlMap := UMap.emplace c.m_AudioControlMap (c_str name) buffer })

/-- The statements of `DeserializeAudioComponent`. -/
def audioStatements (reader : JValue) : Statements AudioComponent :=
  ifMember reader "Identity" (fun v =>
    [v.GetInt.map (fun i c => { c with m_EntityIdentity := i })]) ++
  ifMemberArray reader "AudioControlMap" (fun Controller =>
    Controller.map audioControlStatement)

/-- The function `Serializer::DeserializeAudioComponent`. -/
def DeserializeAudioComponent (reader : JValue) (component : AudioComponent) :
    Except AudioComponent AudioComponent :=
  runStatements (audioStatements reader) component

/-- The statements of `DeserializeEnemyComponent`. -/
def enemyStatements (reader : JValue) : Statements EnemyComponent :=
  ifMember reader "Identity" (fun v =>
    [v.GetInt.map (fun i c => { c with m_EntityIdentity := i })]) ++
  ifMemberArray reader "MaxDelta" (fun maxDelta =>
    [(floatAt maxDelta 0).map (fun a c => { c with m_maxDelta := { c.m_maxDelta with x := a } }),
     (floatAt maxDelta 1).map (fun a c => { c with m_maxDelta := { c.m_maxDelta with y := a } })])

/-- The function `Serializer::DeserializeEnemyComponent`. -/
def DeserializeEnemyComponent (reader : JValue) (component : EnemyComponent) :
    Except EnemyComponent EnemyComponent :=
  runStatements (enemyStatements reader) component

/-- The statements of `DeserializeTileComponent`. -/
def tileStatements (reader : JValue) : Statements TileComponent :=
  ifMember reader "Identity" (fun v =>
    [v.GetInt.map (fun i c => { c with m_EntityIdentity := i })]) ++
  ifMember reader "TileType" (fun v =>
    [v.GetUint.map (fun t c => { c with m_TileType := t })])

/-- The function `Serializer::DeserializeTileComponent`. -/
def DeserializeTileComponent (reader : JValue) (component : TileComponent) :
    Except TileComponent TileComponent :=
  runStatements (tileStatements reader) component

/-- The statements of `DeserializeCPPScriptComponent`. -/
def cppScriptStatements (reader : JValue) : Statements CPPScriptComponent :=
  ifMember reader "Identity" (fun v =>
    [v.GetInt.map (fun i c => { c with m_EntityIdentity := i })]) ++
  ifMemberArray reader "CPPScripts" (fun scripts =>
    scripts.map (fun it =>
      it.GetUint.map (fun t c => { c with m_Scripts := UMap.emplace c.m_Scripts t none })))

/-- The function `Serializer::DeserializeCPPScriptComponent`. -/
def DeserializeCPPScriptComponent (reader : JValue) (component : CPPScriptComponent) :
    Except CPPScriptComponent CPPScriptComponent :=
  runStatements (cppScriptStatements reader) component

/-! ## `Serializer` and `Prefab` -/

/-- The sixteen component types. A value names, according to where it stands,
the data member of `Prefab` of that type (`m_TransformComponent`, ...), the
static member function `Serializer::Deserialize...Component` of that type, or
the static member function `Serializer::Serialize...Component` of that type. -/
inductive ComponentType where
  | Transform
  | Movement
  | Primitive
  | Sprite
  | Player
  | Name
  | RigidBody2D
  | Font
  | Camera
  | Animation
  | Gem
  | UI
  | Audio
  | Enemy
  | Tile
  | CPPScript
deriving DecidableEq, Repr

/-- The statement `m[k] = v` on a map whose values have no default worth a
name (here `std::function` objects). -/
def UMap.set {K V : Type} [DecidableEq K] (m : UMap K V) (k : K) (v : V) : UMap K V :=
  if UMap.contains m k then UMap.modify m k (fun _ => v) else m ++ [(k, v)]

/-- The data members of `class Serializer`: the two dispatch tables, from a type
name to a registered function (an entry of a `std::map`, of which only `find`
and `operator[]` are used). -/
structure Serializer where
  serializeFunctions : UMap String ComponentType := []
  deserializeFunctions : UMap String ComponentType := []

namespace Serializer

/-- The function `Serializer::RegisterSerializeFunction`. -/
def RegisterSerializeFunction (s : Serializer) (typeName : String) (func : ComponentType) :
    Serializer :=
  { s with serializeFunctions := UMap.set s.serializeFunctions typeName func }

/-- The function `Serializer::RegisterDeserializeFunction`. -/
def RegisterDeserializeFunction (s : Serializer) (typeName : String) (func : ComponentType) :
    Serializer :=
  { s with deserializeFunctions := UMap.set s.deserializeFunctions typeName func }

/-- The constructor `Serializer::Serializer()`. -/
def new : Serializer :=
  let s : Serializer := {}
  let s := s.RegisterDeserializeFunction "TransformComponent" .Transform
  let s := s.RegisterDeserializeFunction "MovementComponent" .Movement
  let s := s.RegisterDeserializeFunction "PrimitiveComponent" .Primitive
  let s := s.RegisterDeserializeFunction "SpriteComponent" .Sprite
  let s := s.RegisterDeserializeFunction "PlayerComponent" .Player
  let s := s.RegisterDeserializeFunction "NameComponent" .Name
  let s := s.RegisterDeserializeFunction "RigidBody2DComponent" .RigidBody2D
  let s := s.RegisterDeserializeFunction "CameraComponent" .Camera
  let s := s.RegisterDeserializeFunction "FontComponent" .Font
  let s := s.RegisterDeserializeFunction "AnimationComponent" .Animation
  let s := s.RegisterDeserializeFunction "GemComponent" .Gem
  let s := s.RegisterDeserializeFunction "UIComponent" .UI
  let s := s.RegisterDeserializeFunction "AudioComponent" .Audio
  let s := s.RegisterDeserializeFunction "EnemyComponent" .Enemy
  let s := s.RegisterDeserializeFunction "TileComponent" .Tile
  let s := s.RegisterDeserializeFunction "CPPScriptComponent" .CPPScript
  let s := s.RegisterSerializeFunction "TransformComponent" .Transform
  let s := s.RegisterSerializeFunction "MovementComponent" .Movement
  let s := s.RegisterSerializeFunction "PrimitiveComponent" .Primitive
  let s := s.RegisterSerializeFunction "SpriteComponent" .Sprite
  let s := s.RegisterSerializeFunction "PlayerComponent" .Player
  let s := s.RegisterSerializeFunction "NameComponent" .Name
  let s := s.RegisterSerializeFunction "RigidBody2DComponent" .RigidBody2D
  let s := s.RegisterSerializeFunction "CameraComponent" .Camera
  let s := s.RegisterSerializeFunction "FontComponent" .Font
  let s := s.RegisterSerializeFunction "AnimationComponent" .Animation
  let s := s.RegisterSerializeFunction "GemComponent" .Gem
  let s := s.RegisterSerializeFunction "UIComponent" .UI
  let s := s.RegisterSerializeFunction "AudioComponent" .Audio
  let s := s.RegisterSerializeFunction "EnemyComponent" .Enemy
  let s := s.RegisterSerializeFunction "TileComponent" .Tile
  let s := s.RegisterSerializeFunction "CPPScriptComponent" .CPPScript
  s

end Serializer

/-- The data members of `class Prefab`: the map from a type name to a reference
to one of the sixteen component members, and the members themselves. -/
structure Prefab where
  m_components : UMap String ComponentType := []
  m_TransformComponent : TransformComponent := {}
  m_MovementComponent : MovementComponent := {}
  m_PrimitiveComponent : PrimitiveComponent := {}
  m_SpriteComponent : SpriteComponent := {}
  m_NameComponent : NameComponent := {}
  m_PlayerComponent : PlayerComponent := {}
  m_RigidBody2DComponent : RigidBody2DComponent := {}
  m_FontComponent : FontComponent := {}
  m_CameraComponent : CameraComponent := {}
  m_AnimationComponent : AnimationComponent := {}
  m_AudioComponent : AudioComponent := {}
  m_GemComponent : GemComponent := {}
  m_UIComponent : UIComponent := {}
  m_CPPScriptComponent : CPPScriptComponent := {}
  m_EnemyComponent : EnemyComponent := {}
  m_TileComponent : TileComponent := {}

namespace Prefab

/-- The constructor `Prefab::Prefab()`: its body is commented out, so
`m_components` starts empty and the members are default-constructed. -/
def new : Prefab := {}

/-- The function `Prefab::CreateComponentByTypeName`: the address of the member
the type name selects, `none` for `nullptr`. -/
def CreateComponentByTypeName (typeName : String) : Option ComponentType :=
  if typeName = "TransformComponent" then some .Transform
  else if typeName = "MovementComponent" then some .Movement
  else if typeName = "PrimitiveComponent" then some .Primitive
  else if typeName = "SpriteComponent" then some .Sprite
  else if typeName = "PlayerComponent" then some .Player
  else if typeName = "NameComponent" then some .Name
  else if typeName = "RigidBody2DComponent" then some .RigidBody2D
  else if typeName = "FontComponent" then some .Font
  else if typeName = "CameraComponent" then some .Camera
  else if typeName = "AnimationComponent" then some .Animation
  else if typeName = "GemComponent" then some .Gem
  else if typeName = "UIComponent" then some .UI
  else if typeName = "AudioComponent" then some .Audio
  else if typeName = "EnemyComponent" then some .Enemy
  else if typeName = "TileComponent" then some .Tile
  else if typeName = "CPPScriptComponent" then some .CPPScript
  else none

/-- The function `Prefab::AddComponent`. -/
def AddComponent (p : Prefab) (typeName : String) (component : ComponentType) : Prefab :=
  { p with m_components := UMap.emplace p.m_components typeName component }

/-- The function `Prefab::GetComponent`: `m_components.at(type)`, which throws
`std::out_of_range` (`none`) when `type` is not a key. -/
def GetComponent (p : Prefab) (type : String) : Option ComponentType :=
  UMap.find? p.m_components type

/-- The function `Prefab::HasComponent`. -/
def HasComponent (p : Prefab) (_component : String) : Bool :=
  UMap.contains p.m_components _component

/-- The function `Prefab::IsPrefabValid`. -/
def IsPrefabValid (p : Prefab) : Bool := !p.m_components.isEmpty

/-- The call `func(reader, component)` of the registered function `func` on the
component member `component` of the prefab. The function casts its argument to
the record type of `func`: undefined when the member is of another type. -/
def deserializeWith (BodySet : Body → Vec2 → ℚ → Int → Body) (func : ComponentType)
    (reader : JValue) (component : ComponentType) (p : Prefab) : Except Prefab Prefab :=
  if func ≠ component then .error p
  else
    match func with
    | .Transform =>
      Except.both (fun c => { p with m_TransformComponent := c })
        (DeserializeTransformComponent reader p.m_TransformComponent)
    | .Movement =>
      Except.both (fun c => { p with m_MovementComponent := c })
        (DeserializeMovementComponent reader p.m_MovementComponent)
    | .Primitive =>
      Except.both (fun c => { p with m_PrimitiveComponent := c })
        (DeserializePrimitiveComponent reader p.m_PrimitiveComponent)
    | .Sprite =>
      Except.both (fun c => { p with m_SpriteComponent := c })
        (DeserializeSpriteComponent reader p.m_SpriteComponent)
    | .Player =>
      Except.both (fun c => { p with m_PlayerComponent := c })
        (DeserializePlayerComponent reader p.m_PlayerComponent)
    | .Name =>
      Except.both (fun c => { p with m_NameComponent := c })
        (DeserializeNameComponent reader p.m_NameComponent)
    | .RigidBody2D =>
      Except.both (fun c => { p with m_RigidBody2DComponent := c })
        (DeserializeRigidBody2DComponent BodySet reader p.m_RigidBody2DComponent)
    | .Font =>
      Except.both (fun c => { p with m_FontComponent := c })
        (DeserializeFontComponent reader p.m_FontComponent)
    | .Camera =>
      Except.both (fun c => { p with m_CameraComponent := c })
        (DeserializeCameraComponent reader p.m_CameraComponent)
    | .Animation =>
      Except.both (fun c => { p with m_AnimationComponent := c })
        (DeserializeAnimationComponent reader p.m_AnimationComponent)
    | .Gem =>
      Except.both (fun c => { p with m_GemComponent := c })
        (DeserializeGemComponent reader p.m_GemComponent)
    | .UI =>
      Except.both (fun c => { p with m_UIComponent := c })
        (DeserializeUIComponent reader p.m_UIComponent)
    | .Audio =>
      Except.both (fun c => { p with m_AudioComponent := c })
        (DeserializeAudioComponent reader p.m_AudioComponent)
    | .Enemy =>
      Except.both (fun c => { p with m_EnemyComponent := c })
        (DeserializeEnemyComponent reader p.m_EnemyComponent)
    | .Tile =>
      Except.both (fun c => { p with m_TileComponent := c })
        (DeserializeTileComponent reader p.m_TileComponent)
    | .CPPScript =>
      Except.both (fun c => { p with m_CPPScriptComponent := c })
        (DeserializeCPPScriptComponent reader p.m_CPPScriptComponent)

end Prefab

/-- The function `Serializer::Deserialize`, called on a component member of a
prefab: the function registered under `typeName`, if any, is run on it. -/
def Serializer.Deserialize (BodySet : Body → Vec2 → ℚ → Int → Body) (s : Serializer)
    (reader : JValue) (component : ComponentType) (typeName : String) (p : Prefab) :
    Except Prefab Prefab :=
  match UMap.find? s.deserializeFunctions typeName with
  | some func => Prefab.deserializeWith BodySet func reader component p
  | none => .ok p

namespace Prefab

/-- The body of the loop of `DeserializePrefab` and of `DeserializeSceneEntity`
for one member of the object. An unknown type name is reported, and the loop
goes on. -/
def deserializeMember (BodySet : Body → Vec2 → ℚ → Int → Body) (serializer : Serializer)
    (name : String) (value : JValue) (p : Prefab) : Except Prefab Prefab :=
  let typeName := c_str name
  match CreateComponentByTypeName typeName with
  | some P_Component =>
    let p := p.AddComponent typeName P_Component
    serializer.Deserialize BodySet value P_Component typeName p
  | none => .ok p

/-- The loop over the members of the object; it stops at the first failed
assertion. -/
def deserializeMembers (BodySet : Body → Vec2 → ℚ → Int → Body) (serializer : Serializer) :
    List (String × JValue) → Prefab → Except Prefab Prefab
  | [], p => .ok p
  | (name, value) :: ms, p =>
    match deserializeMember BodySet serializer name value p with
    | .error e => .error e
    | .ok p' => deserializeMembers BodySet serializer ms p'

/-- The function `Prefab::DeserializePrefab`; `parsed` is what `doc.Parse` makes
of the text (`none`: a parse error). Anything but an object is reported, and
the call returns. -/
def DeserializePrefab (BodySet : Body → Vec2 → ℚ → Int → Body) (serializer : Serializer)
    (parsed : Option JValue) (p : Prefab) : Except Prefab Prefab :=
  match parsed with
  | some (.obj ms) => deserializeMembers BodySet serializer ms p
  | _ => .ok p

/-- The function `Prefab::DeserializeSceneEntity`; `MemberBegin()` asserts that
the element is an object. -/
def DeserializeSceneEntity (BodySet : Body → Vec2 → ℚ → Int → Body) (serializer : Serializer)
    (element : JValue) (p : Prefab) : Except Prefab Prefab :=
  match element.members with
  | some ms => deserializeMembers BodySet serializer ms p
  | none => .error p

/-- Whether the deserializer of the component type passes all its assertions on
the reader. -/
def accepts (BodySet : Body → Vec2 → ℚ → Int → Body) (component : ComponentType)
    (reader : JValue) : Bool :=
  (deserializeWith BodySet component reader component {}).isOk

/-- Every member of the object whose name selects a component has a value that
the deserializer of that component accepts. -/
def membersAccepted (BodySet : Body → Vec2 → ℚ → Int → Body) (ms : List (String × JValue)) :
    Bool :=
  ms.all (fun m =>
    match CreateComponentByTypeName (c_str m.1) with
    | some component => accepts BodySet component m.2
    | none => true)

end Prefab

/-- The type names `CreateComponentByTypeName` compares its argument with, in
the order of the comparisons. -/
def Prefab.knownTags : List String :=
  ["TransformComponent", "MovementComponent", "PrimitiveComponent", "SpriteComponent",
    "PlayerComponent", "NameComponent", "RigidBody2DComponent", "FontComponent",
    "CameraComponent", "AnimationComponent", "GemComponent", "UIComponent", "AudioComponent",
    "EnemyComponent", "TileComponent", "CPPScriptComponent"]

/-! ## The rapidjson writer

A writer is the sequence of the calls made on it, which is the text in its
buffer token by token. `Writer.document` reads a text back: it is the value
`Document::Parse` builds from it, and `none` when the text is not one JSON
value (the sequences the writer itself rejects by assertion are among those). -/

/-- The conversion of an integer to the parameter type `int` (32 bits). -/
def asInt (z : Int) : Int := (z + 2 ^ 31) % 2 ^ 32 - 2 ^ 31

/-- The conversion of an integer to the parameter type `unsigned` (32 bits). -/
def asUnsigned (n : Nat) : Nat := n % 2 ^ 32

/-- The conversion of an integer to the parameter type `uint64_t`. -/
def asUint64 (n : Nat) : Nat := n % 2 ^ 64

/-- A call of a member function of `rapidjson::Writer` that writes a token.
The call `Key(str)` is `String(str)`. The parameter of `String` is a
`const char*`: a call site that passes `s.c_str()` passes `c_str s`. -/
inductive WriterCall where
  | StartObject
  | EndObject
  | StartArray
  | EndArray
  | String (str : String)
  | Int (i : Int)
  | Uint (u : Nat)
  | Uint64 (u64 : Nat)
  | Double (d : ℚ)
  | Bool (b : Bool)
deriving DecidableEq

/-- The writer: the calls made on it so far, in order. -/
abbrev Writer := List WriterCall

/-- The value a scalar token is parsed to: a number written by `Int`, `Uint` or
`Uint64` is an integer, a number written by `Double` is a `double`. -/
def WriterCall.scalar : WriterCall → Option JValue
  | .String str => some (.str str)
  | .Int i => some (.number (asInt i))
  | .Uint u => some (.number (asUnsigned u))
  | .Uint64 u64 => some (.number (asUint64 u64))
  | .Double d => some (.real d)
  | .Bool b => some (.bool b)
  | _ => none

/-- A container that is being read: an array with the elements read so far, or
an object with the members read so far and the name that waits for its value. -/
inductive Frame where
  | array (xs : List JValue)
  | object (ms : List (String × JValue)) (name : Option String)

/-- The state of reading a text: the containers that are open, innermost
first, and the value of the text once it is complete. -/
structure Reading where
  stack : List Frame := []
  root : Option JValue := none

namespace Reading

/-- A complete value is read: it becomes the root, an element of the open
array, the value of the waiting name, or (a string only) the next name of the
open object. -/
def value (v : JValue) (r : Reading) : Option Reading :=
  match r.stack with
  | [] => if r.root.isSome then none else some { r with root := some v }
  | .array xs :: rest => some { r with stack := .array (xs ++ [v]) :: rest }
  | .object ms (some name) :: rest =>
    some { r with stack := .object (ms ++ [(name, v)]) none :: rest }
  | .object ms none :: rest =>
    match v with
    | .str s => some { r with stack := .object ms (some s) :: rest }
    | _ => none

/-- One token is read. -/
def token (t : WriterCall) (r : Reading) : Option Reading :=
  match t with
  | .StartObject => some { r with stack := .object [] none :: r.stack }
  | .StartArray => some { r with stack := .array [] :: r.stack }
  | .EndObject =>
    match r.stack with
    | .object ms none :: rest => value (.obj ms) { r with stack := rest }
    | _ => none
  | .EndArray =>
    match r.stack with
    | .array xs :: rest => value (.arr xs) { r with stack := rest }
    | _ => none
  | t =>
    match t.scalar with
    | some v => value v r
    | none => none

/-- The tokens of a text are read in order. -/
def tokens : List WriterCall → Reading → Option Reading
  | [], r => some r
  | t :: ts, r => (token t r).bind (tokens ts)

end Reading

/-- The value `Document::Parse` builds from the text of the writer. -/
def Writer.document (writer : Writer) : Option JValue :=
  match Reading.tokens writer {} with
  | some r => if r.stack.isEmpty then r.root else none
  | none => none

/-! ## The component serializers of `Serializer.cpp` -/

/-- The function `Serializer::SerializeTransformComponent`. -/
def SerializeTransformComponent (writer : Writer) (transformComponent : TransformComponent) :
    Writer :=
  writer ++
    [.StartObject,
     .String "Identity", .Int transformComponent.m_EntityIdentity,
     .String "Transform", .StartArray,
     .Double transformComponent.m_Transform.x,
     .Double transformComponent.m_Transform.y,
     .Double transformComponent.m_TransformZ,
     .EndArray,
     .String "Scale", .StartArray,
     .Double transformComponent.m_Scale.x,
     .Double transformComponent.m_Scale.y,
     .EndArray,
     .String "Rotation", .Double transformComponent.m_Rotation,
     .EndObject]

/-- The function `Serializer::SerializeMovementComponent`. -/
def SerializeMovementComponent (writer : Writer) (MovementComponent : MovementComponent) :
    Writer :=
  writer ++
    [.StartObject,
     .String "Identity", .Int MovementComponent.m_EntityIdentity,
     .String "Direction", .StartArray,
     .Double MovementComponent.m_Direction.x,
     .Double MovementComponent.m_Direction.y,
     .EndArray,
     .String "Speed", .Double MovementComponent.m_Speed,
     .EndObject]

/-- The function `Serializer::SerializePrimitiveComponent`. -/
def SerializePrimitiveComponent (writer : Writer) (primitiveComponent : PrimitiveComponent) :
    Writer :=
  writer ++
    [.StartObject,
     .String "Identity", .Int primitiveComponent.m_EntityIdentity,
     .String "PrimitiveID", .Int primitiveComponent.m_PrimitiveID,
     .String "Offset", .Double primitiveComponent.m_Offset,
     .String "Color", .StartArray,
     .Double primitiveComponent.m_Color.x,
     .Double primitiveComponent.m_Color.y,
     .Double primitiveComponent.m_Color.z,
     .EndArray,
     .String "Alpha", .Double primitiveComponent.m_Alpha,
     .EndObject]

/-- The function `Serializer::SerializeSpriteComponent`. -/
def SerializeSpriteComponent (writer : Writer) (spriteComponent : SpriteComponent) : Writer :=
  writer ++
    [.StartObject,
     .String "Identity", .Int spriteComponent.m_EntityIdentity,
     .String "TexKey", .String (c_str spriteComponent.m_TexKey),
     .String "UUID", .Uint64 spriteComponent.UUID,
     .String "Width", .Double spriteComponent.m_SpriteWidth,
     .String "Height", .Double spriteComponent.m_SpriteHeight,
     .String "Alpha", .Double spriteComponent.m_Alpha,
     .String "Color", .StartArray,
     .Double spriteComponent.m_Color.x,
     .Double spriteComponent.m_Color.y,
     .Double spriteComponent.m_Color.z,
     .EndArray,
     .EndObject]

/-- The function `Serializer::SerializeNameComponent`. -/
def SerializeNameComponent (writer : Writer) (NameComponent : NameComponent) : Writer :=
  writer ++
    [.StartObject,
     .String "Identity", .Int NameComponent.m_EntityIdentity,
     .String "Name", .String (c_str NameComponent.m_name),
     .EndObject]

/-- The function `Serializer::SerializePlayerComponent`. -/
def SerializePlayerComponent (writer : Writer) (PlayerComponent : PlayerComponent) : Writer :=
  writer ++
    [.StartObject,
     .String "Identity", .Int PlayerComponent.m_EntityIdentity,
     .String "TransformAmount", .Int PlayerComponent.transformAmount,
     .String "MoveSpeed", .Int PlayerComponent.moveSpeed,
     .EndObject]

/-- The function `Serializer::SerializeRigidBody2DComponent`. -/
def SerializeRigidBody2DComponent (writer : Writer) (RigidComponent : RigidBody2DComponent) :
    Writer :=
  writer ++
    [.StartObject,
     .String "Identity", .Int RigidComponent.m_EntityIdentity,
     .String "Position", .StartArray,
     .Double RigidComponent.m_body.position.x,
     .Double RigidComponent.m_body.position.y,
     .EndArray,
     .String "Width", .StartArray,
     .Double RigidComponent.m_body.width.x,
     .Double RigidComponent.m_body.width.y,
     .EndArray,
     .String "Mass", .Double RigidComponent.m_body.mass,
     .String "BodyType", .Int RigidComponent.m_body.bodytype,
     .String "Offset", .Double RigidComponent.m_offset,
     .String "Friction", .Double RigidComponent.m_body.friction,
     .EndObject]

/-- The function `Serializer::SerializeCameraComponent`. The activity flag is
read from `m_IsActive` and written under `m_Active`; the field of view is
written under `m_Fov`. -/
def SerializeCameraComponent (writer : Writer) (Cameracomponent : CameraComponent) : Writer :=
  writer ++
    [.StartObject,
     .String "m_Active", .Bool Cameracomponent.m_IsActive,
     .String "m_SmoothDampActive", .Bool Cameracomponent.m_SmoothDampActive,
     .String "Identity", .Int Cameracomponent.m_EntityIdentity,
     .String "m_Fov", .Double Cameracomponent.m_FOV,
     .String "m_PerspectiveNear", .Double Cameracomponent.m_PerspectiveNear,
     .String "m_PerspectiveFar", .Double Cameracomponent.m_PerspectiveFar,
     .String "m_OrthoFar", .Double Cameracomponent.m_OrthoFar,
     .String "m_OrthoNear", .Double Cameracomponent.m_OrthoNear,
     .String "m_OrthoSize", .Double Cameracomponent.m_OrthoSize,
     .String "m_CameraDistance", .Double Cameracomponent.m_CameraDistance,
     .String "velocity", .StartArray,
     .Double Cameracomponent.velocity.x,
     .Double Cameracomponent.velocity.y,
     .EndArray,
     .EndObject]

/-- The function `Serializer::SerializefontComponent`. -/
def SerializefontComponent (writer : Writer) (Fontcomponent : FontComponent) : Writer :=
  writer ++
    [.StartObject,
     .String "Identity", .Int Fontcomponent.m_EntityIdentity,
     .String "UUID", .Uint64 Fontcomponent.UUID,
     .String "Text", .String (c_str Fontcomponent.text),
     .String "Color", .StartArray,
     .Double Fontcomponent.color.x,
     .Double Fontcomponent.color.y,
     .Double Fontcomponent.color.z,
     .EndArray,
     .EndObject]

/-- The function `Serializer::SerializeAnimationComponent`. -/
def SerializeAnimationComponent (writer : Writer) (Animcomponent : AnimationComponent) :
    Writer :=
  writer ++
    [.StartObject,
     .String "Identity", .Int Animcomponent.m_EntityIdentity,
     .String "MaxFrame", .Int Animcomponent.m_MaxFrame,
     .String "CurrentFrameIndex", .Int Animcomponent.m_CurrentFrameIndex,
     .String "StartingAnimIndex", .Int Animcomponent.m_StartingAnimationIndex,
     .String "Interval", .Double Animcomponent.m_Interval,
     .EndObject]

/-- The function `Serializer::SerializeGemComponent`. -/
def SerializeGemComponent (writer : Writer) (_Component : GemComponent) : Writer :=
  writer ++ [.StartObject, .String "Identity", .Int _Component.m_EntityIdentity, .EndObject]

/-- The function `Serializer::SerializeUIComponent`. -/
def SerializeUIComponent (writer : Writer) (_Component : UIComponent) : Writer :=
  writer ++ [.StartObject, .String "Identity", .Int _Component.m_EntityIdentity, .EndObject]

/-- The calls of one iteration of the loop of `SerializeAudioComponent`: an
object with one member, the name of the control and the control. -/
def audioControlCalls (_audiocontroller : String × AudioControl) : List WriterCall :=
  [.StartObject,
   .String (c_str _audiocontroller.1),
   .StartObject,
   .String "UUID", .Uint64 _audiocontroller.2.UUID,
   .String "AudioKey", .String (c_str _audiocontroller.2.m_AudioKey),
   .String "Loop", .Bool _audiocontroller.2.m_IsLooping,
   .String "Volume", .Double _audiocontroller.2.m_Volume,
   .EndObject,
   .EndObject]

/-- The function `Serializer::SerializeAudioComponent`. -/
def SerializeAudioComponent (writer : Writer) (_Component : AudioComponent) : Writer :=
  writer ++
    [.StartObject,
     .String "Identity", .Int _Component.m_EntityIdentity,
     .String "AudioControlMap", .StartArray] ++
    (_Component.m_AudioControlMap.map audioControlCalls).flatten ++
    [.EndArray, .EndObject]

/-- The function `Serializer::SerializeEnemyComponent`. -/
def SerializeEnemyComponent (writer : Writer) (_Component : EnemyComponent) : Writer :=
  writer ++
    [.StartObject,
     .String "Identity", .Int _Component.m_EntityIdentity,
     .String "MaxDelta", .StartArray,
     .Double _Component.m_maxDelta.x,
     .Double _Component.m_maxDelta.y,
     .EndArray,
     .EndObject]

/-- The function `Serializer::SerializeTileComponent`. -/
def SerializeTileComponent (writer : Writer) (_Component : TileComponent) : Writer :=
  writer ++
    [.StartObject,
     .String "Identity", .Int _Component.m_EntityIdentity,
     .String "TileType", .Uint _Component.m_TileType,
     .EndObject]

/-- The function `Serializer::SerializeCPPScriptComponent`. -/
def SerializeCPPScriptComponent (writer : Writer) (_Component : CPPScriptComponent) : Writer :=
  writer ++
    [.StartObject,
     .String "Identity", .Int _Component.m_EntityIdentity,
     .String "CPPScripts", .StartArray] ++
    _Component.m_Scripts.map (fun it => .Uint it.1) ++
    [.EndArray, .EndObject]

/-! ## Serializing a prefab -/

namespace Prefab

/-- The call `func(writer, component)` of the registered function `func` on the
component member `component` of the prefab. The function casts its argument to
the record type of `func`: undefined when the member is of another type. -/
def serializeWith (func : ComponentType) (writer : Writer) (component : ComponentType)
    (p : Prefab) : Except Writer Writer :=
  if func ≠ component then .error writer
  else
    match func with
    | .Transform => .ok (SerializeTransformComponent writer p.m_TransformComponent)
    | .Movement => .ok (SerializeMovementComponent writer p.m_MovementComponent)
    | .Primitive => .ok (SerializePrimitiveComponent writer p.m_PrimitiveComponent)
    | .Sprite => .ok (SerializeSpriteComponent writer p.m_SpriteComponent)
    | .Player => .ok (SerializePlayerComponent writer p.m_PlayerComponent)
    | .Name => .ok (SerializeNameComponent writer p.m_NameComponent)
    | .RigidBody2D => .ok (SerializeRigidBody2DComponent writer p.m_RigidBody2DComponent)
    | .Font => .ok (SerializefontComponent writer p.m_FontComponent)
    | .Camera => .ok (SerializeCameraComponent writer p.m_CameraComponent)
    | .Animation => .ok (SerializeAnimationComponent writer p.m_AnimationComponent)
    | .Gem => .ok (SerializeGemComponent writer p.m_GemComponent)
    | .UI => .ok (SerializeUIComponent writer p.m_UIComponent)
    | .Audio => .ok (SerializeAudioComponent writer p.m_AudioComponent)
    | .Enemy => .ok (SerializeEnemyComponent writer p.m_EnemyComponent)
    | .Tile => .ok (SerializeTileComponent writer p.m_TileComponent)
    | .CPPScript => .ok (SerializeCPPScriptComponent writer p.m_CPPScriptComponent)

end Prefab

/-- The function `Serializer::Serialize`, called on a component member of a
prefab: the function registered under `typeName`, if any, is run on it. -/
def Serializer.Serialize (s : Serializer) (writer : Writer) (typeName : String)
    (component : ComponentType) (p : Prefab) : Except Writer Writer :=
  match UMap.find? s.serializeFunctions typeName with
  | some func => Prefab.serializeWith func writer component p
  | none => .ok writer

namespace Prefab

/-- The loop `for (const auto& pair : m_components)` of `SerializePrefab` and of
`SerializeSceneEntity`: the type name is written as a key, then the component is
serialized. -/
def serializeMembers (serializer : Serializer) (p : Prefab) :
    List (String × ComponentType) → Writer → Except Writer Writer
  | [], writer => .ok writer
  | pair :: rest, writer =>
    match serializer.Serialize (writer ++ [.String (c_str pair.1)]) pair.1 pair.2 p with
    | .error e => .error e
    | .ok writer' => serializeMembers serializer p rest writer'

/-- The function `Prefab::SerializeSceneEntity`. -/
def SerializeSceneEntity (p : Prefab) (_Serializer : Serializer) (_Writer : Writer) :
    Except Writer Writer :=
  serializeMembers _Serializer p p.m_components _Writer

/-- The output file of `SerializePrefab`. -/
def editedScenePath : String := "./Json/EditedScene.json"

/-- The function `Prefab::SerializePrefab`: the text of its writer and the file
system afterwards. The text is also printed on `std::cout`; a file that cannot
be opened is reported on `std::cerr`. -/
def SerializePrefab (p : Prefab) (serializer : Serializer) (w : World) :
    Except Writer (Writer × World) :=
  let writer : Writer := []
  let writer := writer ++ [.StartObject]
  match serializeMembers serializer p p.m_components writer with
  | .error e => .error e
  | .ok writer =>
    let writer := writer ++ [.EndObject]
    if w.writable then
      .ok (writer, { w with
        files := UMap.update w.files editedScenePath (fun _ => Writer.document writer) })
    else
      .ok (writer, w)

end Prefab

/-- The integer is a value of the type `int`. -/
def FitsInt (z : Int) : Prop := asInt z = z

instance (z : Int) : Decidable (FitsInt z) := by
  unfold FitsInt; exact inferInstance

/-- The natural number is a value of the type `unsigned`. -/
def FitsUnsigned (n : Nat) : Prop := asUnsigned n = n

instance (n : Nat) : Decidable (FitsUnsigned n) := by
  unfold FitsUnsigned; exact inferInstance

/-- The natural number is a value of the type `uint64_t`. -/
def FitsUint64 (n : Nat) : Prop := asUint64 n = n

instance (n : Nat) : Decidable (FitsUint64 n) := by
  unfold FitsUint64; exact inferInstance

/-- The members of an object without those of the given name. -/
def withoutMember (ms : List (String × JValue)) (name : String) : List (String × JValue) :=
  ms.filter (fun m => decide (m.1 ≠ name))

/-- The first `n` elements of the array exist and are numbers: the reads
`array[0].GetFloat()`, ..., `array[n - 1].GetFloat()` pass their assertions. -/
def numbersAt (array : List JValue) (n : Nat) : Bool :=
  (List.range n).all (fun i => (floatAt array i).isSome)

/-- The array members that a deserializer reads at fixed indices: the
component, the key, the number of elements read, and whether the reads are
guarded by the test `Size() == n`. -/
def fixedArrays : List (ComponentType × String × Nat × Bool) :=
  [(.Transform, "Transform", 3, false),
   (.Transform, "Scale", 2, false),
   (.Movement, "Direction", 2, false),
   (.RigidBody2D, "Position", 2, false),
   (.RigidBody2D, "Width", 2, false),
   (.Camera, "velocity", 2, false),
   (.Font, "Color", 3, false),
   (.Enemy, "MaxDelta", 2, false),
   (.Primitive, "Color", 3, true),
   (.Sprite, "Color", 3, true)]

/-- Every statement of the list leaves the part `g` of the record alone. -/
def Statements.Keeps {T α : Type} (g : T → α) (stmts : Statements T) : Prop :=
  ∀ f, some f ∈ stmts → ∀ c, g (f c) = g c

/-- The element `SerializeAudioComponent` writes for one control, read back: an
object with one member, the name of the control and the control. -/
def audioControlValue (_audiocontroller : String × AudioControl) : JValue :=
  .obj [(c_str _audiocontroller.1,
    .obj [("UUID", .number (asUint64 _audiocontroller.2.UUID)),
          ("AudioKey", .str (c_str _audiocontroller.2.m_AudioKey)),
          ("Loop", .bool _audiocontroller.2.m_IsLooping),
          ("Volume", .real _audiocontroller.2.m_Volume)])]

/-- The control that comes back for a control that was written: the `UUID` as a
`uint64_t`, the audio key up to its first NUL character. -/
def AudioControl.readBack (control : AudioControl) : AudioControl :=
  { control with UUID := asUint64 control.UUID, m_AudioKey := c_str control.m_AudioKey }

/-! ## Concrete worlds used to instantiate the statements -/

namespace Examples

/-- An engine that yields 100, 101, 102, ... -/
def counting : Engine := ⟨fun k => 100 + k, 0⟩

/-- An engine that yields 100 at every draw. -/
def stuck : Engine := ⟨fun _ => 100, 0⟩

/-- A fresh registry, no readable file, the counting engine. -/
def w0 : World := World.fresh counting []

/-- A fresh registry, no readable file, the engine stuck at 100. -/
def wStuck : World := World.fresh stuck []

/-- The document `{"fonts": {"F": {"UUID": 100, "filepath": "f.ttf"}}}`. -/
def fontsDoc : JValue :=
  .obj [("fonts", .obj [("F", .obj [("UUID", .number 100), ("filepath", .str "f.ttf")])])]

/-- A fresh registry whose asset file holds `fontsDoc`. -/
def wFonts (e : Engine) : World :=
  World.fresh e [("./Json/assets_serialized.json", some fontsDoc)]

/-- The name `a`, NUL, `b`: three characters, of which a `const char*` shows
the first. -/
def nulName : String := String.mk ['a', Char.ofNat 0, 'b']

/-- An editor map with one texture, named `nulName`. -/
def nulMap : UMap Asset_Type EditorEntries :=
  [(ASSET_TEXTURES, [(1, (nulName, "a.png"))])]

/-- An editor map with two textures of different identifiers, both named `n`. -/
def sameNameMap : UMap Asset_Type EditorEntries :=
  [(ASSET_TEXTURES, [(1, ("n", "a.png")), (2, ("n", "b.png"))])]

/-- A fresh registry whose asset file exists and does not parse. -/
def wGarbage : World := World.fresh counting [("./Json/assets_serialized.json", none)]

/-- A fresh registry whose asset file holds the given document. -/
def wDoc (doc : JValue) : World :=
  World.fresh counting [("./Json/assets_serialized.json", some doc)]

/-- The document `{"textures": {"Hero": {"UUID": 42, "filepath": "hero.png"}}}`. -/
def heroDoc : JValue := texturesDocument [("Hero", 42, "hero.png")]

/-- The document `{"textures": {<nulName>: {"UUID": 42, "filepath": "hero.png"}}}`. -/
def nulDoc : JValue := texturesDocument [(nulName, 42, "hero.png")]

/-- The document `{"textures": {"A": {"UUID": 1, "filepath": "a.png"},
"B": {"UUID": 1, "filepath": "b.png"}}}`: one identifier twice. -/
def dupDoc : JValue := texturesDocument [("A", 1, "a.png"), ("B", 1, "b.png")]

/-- The document `{"textures": {"Bad": {}, "A": {"UUID": 1, "filepath": "a.png"}}}`:
the first entry has neither `"UUID"` nor `"filepath"`. -/
def badFirstDoc : JValue :=
  .obj [("textures", .obj [("Bad", .obj []), ("A", entryValue 1 "a.png")])]

/-- The document `{"textures": {"A": {"UUID": 1, "filepath": "a.png"},
"Bad": {"UUID": 2}, "C": {"UUID": 3, "filepath": "c.png"}},
"audios": {"S": {"UUID": 4, "filepath": "s.wav"}}}`: the second texture has no
`"filepath"`. -/
def badMiddleDoc : JValue :=
  .obj [("textures", .obj [("A", entryValue 1 "a.png"),
      ("Bad", .obj [("UUID", .number 2)]), ("C", entryValue 3 "c.png")]),
    ("audios", .obj [("S", entryValue 4 "s.wav")])]

/-- The document `{"textures": {"A": {"UUID": 1, "filepath": "a.png"}},
"audios": {"S": {"UUID": 4, "filepath": "s.wav"}}}`, without `"fonts"`. -/
def noFontsDoc : JValue :=
  .obj [("textures", .obj [("A", entryValue 1 "a.png")]),
    ("audios", .obj [("S", entryValue 4 "s.wav")])]

/-- A registry after one load per kind on a fresh registry: the image `A`
(identifier 100), the audio clip `S` (101) and the font `F` (102). -/
def wThree : World :=
  loadFont "F" "f.ttf" (loadAudio "S" "s.wav" (loadTexture "A" "a.png" w0))

/-- An editor map with one entry per kind: the image `T` (identifier 1), the
audio clip `S` (2) and the font `F` (3). -/
def onePerKind : UMap Asset_Type EditorEntries :=
  [(ASSET_TEXTURES, [(1, ("T", "t.png"))]), ( ASSET_AUDIO, [(2, ("S", "s.wav"))]),
    (ASSET_FONT, [(3, ("F", "f.ttf"))])]

/-- An editor map with two images and one audio clip, and no font. -/
def noFontMap : UMap Asset_Type EditorEntries :=
  [(ASSET_TEXTURES, [(1, ("T", "t.png")), (5, ("U", "u.png"))]),
    ( ASSET_AUDIO, [(2, ("S", "s.wav"))])]

/-- The document `{"textures": {"A": {"UUID": 7, "filepath": "a.png"}},
"audios": {"S": {"UUID": 7, "filepath": "s.wav"}}}`: one identifier in two
sections. -/
def sharedIdDoc : JValue :=
  .obj [("textures", .obj [("A", entryValue 7 "a.png")]),
    ("audios", .obj [("S", entryValue 7 "s.wav")])]

/-- Modelled from the spec: a stand-in for `Body::Set`, which is declared
outside the sources at hand. It stores its three arguments and leaves the
other fields of the body as they were. -/
def bodySet (b : Body) (scale : Vec2) (mass : ℚ) (type : Int) : Body :=
  { b with width := scale, mass := mass, bodytype := type }

/-- The prefab document `{"GemComponent": 5, "UIComponent": {}}`: the value
of the first member is not an object. -/
def badGemDoc : JValue := .obj [("GemComponent", .number 5), ("UIComponent", .obj [])]

/-- The prefab document whose single key is `GemComponent`, NUL, `x`. -/
def nulTagDoc : JValue :=
  .obj [(String.mk ("GemComponent".data ++ [Char.ofNat 0, 'x']), .obj [])]

/-- The prefab document `{"TransformComponent": {"Identity": 3, "Rotation": 90},
"Bogus": 1, "NameComponent": {"Name": "hero"}}`: the second key is no
component type. -/
def mixedPrefabDoc : JValue :=
  .obj [("TransformComponent", .obj [("Identity", .number 3), ("Rotation", .number 90)]),
    ("Bogus", .number 1), ("NameComponent", .obj [("Name", .str "hero")])]

/-- A sprite whose texture key has a NUL character: `a`, NUL, `b`. -/
def nulSprite : SpriteComponent := { m_TexKey := nulName }

/-- A camera that moves along `x`: velocity `(1, 2)`, field of view 60. -/
def movingCamera : CameraComponent := { m_FOV := 60, velocity := ⟨1, 2⟩ }

/-- A rigid body of mass 5, 2 wide and 3 high. -/
def heavyBody : RigidBody2DComponent := { m_body := { width := ⟨2, 3⟩, mass := 5 } }

/-- A control map with one control, named `a`, NUL, `b`. -/
def nulAudio : AudioComponent := { m_AudioControlMap := [(nulName, {})] }

/-- A control map with two controls. -/
def twoControls : AudioComponent :=
  { m_EntityIdentity := 4,
    m_AudioControlMap :=
      [("jump", { UUID := 7, m_AudioKey := "jump.wav", m_IsLooping := false, m_Volume := 1 }),
       ("theme", { UUID := 8, m_AudioKey := "theme.ogg", m_IsLooping := true, m_Volume := 1 / 2 })] }

/-- The transform the authors' tester populates. -/
def testerTransform : TransformComponent :=
  { m_Transform := ⟨111, 111⟩, m_Scale := ⟨111, 111⟩, m_Rotation := 111 }

/-- The movement the authors' tester populates. -/
def testerMovement : MovementComponent := { m_Direction := ⟨222, 222⟩, m_Speed := 222 }

/-- The primitive the authors' tester populates. -/
def testerPrimitive : PrimitiveComponent :=
  { m_PrimitiveID := 1, m_Offset := 3, m_Color := ⟨3 / 10, 3 / 10, 3 / 10⟩, m_Alpha := 3 / 10 }

/-- The sprite the authors' tester populates. -/
def testerSprite : SpriteComponent :=
  { m_TexKey := "MoleEnenmy", m_Color := ⟨4 / 10, 4 / 10, 4 / 10⟩ }

/-- A reader whose `Color` has two elements, and which has an `Alpha`. -/
def shortColor : List (String × JValue) :=
  [("Color", .arr [.number 1, .number 2]), ("Alpha", .number 1)]

/-- A reader whose `Transform` has two elements. -/
def shortTransform : List (String × JValue) :=
  [("Transform", .arr [.number 1, .number 2])]

/-- The registry after `loadTexture("A", "a.png")` on a fresh registry. -/
def wTexture : World := loadTexture "A" "a.png" w0

end Examples

/-! ## Facts about `UMap` -/

namespace UMap

variable {K V : Type} [DecidableEq K]

@[simp] theorem find?_nil (k : K) : find? ([] : UMap K V) k = none := rfl

theorem find?_cons (k' : K) (v : V) (m : UMap K V) (k : K) :
    find? ((k', v) :: m) k = if k' = k then some v else find? m k := rfl

theorem find?_eq_none_iff (m : UMap K V) (k : K) : find? m k = none ↔ k ∉ keys m := by
  induction m with
  | nil => simp [keys]
  | cons e m ih =>
    obtain ⟨k', v⟩ := e
    by_cases h : k' = k
    · simp [find?_cons, keys, h]
    · have h' : ¬ k = k' := fun c => h c.symm
      simpa [find?_cons, keys, h, h'] using ih

theorem contains_iff (m : UMap K V) (k : K) : contains m k = true ↔ k ∈ keys m := by
  unfold contains
  cases hf : find? m k with
  | none => simpa using (find?_eq_none_iff m k).1 hf
  | some v =>
    have : ¬ find? m k = none := by simp [hf]
    simpa using fun c => this ((find?_eq_none_iff m k).2 c)

theorem contains_eq_false_iff (m : UMap K V) (k : K) : contains m k = false ↔ k ∉ keys m := by
  rw [← contains_iff]; simp

theorem mem_of_find? {m : UMap K V} {k : K} {v : V} (h : find? m k = some v) : (k, v) ∈ m := by
  induction m with
  | nil => simp at h
  | cons e m ih =>
    obtain ⟨k', v'⟩ := e
    by_cases hk : k' = k
    · simp [find?_cons, hk] at h
      simp [hk, h]
    · simp [find?_cons, hk] at h
      exact List.mem_cons_of_mem _ (ih h)

theorem find?_append (m n : UMap K V) (k : K) :
    find? (m ++ n) k = match find? m k with
      | some v => some v
      | none => find? n k := by
  induction m with
  | nil => simp
  | cons e m ih =>
    obtain ⟨k', v⟩ := e
    by_cases h : k' = k
    · simp [find?_cons, h]
    · simpa [find?_cons, h] using ih

theorem find?_mapVal {W : Type} (g : V → W) (m : UMap K V) (k : K) :
    find? (m.map (fun e => (e.1, g e.2))) k = (find? m k).map g := by
  induction m with
  | nil => simp
  | cons e m ih =>
    obtain ⟨k', v⟩ := e
    by_cases h : k' = k
    · simp [find?_cons, h]
    · simpa [find?_cons, h] using ih

/-! ### `erase` -/

theorem find?_erase_self (m : UMap K V) (k : K) : find? (erase m k) k = none := by
  rw [find?_eq_none_iff]
  simp [keys, erase, List.mem_filter]

theorem find?_erase_ne (m : UMap K V) {k j : K} (h : j ≠ k) :
    find? (erase m k) j = find? m j := by
  induction m with
  | nil => simp [erase]
  | cons e m ih =>
    obtain ⟨k', v⟩ := e
    by_cases hk : k' = k
    · have hj : ¬ k' = j := fun c => h (c.symm.trans hk)
      have : erase ((k', v) :: m) k = erase m k := by simp [erase, hk]
      rw [this, ih, find?_cons, if_neg hj]
    · have : erase ((k', v) :: m) k = (k', v) :: erase m k := by simp [erase, hk]
      rw [this, find?_cons, find?_cons, ih]

theorem erase_erase (m : UMap K V) (k : K) : erase (erase m k) k = erase m k := by
  simp [erase, List.filter_filter]

theorem mem_erase_iff (m : UMap K V) (k : K) (e : K × V) :
    e ∈ erase m k ↔ e ∈ m ∧ e.1 ≠ k := by
  simp [erase, List.mem_filter]

/-! ### `modify` -/

theorem keys_modify (m : UMap K V) (k : K) (f : V → V) : keys (modify m k f) = keys m := by
  unfold keys modify
  rw [List.map_map]
  apply List.map_congr_left
  intro e _
  by_cases h : e.1 = k <;> simp [h]

theorem find?_modify_self (m : UMap K V) (k : K) (f : V → V) :
    find? (modify m k f) k = (find? m k).map f := by
  induction m with
  | nil => simp [modify]
  | cons e m ih =>
    obtain ⟨k', v⟩ := e
    by_cases h : k' = k
    · simp [modify, find?_cons, h]
    · simpa [modify, find?_cons, h] using ih

theorem find?_modify_ne (m : UMap K V) {k j : K} (f : V → V) (h : j ≠ k) :
    find? (modify m k f) j = find? m j := by
  induction m with
  | nil => simp [modify]
  | cons e m ih =>
    obtain ⟨k', v⟩ := e
    by_cases hk : k' = k
    · have hj : ¬ k = j := fun c => h c.symm
      simpa [modify, find?_cons, hk, hj] using ih
    · by_cases hj : k' = j
      · subst hj
        simp [modify, find?_cons, hk]
      · simpa [modify, find?_cons, hk, hj] using ih

theorem contains_modify (m : UMap K V) (k j : K) (f : V → V) :
    contains (modify m k f) j = contains m j := by
  by_cases h : j = k
  · subst h; simp [contains, find?_modify_self]
  · simp [contains, find?_modify_ne m f h]

theorem modify_modify (m : UMap K V) (k : K) (f g : V → V) :
    modify (modify m k f) k g = modify m k (fun v => g (f v)) := by
  unfold modify
  rw [List.map_map]
  apply List.map_congr_left
  intro e _
  by_cases h : e.1 = k <;> simp [h]

theorem modify_congr (m : UMap K V) (k : K) {f g : V → V} (h : ∀ v, f v = g v) :
    modify m k f = modify m k g := by
  have : f = g := funext h
  rw [this]

theorem modify_id (m : UMap K V) (k : K) {f : V → V} (h : ∀ v, f v = v) :
    modify m k f = m := by
  unfold modify
  conv_rhs => rw [← List.map_id m]
  apply List.map_congr_left
  intro e _
  obtain ⟨k', v⟩ := e
  by_cases he : k' = k <;> simp [he, h]

end UMap

/-! ### `index` and `update` -/

namespace UMap

variable {K V : Type} [DecidableEq K] [Inhabited V]

theorem index_of_contains {m : UMap K V} {k : K} (h : contains m k = true) :
    index m k = m := by
  simp [index, h]

theorem index_of_not_contains {m : UMap K V} {k : K} (h : contains m k = false) :
    index m k = m ++ [(k, default)] := by
  simp [index, h]

theorem find?_index_self (m : UMap K V) (k : K) : find? (index m k) k = some (get m k) := by
  unfold index get
  cases hf : find? m k with
  | some v => simp [contains, hf]
  | none => simp [contains, hf, find?_append, find?_cons]

theorem find?_index_ne (m : UMap K V) {k j : K} (h : j ≠ k) :
    find? (index m k) j = find? m j := by
  unfold index
  by_cases hc : contains m k = true
  · simp [hc]
  · have hk : ¬ k = j := fun c => h c.symm
    simp only [hc, if_false, Bool.false_eq_true]
    rw [find?_append]
    cases find? m j <;> simp [find?_cons, hk]

theorem contains_index_self (m : UMap K V) (k : K) : contains (index m k) k = true := by
  simp [contains, find?_index_self]

theorem index_index (m : UMap K V) (k : K) : index (index m k) k = index m k :=
  index_of_contains (contains_index_self m k)

theorem get_index_self (m : UMap K V) (k : K) : get (index m k) k = get m k := by
  simp [get, find?_index_self]

theorem find?_update_self (m : UMap K V) (k : K) (f : V → V) :
    find? (update m k f) k = some (f (get m k)) := by
  simp [update, find?_modify_self, find?_index_self]

theorem find?_update_ne (m : UMap K V) {k j : K} (f : V → V) (h : j ≠ k) :
    find? (update m k f) j = find? m j := by
  simp [update, find?_modify_ne _ f h, find?_index_ne m h]

theorem get_update_self (m : UMap K V) (k : K) (f : V → V) :
    get (update m k f) k = f (get m k) := by
  simp [get, find?_update_self]

theorem get_update_ne (m : UMap K V) {k j : K} (f : V → V) (h : j ≠ k) :
    get (update m k f) j = get m j := by
  simp [get, find?_update_ne m f h]

theorem contains_update_self (m : UMap K V) (k : K) (f : V → V) :
    contains (update m k f) k = true := by
  simp [contains, find?_update_self]

theorem contains_update (m : UMap K V) (k j : K) (f : V → V) :
    contains (update m k f) j = (contains m j || decide (j = k)) := by
  by_cases h : j = k
  · subst h; simp [contains_update_self]
  · simp [contains, find?_update_ne m f h, h]

theorem update_of_contains {m : UMap K V} {k : K} (f : V → V) (h : contains m k = true) :
    update m k f = modify m k f := by
  simp [update, index_of_contains h]

theorem update_of_not_contains {m : UMap K V} {k : K} (f : V → V)
    (h : contains m k = false) : update m k f = m ++ [(k, f default)] := by
  have hm : modify m k f = m := by
    unfold modify
    conv_rhs => rw [← List.map_id m]
    apply List.map_congr_left
    intro e he
    have hk : e.1 ≠ k := by
      intro c
      have : k ∈ keys m := by
        rw [← c]; exact List.mem_map_of_mem Prod.fst he
      exact ((contains_eq_false_iff m k).1 h) this
    simp [hk]
  rw [update, index_of_not_contains h]
  show modify (m ++ [(k, default)]) k f = _
  unfold modify at hm ⊢
  rw [List.map_append, hm]
  simp

theorem update_update (m : UMap K V) (k : K) (f g : V → V) :
    update (update m k f) k g = update m k (fun v => g (f v)) := by
  have h : contains (update m k f) k = true := contains_update_self m k f
  rw [update_of_contains g h, update, modify_modify, ← update]

theorem index_update (m : UMap K V) (k : K) (f : V → V) :
    index (update m k f) k = update m k f :=
  index_of_contains (contains_update_self m k f)

theorem update_index (m : UMap K V) (k : K) (f : V → V) :
    update (index m k) k f = update m k f := by
  simp [update, index_index]

theorem keys_update_of_contains {m : UMap K V} {k : K} (f : V → V)
    (h : contains m k = true) : keys (update m k f) = keys m := by
  rw [update_of_contains f h, keys_modify]

end UMap

/-! ## Facts about the helpers on `World` -/

namespace World

@[simp] theorem ANALYTICS_am (w : World) (msg : String) : (w.ANALYTICS msg).am = w.am := rfl
@[simp] theorem ANALYTICS_calls (w : World) (msg : String) : (w.ANALYTICS msg).calls = w.calls := rfl
@[simp] theorem ANALYTICS_files (w : World) (msg : String) : (w.ANALYTICS msg).files = w.files := rfl
@[simp] theorem ANALYTICS_engine (w : World) (msg : String) :
    (w.ANALYTICS msg).s_Engine = w.s_Engine := rfl
@[simp] theorem ANALYTICS_writable (w : World) (msg : String) :
    (w.ANALYTICS msg).writable = w.writable := rfl
@[simp] theorem ANALYTICS_editor (w : World) (msg : String) (K : Asset_Type) :
    (w.ANALYTICS msg).editor K = w.editor K := rfl

@[simp] theorem call_am (w : World) (c : ExtCall) : (w.call c).am = w.am := rfl
@[simp] theorem call_calls (w : World) (c : ExtCall) : (w.call c).calls = w.calls ++ [c] := rfl
@[simp] theorem call_files (w : World) (c : ExtCall) : (w.call c).files = w.files := rfl
@[simp] theorem call_engine (w : World) (c : ExtCall) : (w.call c).s_Engine = w.s_Engine := rfl
@[simp] theorem call_writable (w : World) (c : ExtCall) : (w.call c).writable = w.writable := rfl
@[simp] theorem call_editor (w : World) (c : ExtCall) (K : Asset_Type) :
    (w.call c).editor K = w.editor K := rfl

theorem editor_eq_nil_of_not_contains {w : World} {K : Asset_Type}
    (h : UMap.contains w.am.m_EditorMap K = false) : w.editor K = [] := by
  unfold UMap.contains at h
  cases hf : UMap.find? w.am.m_EditorMap K with
  | none => simp [editor, UMap.get, hf]; rfl
  | some v => simp [hf] at h

theorem contains_of_mem_editor {w : World} {K : Asset_Type} {e : UUID × (String × String)}
    (h : e ∈ w.editor K) : UMap.contains w.am.m_EditorMap K = true := by
  by_contra hc
  have hc' : UMap.contains w.am.m_EditorMap K = false := by simpa using hc
  rw [editor_eq_nil_of_not_contains hc'] at h
  simp at h

theorem touchEditor_of_contains {w : World} {K : Asset_Type}
    (h : UMap.contains w.am.m_EditorMap K = true) : w.touchEditor K = w := by
  unfold touchEditor
  rw [UMap.index_of_contains h]

theorem touchEditor_audioMap (w : World) (K : Asset_Type) :
    (w.touchEditor K).am.m_audioMap = w.am.m_audioMap := rfl

theorem touchEditor_EditorMap (w : World) (K : Asset_Type) :
    (w.touchEditor K).am.m_EditorMap = UMap.index w.am.m_EditorMap K := rfl

theorem touchEditor_calls (w : World) (K : Asset_Type) :
    (w.touchEditor K).calls = w.calls := rfl

@[simp] theorem touchEditor_editor (w : World) (K : Asset_Type) :
    (w.touchEditor K).editor K = w.editor K := by
  simp [touchEditor, editor, UMap.get_index_self]

end World

theorem pathLoaded_iff (entries : EditorEntries) (p : String) :
    pathLoaded entries p = true ↔ ∃ e ∈ entries, e.2.2 = p := by
  simp only [pathLoaded, List.any_eq_true, decide_eq_true_eq]
  constructor
  · rintro ⟨e, he, h⟩; exact ⟨e, he, h.symm⟩
  · rintro ⟨e, he, h⟩; exact ⟨e, he, h.symm⟩

theorem pathLoaded_eq_false_iff (entries : EditorEntries) (p : String) :
    pathLoaded entries p = false ↔ ∀ e ∈ entries, e.2.2 ≠ p := by
  rw [← Bool.not_eq_true, pathLoaded_iff]
  constructor
  · intro h e he hp; exact h ⟨e, he, hp⟩
  · rintro h ⟨e, he, hp⟩; exact h e he hp

@[simp] theorem SerializeEditorMap_am (E : UMap Asset_Type EditorEntries) (w : World) :
    (SerializeEditorMap E w).am = w.am := by
  unfold SerializeEditorMap
  by_cases h1 : UMap.contains E ASSET_TEXTURES = true <;> by_cases h2 : w.writable = true <;>
    simp [h1, h2, World.ANALYTICS]

@[simp] theorem SerializeEditorMap_calls (E : UMap Asset_Type EditorEntries) (w : World) :
    (SerializeEditorMap E w).calls = w.calls := by
  unfold SerializeEditorMap
  by_cases h1 : UMap.contains E ASSET_TEXTURES = true <;> by_cases h2 : w.writable = true <;>
    simp [h1, h2, World.ANALYTICS]

@[simp] theorem SerializeEditorMap_engine (E : UMap Asset_Type EditorEntries) (w : World) :
    (SerializeEditorMap E w).s_Engine = w.s_Engine := by
  unfold SerializeEditorMap
  by_cases h1 : UMap.contains E ASSET_TEXTURES = true <;> by_cases h2 : w.writable = true <;>
    simp [h1, h2, World.ANALYTICS]

theorem SerializeEditorMap_files (E : UMap Asset_Type EditorEntries) (w : World) :
    (SerializeEditorMap E w).files =
      if w.writable then UMap.update w.files serializedPath (fun _ => some (editorMapDocument E))
      else w.files := by
  unfold SerializeEditorMap
  by_cases h1 : UMap.contains E ASSET_TEXTURES = true <;> by_cases h2 : w.writable = true <;>
    simp [h1, h2, World.ANALYTICS]

/-- What `loadTexture` does when no texture entry has the path. -/
theorem loadTexture_fields (n p : String) (w : World)
    (h : pathLoaded (w.editor ASSET_TEXTURES) p = false) :
    (loadTexture n p w).am.m_textureMap
        = UMap.update w.am.m_textureMap (nextUUID w) (fun _ => (⟨some p⟩, n)) ∧
    (loadTexture n p w).am.m_EditorMap
        = UMap.update w.am.m_EditorMap ASSET_TEXTURES
            (fun inner => UMap.update inner (nextUUID w) (fun _ => (n, p))) ∧
    (loadTexture n p w).am.m_audioMap = w.am.m_audioMap ∧
    (loadTexture n p w).am.m_fontMap = w.am.m_fontMap ∧
    (loadTexture n p w).calls = w.calls ++ [ExtCall.LoadTexture p] ∧
    (loadTexture n p w).s_Engine = { w.s_Engine with pos := w.s_Engine.pos + 1 } ∧
    (loadTexture n p w).files = if w.writable then
        UMap.update w.files serializedPath
          (fun _ => some (editorMapDocument (loadTexture n p w).am.m_EditorMap))
      else w.files := by
  have h' : pathLoaded ((w.touchEditor ASSET_TEXTURES).editor ASSET_TEXTURES) p = false := by
    rw [World.touchEditor_editor]; exact h
  simp only [loadTexture, h', Bool.false_eq_true, if_false]
  simp [UUID.generateUUID, UUID.random, World.setTexture, World.setEditor,
    World.touchEntry, World.touchEditor, nextUUID, UMap.update_update, UMap.update_index,
    UMap.index_update, Texture.LoadTexture, SerializeEditorMap_files]

/-- What `loadAudio` does when no audio entry has the path. -/
theorem loadAudio_fields (n p : String) (w : World)
    (h : pathLoaded (w.editor ASSET_AUDIO) p = false) :
    (loadAudio n p w).am.m_audioMap
        = UMap.update w.am.m_audioMap (nextUUID w) (fun _ => n) ∧
    (loadAudio n p w).am.m_EditorMap
        = UMap.update w.am.m_EditorMap ASSET_AUDIO
            (fun inner => UMap.update inner (nextUUID w) (fun _ => (n, p))) ∧
    (loadAudio n p w).am.m_textureMap = w.am.m_textureMap ∧
    (loadAudio n p w).am.m_fontMap = w.am.m_fontMap ∧
    (loadAudio n p w).calls = w.calls ++ [ExtCall.LoadAudio n p] ∧
    (loadAudio n p w).s_Engine = { w.s_Engine with pos := w.s_Engine.pos + 1 } ∧
    (loadAudio n p w).files = if w.writable then
        UMap.update w.files serializedPath
          (fun _ => some (editorMapDocument (loadAudio n p w).am.m_EditorMap))
      else w.files := by
  have h' : pathLoaded ((w.touchEditor ASSET_AUDIO).editor ASSET_AUDIO) p = false := by
    rw [World.touchEditor_editor]; exact h
  simp only [loadAudio, h', Bool.false_eq_true, if_false]
  simp [UUID.generateUUID, UUID.random, World.setAudio, World.setEditor, World.call,
    World.touchEntry, World.touchEditor, nextUUID, UMap.update_update, UMap.update_index,
    UMap.index_update, SerializeEditorMap_files]

/-- What `loadFont` does when no font entry has the path. -/
theorem loadFont_fields (n p : String) (w : World)
    (h : pathLoaded (w.editor ASSET_FONT) p = false) :
    (loadFont n p w).am.m_fontMap
        = UMap.update w.am.m_fontMap (nextUUID w) (fun _ => (⟨some p⟩, n)) ∧
    (loadFont n p w).am.m_EditorMap
        = UMap.update w.am.m_EditorMap ASSET_FONT
            (fun inner => UMap.update inner (nextUUID w) (fun _ => (n, p))) ∧
    (loadFont n p w).am.m_textureMap = w.am.m_textureMap ∧
    (loadFont n p w).am.m_audioMap = w.am.m_audioMap ∧
    (loadFont n p w).calls = w.calls ++ [ExtCall.LoadFont p] ∧
    (loadFont n p w).s_Engine = { w.s_Engine with pos := w.s_Engine.pos + 1 } ∧
    (loadFont n p w).files = if w.writable then
        UMap.update w.files serializedPath
          (fun _ => some (editorMapDocument (loadFont n p w).am.m_EditorMap))
      else w.files := by
  have h' : pathLoaded ((w.touchEditor ASSET_FONT).editor ASSET_FONT) p = false := by
    rw [World.touchEditor_editor]; exact h
  simp only [loadFont, h', Bool.false_eq_true, if_false]
  simp [UUID.generateUUID, UUID.random, World.setFont, World.setEditor,
    World.touchEntry, World.touchEditor, nextUUID, UMap.update_update, UMap.update_index,
    UMap.index_update, Font.LoadFont, SerializeEditorMap_files]

/-- What each `load*` does when an entry of its kind has the path: only the
warning is logged. -/
theorem load_of_loaded (K : Asset_Type) (hK : K.IsKind) (n p : String) (w : World)
    (h : pathLoaded (w.editor K) p = true) :
    load K n p w = w.ANALYTICS (duplicateWarning K n) := by
  obtain ⟨e, he, _⟩ := (pathLoaded_iff _ _).1 h
  have hc := World.contains_of_mem_editor he
  rcases hK with rfl | rfl | rfl
  · simp [load, loadTexture, World.touchEditor_of_contains hc, h, duplicateWarning]
  · simp [load, loadAudio, World.touchEditor_of_contains hc, h, duplicateWarning]
  · simp [load, loadFont, World.touchEditor_of_contains hc, h, duplicateWarning]

namespace UMap

variable {K V : Type} [DecidableEq K]

theorem modify_of_not_mem_keys {m : UMap K V} {k : K} (f : V → V) (h : k ∉ keys m) :
    modify m k f = m := by
  unfold modify
  conv_rhs => rw [← List.map_id m]
  apply List.map_congr_left
  intro e he
  have hk : e.1 ≠ k := by
    intro c
    exact h (by rw [← c]; exact List.mem_map_of_mem Prod.fst he)
  simp [hk]

theorem filter_modify_unique {m : UMap K V} (hwf : WF m) {k : K} (v : V) (P : K × V → Bool)
    (hk : k ∈ keys m) (hP : P (k, v) = true) (hm : ∀ e ∈ m, P e = false) :
    (modify m k (fun _ => v)).filter P = [(k, v)] := by
  induction m with
  | nil => simp [keys] at hk
  | cons e m ih =>
    obtain ⟨k', x⟩ := e
    have hnd : k' ∉ keys m ∧ WF m := by
      simpa [WF, keys] using hwf
    have hfm : m.filter P = [] := by
      rw [List.filter_eq_nil_iff]
      intro a ha
      simpa using hm a (List.mem_cons_of_mem _ ha)
    by_cases h : k' = k
    · subst h
      have hmod : modify ((k', x) :: m) k' (fun _ => v) = (k', v) :: m := by
        have := modify_of_not_mem_keys (fun _ => v) hnd.1
        simp [modify] at this ⊢
        exact this
      rw [hmod, List.filter_cons, hP]
      simp [hfm]
    · have hk' : k ∈ keys m := by
        have : k = k' ∨ k ∈ keys m := by simpa [keys] using hk
        rcases this with c | c
        · exact absurd c.symm h
        · exact c
      have hx : P (k', x) = false := hm _ (List.mem_cons_self _ _)
      have hmod : modify ((k', x) :: m) k (fun _ => v) = (k', x) :: modify m k (fun _ => v) := by
        simp [modify, h]
      rw [hmod, List.filter_cons, hx]
      simpa using ih hnd.2 hk' (fun e he => hm e (List.mem_cons_of_mem _ he))

theorem filter_update_unique [Inhabited V] {m : UMap K V} (hwf : WF m) (k : K) (v : V)
    (P : K × V → Bool) (hP : P (k, v) = true) (hm : ∀ e ∈ m, P e = false) :
    (update m k (fun _ => v)).filter P = [(k, v)] := by
  by_cases hc : contains m k = true
  · rw [update_of_contains _ hc]
    exact filter_modify_unique hwf v P ((contains_iff m k).1 hc) hP hm
  · have hc' : contains m k = false := by simpa using hc
    have hfm : m.filter P = [] := by
      rw [List.filter_eq_nil_iff]
      intro a ha
      simpa using hm a ha
    rw [update_of_not_contains _ hc', List.filter_append, hfm]
    simp [hP]

theorem map_update_const [Inhabited V] {W : Type} [Inhabited W] (g : V → W)
    (hg : g default = default) (m : UMap K V) (k : K) (v : V) :
    (update m k (fun _ => v)).map (fun e => (e.1, g e.2))
      = update (m.map (fun e => (e.1, g e.2))) k (fun _ => g v) := by
  have hcont : contains (m.map (fun e => (e.1, g e.2))) k = contains m k := by
    simp [contains, find?_mapVal]
  have hmod : ∀ l : UMap K V, (modify l k (fun _ => v)).map (fun e => (e.1, g e.2))
      = modify (l.map (fun e => (e.1, g e.2))) k (fun _ => g v) := by
    intro l
    unfold modify
    rw [List.map_map, List.map_map]
    apply List.map_congr_left
    intro e _
    by_cases he : e.1 = k <;> simp [he]
  unfold update index
  rw [hcont]
  by_cases hc : contains m k = true
  · simp only [hc, if_true]; exact hmod m
  · simp only [hc, if_false, Bool.false_eq_true]
    rw [hmod]
    simp [hg]

end UMap

/-- What `load(name, path)` of kind `K` does when no entry of kind `K` has the
path, in terms of the store of `K` and the editor map. -/
theorem load_of_not_loaded (K : Asset_Type) (hK : K.IsKind) (n p : String) (w : World)
    (h : pathLoaded (w.editor K) p = false) :
    (load K n p w).store K
        = UMap.update (w.store K) (nextUUID w) (fun _ => (loadedHandle K p, n)) ∧
    (load K n p w).am.m_EditorMap
        = UMap.update w.am.m_EditorMap K
            (fun inner => UMap.update inner (nextUUID w) (fun _ => (n, p))) ∧
    (load K n p w).calls = w.calls ++ [loadCall K n p] ∧
    (load K n p w).s_Engine = { w.s_Engine with pos := w.s_Engine.pos + 1 } ∧
    (load K n p w).files = if w.writable then
        UMap.update w.files serializedPath
          (fun _ => some (editorMapDocument (load K n p w).am.m_EditorMap))
      else w.files := by
  rcases hK with rfl | rfl | rfl
  · obtain ⟨h1, h2, _, _, h5, h6, h7⟩ := loadTexture_fields n p w h
    refine ⟨?_, h2, h5, h6, h7⟩
    show ((loadTexture n p w).am.m_textureMap.map _) = _
    rw [h1]
    exact UMap.map_update_const (fun (v : TexPathPair) => (v.1.handle, v.2)) rfl _ _ _
  · obtain ⟨h1, h2, _, _, h5, h6, h7⟩ := loadAudio_fields n p w h
    refine ⟨?_, h2, h5, h6, h7⟩
    show ((loadAudio n p w).am.m_audioMap.map _) = _
    rw [h1]
    exact UMap.map_update_const (fun (v : String) => ((none : Option String), v)) rfl _ _ _
  · obtain ⟨h1, h2, _, _, h5, h6, h7⟩ := loadFont_fields n p w h
    refine ⟨?_, h2, h5, h6, h7⟩
    show ((loadFont n p w).am.m_fontMap.map _) = _
    rw [h1]
    exact UMap.map_update_const (fun (v : FontPathPair) => (v.1.handle, v.2)) rfl _ _ _

/-- The editor entries of kind `K` after an inserting `load` of kind `K`. -/
theorem load_editor_self (K : Asset_Type) (hK : K.IsKind) (n p : String) (w : World)
    (h : pathLoaded (w.editor K) p = false) :
    (load K n p w).editor K = UMap.update (w.editor K) (nextUUID w) (fun _ => (n, p)) := by
  have h2 := (load_of_not_loaded K hK n p w h).2.1
  simp [World.editor, h2, UMap.get_update_self]

/-- The editor entries of another kind are not touched by an inserting `load`. -/
theorem load_editor_ne (K K' : Asset_Type) (hK : K.IsKind) (hne : K' ≠ K) (n p : String)
    (w : World) (h : pathLoaded (w.editor K) p = false) :
    (load K n p w).editor K' = w.editor K' := by
  have h2 := (load_of_not_loaded K hK n p w h).2.1
  simp [World.editor, h2, UMap.get_update_ne _ _ hne]

theorem World.store_congr {w w' : World} (h : w'.am = w.am) (K : Asset_Type) :
    w'.store K = w.store K := by
  cases K <;> simp [World.store, h]

theorem World.editor_congr {w w' : World} (h : w'.am = w.am) (K : Asset_Type) :
    w'.editor K = w.editor K := by
  simp [World.editor, h]

/-! ## Loading a path twice -/

/-- Claim C2. For each kind `K`: in a state `w` where some editor-map entry of
kind `K` has file path `p`, `load K n p` changes neither the registry (the three
stores, the editor map), nor the random engine (no identifier is generated), nor
the external calls (no load primitive is invoked), nor the files (nothing is
written). Hence, starting from any state `w0` where no entry of kind `K` has
path `p`, a load under `n1` followed by a load of the same path under any `n2`
leaves the registry as the first load left it; the editor map of `K` then has
exactly one entry with path `p`, named `n1`, whose identifier the store of `K`
maps to the name `n1`; and from a fresh registry the store of `K` has that one
entry and no other. -/
theorem load_known_path_is_noop (K : Asset_Type) (hK : K.IsKind) (n p : String) (w : World)
    (hp : ∃ e ∈ w.editor K, e.2.2 = p)
    (n1 n2 : String) (w0 : World) (hwf : UMap.WF (w0.editor K))
    (h0 : ∀ e ∈ w0.editor K, e.2.2 ≠ p) :
    ((load K n p w).am = w.am ∧ (load K n p w).s_Engine = w.s_Engine ∧
      (load K n p w).calls = w.calls ∧ (load K n p w).files = w.files) ∧
    ((load K n2 p (load K n1 p w0)).am = (load K n1 p w0).am ∧
      ((load K n2 p (load K n1 p w0)).editor K).filter (fun e => decide (e.2.2 = p))
        = [(nextUUID w0, (n1, p))] ∧
      UMap.find? ((load K n2 p (load K n1 p w0)).store K) (nextUUID w0)
        = some (loadedHandle K p, n1)) ∧
    (∀ (e : Engine) (files : UMap String (Option JValue)),
      (load K n2 p (load K n1 p (World.fresh e files))).store K
        = [(nextUUID (World.fresh e files), (loadedHandle K p, n1))]) := by
  have key : ∀ v : World, pathLoaded (v.editor K) p = false →
      (load K n2 p (load K n1 p v)).am = (load K n1 p v).am := by
    intro v hv
    have hed := load_editor_self K hK n1 p v hv
    have hmem : (nextUUID v, (n1, p)) ∈ (load K n1 p v).editor K := by
      apply UMap.mem_of_find?
      rw [hed, UMap.find?_update_self]
    have hl : pathLoaded ((load K n1 p v).editor K) p = true :=
      (pathLoaded_iff _ _).2 ⟨_, hmem, rfl⟩
    rw [load_of_loaded K hK n2 p _ hl]
    rfl
  refine ⟨?_, ?_, ?_⟩
  · have hl : pathLoaded (w.editor K) p = true := (pathLoaded_iff _ _).2 hp
    rw [load_of_loaded K hK n p w hl]
    exact ⟨rfl, rfl, rfl, rfl⟩
  · have h0' : pathLoaded (w0.editor K) p = false := (pathLoaded_eq_false_iff _ _).2 h0
    have ham := key w0 h0'
    refine ⟨ham, ?_, ?_⟩
    · rw [World.editor_congr ham, load_editor_self K hK n1 p w0 h0']
      apply UMap.filter_update_unique hwf
      · simp
      · intro e he
        simpa using h0 e he
    · rw [World.store_congr ham, (load_of_not_loaded K hK n1 p w0 h0').1,
        UMap.find?_update_self]
  · intro e files
    have hf : pathLoaded ((World.fresh e files).editor K) p = false := by
      cases K <;> rfl
    rw [World.store_congr (key _ hf), (load_of_not_loaded K hK n1 p _ hf).1]
    rcases hK with rfl | rfl | rfl <;>
      simp [World.store, World.fresh, UMap.update, UMap.index, UMap.contains, UMap.modify]

/-- Claim C2 at a concrete input: textures, the path `a.png` loaded under `A`
and then under `B`. -/
theorem load_known_path_is_noop_witness :
    (Asset_Type.IsKind ASSET_TEXTURES ∧
      (∃ e ∈ (loadTexture "A" "a.png" Examples.w0).editor ASSET_TEXTURES, e.2.2 = "a.png") ∧
      UMap.WF (Examples.w0.editor ASSET_TEXTURES) ∧
      (∀ e ∈ Examples.w0.editor ASSET_TEXTURES, e.2.2 ≠ "a.png")) ∧
    ((load ASSET_TEXTURES "B" "a.png" (load ASSET_TEXTURES "A" "a.png" Examples.w0)).editor
        ASSET_TEXTURES).filter (fun e => decide (e.2.2 = "a.png"))
      = [(100, ("A", "a.png"))] :=
  ⟨⟨Or.inl rfl, by decide, by decide, by decide⟩,
    (load_known_path_is_noop ASSET_TEXTURES (Or.inl rfl) "B" "a.png"
      (loadTexture "A" "a.png" Examples.w0) (by decide) "A" "B" Examples.w0
      (by decide) (by decide)).2.1.2.1⟩

/-! ## Loading a new path -/

/-- Claim C3, as stated, fails: after `initAssetManager` on the document
`{"fonts": {"F": {"UUID": 100, "filepath": "f.ttf"}}}` no texture entry has the
path `t.png` and the next identifier, 100, is not a key of the texture store;
yet `loadTexture "T" "t.png"` does not add an entry to the texture editor map:
it overwrites the entry of 100, which `initAssetManager` had put there. -/
theorem load_new_path_counterexample :
    returned (initAssetManager (Examples.wFonts Examples.counting)) = true ∧
    (∀ e ∈ (finalState (initAssetManager (Examples.wFonts Examples.counting))).editor
        ASSET_TEXTURES, e.2.2 ≠ "t.png") ∧
    nextUUID (finalState (initAssetManager (Examples.wFonts Examples.counting)))
      ∉ UMap.keys ((finalState (initAssetManager (Examples.wFonts Examples.counting))).store
          ASSET_TEXTURES) ∧
    (finalState (initAssetManager (Examples.wFonts Examples.counting))).editor ASSET_TEXTURES
      = [(100, ("F", "f.ttf"))] ∧
    (load ASSET_TEXTURES "T" "t.png"
        (finalState (initAssetManager (Examples.wFonts Examples.counting)))).editor ASSET_TEXTURES
      = [(100, ("T", "t.png"))] ∧
    ¬ ((load ASSET_TEXTURES "T" "t.png"
        (finalState (initAssetManager (Examples.wFonts Examples.counting)))).editor ASSET_TEXTURES
      = (finalState (initAssetManager (Examples.wFonts Examples.counting))).editor ASSET_TEXTURES
          ++ [(100, ("T", "t.png"))]) := by
  refine ⟨by rfl, by decide, by decide, by rfl, by rfl, by decide⟩

/-- Claim C3, amended. For each kind `K`, any name `n` and any state in which no
editor-map entry of kind `K` has path `p`: when the generated identifier `u` is
a key neither of the store of `K` nor of the editor map of `K`, `load K n p`
appends to the store of `K` the entry `u ↦ (handle loaded from p, n)` (for audio
`u ↦ n`), invokes the load primitive of `K` once (for audio with `(n, p)`), and
appends `u ↦ (n, p)` to the editor map of `K`; both maps grow by one entry and
every identifier that was a key keeps its entry. -/
theorem load_new_path_inserts (K : Asset_Type) (hK : K.IsKind) (n p : String) (w : World)
    (h : ∀ e ∈ w.editor K, e.2.2 ≠ p)
    (hu : nextUUID w ∉ UMap.keys (w.store K))
    (hu' : nextUUID w ∉ UMap.keys (w.editor K)) :
    (load K n p w).store K = w.store K ++ [(nextUUID w, (loadedHandle K p, n))] ∧
    (load K n p w).calls = w.calls ++ [loadCall K n p] ∧
    (load K n p w).editor K = w.editor K ++ [(nextUUID w, (n, p))] ∧
    ((load K n p w).store K).length = (w.store K).length + 1 ∧
    ((load K n p w).editor K).length = (w.editor K).length + 1 ∧
    (∀ j, j ≠ nextUUID w →
      UMap.find? ((load K n p w).store K) j = UMap.find? (w.store K) j ∧
      UMap.find? ((load K n p w).editor K) j = UMap.find? (w.editor K) j) := by
  have h' : pathLoaded (w.editor K) p = false := (pathLoaded_eq_false_iff _ _).2 h
  obtain ⟨hs, _, hc, _, _⟩ := load_of_not_loaded K hK n p w h'
  have he := load_editor_self K hK n p w h'
  have hs' : (load K n p w).store K = w.store K ++ [(nextUUID w, (loadedHandle K p, n))] := by
    rw [hs]
    exact UMap.update_of_not_contains _ ((UMap.contains_eq_false_iff _ _).2 hu)
  have he' : (load K n p w).editor K = w.editor K ++ [(nextUUID w, (n, p))] := by
    rw [he]
    exact UMap.update_of_not_contains _ ((UMap.contains_eq_false_iff _ _).2 hu')
  refine ⟨hs', hc, he', by simp [hs'], by simp [he'], ?_⟩
  intro j hj
  rw [hs, he]
  exact ⟨UMap.find?_update_ne _ _ hj, UMap.find?_update_ne _ _ hj⟩

/-- Claim C3, amended, at a concrete input: the first texture of a fresh
registry. -/
theorem load_new_path_inserts_witness :
    (Asset_Type.IsKind ASSET_TEXTURES ∧
      (∀ e ∈ Examples.w0.editor ASSET_TEXTURES, e.2.2 ≠ "a.png") ∧
      nextUUID Examples.w0 ∉ UMap.keys (Examples.w0.store ASSET_TEXTURES) ∧
      nextUUID Examples.w0 ∉ UMap.keys (Examples.w0.editor ASSET_TEXTURES)) ∧
    (load ASSET_TEXTURES "A" "a.png" Examples.w0).store ASSET_TEXTURES
      = Examples.w0.store ASSET_TEXTURES
          ++ [(nextUUID Examples.w0, (loadedHandle ASSET_TEXTURES "a.png", "A"))] :=
  ⟨⟨Or.inl rfl, by decide, by decide, by decide⟩,
    (load_new_path_inserts ASSET_TEXTURES (Or.inl rfl) "A" "a.png" Examples.w0
      (by decide) (by decide) (by decide)).1⟩

/-! ## The document written by `SerializeEditorMap` -/

theorem serializeEntries_obj (entries : EditorEntries) (acc : List (String × JValue)) :
    serializeEntries entries (JValue.obj acc)
      = JValue.obj (acc ++ entries.map (fun e => (c_str e.2.1, assetObj e.1 e.2))) := by
  induction entries generalizing acc with
  | nil => simp [serializeEntries]
  | cons e es ih =>
    have := ih (acc ++ [(c_str e.2.1, assetObj e.1 e.2)])
    simp only [serializeEntries, List.foldl_cons, JValue.AddMember] at this ⊢
    rw [this]
    simp

theorem sectionMembers_editorMapDocument (E : UMap Asset_Type EditorEntries) (K : Asset_Type)
    (hK : K.IsKind) (hc : UMap.contains E K = true) :
    sectionMembers (editorMapDocument E) K
      = (UMap.get E K).map (fun e => (c_str e.2.1, assetObj e.1 e.2)) := by
  rcases hK with rfl | rfl | rfl
  · by_cases h2 : UMap.contains E ASSET_AUDIO = true <;>
      by_cases h3 : UMap.contains E ASSET_FONT = true <;>
      simp [sectionMembers, editorMapDocument, hc, h2, h3, JValue.AddMember, JValue.member,
        JValue.members, JValue.findMember, sectionKey, serializeEntries_obj]
  · by_cases h1 : UMap.contains E ASSET_TEXTURES = true <;>
      by_cases h3 : UMap.contains E ASSET_FONT = true <;>
      simp [sectionMembers, editorMapDocument, hc, h1, h3, JValue.AddMember, JValue.member,
        JValue.members, JValue.findMember, sectionKey, serializeEntries_obj]
  · by_cases h1 : UMap.contains E ASSET_TEXTURES = true <;>
      by_cases h2 : UMap.contains E ASSET_AUDIO = true <;>
      simp [sectionMembers, editorMapDocument, hc, h1, h2, JValue.AddMember, JValue.member,
        JValue.members, JValue.findMember, sectionKey, serializeEntries_obj]

theorem docContains_of_mem (E : UMap Asset_Type EditorEntries) (K : Asset_Type)
    (hK : K.IsKind) (e : UUID × (String × String)) (he : e ∈ UMap.get E K)
    (hc : UMap.contains E K = true) : docContains (editorMapDocument E) K e := by
  unfold docContains
  rw [sectionMembers_editorMapDocument E K hK hc]
  exact List.mem_map_of_mem (fun e => (c_str e.2.1, assetObj e.1 e.2)) he

theorem UMap.mem_update_of_ne {K V : Type} [DecidableEq K] [Inhabited V] {m : UMap K V}
    {e : K × V} (k : K) (f : V → V) (he : e ∈ m) (hne : e.1 ≠ k) : e ∈ UMap.update m k f := by
  have hmod : ∀ l : UMap K V, e ∈ l → e ∈ UMap.modify l k f := by
    intro l hl
    unfold UMap.modify
    have := List.mem_map_of_mem (fun e => if e.1 = k then (e.1, f e.2) else e) hl
    simpa [hne] using this
  unfold UMap.update
  apply hmod
  unfold UMap.index
  by_cases hc : UMap.contains m k = true
  · simpa [hc] using he
  · simp [hc, he]

/-- Claim C4, as stated, fails: with an engine that yields 100 twice, the
texture `A` gets identifier 100; no texture entry has path `b.png`, so
`loadTexture "B" "b.png"` takes the inserting branch, draws 100 again and
overwrites the entry of `A`. The document it writes is the serialized editor
map, but the entry `(100, A, a.png)`, which was in the editor map before the
call, is not in it. -/
theorem load_writes_editor_map_counterexample :
    (100, ("A", "a.png")) ∈ (loadTexture "A" "a.png" Examples.wStuck).editor ASSET_TEXTURES ∧
    (∀ e ∈ (loadTexture "A" "a.png" Examples.wStuck).editor ASSET_TEXTURES, e.2.2 ≠ "b.png") ∧
    (loadTexture "A" "a.png" Examples.wStuck).writable = true ∧
    UMap.find? (load ASSET_TEXTURES "B" "b.png" (loadTexture "A" "a.png" Examples.wStuck)).files
        serializedPath
      = some (some (editorMapDocument
          (load ASSET_TEXTURES "B" "b.png" (loadTexture "A" "a.png" Examples.wStuck)).am.m_EditorMap)) ∧
    ¬ docContains
        (editorMapDocument
          (load ASSET_TEXTURES "B" "b.png" (loadTexture "A" "a.png" Examples.wStuck)).am.m_EditorMap)
        ASSET_TEXTURES (100, ("A", "a.png")) := by
  refine ⟨by decide, by decide, by rfl, by rfl, ?_⟩
  have hdoc : sectionMembers (editorMapDocument
      (load ASSET_TEXTURES "B" "b.png" (loadTexture "A" "a.png" Examples.wStuck)).am.m_EditorMap)
      ASSET_TEXTURES = [("B", assetObj 100 ("B", "b.png"))] := by rfl
  have hA : c_str "A" = "A" := by decide
  unfold docContains
  rw [hdoc]
  simp [hA]

/-- Claim C4, amended. Whenever `load K n p` takes the inserting branch (no
editor-map entry of kind `K` has path `p`) and the output file can be opened,
the document it writes is exactly the document `SerializeEditorMap` builds from
the editor map after the insertion; it contains the new entry and every entry
of every kind that was in the editor map before the call, except an entry of
kind `K` whose identifier is the generated one (that entry is overwritten). -/
theorem load_writes_editor_map (K : Asset_Type) (hK : K.IsKind) (n p : String) (w : World)
    (h : ∀ e ∈ w.editor K, e.2.2 ≠ p) (hw : w.writable = true) :
    UMap.find? (load K n p w).files serializedPath
      = some (some (editorMapDocument (load K n p w).am.m_EditorMap)) ∧
    docContains (editorMapDocument (load K n p w).am.m_EditorMap) K (nextUUID w, (n, p)) ∧
    (∀ K' : Asset_Type, K'.IsKind → ∀ e ∈ w.editor K', (K' = K → e.1 ≠ nextUUID w) →
      docContains (editorMapDocument (load K n p w).am.m_EditorMap) K' e) := by
  have h' : pathLoaded (w.editor K) p = false := (pathLoaded_eq_false_iff _ _).2 h
  obtain ⟨_, hE, _, _, hf⟩ := load_of_not_loaded K hK n p w h'
  have he := load_editor_self K hK n p w h'
  have hcK : UMap.contains (load K n p w).am.m_EditorMap K = true := by
    rw [hE]; exact UMap.contains_update_self _ _ _
  refine ⟨?_, ?_, ?_⟩
  · rw [hf]
    simp only [hw, if_true]
    exact UMap.find?_update_self _ _ _
  · apply docContains_of_mem _ K hK _ _ hcK
    show (nextUUID w, (n, p)) ∈ (load K n p w).editor K
    apply UMap.mem_of_find?
    rw [he, UMap.find?_update_self]
  · intro K' hK' e hmem hne
    have hc' : UMap.contains (load K n p w).am.m_EditorMap K' = true := by
      rw [hE, UMap.contains_update, World.contains_of_mem_editor hmem]
      rfl
    apply docContains_of_mem _ K' hK' _ _ hc'
    show e ∈ (load K n p w).editor K'
    by_cases hk : K' = K
    · subst hk
      rw [he]
      exact UMap.mem_update_of_ne _ _ hmem (hne rfl)
    · rw [load_editor_ne K K' hK hk n p w h']
      exact hmem

/-- Claim C4, amended, at a concrete input: a second texture with a fresh
identifier; the document holds both entries. -/
theorem load_writes_editor_map_witness :
    (Asset_Type.IsKind ASSET_TEXTURES ∧
      (∀ e ∈ (loadTexture "A" "a.png" Examples.w0).editor ASSET_TEXTURES, e.2.2 ≠ "b.png") ∧
      (loadTexture "A" "a.png" Examples.w0).writable = true) ∧
    docContains
      (editorMapDocument
        (load ASSET_TEXTURES "B" "b.png" (loadTexture "A" "a.png" Examples.w0)).am.m_EditorMap)
      ASSET_TEXTURES (100, ("A", "a.png")) :=
  ⟨⟨Or.inl rfl, by decide, by rfl⟩,
    (load_writes_editor_map ASSET_TEXTURES (Or.inl rfl) "B" "b.png"
      (loadTexture "A" "a.png" Examples.w0) (by decide) (by rfl)).2.2
      ASSET_TEXTURES (Or.inl rfl) (100, ("A", "a.png")) (by decide) (by decide)⟩

/-! ## Unloading an image or a font -/

theorem UMap.map_erase {K V W : Type} [DecidableEq K] (g : V → W) (m : UMap K V) (k : K) :
    (UMap.erase m k).map (fun e => (e.1, g e.2))
      = UMap.erase (m.map (fun e => (e.1, g e.2))) k := by
  induction m with
  | nil => rfl
  | cons e m ih =>
    by_cases h : e.1 = k
    · simpa [UMap.erase, h] using ih
    · simpa [UMap.erase, h] using ih

theorem UMap.get_modify_index {K V : Type} [DecidableEq K] [Inhabited V] (m : UMap K V)
    (k : K) (f : V → V) : UMap.get (UMap.modify (UMap.index m k) k f) k = f (UMap.get m k) := by
  simp [UMap.get, UMap.find?_modify_self, UMap.find?_index_self]

theorem UMap.get_modify_index_ne {K V : Type} [DecidableEq K] [Inhabited V] (m : UMap K V)
    {k j : K} (f : V → V) (h : j ≠ k) :
    UMap.get (UMap.modify (UMap.index m k) k f) j = UMap.get m j := by
  simp [UMap.get, UMap.find?_modify_ne _ f h, UMap.find?_index_ne m h]

theorem UMap.modify_index_idem {K V : Type} [DecidableEq K] [Inhabited V] (m : UMap K V)
    (k : K) (f : V → V) (hf : ∀ v, f (f v) = f v) :
    UMap.modify (UMap.index (UMap.modify (UMap.index m k) k f) k) k f
      = UMap.modify (UMap.index m k) k f := by
  have hc : UMap.contains (UMap.modify (UMap.index m k) k f) k = true := by
    rw [UMap.contains_modify]; exact UMap.contains_index_self m k
  rw [UMap.index_of_contains hc, UMap.modify_modify]
  exact UMap.modify_congr _ _ hf

theorem unloadTexture_idem (i : UUID) (w : World) :
    unloadTexture i (unloadTexture i w) = unloadTexture i w := by
  simp [unloadTexture, World.touchEditor, UMap.erase_erase,
    UMap.modify_index_idem _ _ _ (fun v => UMap.erase_erase v i)]

theorem unloadFont_idem (i : UUID) (w : World) :
    unloadFont i (unloadFont i w) = unloadFont i w := by
  simp [unloadFont, World.touchEditor, UMap.erase_erase,
    UMap.modify_index_idem _ _ _ (fun v => UMap.erase_erase v i)]

/-- What `unload(id)` of the image or font kind does to the store and to the
editor entries of its kind. -/
theorem unload_erases (K : Asset_Type) (hK : K.HasHandle) (i : UUID) (w : World) :
    (unload K i w).store K = UMap.erase (w.store K) i ∧
    (unload K i w).editor K = UMap.erase (w.editor K) i := by
  rcases hK with rfl | rfl
  · constructor
    · show ((unloadTexture i w).am.m_textureMap.map _) = _
      simp only [unloadTexture, World.touchEditor]
      exact UMap.map_erase (fun (v : TexPathPair) => (v.1.handle, v.2)) _ _
    · simp [unload, unloadTexture, World.touchEditor, World.editor, UMap.get_modify_index]
  · constructor
    · show ((unloadFont i w).am.m_fontMap.map _) = _
      simp only [unloadFont, World.touchEditor]
      exact UMap.map_erase (fun (v : FontPathPair) => (v.1.handle, v.2)) _ _
    · simp [unload, unloadFont, World.touchEditor, World.editor, UMap.get_modify_index]

/-- Claim C5. For the image and the font kind, every state `w` and every
identifier `i`, present or not: after `unload K i` neither the store of `K` nor
the editor map of `K` has the key `i`; every other identifier keeps its entry in
both; the call is total (it returns a state, no error); and unloading twice
gives the same state as unloading once. -/
theorem unload_removes_and_is_idempotent (K : Asset_Type) (hK : K.HasHandle) (i : UUID)
    (w : World) :
    UMap.find? ((unload K i w).store K) i = none ∧
    UMap.find? ((unload K i w).editor K) i = none ∧
    (∀ j, j ≠ i →
      UMap.find? ((unload K i w).store K) j = UMap.find? (w.store K) j ∧
      UMap.find? ((unload K i w).editor K) j = UMap.find? (w.editor K) j) ∧
    (∀ e, e.1 ≠ i → (e ∈ (unload K i w).store K ↔ e ∈ w.store K)) ∧
    (∀ e, e.1 ≠ i → (e ∈ (unload K i w).editor K ↔ e ∈ w.editor K)) ∧
    unload K i (unload K i w) = unload K i w := by
  obtain ⟨hs, he⟩ := unload_erases K hK i w
  refine ⟨?_, ?_, ?_, ?_, ?_, ?_⟩
  · rw [hs]; exact UMap.find?_erase_self _ _
  · rw [he]; exact UMap.find?_erase_self _ _
  · intro j hj
    rw [hs, he]
    exact ⟨UMap.find?_erase_ne _ hj, UMap.find?_erase_ne _ hj⟩
  · intro e hne
    rw [hs, UMap.mem_erase_iff]
    exact ⟨fun h => h.1, fun h => ⟨h, hne⟩⟩
  · intro e hne
    rw [he, UMap.mem_erase_iff]
    exact ⟨fun h => h.1, fun h => ⟨h, hne⟩⟩
  · rcases hK with rfl | rfl
    · exact unloadTexture_idem i w
    · exact unloadFont_idem i w

/-- Claim C5 at a concrete input: the texture 100 of a registry that holds it,
unloaded twice. -/
theorem unload_removes_and_is_idempotent_witness :
    Asset_Type.HasHandle ASSET_TEXTURES ∧
    UMap.find? ((unload ASSET_TEXTURES 100 (loadTexture "A" "a.png" Examples.w0)).store
      ASSET_TEXTURES) 100 = none ∧
    unload ASSET_TEXTURES 100 (unload ASSET_TEXTURES 100 (loadTexture "A" "a.png" Examples.w0))
      = unload ASSET_TEXTURES 100 (loadTexture "A" "a.png" Examples.w0) :=
  ⟨Or.inl rfl,
    (unload_removes_and_is_idempotent ASSET_TEXTURES (Or.inl rfl) 100
      (loadTexture "A" "a.png" Examples.w0)).1,
    (unload_removes_and_is_idempotent ASSET_TEXTURES (Or.inl rfl) 100
      (loadTexture "A" "a.png" Examples.w0)).2.2.2.2.2⟩

/-! ## Unloading an audio clip -/

theorem unloadAudioStep_ne (i : UUID) (acc : Bool × World) (e : UUID × (String × String))
    (h : e.1 ≠ i) : unloadAudioStep i acc e = acc := by
  have h' : ¬ i = e.1 := fun c => h c.symm
  simp [unloadAudioStep, h']

theorem unloadAudioStep_eq (i : UUID) (acc : Bool × World) (e : UUID × (String × String))
    (h : e.1 = i) : unloadAudioStep i acc e = (true, unloadAudioFound i acc.2) := by
  simp [unloadAudioStep, unloadAudioFound, h]

theorem unloadAudio_loop_absent (i : UUID) (entries : EditorEntries) (acc : Bool × World)
    (h : i ∉ UMap.keys entries) : entries.foldl (unloadAudioStep i) acc = acc := by
  induction entries generalizing acc with
  | nil => rfl
  | cons e es ih =>
    have h1 : e.1 ≠ i := by
      intro c; exact h (by simp [UMap.keys, c])
    have h2 : i ∉ UMap.keys es := by
      intro c; exact h (by simp [UMap.keys] at c ⊢; exact Or.inr c)
    rw [List.foldl_cons, unloadAudioStep_ne i acc e h1]
    exact ih acc h2

theorem unloadAudio_loop_present (i : UUID) (entries : EditorEntries) (acc : Bool × World)
    (hwf : UMap.WF entries) (h : i ∈ UMap.keys entries) :
    entries.foldl (unloadAudioStep i) acc = (true, unloadAudioFound i acc.2) := by
  induction entries generalizing acc with
  | nil => simp [UMap.keys] at h
  | cons e es ih =>
    have hnd : e.1 ∉ UMap.keys es ∧ UMap.WF es := by
      simpa [UMap.WF, UMap.keys] using hwf
    rw [List.foldl_cons]
    by_cases he : e.1 = i
    · rw [unloadAudioStep_eq i acc e he]
      exact unloadAudio_loop_absent i es _ (he ▸ hnd.1)
    · rw [unloadAudioStep_ne i acc e he]
      have h' : i ∈ UMap.keys es := by
        have : i = e.1 ∨ i ∈ UMap.keys es := by simpa [UMap.keys] using h
        rcases this with c | c
        · exact absurd c.symm he
        · exact c
      exact ih acc hnd.2 h'

theorem unloadAudioFound_fields (i : UUID) (w : World) :
    (unloadAudioFound i w).am.m_audioMap = UMap.index w.am.m_audioMap i ∧
    (unloadAudioFound i w).am.m_EditorMap = w.am.m_EditorMap ∧
    (unloadAudioFound i w).am.m_textureMap = w.am.m_textureMap ∧
    (unloadAudioFound i w).am.m_fontMap = w.am.m_fontMap ∧
    (unloadAudioFound i w).calls = w.calls ++ [ExtCall.UnLoadAudio (UMap.get w.am.m_audioMap i)] := by
  simp [unloadAudioFound, unloadAudioStep, World.touchAudio, UMap.index_index,
    UMap.get_index_self]

/-- The call `unloadAudio(i)` when the audio editor map has no entry for `i`:
no external call; the audio store ends with the entry `i ↦ ""`, created by the
`m_audioMap[_uuid]` of the last log message. -/
theorem unloadAudio_of_absent (i : UUID) (w : World)
    (h : i ∉ UMap.keys (w.editor ASSET_AUDIO)) :
    (unloadAudio i w).am.m_audioMap = UMap.erase w.am.m_audioMap i ++ [(i, "")] ∧
    (unloadAudio i w).editor ASSET_AUDIO = UMap.erase (w.editor ASSET_AUDIO) i ∧
    (unloadAudio i w).calls = w.calls := by
  have hl : ((w.touchEditor ASSET_AUDIO).editor ASSET_AUDIO).foldl (unloadAudioStep i)
      (false, w.touchEditor ASSET_AUDIO) = (false, w.touchEditor ASSET_AUDIO) := by
    apply unloadAudio_loop_absent
    rw [World.touchEditor_editor]; exact h
  have hc : UMap.contains (UMap.erase w.am.m_audioMap i) i = false := by
    simp [UMap.contains, UMap.find?_erase_self]
  simp only [unloadAudio, hl]
  refine ⟨?_, ?_, ?_⟩
  · simp only [World.touchAudio, World.touchEditor, World.ANALYTICS, Bool.not_false, if_true]
    rw [UMap.index_of_not_contains hc]
    rfl
  · simp [World.touchAudio, World.touchEditor, World.editor, UMap.index_index,
      UMap.get_modify_index]
  · simp [World.touchAudio, World.touchEditor]

/-- The call `unloadAudio(i)` when the audio editor map has an entry for `i`:
the audio primitive is invoked once, with the name `m_audioMap[i]`, and both
entries are erased. -/
theorem unloadAudio_of_present (i : UUID) (w : World) (hwf : UMap.WF (w.editor ASSET_AUDIO))
    (h : i ∈ UMap.keys (w.editor ASSET_AUDIO)) :
    (unloadAudio i w).am.m_audioMap = UMap.erase w.am.m_audioMap i ∧
    (unloadAudio i w).editor ASSET_AUDIO = UMap.erase (w.editor ASSET_AUDIO) i ∧
    (unloadAudio i w).calls = w.calls ++ [ExtCall.UnLoadAudio (UMap.get w.am.m_audioMap i)] := by
  have hl : ((w.touchEditor ASSET_AUDIO).editor ASSET_AUDIO).foldl (unloadAudioStep i)
      (false, w.touchEditor ASSET_AUDIO)
        = (true, unloadAudioFound i (w.touchEditor ASSET_AUDIO)) := by
    apply unloadAudio_loop_present
    · rw [World.touchEditor_editor]; exact hwf
    · rw [World.touchEditor_editor]; exact h
  obtain ⟨h1, h2, _, _, h5⟩ := unloadAudioFound_fields i (w.touchEditor ASSET_AUDIO)
  rw [World.touchEditor_audioMap] at h1 h5
  rw [World.touchEditor_EditorMap] at h2
  rw [World.touchEditor_calls] at h5
  simp only [unloadAudio, hl]
  refine ⟨?_, ?_, ?_⟩
  · simp only [Bool.not_true, Bool.false_eq_true, if_false, World.touchEditor_audioMap, h1]
    unfold UMap.index
    by_cases hc : UMap.contains w.am.m_audioMap i = true
    · simp [hc]
    · simp [hc, UMap.erase, List.filter_append]
  · simp only [Bool.not_true, Bool.false_eq_true, if_false, World.editor,
      World.touchEditor_EditorMap, h2, UMap.index_index, UMap.get_modify_index]
  · simp only [Bool.not_true, Bool.false_eq_true, if_false, World.touchEditor_calls, h5]

/-! ## Modifying an image or a font -/

theorem UMap.map_update {K V W : Type} [DecidableEq K] [Inhabited V] [Inhabited W]
    (g : V → W) (hg : g default = default) (f : V → V) (f' : W → W)
    (hf : ∀ v, g (f v) = f' (g v)) (m : UMap K V) (k : K) :
    (UMap.update m k f).map (fun e => (e.1, g e.2))
      = UMap.update (m.map (fun e => (e.1, g e.2))) k f' := by
  have hcont : UMap.contains (m.map (fun e => (e.1, g e.2))) k = UMap.contains m k := by
    simp [UMap.contains, UMap.find?_mapVal]
  have hmod : ∀ l : UMap K V, (UMap.modify l k f).map (fun e => (e.1, g e.2))
      = UMap.modify (l.map (fun e => (e.1, g e.2))) k f' := by
    intro l
    unfold UMap.modify
    rw [List.map_map, List.map_map]
    apply List.map_congr_left
    intro e _
    by_cases he : e.1 = k <;> simp [he, hf]
  unfold UMap.update UMap.index
  rw [hcont]
  by_cases hc : UMap.contains m k = true
  · simp only [hc, if_true]; exact hmod m
  · simp only [hc, if_false, Bool.false_eq_true]
    rw [hmod]
    simp [hg]

theorem UMap.keys_update_of_find? {K V : Type} [DecidableEq K] [Inhabited V] {m : UMap K V}
    {k : K} {v : V} (f : V → V) (h : UMap.find? m k = some v) :
    UMap.keys (UMap.update m k f) = UMap.keys m :=
  UMap.keys_update_of_contains f (by simp [UMap.contains, h])

theorem UMap.get_of_find? {K V : Type} [DecidableEq K] [Inhabited V] {m : UMap K V}
    {k : K} {v : V} (h : UMap.find? m k = some v) : UMap.get m k = v := by
  simp [UMap.get, h]

theorem UMap.get_of_find?_none {K V : Type} [DecidableEq K] [Inhabited V] {m : UMap K V}
    {k : K} (h : UMap.find? m k = none) : UMap.get m k = default := by
  simp [UMap.get, h]

/-- What `modifyTexture` does to the fields of the registry. -/
theorem modifyTexture_fields (i : UUID) (p : String) (w : World) :
    (modifyTexture i p w).am.m_textureMap
        = UMap.update w.am.m_textureMap i (fun v => (⟨some p⟩, v.2)) ∧
    (modifyTexture i p w).am.m_EditorMap
        = UMap.update w.am.m_EditorMap ASSET_TEXTURES
            (fun inner => UMap.update inner i (fun v => (v.1, p))) ∧
    (modifyTexture i p w).calls
        = w.calls ++ [ExtCall.UnloadTexture (UMap.get w.am.m_textureMap i).1.handle,
            ExtCall.LoadTexture p] := by
  simp [modifyTexture, World.setTexture, World.setEditor, World.touchEntry,
    UMap.update_update, UMap.index_update, Texture.LoadTexture, Texture.UnloadTexture]

/-- What `modifyFont` does to the fields of the registry. -/
theorem modifyFont_fields (i : UUID) (p : String) (w : World) :
    (modifyFont i p w).am.m_fontMap
        = UMap.update w.am.m_fontMap i (fun v => (⟨some p⟩, v.2)) ∧
    (modifyFont i p w).am.m_EditorMap
        = UMap.update w.am.m_EditorMap ASSET_FONT
            (fun inner => UMap.update inner i (fun v => (v.1, p))) ∧
    (modifyFont i p w).calls
        = w.calls ++ [ExtCall.UnloadFont (UMap.get w.am.m_fontMap i).1.handle,
            ExtCall.LoadFont p] := by
  simp [modifyFont, World.setFont, World.setEditor, World.touchEntry,
    UMap.update_update, UMap.index_update, Font.LoadFont, Font.UnloadFont]

/-- What `modify(id, newPath)` of the image or font kind does, in terms of the
store of the kind, its editor entries and the external calls. -/
theorem modify_fields (K : Asset_Type) (hK : K.HasHandle) (i : UUID) (p : String) (w : World) :
    (modify K i p w).store K = UMap.update (w.store K) i (fun v => (some p, v.2)) ∧
    (modify K i p w).editor K = UMap.update (w.editor K) i (fun v => (v.1, p)) ∧
    (modify K i p w).calls
      = w.calls ++ [releaseCall K (UMap.get (w.store K) i).1, loadCall K "" p] := by
  rcases hK with rfl | rfl
  · obtain ⟨h1, h2, h3⟩ := modifyTexture_fields i p w
    refine ⟨?_, ?_, ?_⟩
    · show ((modifyTexture i p w).am.m_textureMap.map _) = _
      rw [h1]
      exact UMap.map_update (fun (v : TexPathPair) => (v.1.handle, v.2)) rfl _ _
        (fun _ => rfl) _ _
    · simp [modify, World.editor, h2, UMap.get_update_self]
    · have hg : (UMap.get (w.store ASSET_TEXTURES) i).1
          = (UMap.get w.am.m_textureMap i).1.handle := by
        simp only [World.store, UMap.get,
          UMap.find?_mapVal (fun (v : TexPathPair) => (v.1.handle, v.2))]
        cases UMap.find? w.am.m_textureMap i <;> rfl
      simp [modify, h3, hg, releaseCall, loadCall]
  · obtain ⟨h1, h2, h3⟩ := modifyFont_fields i p w
    refine ⟨?_, ?_, ?_⟩
    · show ((modifyFont i p w).am.m_fontMap.map _) = _
      rw [h1]
      exact UMap.map_update (fun (v : FontPathPair) => (v.1.handle, v.2)) rfl _ _
        (fun _ => rfl) _ _
    · simp [modify, World.editor, h2, UMap.get_update_self]
    · have hg : (UMap.get (w.store ASSET_FONT) i).1
          = (UMap.get w.am.m_fontMap i).1.handle := by
        simp only [World.store, UMap.get,
          UMap.find?_mapVal (fun (v : FontPathPair) => (v.1.handle, v.2))]
        cases UMap.find? w.am.m_fontMap i <;> rfl
      simp [modify, h3, hg, releaseCall, loadCall]

/-- The entry `get(id)` of the image or font kind returns: the store entry of
`id` when there is one, a default entry otherwise. -/
theorem get_eq (K : Asset_Type) (hK : K.HasHandle) (i : UUID) (w : World) :
    (get K i w).1 = (UMap.find? (w.store K) i).getD (none, "") := by
  rcases hK with rfl | rfl
  · simp only [get, getTexture, World.store, UMap.contains, UMap.get,
      UMap.find?_mapVal (fun (v : TexPathPair) => (v.1.handle, v.2))]
    cases UMap.find? w.am.m_textureMap i <;> rfl
  · simp only [get, getFont, World.store, UMap.contains, UMap.get,
      UMap.find?_mapVal (fun (v : FontPathPair) => (v.1.handle, v.2))]
    cases UMap.find? w.am.m_fontMap i <;> rfl

/-- Claim C8. For the image and the font kind and every state in which `i` is a
key of the store of `K` (entry `(h, n)`) and of the editor map of `K` (entry
`(n, p0)`): after `modify K i p'` the store entry of `i` has the name `n` and a
handle loaded from `p'`, the old handle `h` having been released and a load
from `p'` invoked, in that order; the editor entry of `i` is `(n, p')`; both
maps have the same keys as before; every other identifier keeps its entries; and
`get K i` then returns `(handle loaded from p', n)`. -/
theorem modify_present_updates_path (K : Asset_Type) (hK : K.HasHandle) (i : UUID)
    (n p0 p' : String) (h : Option String) (w : World)
    (hs : UMap.find? (w.store K) i = some (h, n))
    (he : UMap.find? (w.editor K) i = some (n, p0)) :
    UMap.find? ((modify K i p' w).store K) i = some (some p', n) ∧
    (modify K i p' w).calls = w.calls ++ [releaseCall K h, loadCall K n p'] ∧
    UMap.find? ((modify K i p' w).editor K) i = some (n, p') ∧
    UMap.keys ((modify K i p' w).store K) = UMap.keys (w.store K) ∧
    UMap.keys ((modify K i p' w).editor K) = UMap.keys (w.editor K) ∧
    (∀ j, j ≠ i →
      UMap.find? ((modify K i p' w).store K) j = UMap.find? (w.store K) j ∧
      UMap.find? ((modify K i p' w).editor K) j = UMap.find? (w.editor K) j) ∧
    (get K i (modify K i p' w)).1 = (some p', n) := by
  obtain ⟨h1, h2, h3⟩ := modify_fields K hK i p' w
  have hstore : UMap.find? ((modify K i p' w).store K) i = some (some p', n) := by
    rw [h1, UMap.find?_update_self, UMap.get_of_find? hs]
  refine ⟨hstore, ?_, ?_, ?_, ?_, ?_, ?_⟩
  · rw [h3, UMap.get_of_find? hs]
    rcases hK with rfl | rfl <;> rfl
  · rw [h2, UMap.find?_update_self, UMap.get_of_find? he]
  · rw [h1]; exact UMap.keys_update_of_find? _ hs
  · rw [h2]; exact UMap.keys_update_of_find? _ he
  · intro j hj
    rw [h1, h2]
    exact ⟨UMap.find?_update_ne _ _ hj, UMap.find?_update_ne _ _ hj⟩
  · rw [get_eq K hK, hstore]
    rfl

/-- Claim C8 at a concrete input: the texture 100, loaded from `a.png` under
`A`, modified to `b.png`. -/
theorem modify_present_updates_path_witness :
    (Asset_Type.HasHandle ASSET_TEXTURES ∧
      UMap.find? ((loadTexture "A" "a.png" Examples.w0).store ASSET_TEXTURES) 100
        = some (some "a.png", "A") ∧
      UMap.find? ((loadTexture "A" "a.png" Examples.w0).editor ASSET_TEXTURES) 100
        = some ("A", "a.png")) ∧
    UMap.find? ((modify ASSET_TEXTURES 100 "b.png"
        (loadTexture "A" "a.png" Examples.w0)).store ASSET_TEXTURES) 100
      = some (some "b.png", "A") ∧
    UMap.find? ((modify ASSET_TEXTURES 100 "b.png"
        (loadTexture "A" "a.png" Examples.w0)).editor ASSET_TEXTURES) 100
      = some ("A", "b.png") :=
  ⟨⟨Or.inl rfl, by decide, by decide⟩,
    (modify_present_updates_path ASSET_TEXTURES (Or.inl rfl) 100 "A" "a.png" "b.png"
      (some "a.png") (loadTexture "A" "a.png" Examples.w0) (by decide) (by decide)).1,
    (modify_present_updates_path ASSET_TEXTURES (Or.inl rfl) 100 "A" "a.png" "b.png"
      (some "a.png") (loadTexture "A" "a.png" Examples.w0) (by decide) (by decide)).2.2.1⟩

/-- Claim C9. For the image and the font kind and every state in which `i` is a
key neither of the store of `K` nor of the editor map of `K`: `modify K i p`
checks nothing and creates both entries; afterwards the store of `K` maps `i`
to an empty display name with a handle loaded from `p`, and the editor map of
`K` maps `i` to `("", p)`. -/
theorem modify_absent_creates_entries (K : Asset_Type) (hK : K.HasHandle) (i : UUID)
    (p : String) (w : World)
    (hs : UMap.find? (w.store K) i = none)
    (he : UMap.find? (w.editor K) i = none) :
    UMap.find? ((modify K i p w).store K) i = some (some p, "") ∧
    UMap.find? ((modify K i p w).editor K) i = some ("", p) ∧
    (modify K i p w).store K = w.store K ++ [(i, (some p, ""))] ∧
    (modify K i p w).editor K = w.editor K ++ [(i, ("", p))] := by
  obtain ⟨h1, h2, _⟩ := modify_fields K hK i p w
  have hcs : UMap.contains (w.store K) i = false := by simp [UMap.contains, hs]
  have hce : UMap.contains (w.editor K) i = false := by simp [UMap.contains, he]
  refine ⟨?_, ?_, ?_, ?_⟩
  · rw [h1, UMap.find?_update_self, UMap.get_of_find?_none hs]; rfl
  · rw [h2, UMap.find?_update_self, UMap.get_of_find?_none he]; rfl
  · rw [h1, UMap.update_of_not_contains _ hcs]; rfl
  · rw [h2, UMap.update_of_not_contains _ hce]; rfl

/-- Claim C9 at a concrete input: `modifyTexture(7, "b.png")` on a fresh
registry. -/
theorem modify_absent_creates_entries_witness :
    (Asset_Type.HasHandle ASSET_TEXTURES ∧
      UMap.find? (Examples.w0.store ASSET_TEXTURES) 7 = none ∧
      UMap.find? (Examples.w0.editor ASSET_TEXTURES) 7 = none) ∧
    UMap.find? ((modify ASSET_TEXTURES 7 "b.png" Examples.w0).store ASSET_TEXTURES) 7
      = some (some "b.png", "") ∧
    UMap.find? ((modify ASSET_TEXTURES 7 "b.png" Examples.w0).editor ASSET_TEXTURES) 7
      = some ("", "b.png") :=
  ⟨⟨Or.inl rfl, by decide, by decide⟩,
    (modify_absent_creates_entries ASSET_TEXTURES (Or.inl rfl) 7 "b.png" Examples.w0
      (by decide) (by decide)).1,
    (modify_absent_creates_entries ASSET_TEXTURES (Or.inl rfl) 7 "b.png" Examples.w0
      (by decide) (by decide)).2.1⟩

/-! ## Looking an identifier up by name -/

theorem firstNamed_map {A B : Type} (g : A → B) (m : UMap UUID (A × String)) (n : String) :
    firstNamed (m.map (fun e => (e.1, (g e.2.1, e.2.2)))) n = firstNamed m n := by
  induction m with
  | nil => rfl
  | cons e m ih =>
    obtain ⟨u, a, x⟩ := e
    by_cases h : x = n
    · simp [firstNamed, h]
    · simpa [firstNamed, h] using ih

theorem firstNamedAudio_eq (m : UMap UUID String) (n : String) :
    firstNamed (m.map (fun e => (e.1, ((none : Option String), e.2)))) n
      = firstNamedAudio m n := by
  induction m with
  | nil => rfl
  | cons e m ih =>
    obtain ⟨u, x⟩ := e
    by_cases h : x = n
    · simp [firstNamed, firstNamedAudio, h]
    · simpa [firstNamed, firstNamedAudio, h] using ih

/-- The operation `getUUIDByName` of each kind scans the store of the kind. -/
theorem getUUID_eq (K : Asset_Type) (hK : K.IsKind) (n : String) (w : World) :
    getUUID K n w = match firstNamed (w.store K) n with
      | some uuid => (uuid, w)
      | none => UUID.random w := by
  rcases hK with rfl | rfl | rfl
  · simp only [getUUID, getTextureUUID, World.store]
    rw [firstNamed_map (fun (t : Texture) => t.handle)]
  · simp only [getUUID, getAudioUUID, World.store]
    rw [firstNamedAudio_eq]
  · simp only [getUUID, getFontUUID, World.store]
    rw [firstNamed_map (fun (t : Font) => t.handle)]

theorem firstNamed_split {A : Type} (m : UMap UUID (A × String)) (n : String)
    (h : ∃ e ∈ m, e.2.2 = n) :
    ∃ u l₁ v l₂, firstNamed m n = some u ∧ m = l₁ ++ (u, v) :: l₂ ∧ v.2 = n ∧
      ∀ e ∈ l₁, e.2.2 ≠ n := by
  induction m with
  | nil => simp at h
  | cons e m ih =>
    obtain ⟨u, v⟩ := e
    by_cases hv : v.2 = n
    · exact ⟨u, [], v, m, by simp [firstNamed, hv], rfl, hv, by simp⟩
    · have h' : ∃ e ∈ m, e.2.2 = n := by
        obtain ⟨e, he, hn⟩ := h
        rcases List.mem_cons.1 he with c | c
        · subst c; exact absurd hn hv
        · exact ⟨e, c, hn⟩
      obtain ⟨u', l₁, v', l₂, h1, h2, h3, h4⟩ := ih h'
      refine ⟨u', (u, v) :: l₁, v', l₂, by simp [firstNamed, hv, h1], by simp [h2], h3, ?_⟩
      intro e he
      rcases List.mem_cons.1 he with c | c
      · subst c; exact hv
      · exact h4 e c

/-- Claim C10. For each kind `K`, whenever some entry of the store of `K` has
the display name `n`, `getUUID K n` changes nothing (the state it returns is
the state it was given) and returns the key of the first entry, in iteration
order, whose name is `n`: the store splits as `l₁ ++ (i, v) :: l₂` with `i` the
returned identifier, `v` named `n` and no entry of `l₁` named `n`. When only one
entry has that name, the result is its key. -/
theorem getUUID_returns_first_named (K : Asset_Type) (hK : K.IsKind) (n : String) (w : World)
    (h : ∃ e ∈ w.store K, e.2.2 = n) :
    (getUUID K n w).2 = w ∧
    (∃ l₁ v l₂, w.store K = l₁ ++ ((getUUID K n w).1, v) :: l₂ ∧ v.2 = n ∧
      ∀ e ∈ l₁, e.2.2 ≠ n) ∧
    (∀ e ∈ w.store K, e.2.2 = n → (∀ e' ∈ w.store K, e'.2.2 = n → e' = e) →
      (getUUID K n w).1 = e.1) := by
  obtain ⟨u, l₁, v, l₂, h1, h2, h3, h4⟩ := firstNamed_split (w.store K) n h
  have hg : getUUID K n w = (u, w) := by
    rw [getUUID_eq K hK, h1]
  rw [hg]
  refine ⟨rfl, ⟨l₁, v, l₂, h2, h3, h4⟩, ?_⟩
  intro e _ _ huniq
  have hmem : (u, v) ∈ w.store K := by
    rw [h2]; simp
  have := huniq (u, v) hmem h3
  rw [← this]

/-- Claim C10 at a concrete input: two textures, the second one named `B`. -/
theorem getUUID_returns_first_named_witness :
    Asset_Type.IsKind ASSET_TEXTURES ∧
    (∃ e ∈ (loadTexture "B" "b.png" (loadTexture "A" "a.png" Examples.w0)).store
        ASSET_TEXTURES, e.2.2 = "B") ∧
    (getUUID ASSET_TEXTURES "B"
        (loadTexture "B" "b.png" (loadTexture "A" "a.png" Examples.w0))).2
      = loadTexture "B" "b.png" (loadTexture "A" "a.png" Examples.w0) :=
  ⟨Or.inl rfl, by decide,
    (getUUID_returns_first_named ASSET_TEXTURES (Or.inl rfl) "B"
      (loadTexture "B" "b.png" (loadTexture "A" "a.png" Examples.w0)) (by decide)).1⟩

/-! ## Where the store and the editor map fall apart -/

theorem consistent_fresh (e : Engine) (files : UMap String (Option JValue)) :
    Consistent (World.fresh e files) := by
  intro K hK i n
  have hd : UMap.find? (default : EditorEntries) i = none := rfl
  rcases hK with rfl | rfl | rfl <;>
    simp [World.fresh, World.store, World.editor, UMap.get, hd]

/-- Claim C1, evaluated where it fails. A fresh registry is consistent. After
`initAssetManager` on `{"fonts": {"F": {"UUID": 100, "filepath": "f.ttf"}}}` the
font store has the identifier 100 named `F`, the font editor map has no entry
for 100 and the texture editor map has one: the state is not consistent. After
`unloadAudio(5)` on a fresh registry the audio store has the identifier 5 with
an empty name and the audio editor map has no entry for 5: not consistent
either. -/
theorem consistent_broken_by_init_fonts_and_unloadAudio :
    Consistent (Examples.wFonts Examples.counting) ∧
    returned (initAssetManager (Examples.wFonts Examples.counting)) = true ∧
    (finalState (initAssetManager (Examples.wFonts Examples.counting))).store ASSET_FONT
      = [(100, (some "f.ttf", "F"))] ∧
    (finalState (initAssetManager (Examples.wFonts Examples.counting))).editor ASSET_FONT = [] ∧
    (finalState (initAssetManager (Examples.wFonts Examples.counting))).editor ASSET_TEXTURES
      = [(100, ("F", "f.ttf"))] ∧
    ¬ Consistent (finalState (initAssetManager (Examples.wFonts Examples.counting))) ∧
    Consistent Examples.w0 ∧
    (unloadAudio 5 Examples.w0).store ASSET_AUDIO = [(5, (none, ""))] ∧
    (unloadAudio 5 Examples.w0).editor ASSET_AUDIO = [] ∧
    ¬ Consistent (unloadAudio 5 Examples.w0) := by
  refine ⟨consistent_fresh _ _, by rfl, by rfl, by rfl, by rfl, ?_,
    consistent_fresh _ _, by rfl, by rfl, ?_⟩
  · intro hc
    have h := (hc ASSET_FONT (Or.inr (Or.inr rfl)) 100 "F").1 ⟨some "f.ttf", by decide⟩
    obtain ⟨p, hp⟩ := h
    have hnone : UMap.find?
        ((finalState (initAssetManager (Examples.wFonts Examples.counting))).editor ASSET_FONT)
        100 = none := by decide
    rw [hnone] at hp
    exact Option.noConfusion hp
  · intro hc
    have h := (hc ASSET_AUDIO (Or.inr (Or.inl rfl)) 5 "").1 ⟨none, by decide⟩
    obtain ⟨p, hp⟩ := h
    have hnone : UMap.find? ((unloadAudio 5 Examples.w0).editor ASSET_AUDIO) 5 = none := by
      decide
    rw [hnone] at hp
    exact Option.noConfusion hp

/-- Claim C6, evaluated where it fails. For every state and every identifier,
after two calls of `unloadAudio(i)` the audio store has an entry for `i`, with
an empty name: the second call finds no editor entry and its last log message
evaluates `m_audioMap[_uuid]` after the erase. On the registry that holds the
clip `s` under 100, one call leaves the audio store empty and the second call
leaves `100 ↦ ""` in it. -/
theorem unloadAudio_twice_leaves_entry :
    (∀ (i : UUID) (w : World),
      UMap.find? (unloadAudio i (unloadAudio i w)).am.m_audioMap i = some "") ∧
    (unloadAudio 100 (loadAudio "s" "s.wav" Examples.w0)).am.m_audioMap = [] ∧
    (unloadAudio 100 (unloadAudio 100 (loadAudio "s" "s.wav" Examples.w0))).am.m_audioMap
      = [(100, "")] := by
  refine ⟨?_, by rfl, by rfl⟩
  intro i w
  have hed : (unloadAudio i w).am.m_EditorMap
      = UMap.modify (UMap.index w.am.m_EditorMap ASSET_AUDIO) ASSET_AUDIO
          (fun inner => UMap.erase inner i) := by
    have hloop : ∀ (l : EditorEntries) (acc : Bool × World),
        (l.foldl (unloadAudioStep i) acc).2.am.m_EditorMap = acc.2.am.m_EditorMap := by
      intro l
      induction l with
      | nil => intro acc; rfl
      | cons e es ih =>
        intro acc
        rw [List.foldl_cons, ih]
        by_cases he : e.1 = i
        · rw [unloadAudioStep_eq i acc e he]
          exact (unloadAudioFound_fields i acc.2).2.1
        · rw [unloadAudioStep_ne i acc e he]
    have h1 := hloop ((w.touchEditor ASSET_AUDIO).editor ASSET_AUDIO)
      (false, w.touchEditor ASSET_AUDIO)
    rw [World.touchEditor_EditorMap] at h1
    simp only [unloadAudio]
    generalize List.foldl (unloadAudioStep i) (false, w.touchEditor ASSET_AUDIO)
      ((w.touchEditor ASSET_AUDIO).editor ASSET_AUDIO) = r at h1 ⊢
    cases hf : r.1 <;>
      simp [World.touchEditor, World.touchAudio, h1, UMap.index_index]
  have habs : i ∉ UMap.keys ((unloadAudio i w).editor ASSET_AUDIO) := by
    rw [← UMap.find?_eq_none_iff]
    simp [World.editor, hed, UMap.get_modify_index, UMap.find?_erase_self]
  rw [(unloadAudio_of_absent i (unloadAudio i w) habs).1, UMap.find?_append,
    UMap.find?_erase_self]
  simp [UMap.find?_cons]

/-- Claim C7, evaluated where it fails. On a fresh registry the audio editor
map has no entry for 5; `unloadAudio(5)` invokes no external primitive, as
claimed, but the audio store, which had no entry for 5, has one afterwards. -/
theorem unloadAudio_absent_creates_entry :
    UMap.find? (Examples.w0.editor ASSET_AUDIO) 5 = none ∧
    UMap.find? Examples.w0.am.m_audioMap 5 = none ∧
    (unloadAudio 5 Examples.w0).calls = Examples.w0.calls ∧
    UMap.find? (unloadAudio 5 Examples.w0).am.m_audioMap 5 = some "" := by
  refine ⟨by decide, by decide, by rfl, by decide⟩

/-! ## Operations that keep the store and the editor map together -/

/-- An inserting or refused `load` of kind `K` leaves the store and the editor
entries of every other kind as they were. -/
theorem load_frame (K K' : Asset_Type) (hK : K.IsKind) (hne : K' ≠ K) (n p : String)
    (w : World) :
    (load K n p w).store K' = w.store K' ∧ (load K n p w).editor K' = w.editor K' := by
  cases hl : pathLoaded (w.editor K) p with
  | true =>
    rw [load_of_loaded K hK n p w hl]
    exact ⟨rfl, rfl⟩
  | false =>
    refine ⟨?_, load_editor_ne K K' hK hne n p w hl⟩
    rcases hK with rfl | rfl | rfl
    · obtain ⟨_, _, ha, hf, _⟩ := loadTexture_fields n p w hl
      cases K' <;> first | exact absurd rfl hne | simp [World.store, load, ha, hf]
    · obtain ⟨_, _, ht, hf, _⟩ := loadAudio_fields n p w hl
      cases K' <;> first | exact absurd rfl hne | simp [World.store, load, ht, hf]
    · obtain ⟨_, _, ht, ha, _⟩ := loadFont_fields n p w hl
      cases K' <;> first | exact absurd rfl hne | simp [World.store, load, ht, ha]

/-- Every `load` keeps the store and the editor map consistent. -/
theorem consistent_load (K : Asset_Type) (hK : K.IsKind) (n p : String) (w : World)
    (hc : Consistent w) : Consistent (load K n p w) := by
  intro K' hK' i m
  by_cases hk : K' = K
  · subst hk
    cases hl : pathLoaded (w.editor K') p with
    | true =>
      rw [load_of_loaded K' hK n p w hl]
      exact hc K' hK' i m
    | false =>
      rw [(load_of_not_loaded K' hK n p w hl).1, load_editor_self K' hK n p w hl]
      by_cases hi : i = nextUUID w
      · subst hi
        rw [UMap.find?_update_self, UMap.find?_update_self]
        constructor
        · rintro ⟨h, hh⟩
          have hn : n = m := by
            simp only [Option.some.injEq, Prod.mk.injEq] at hh; exact hh.2
          exact ⟨p, by rw [hn]⟩
        · rintro ⟨q, hq⟩
          have hn : n = m := by
            simp only [Option.some.injEq, Prod.mk.injEq] at hq; exact hq.1
          exact ⟨loadedHandle K' p, by rw [hn]⟩
      · rw [UMap.find?_update_ne _ _ hi, UMap.find?_update_ne _ _ hi]
        exact hc K' hK' i m
  · obtain ⟨h1, h2⟩ := load_frame K K' hK hk n p w
    rw [h1, h2]
    exact hc K' hK' i m

/-- The `unload` of the image or font kind leaves the store and the editor
entries of every other kind as they were. -/
theorem unload_frame (K K' : Asset_Type) (hK : K.HasHandle) (hne : K' ≠ K) (i : UUID)
    (w : World) :
    (unload K i w).store K' = w.store K' ∧ (unload K i w).editor K' = w.editor K' := by
  rcases hK with rfl | rfl
  · constructor
    · cases K' <;> first | exact absurd rfl hne | rfl
    · simp [unload, unloadTexture, World.touchEditor, World.editor,
        UMap.get_modify_index_ne _ _ hne]
  · constructor
    · cases K' <;> first | exact absurd rfl hne | rfl
    · simp [unload, unloadFont, World.touchEditor, World.editor,
        UMap.get_modify_index_ne _ _ hne]

/-- The `unload` of the image or font kind keeps the store and the editor map
consistent. -/
theorem consistent_unload (K : Asset_Type) (hK : K.HasHandle) (i : UUID) (w : World)
    (hc : Consistent w) : Consistent (unload K i w) := by
  intro K' hK' j m
  by_cases hk : K' = K
  · subst hk
    obtain ⟨hs, he⟩ := unload_erases K' hK i w
    rw [hs, he]
    by_cases hj : j = i
    · subst hj
      simp [UMap.find?_erase_self]
    · rw [UMap.find?_erase_ne _ hj, UMap.find?_erase_ne _ hj]
      exact hc K' hK' j m
  · obtain ⟨h1, h2⟩ := unload_frame K K' hK hk i w
    rw [h1, h2]
    exact hc K' hK' j m

/-- The `modify` of the image or font kind leaves the store and the editor
entries of every other kind as they were. -/
theorem modify_frame (K K' : Asset_Type) (hK : K.HasHandle) (hne : K' ≠ K) (i : UUID)
    (p : String) (w : World) :
    (modify K i p w).store K' = w.store K' ∧ (modify K i p w).editor K' = w.editor K' := by
  rcases hK with rfl | rfl
  · obtain ⟨_, h2, _⟩ := modifyTexture_fields i p w
    constructor
    · cases K' <;> first | exact absurd rfl hne | rfl
    · simp [modify, World.editor, h2, UMap.get_update_ne _ _ hne]
  · obtain ⟨_, h2, _⟩ := modifyFont_fields i p w
    constructor
    · cases K' <;> first | exact absurd rfl hne | rfl
    · simp [modify, World.editor, h2, UMap.get_update_ne _ _ hne]

/-- The `modify` of the image or font kind keeps the store and the editor map
consistent, whether or not the identifier is present. -/
theorem consistent_modify (K : Asset_Type) (hK : K.HasHandle) (i : UUID) (p : String)
    (w : World) (hc : Consistent w) : Consistent (modify K i p w) := by
  intro K' hK' j m
  by_cases hk : K' = K
  · subst hk
    obtain ⟨hs, he, _⟩ := modify_fields K' hK i p w
    rw [hs, he]
    by_cases hj : j = i
    · subst hj
      rw [UMap.find?_update_self, UMap.find?_update_self]
      have hname : (UMap.get (w.store K') j).2 = (UMap.get (w.editor K') j).1 := by
        cases hf : UMap.find? (w.store K') j with
        | none =>
          have : UMap.find? (w.editor K') j = none := by
            cases hg : UMap.find? (w.editor K') j with
            | none => rfl
            | some v =>
              obtain ⟨h, hh⟩ := (hc K' hK' j v.1).2 ⟨v.2, by rw [hg]⟩
              rw [hf] at hh
              exact Option.noConfusion hh
          rw [UMap.get_of_find?_none hf, UMap.get_of_find?_none this]
          rfl
        | some v =>
          obtain ⟨q, hq⟩ := (hc K' hK' j v.2).1 ⟨v.1, by rw [hf]⟩
          rw [UMap.get_of_find? hf, UMap.get_of_find? hq]
      constructor
      · rintro ⟨h, hh⟩
        have hn : (UMap.get (w.store K') j).2 = m := by
          simp only [Option.some.injEq, Prod.mk.injEq] at hh; exact hh.2
        exact ⟨p, by rw [← hname, hn]⟩
      · rintro ⟨q, hq⟩
        have hn : (UMap.get (w.editor K') j).1 = m := by
          simp only [Option.some.injEq, Prod.mk.injEq] at hq; exact hq.1
        exact ⟨some p, by rw [hname, hn]⟩
    · rw [UMap.find?_update_ne _ _ hj, UMap.find?_update_ne _ _ hj]
      exact hc K' hK' j m
  · obtain ⟨h1, h2⟩ := modify_frame K K' hK hk i p w
    rw [h1, h2]
    exact hc K' hK' j m

/-- The lookups `get` and `getUUID` keep the store and the editor map
consistent: they change neither. -/
theorem consistent_lookups (K : Asset_Type) (i : UUID) (n : String) (w : World)
    (hc : Consistent w) :
    Consistent (get K i w).2 ∧ Consistent (getUUID K n w).2 := by
  have hget : (get K i w).2.am.m_textureMap = w.am.m_textureMap ∧
      (get K i w).2.am.m_audioMap = w.am.m_audioMap ∧
      (get K i w).2.am.m_fontMap = w.am.m_fontMap ∧
      (get K i w).2.am.m_EditorMap = w.am.m_EditorMap := by
    cases K <;> simp only [get, getTexture, getFont] <;>
      first
        | exact ⟨trivial, trivial, trivial, trivial⟩
        | exact ⟨rfl, rfl, rfl, rfl⟩
        | (split <;> exact ⟨rfl, rfl, rfl, rfl⟩)
  have huuid : (getUUID K n w).2.am = w.am := by
    cases K <;> simp only [getUUID, getTextureUUID, getAudioUUID, getFontUUID] <;>
      first | rfl | (split <;> rfl)
  constructor
  · intro K' hK' j m
    have hs : (get K i w).2.store K' = w.store K' := by
      cases K' <;> simp [World.store, hget.1, hget.2.1, hget.2.2.1]
    have he : (get K i w).2.editor K' = w.editor K' := by
      simp [World.editor, hget.2.2.2]
    rw [hs, he]
    exact hc K' hK' j m
  · intro K' hK' j m
    rw [World.store_congr huuid, World.editor_congr huuid]
    exact hc K' hK' j m

/-! ## The operations on a map keep its keys distinct -/

theorem UMap.WF_erase {K V : Type} [DecidableEq K] {m : UMap K V} (h : UMap.WF m) (k : K) :
    UMap.WF (UMap.erase m k) := by
  unfold UMap.WF UMap.keys UMap.erase at *
  exact List.Nodup.sublist (List.Sublist.map _ (List.filter_sublist m)) h

theorem UMap.WF_modify {K V : Type} [DecidableEq K] {m : UMap K V} (h : UMap.WF m) (k : K)
    (f : V → V) : UMap.WF (UMap.modify m k f) := by
  unfold UMap.WF
  rw [UMap.keys_modify]
  exact h

theorem UMap.WF_index {K V : Type} [DecidableEq K] [Inhabited V] {m : UMap K V}
    (h : UMap.WF m) (k : K) : UMap.WF (UMap.index m k) := by
  by_cases hc : UMap.contains m k = true
  · rw [UMap.index_of_contains hc]; exact h
  · have hc' : UMap.contains m k = false := by simpa using hc
    have hk : k ∉ UMap.keys m := (UMap.contains_eq_false_iff m k).1 hc'
    rw [UMap.index_of_not_contains hc']
    unfold UMap.WF UMap.keys at *
    rw [List.map_append, List.nodup_append]
    refine ⟨h, by simp, ?_⟩
    intro a ha hb
    have : a = k := by simpa using hb
    exact hk (this ▸ ha)

theorem UMap.WF_update {K V : Type} [DecidableEq K] [Inhabited V] {m : UMap K V}
    (h : UMap.WF m) (k : K) (f : V → V) : UMap.WF (UMap.update m k f) :=
  UMap.WF_modify (UMap.WF_index h k) k f

/-! ## Lookups that miss -/

theorem firstNamed_eq_none {A : Type} (m : UMap UUID (A × String)) (n : String)
    (h : ∀ e ∈ m, e.2.2 ≠ n) : firstNamed m n = none := by
  induction m with
  | nil => rfl
  | cons e m ih =>
    obtain ⟨u, v⟩ := e
    have hv : ¬ v.2 = n := h (u, v) (List.mem_cons_self _ _)
    simp only [firstNamed, hv, if_false]
    exact ih (fun e he => h e (List.mem_cons_of_mem _ he))

/-- On a miss `getUUIDByName` returns what the constructor `UUID::UUID()`
returns: the next draw of the random engine, which it consumes. -/
theorem getUUID_miss (K : Asset_Type) (hK : K.IsKind) (n : String) (w : World)
    (h : ∀ e ∈ w.store K, e.2.2 ≠ n) : getUUID K n w = UUID.random w := by
  rw [getUUID_eq K hK, firstNamed_eq_none _ _ h]

/-- Claim C11, evaluated where it fails. On a fresh registry no store has an
entry named `Hero`; with an engine whose next draw is 100, `getTextureUUID`,
`getAudioUUID` and `getFontUUID` each return the identifier 100, not 0, and
each consumes a draw of the engine. The header documents an empty UUID. -/
theorem getUUID_miss_returns_random_identifier :
    (∀ K : Asset_Type, ∀ e ∈ Examples.w0.store K, e.2.2 ≠ "Hero") ∧
    (getTextureUUID "Hero" Examples.w0).1 = 100 ∧
    (getAudioUUID "Hero" Examples.w0).1 = 100 ∧
    (getFontUUID "Hero" Examples.w0).1 = 100 ∧
    (getTextureUUID "Hero" Examples.w0).1 ≠ 0 ∧
    (getTextureUUID "Hero" Examples.w0).2.s_Engine.pos = Examples.w0.s_Engine.pos + 1 := by
  refine ⟨?_, by rfl, by rfl, by rfl, by decide, by rfl⟩
  intro K e he
  cases K <;> simp [Examples.w0, World.fresh, World.store] at he

/-- Claim C12. For the image and the font kind, every state and every
identifier `i`: `get K i` returns the store entry of `i` when the store of `K`
has the key `i`, and the default entry (no handle, empty name) otherwise; the
call is total; the three stores and the editor map are the same after the
call, so a miss inserts nothing. -/
theorem get_returns_entry_or_default (K : Asset_Type) (hK : K.HasHandle) (i : UUID)
    (w : World) :
    (∀ v, UMap.find? (w.store K) i = some v → (get K i w).1 = v) ∧
    (UMap.find? (w.store K) i = none → (get K i w).1 = (none, "")) ∧
    (get K i w).2.am.m_textureMap = w.am.m_textureMap ∧
    (get K i w).2.am.m_audioMap = w.am.m_audioMap ∧
    (get K i w).2.am.m_fontMap = w.am.m_fontMap ∧
    (get K i w).2.am.m_EditorMap = w.am.m_EditorMap ∧
    (get K i w).2.store K = w.store K ∧
    (UMap.find? (w.store K) i = none → UMap.find? ((get K i w).2.store K) i = none) := by
  have hmaps : (get K i w).2.am.m_textureMap = w.am.m_textureMap ∧
      (get K i w).2.am.m_audioMap = w.am.m_audioMap ∧
      (get K i w).2.am.m_fontMap = w.am.m_fontMap ∧
      (get K i w).2.am.m_EditorMap = w.am.m_EditorMap := by
    rcases hK with rfl | rfl <;> simp only [get, getTexture, getFont] <;>
      (split <;> exact ⟨rfl, rfl, rfl, rfl⟩)
  have hstore : (get K i w).2.store K = w.store K := by
    rcases hK with rfl | rfl <;> simp [World.store, hmaps.1, hmaps.2.2.1]
  refine ⟨?_, ?_, hmaps.1, hmaps.2.1, hmaps.2.2.1, hmaps.2.2.2, hstore, ?_⟩
  · intro v hv
    rw [get_eq K hK, hv]; rfl
  · intro hn
    rw [get_eq K hK, hn]; rfl
  · intro hn
    rw [hstore]; exact hn

/-- Claim C12 at a concrete input: `getTexture(7)` on a registry that holds the
texture 100 only. -/
theorem get_returns_entry_or_default_witness :
    Asset_Type.HasHandle ASSET_TEXTURES ∧
    (get ASSET_TEXTURES 7 (loadTexture "A" "a.png" Examples.w0)).2.store ASSET_TEXTURES
      = (loadTexture "A" "a.png" Examples.w0).store ASSET_TEXTURES ∧
    (get ASSET_TEXTURES 100 (loadTexture "A" "a.png" Examples.w0)).1 = (some "a.png", "A") :=
  ⟨Or.inl rfl,
    (get_returns_entry_or_default ASSET_TEXTURES (Or.inl rfl) 7
      (loadTexture "A" "a.png" Examples.w0)).2.2.2.2.2.2.1,
    (get_returns_entry_or_default ASSET_TEXTURES (Or.inl rfl) 100
      (loadTexture "A" "a.png" Examples.w0)).1 (some "a.png", "A") (by decide)⟩

/-! ## `initAssetManager` without a readable document -/

/-- Claim C13. When the asset file cannot be opened, or its content does not
parse, `initAssetManager` returns (no assertion fails), leaves the registry as it
was (the three stores and the editor map; empty for a fresh registry), invokes
no external primitive and writes no file. -/
theorem initAssetManager_unreadable_is_noop (w : World)
    (h : UMap.find? w.files w.am.m_assetFilepath = none ∨
      UMap.find? w.files w.am.m_assetFilepath = some none) :
    returned (initAssetManager w) = true ∧
    (finalState (initAssetManager w)).am = w.am ∧
    (finalState (initAssetManager w)).calls = w.calls ∧
    (finalState (initAssetManager w)).files = w.files ∧
    (finalState (initAssetManager w)).s_Engine = w.s_Engine := by
  rcases h with h | h <;> simp only [initAssetManager, h] <;> exact ⟨rfl, rfl, rfl, rfl, rfl⟩

/-- Claim C13 at two concrete inputs: a fresh registry without asset file, and
one whose asset file does not parse. -/
theorem initAssetManager_unreadable_is_noop_witness :
    (UMap.find? Examples.w0.files Examples.w0.am.m_assetFilepath = none ∧
      UMap.find? Examples.wGarbage.files Examples.wGarbage.am.m_assetFilepath = some none) ∧
    (returned (initAssetManager Examples.w0) = true ∧
      (finalState (initAssetManager Examples.w0)).am = Examples.w0.am) ∧
    (returned (initAssetManager Examples.wGarbage) = true ∧
      (finalState (initAssetManager Examples.wGarbage)).am = Examples.wGarbage.am) :=
  ⟨⟨by rfl, by rfl⟩,
    ⟨(initAssetManager_unreadable_is_noop Examples.w0 (Or.inl (by rfl))).1,
      (initAssetManager_unreadable_is_noop Examples.w0 (Or.inl (by rfl))).2.1⟩,
    ⟨(initAssetManager_unreadable_is_noop Examples.wGarbage (Or.inr (by rfl))).1,
      (initAssetManager_unreadable_is_noop Examples.wGarbage (Or.inr (by rfl))).2.1⟩⟩

/-! ## The shape of the serialized document -/

/-- The members `SerializeEditorMap` builds for the entries of one kind. -/
theorem serializeEntries_nil_obj (entries : EditorEntries) :
    serializeEntries entries (JValue.obj [])
      = JValue.obj (entries.map (fun e => (c_str e.2.1, assetObj e.1 e.2))) := by
  rw [serializeEntries_obj]; simp

/-- The document of `SerializeEditorMap`, member by member. -/
theorem editorMapDocument_eq (r : UMap Asset_Type EditorEntries) :
    editorMapDocument r = JValue.obj (
      (if UMap.contains r ASSET_TEXTURES then
        [("textures", serializeEntries (UMap.get r ASSET_TEXTURES) (JValue.obj []))] else []) ++
      (if UMap.contains r ASSET_AUDIO then
        [("audios", serializeEntries (UMap.get r ASSET_AUDIO) (JValue.obj []))] else []) ++
      (if UMap.contains r ASSET_FONT then
        [("fonts", serializeEntries (UMap.get r ASSET_FONT) (JValue.obj []))] else [])) := by
  by_cases h1 : UMap.contains r ASSET_TEXTURES = true <;>
    by_cases h2 : UMap.contains r ASSET_AUDIO = true <;>
    by_cases h3 : UMap.contains r ASSET_FONT = true <;>
    simp [editorMapDocument, h1, h2, h3, JValue.AddMember]

theorem editorMapDocument_HasMember (r : UMap Asset_Type EditorEntries) (K : Asset_Type)
    (hK : K.IsKind) :
    (editorMapDocument r).HasMember (sectionKey K) = some (UMap.contains r K) := by
  rw [editorMapDocument_eq]
  rcases hK with rfl | rfl | rfl <;>
    by_cases h1 : UMap.contains r ASSET_TEXTURES = true <;>
    by_cases h2 : UMap.contains r ASSET_AUDIO = true <;>
    by_cases h3 : UMap.contains r ASSET_FONT = true <;>
    simp [h1, h2, h3, JValue.HasMember, JValue.members, JValue.findMember, sectionKey]

theorem editorMapDocument_member (r : UMap Asset_Type EditorEntries) (K : Asset_Type)
    (hK : K.IsKind) (hc : UMap.contains r K = true) :
    (editorMapDocument r).member (sectionKey K)
      = some (JValue.obj ((UMap.get r K).map (fun e => (c_str e.2.1, assetObj e.1 e.2)))) := by
  rw [editorMapDocument_eq]
  rcases hK with rfl | rfl | rfl <;>
    by_cases h1 : UMap.contains r ASSET_TEXTURES = true <;>
    by_cases h2 : UMap.contains r ASSET_AUDIO = true <;>
    by_cases h3 : UMap.contains r ASSET_FONT = true <;>
    simp_all [JValue.member, JValue.members, JValue.findMember, sectionKey,
      serializeEntries_nil_obj]

theorem GetUint64_number (u : Nat) (hu : u < 2 ^ 64) :
    JValue.GetUint64 (JValue.number (u : Nat)) = some u := by
  have h : (0 : Int) ≤ (u : Int) ∧ (u : Int) < 2 ^ 64 :=
    ⟨Int.ofNat_nonneg u, by exact_mod_cast hu⟩
  simp only [JValue.GetUint64]
  rw [if_pos h, Int.toNat_ofNat]

theorem assetObj_eq (u : UUID) (assetPair : String × String) :
    assetObj u assetPair = entryValue u (c_str assetPair.2) := rfl

theorem two_le_length_of_mem {A : Type} {l : List A} {a b : A} (ha : a ∈ l) (hb : b ∈ l)
    (hne : a ≠ b) : 2 ≤ l.length := by
  match l, ha, hb with
  | [], ha, _ => simp at ha
  | [x], ha, hb =>
    have h1 : a = x := by simpa using ha
    have h2 : b = x := by simpa using hb
    exact absurd (h1.trans h2.symm) hne
  | _ :: _ :: _, _, _ => simp

/-- Claim C18, as stated, fails: the editor map holds one texture whose name is
`a`, NUL, `b`; the object written under `"textures"` has the single member
keyed `a` (the name as a C string), so no member has the entry's name as its
key. -/
theorem serialized_section_counterexample :
    UMap.contains Examples.nulMap ASSET_TEXTURES = true ∧
    (1, (Examples.nulName, "a.png")) ∈ UMap.get Examples.nulMap ASSET_TEXTURES ∧
    sectionMembers (editorMapDocument Examples.nulMap) ASSET_TEXTURES
      = [("a", entryValue 1 "a.png")] ∧
    (∀ m ∈ sectionMembers (editorMapDocument Examples.nulMap) ASSET_TEXTURES,
      m.1 ≠ Examples.nulName) := by
  have hm : sectionMembers (editorMapDocument Examples.nulMap) ASSET_TEXTURES
      = [("a", entryValue 1 "a.png")] := by rfl
  refine ⟨by rfl, by decide, hm, ?_⟩
  intro m hmem
  rw [hm] at hmem
  have : m = ("a", entryValue 1 "a.png") := by simpa using hmem
  rw [this]
  decide

/-- Claim C18, amended. For every editor map `r` and each kind `K` that is a key
of `r`, the object `SerializeEditorMap` builds under the top-level key of `K`
has, for every entry `u ↦ (name, path)` of kind `K` whose name and path have no
NUL character, a member whose key is `name` and whose value is
`{"UUID": u, "filepath": path}`, `u` reading back as an unsigned 64-bit integer
when it is below `2 ^ 64`; and every member of the object comes from an entry of
kind `K` (its key is the entry's name and its path the entry's path, both as C
strings). -/
theorem serialized_section_members (r : UMap Asset_Type EditorEntries) (K : Asset_Type)
    (hK : K.IsKind) (hc : UMap.contains r K = true) :
    (∀ e ∈ UMap.get r K, NulFree e.2.1 → NulFree e.2.2 →
      (e.2.1, entryValue e.1 e.2.2) ∈ sectionMembers (editorMapDocument r) K) ∧
    (∀ e ∈ UMap.get r K, e.1 < 2 ^ 64 →
      ((entryValue e.1 e.2.2).member "UUID").bind JValue.GetUint64 = some e.1) ∧
    (∀ m ∈ sectionMembers (editorMapDocument r) K,
      ∃ e ∈ UMap.get r K, m = (c_str e.2.1, entryValue e.1 (c_str e.2.2))) := by
  have hm := sectionMembers_editorMapDocument r K hK hc
  refine ⟨?_, ?_, ?_⟩
  · intro e he hn hp
    rw [hm]
    have := List.mem_map_of_mem (fun e => (c_str e.2.1, assetObj e.1 e.2)) he
    simpa only [assetObj_eq, show c_str e.2.1 = e.2.1 from hn,
      show c_str e.2.2 = e.2.2 from hp] using this
  · intro e _ hu
    have hmem : (entryValue e.1 e.2.2).member "UUID" = some (JValue.number (e.1 : Nat)) := by
      simp [entryValue, JValue.member, JValue.members, JValue.findMember]
    rw [hmem, Option.some_bind]
    exact GetUint64_number e.1 hu
  · intro m hmem
    rw [hm] at hmem
    obtain ⟨e, he, rfl⟩ := List.mem_map.1 hmem
    exact ⟨e, he, rfl⟩

/-- Claim C18, amended, at a concrete input: the editor map after one texture
load. -/
theorem serialized_section_members_witness :
    (Asset_Type.IsKind ASSET_TEXTURES ∧
      UMap.contains (loadTexture "A" "a.png" Examples.w0).am.m_EditorMap ASSET_TEXTURES = true) ∧
    ("A", entryValue 100 "a.png") ∈
      sectionMembers (editorMapDocument (loadTexture "A" "a.png" Examples.w0).am.m_EditorMap)
        ASSET_TEXTURES :=
  ⟨⟨Or.inl rfl, by rfl⟩,
    (serialized_section_members (loadTexture "A" "a.png" Examples.w0).am.m_EditorMap
      ASSET_TEXTURES (Or.inl rfl) (by rfl)).1 (100, ("A", "a.png")) (by decide) (by decide)
      (by decide)⟩

/-- Claim C19, as stated, fails: for the empty editor map the document is the
empty object, with none of the three keys; after one texture load on a fresh
registry the editor map has the texture kind only, and the document written
has `"textures"` and neither `"audios"` nor `"fonts"`. -/
theorem document_top_level_keys_counterexample :
    editorMapDocument [] = JValue.obj [] ∧
    (editorMapDocument []).HasMember "textures" = some false ∧
    (editorMapDocument []).HasMember "audios" = some false ∧
    (editorMapDocument []).HasMember "fonts" = some false ∧
    UMap.find? (loadTexture "A" "a.png" Examples.w0).files serializedPath
      = some (some (editorMapDocument (loadTexture "A" "a.png" Examples.w0).am.m_EditorMap)) ∧
    (editorMapDocument (loadTexture "A" "a.png" Examples.w0).am.m_EditorMap).HasMember
      "textures" = some true ∧
    (editorMapDocument (loadTexture "A" "a.png" Examples.w0).am.m_EditorMap).HasMember
      "audios" = some false ∧
    (editorMapDocument (loadTexture "A" "a.png" Examples.w0).am.m_EditorMap).HasMember
      "fonts" = some false := by
  refine ⟨by rfl, by rfl, by rfl, by rfl, by rfl, by rfl, by rfl, by rfl⟩

/-- Claim C19, amended. For every editor map `r`, the document
`SerializeEditorMap` writes is a JSON object that has the top-level key of a
kind exactly when that kind is a key of `r` (`count` is not zero), and the key
is then mapped to an object, the one built from the entries of the kind; it has
no other top-level key. -/
theorem document_top_level_keys (r : UMap Asset_Type EditorEntries) (K : Asset_Type)
    (hK : K.IsKind) (w : World) (hw : w.writable = true) :
    UMap.find? (SerializeEditorMap r w).files serializedPath
      = some (some (editorMapDocument r)) ∧
    (∃ top, editorMapDocument r = JValue.obj top ∧
      ∀ m ∈ top, m.1 = "textures" ∨ m.1 = "audios" ∨ m.1 = "fonts") ∧
    (editorMapDocument r).HasMember (sectionKey K) = some (UMap.contains r K) ∧
    (UMap.contains r K = true →
      (editorMapDocument r).member (sectionKey K)
        = some (JValue.obj ((UMap.get r K).map (fun e => (c_str e.2.1, assetObj e.1 e.2))))) := by
  refine ⟨?_, ?_, editorMapDocument_HasMember r K hK, editorMapDocument_member r K hK⟩
  · rw [SerializeEditorMap_files]
    simp only [hw, if_true]
    exact UMap.find?_update_self _ _ _
  · refine ⟨_, editorMapDocument_eq r, ?_⟩
    intro m hm
    simp only [List.mem_append] at hm
    rcases hm with (hm | hm) | hm
    · by_cases h1 : UMap.contains r ASSET_TEXTURES = true
      · simp only [h1, if_true, List.mem_singleton] at hm
        left; rw [hm]
      · simp [h1] at hm
    · by_cases h2 : UMap.contains r ASSET_AUDIO = true
      · simp only [h2, if_true, List.mem_singleton] at hm
        right; left; rw [hm]
      · simp [h2] at hm
    · by_cases h3 : UMap.contains r ASSET_FONT = true
      · simp only [h3, if_true, List.mem_singleton] at hm
        right; right; rw [hm]
      · simp [h3] at hm

/-- Claim C19, amended, at a concrete input: the editor map after one texture
load, asked about the audio kind. -/
theorem document_top_level_keys_witness :
    (Asset_Type.IsKind ASSET_AUDIO ∧ Examples.w0.writable = true) ∧
    (editorMapDocument (loadTexture "A" "a.png" Examples.w0).am.m_EditorMap).HasMember
      (sectionKey ASSET_AUDIO)
      = some (UMap.contains (loadTexture "A" "a.png" Examples.w0).am.m_EditorMap ASSET_AUDIO) :=
  ⟨⟨Or.inr (Or.inl rfl), by rfl⟩,
    (document_top_level_keys (loadTexture "A" "a.png" Examples.w0).am.m_EditorMap ASSET_AUDIO
      (Or.inr (Or.inl rfl)) Examples.w0 (by rfl)).2.2.1⟩

/-- Claim C20, as stated, fails: the editor map holds the textures 1 and 2, both
named `n`; the object written under `"textures"` has two members with key `n`,
one per entry, in the iteration order of the map. -/
theorem same_name_members_counterexample :
    (1, ("n", "a.png")) ∈ UMap.get Examples.sameNameMap ASSET_TEXTURES ∧
    (2, ("n", "b.png")) ∈ UMap.get Examples.sameNameMap ASSET_TEXTURES ∧
    sectionMembers (editorMapDocument Examples.sameNameMap) ASSET_TEXTURES
      = [("n", entryValue 1 "a.png"), ("n", entryValue 2 "b.png")] ∧
    ((sectionMembers (editorMapDocument Examples.sameNameMap) ASSET_TEXTURES).filter
      (fun m => decide (m.1 = "n"))).length = 2 := by
  refine ⟨by decide, by decide, by rfl, by rfl⟩

/-- Claim C20, amended. When two editor-map entries of the same kind `K`, with
different identifiers, share the display name `n`, the object
`SerializeEditorMap` builds for `K` contains a member for each of them, so at
least two members with key `n` (`n` as a C string): the members with that key
are exactly the serialized entries named `n`, in iteration order, and the
object has as many members as the editor map has entries of kind `K`. Nothing
is overwritten. -/
theorem same_name_members_all_kept (r : UMap Asset_Type EditorEntries) (K : Asset_Type)
    (hK : K.IsKind) (hc : UMap.contains r K = true) (n : String)
    (e1 e2 : UUID × (String × String))
    (h1 : e1 ∈ UMap.get r K) (h2 : e2 ∈ UMap.get r K) (hne : e1.1 ≠ e2.1)
    (hn1 : e1.2.1 = n) (hn2 : e2.2.1 = n) :
    (sectionMembers (editorMapDocument r) K).filter (fun m => decide (m.1 = c_str n))
      = ((UMap.get r K).filter (fun e => decide (c_str e.2.1 = c_str n))).map
          (fun e => (c_str e.2.1, assetObj e.1 e.2)) ∧
    2 ≤ ((sectionMembers (editorMapDocument r) K).filter
      (fun m => decide (m.1 = c_str n))).length ∧
    docContains (editorMapDocument r) K e1 ∧
    docContains (editorMapDocument r) K e2 ∧
    (sectionMembers (editorMapDocument r) K).length = (UMap.get r K).length := by
  have hm := sectionMembers_editorMapDocument r K hK hc
  have hf : (sectionMembers (editorMapDocument r) K).filter (fun m => decide (m.1 = c_str n))
      = ((UMap.get r K).filter (fun e => decide (c_str e.2.1 = c_str n))).map
          (fun e => (c_str e.2.1, assetObj e.1 e.2)) := by
    rw [hm, List.filter_map]
    rfl
  refine ⟨hf, ?_, docContains_of_mem r K hK e1 h1 hc, docContains_of_mem r K hK e2 h2 hc, ?_⟩
  · rw [hf, List.length_map]
    have m1 : e1 ∈ (UMap.get r K).filter (fun e => decide (c_str e.2.1 = c_str n)) := by
      simp [List.mem_filter, h1, hn1]
    have m2 : e2 ∈ (UMap.get r K).filter (fun e => decide (c_str e.2.1 = c_str n)) := by
      simp [List.mem_filter, h2, hn2]
    exact two_le_length_of_mem m1 m2 (fun c => hne (by rw [c]))
  · rw [hm, List.length_map]

/-- Claim C20, amended, at a concrete input: the textures 1 and 2, both named
`n`. -/
theorem same_name_members_all_kept_witness :
    (Asset_Type.IsKind ASSET_TEXTURES ∧
      UMap.contains Examples.sameNameMap ASSET_TEXTURES = true ∧
      (1, ("n", "a.png")) ∈ UMap.get Examples.sameNameMap ASSET_TEXTURES ∧
      (2, ("n", "b.png")) ∈ UMap.get Examples.sameNameMap ASSET_TEXTURES ∧
      (1 : UUID) ≠ 2) ∧
    2 ≤ ((sectionMembers (editorMapDocument Examples.sameNameMap) ASSET_TEXTURES).filter
      (fun m => decide (m.1 = c_str "n"))).length :=
  ⟨⟨Or.inl rfl, by rfl, by decide, by decide, by decide⟩,
    (same_name_members_all_kept Examples.sameNameMap ASSET_TEXTURES (Or.inl rfl) (by rfl) "n"
      (1, ("n", "a.png")) (2, ("n", "b.png")) (by decide) (by decide) (by decide) rfl rfl).2.1⟩

/-! ## Assigning a list of pairs to a map -/

namespace UMap

variable {K V : Type} [DecidableEq K] [Inhabited V]

theorem assignAll_nil (m : UMap K V) : assignAll m [] = m := rfl

theorem assignAll_cons (m : UMap K V) (kv : K × V) (kvs : List (K × V)) :
    assignAll m (kv :: kvs) = assignAll (update m kv.1 (fun _ => kv.2)) kvs := rfl

theorem assignAll_append (m : UMap K V) (l₁ l₂ : List (K × V)) :
    assignAll m (l₁ ++ l₂) = assignAll (assignAll m l₁) l₂ := by
  simp [assignAll, List.foldl_append]

theorem find?_assignAll_of_not_mem (m : UMap K V) (kvs : List (K × V)) (k : K)
    (h : ∀ kv ∈ kvs, kv.1 ≠ k) : find? (assignAll m kvs) k = find? m k := by
  induction kvs generalizing m with
  | nil => rfl
  | cons kv kvs ih =>
    rw [assignAll_cons, ih _ (fun x hx => h x (List.mem_cons_of_mem _ hx))]
    exact find?_update_ne _ _ (fun c => h kv (List.mem_cons_self _ _) c.symm)

theorem find?_assignAll_last (m : UMap K V) (l₁ l₂ : List (K × V)) (k : K) (v : V)
    (h : ∀ kv ∈ l₂, kv.1 ≠ k) : find? (assignAll m (l₁ ++ (k, v) :: l₂)) k = some v := by
  rw [assignAll_append, assignAll_cons, find?_assignAll_of_not_mem _ _ _ h,
    find?_update_self]

theorem contains_assignAll_of_contains (m : UMap K V) (kvs : List (K × V)) (k : K)
    (h : contains m k = true) : contains (assignAll m kvs) k = true := by
  induction kvs generalizing m with
  | nil => exact h
  | cons kv kvs ih =>
    rw [assignAll_cons]
    apply ih
    rw [contains_update, h]
    rfl

theorem contains_assignAll_of_mem (m : UMap K V) (kvs : List (K × V)) (kv : K × V)
    (h : kv ∈ kvs) : contains (assignAll m kvs) kv.1 = true := by
  induction kvs generalizing m with
  | nil => simp at h
  | cons x kvs ih =>
    rw [assignAll_cons]
    rcases List.mem_cons.1 h with c | c
    · subst c
      exact contains_assignAll_of_contains _ _ _ (contains_update_self _ _ _)
    · exact ih _ c

theorem assignAll_fresh (m : UMap K V) (kvs : List (K × V))
    (hnd : (kvs.map Prod.fst).Nodup) (hm : ∀ kv ∈ kvs, kv.1 ∉ keys m) :
    assignAll m kvs = m ++ kvs := by
  induction kvs generalizing m with
  | nil => simp [assignAll]
  | cons kv kvs ih =>
    have hnd' : kv.1 ∉ kvs.map Prod.fst ∧ (kvs.map Prod.fst).Nodup := by
      simpa using hnd
    have h1 : contains m kv.1 = false :=
      (contains_eq_false_iff m kv.1).2 (hm kv (List.mem_cons_self _ _))
    rw [assignAll_cons, update_of_not_contains _ h1, ih _ hnd'.2]
    · simp
    · intro x hx
      have hx1 : x.1 ∉ keys m := hm x (List.mem_cons_of_mem _ hx)
      have hx2 : x.1 ≠ kv.1 := by
        intro c
        exact hnd'.1 (c ▸ List.mem_map_of_mem Prod.fst hx)
      simp only [keys, List.map_append, List.map_cons, List.map_nil, List.mem_append,
        List.mem_singleton, not_or]
      exact ⟨hx1, hx2⟩

end UMap

/-! ## One entry of a section -/

theorem textureEntry_fields (n : String) (u : UUID) (p : String) (w : World) :
    (textureEntry n u p w).am.m_textureMap
        = UMap.update w.am.m_textureMap u (fun _ => (⟨some p⟩, n)) ∧
    (textureEntry n u p w).am.m_audioMap = w.am.m_audioMap ∧
    (textureEntry n u p w).am.m_fontMap = w.am.m_fontMap ∧
    (textureEntry n u p w).am.m_EditorMap
        = UMap.update w.am.m_EditorMap ASSET_TEXTURES
            (fun inner => UMap.update inner u (fun _ => (n, p))) ∧
    (textureEntry n u p w).calls = w.calls ++ [ExtCall.LoadTexture p] := by
  simp [textureEntry, World.setTexture, World.setEditor, UMap.update_update,
    Texture.LoadTexture]

theorem audioEntry_fields (n : String) (u : UUID) (p : String) (w : World) :
    (audioEntry n u p w).am.m_audioMap = UMap.update w.am.m_audioMap u (fun _ => n) ∧
    (audioEntry n u p w).am.m_textureMap = w.am.m_textureMap ∧
    (audioEntry n u p w).am.m_fontMap = w.am.m_fontMap ∧
    (audioEntry n u p w).am.m_EditorMap
        = UMap.update w.am.m_EditorMap ASSET_AUDIO
            (fun inner => UMap.update inner u (fun _ => (n, p))) ∧
    (audioEntry n u p w).calls = w.calls ++ [ExtCall.LoadAudio n p] := by
  simp [audioEntry, World.setAudio, World.setEditor, UMap.update_update]

theorem fontEntry_fields (n : String) (u : UUID) (p : String) (w : World) :
    (fontEntry n u p w).am.m_fontMap
        = UMap.update w.am.m_fontMap u (fun _ => (⟨some p⟩, n)) ∧
    (fontEntry n u p w).am.m_textureMap = w.am.m_textureMap ∧
    (fontEntry n u p w).am.m_audioMap = w.am.m_audioMap ∧
    (fontEntry n u p w).am.m_EditorMap
        = UMap.update w.am.m_EditorMap ASSET_TEXTURES
            (fun inner => UMap.update inner u (fun _ => (n, p))) ∧
    (fontEntry n u p w).calls = w.calls ++ [ExtCall.LoadFont p] := by
  simp [fontEntry, World.setFont, World.setEditor, UMap.update_update, Font.LoadFont]

/-- The store of the kind of the section after one entry. -/
theorem entryOf_store_self (K : Asset_Type) (hK : K.IsKind) (n : String) (u : UUID)
    (p : String) (w : World) :
    (entryOf K n u p w).store K
      = UMap.update (w.store K) u (fun _ => (loadedHandle K p, n)) := by
  rcases hK with rfl | rfl | rfl
  · show ((textureEntry n u p w).am.m_textureMap.map _) = _
    rw [(textureEntry_fields n u p w).1]
    exact UMap.map_update_const (fun (v : TexPathPair) => (v.1.handle, v.2)) rfl _ _ _
  · show ((audioEntry n u p w).am.m_audioMap.map _) = _
    rw [(audioEntry_fields n u p w).1]
    exact UMap.map_update_const (fun (v : String) => ((none : Option String), v)) rfl _ _ _
  · show ((fontEntry n u p w).am.m_fontMap.map _) = _
    rw [(fontEntry_fields n u p w).1]
    exact UMap.map_update_const (fun (v : FontPathPair) => (v.1.handle, v.2)) rfl _ _ _

/-- The stores of the other kinds after one entry. -/
theorem entryOf_store_ne (K K' : Asset_Type) (hK : K.IsKind) (hne : K' ≠ K) (n : String)
    (u : UUID) (p : String) (w : World) : (entryOf K n u p w).store K' = w.store K' := by
  rcases hK with rfl | rfl | rfl
  · obtain ⟨_, ha, hf, _⟩ := textureEntry_fields n u p w
    cases K' <;> first | exact absurd rfl hne | simp [World.store, entryOf, ha, hf]
  · obtain ⟨_, ht, hf, _⟩ := audioEntry_fields n u p w
    cases K' <;> first | exact absurd rfl hne | simp [World.store, entryOf, ht, hf]
  · obtain ⟨_, ht, ha, _⟩ := fontEntry_fields n u p w
    cases K' <;> first | exact absurd rfl hne | simp [World.store, entryOf, ht, ha]

theorem entryOf_EditorMap (K : Asset_Type) (hK : K.IsKind) (n : String) (u : UUID)
    (p : String) (w : World) :
    (entryOf K n u p w).am.m_EditorMap
      = UMap.update w.am.m_EditorMap (editorKind K)
          (fun inner => UMap.update inner u (fun _ => (n, p))) := by
  rcases hK with rfl | rfl | rfl
  · exact (textureEntry_fields n u p w).2.2.2.1
  · exact (audioEntry_fields n u p w).2.2.2.1
  · exact (fontEntry_fields n u p w).2.2.2.1

/-- The editor entries, after one entry, of the kind the section files them
under. -/
theorem entryOf_editor_self (K : Asset_Type) (hK : K.IsKind) (n : String) (u : UUID)
    (p : String) (w : World) :
    (entryOf K n u p w).editor (editorKind K)
      = UMap.update (w.editor (editorKind K)) u (fun _ => (n, p)) := by
  simp [World.editor, entryOf_EditorMap K hK, UMap.get_update_self]

/-- The editor entries of the other kinds after one entry. -/
theorem entryOf_editor_ne (K K' : Asset_Type) (hK : K.IsKind) (hne : K' ≠ editorKind K)
    (n : String) (u : UUID) (p : String) (w : World) :
    (entryOf K n u p w).editor K' = w.editor K' := by
  simp [World.editor, entryOf_EditorMap K hK, UMap.get_update_ne _ _ hne]

theorem entryOf_calls (K : Asset_Type) (hK : K.IsKind) (n : String) (u : UUID)
    (p : String) (w : World) : (entryOf K n u p w).calls = w.calls ++ [loadCall K n p] := by
  rcases hK with rfl | rfl | rfl
  · exact (textureEntry_fields n u p w).2.2.2.2
  · exact (audioEntry_fields n u p w).2.2.2.2
  · exact (fontEntry_fields n u p w).2.2.2.2

/-- The statements of an entry neither read nor write the log. -/
theorem entryOf_log (K : Asset_Type) (n : String) (u : UUID) (p : String) (w : World)
    (l : List String) :
    entryOf K n u p (w.withLog l) = (entryOf K n u p w).withLog l := by
  cases K <;> rfl

theorem withLog_withLog (w : World) (l l' : List String) :
    (w.withLog l).withLog l' = w.withLog l' := rfl

theorem withLog_self (w : World) : w.withLog w.log = w := rfl

/-! ## The entries of a section, in order -/

theorem populate_nil (K : Asset_Type) (w : World) : populate K [] w = w := rfl

theorem populate_cons (K : Asset_Type) (e : String × UUID × String)
    (es : List (String × UUID × String)) (w : World) :
    populate K (e :: es) w = populate K es (entryOf K e.1 e.2.1 e.2.2 w) := rfl

theorem populate_log (K : Asset_Type) (es : List (String × UUID × String)) (w : World)
    (l : List String) :
    populate K es (w.withLog l) = (populate K es w).withLog l := by
  induction es generalizing w with
  | nil => rfl
  | cons e es ih => rw [populate_cons, populate_cons, entryOf_log, ih]

theorem populate_store_self (K : Asset_Type) (hK : K.IsKind)
    (es : List (String × UUID × String)) (w : World) :
    (populate K es w).store K = UMap.assignAll (w.store K) (storeAssignments K es) := by
  induction es generalizing w with
  | nil => rfl
  | cons e es ih =>
    rw [populate_cons, ih, entryOf_store_self K hK]
    rfl

theorem populate_store_ne (K K' : Asset_Type) (hK : K.IsKind) (hne : K' ≠ K)
    (es : List (String × UUID × String)) (w : World) :
    (populate K es w).store K' = w.store K' := by
  induction es generalizing w with
  | nil => rfl
  | cons e es ih => rw [populate_cons, ih, entryOf_store_ne K K' hK hne]

theorem populate_editor_self (K : Asset_Type) (hK : K.IsKind)
    (es : List (String × UUID × String)) (w : World) :
    (populate K es w).editor (editorKind K)
      = UMap.assignAll (w.editor (editorKind K)) (editorAssignments es) := by
  induction es generalizing w with
  | nil => rfl
  | cons e es ih =>
    rw [populate_cons, ih, entryOf_editor_self K hK]
    rfl

theorem populate_editor_ne (K K' : Asset_Type) (hK : K.IsKind) (hne : K' ≠ editorKind K)
    (es : List (String × UUID × String)) (w : World) :
    (populate K es w).editor K' = w.editor K' := by
  induction es generalizing w with
  | nil => rfl
  | cons e es ih => rw [populate_cons, ih, entryOf_editor_ne K K' hK hne]

theorem populate_calls (K : Asset_Type) (hK : K.IsKind)
    (es : List (String × UUID × String)) (w : World) :
    (populate K es w).calls = w.calls ++ es.map (fun e => loadCall K e.1 e.2.2) := by
  induction es generalizing w with
  | nil => simp [populate]
  | cons e es ih =>
    rw [populate_cons, ih, entryOf_calls K hK]
    simp

/-! ## The loops and blocks of `initAssetManager` -/

/-- The loop body of a section: the reads, then the statements of the entry. -/
theorem sectionStep_eq (K : Asset_Type) (hK : K.IsKind) (name : String) (value : JValue)
    (w : World) :
    sectionStep K name value w = match readEntry value with
      | none => .error w
      | some r => .ok (entryOf K (c_str name) r.1 r.2 w) := by
  rcases hK with rfl | rfl | rfl
  · simp only [sectionStep, initTexture, entryOf, textureEntry]
    cases readEntry value <;> rfl
  · simp only [sectionStep, initAudio, entryOf, audioEntry]
    cases readEntry value <;> rfl
  · simp only [sectionStep, initFont, entryOf, fontEntry]
    cases readEntry value <;> rfl

theorem parsedEntries_cons_some (name : String) (value : JValue) (ms : List (String × JValue))
    (r : UUID × String) (h : readEntry value = some r) :
    parsedEntries ((name, value) :: ms) = (c_str name, r.1, r.2) :: parsedEntries ms := by
  simp [parsedEntries, List.filterMap_cons, h]

theorem parsedEntries_append (l₁ l₂ : List (String × JValue)) :
    parsedEntries (l₁ ++ l₂) = parsedEntries l₁ ++ parsedEntries l₂ := by
  simp [parsedEntries, List.filterMap_append]

theorem entriesOk_cons (e : String × JValue) (ms : List (String × JValue)) :
    entriesOk (e :: ms) = ((readEntry e.2).isSome && entriesOk ms) := by
  simp [entriesOk]

/-- A loop over members that all pass the reads runs the statements of every
entry. -/
theorem initLoop_ok (K : Asset_Type) (hK : K.IsKind) (ms : List (String × JValue))
    (w : World) (h : entriesOk ms = true) :
    initLoop (sectionStep K) ms w = .ok (populate K (parsedEntries ms) w) := by
  induction ms generalizing w with
  | nil => rfl
  | cons e ms ih =>
    obtain ⟨name, value⟩ := e
    rw [entriesOk_cons, Bool.and_eq_true] at h
    obtain ⟨r, hr⟩ := Option.isSome_iff_exists.1 h.1
    simp only [initLoop, sectionStep_eq K hK, hr]
    rw [ih _ h.2, parsedEntries_cons_some name value ms r hr, populate_cons]

/-- A loop stops at the first member that fails a read, in the state reached by
the entries before it. -/
theorem initLoop_abort (K : Asset_Type) (hK : K.IsKind) (l₁ l₂ : List (String × JValue))
    (name : String) (value : JValue) (w : World) (h₁ : entriesOk l₁ = true)
    (hbad : readEntry value = none) :
    initLoop (sectionStep K) (l₁ ++ (name, value) :: l₂) w
      = .error (populate K (parsedEntries l₁) w) := by
  induction l₁ generalizing w with
  | nil =>
    simp only [List.nil_append, initLoop, sectionStep_eq K hK, hbad]
    rfl
  | cons e l₁ ih =>
    obtain ⟨n, v⟩ := e
    rw [entriesOk_cons, Bool.and_eq_true] at h₁
    obtain ⟨r, hr⟩ := Option.isSome_iff_exists.1 h₁.1
    simp only [List.cons_append, initLoop, sectionStep_eq K hK, hr]
    have := ih (entryOf K (c_str n) r.1 r.2 w) h₁.2
    rw [parsedEntries_cons_some n v l₁ r hr, populate_cons]
    exact this

/-- Whether a loop returns: exactly when all its members pass the reads. -/
theorem returned_initLoop (K : Asset_Type) (hK : K.IsKind) (ms : List (String × JValue))
    (w : World) : returned (initLoop (sectionStep K) ms w) = entriesOk ms := by
  induction ms generalizing w with
  | nil => rfl
  | cons e ms ih =>
    obtain ⟨name, value⟩ := e
    rw [entriesOk_cons]
    cases hr : readEntry value with
    | none => simp only [initLoop, sectionStep_eq K hK, hr]; rfl
    | some r =>
      simp only [initLoop, sectionStep_eq K hK, hr]
      rw [ih]
      rfl

theorem ANALYTICS_eq_log (w : World) (msg : String) :
    w.ANALYTICS msg = w.withLog (w.log ++ [msg]) := rfl

/-- The block of a kind whose section is absent does nothing. -/
theorem initKind_absent (K : Asset_Type) (doc : JValue) (w : World)
    (h : doc.HasMember (sectionKey K) = some false) : initKind K doc w = .ok w := by
  simp only [initKind, initSection, h]

theorem sectionMembers_of_absent (K : Asset_Type) (doc : JValue)
    (h : doc.HasMember (sectionKey K) = some false) : sectionMembers doc K = [] := by
  unfold JValue.HasMember at h
  cases hm : doc.members with
  | none => simp [hm] at h
  | some top =>
    simp only [hm, Option.map_some', Option.some.injEq] at h
    have hf : JValue.findMember top (sectionKey K) = none := by
      cases hx : JValue.findMember top (sectionKey K) with
      | none => rfl
      | some v => simp [hx] at h
    simp [sectionMembers, JValue.member, hm, hf]

/-- The block of a kind whose section is an object. -/
theorem initKind_present (K : Asset_Type) (doc : JValue) (w : World) (ms : List (String × JValue))
    (h : doc.member (sectionKey K) = some (JValue.obj ms)) :
    initKind K doc w = match initLoop (sectionStep K) ms w with
      | .error e => .error e
      | .ok w' => .ok (w'.ANALYTICS (sectionDone K)) := by
  have hH : doc.HasMember (sectionKey K) = some true := by
    unfold JValue.member at h
    unfold JValue.HasMember
    cases hm : doc.members with
    | none => simp [hm] at h
    | some top =>
      simp only [hm, Option.some_bind] at h
      simp [h]
  simp only [initKind, initSection, hH, h, Option.some_bind, JValue.members]

theorem sectionMembers_of_present (K : Asset_Type) (doc : JValue) (ms : List (String × JValue))
    (h : doc.member (sectionKey K) = some (JValue.obj ms)) : sectionMembers doc K = ms := by
  simp [sectionMembers, h, JValue.members]

/-- The block of a kind on a document whose section of the kind is well-formed:
it returns, in the state the entries of the section lead to (the log apart). -/
theorem initKind_ok (K : Asset_Type) (hK : K.IsKind) (doc : JValue) (w : World)
    (hd : doc.members.isSome = true) (h : wellFormedSection doc K = true) :
    ∃ l, initKind K doc w = .ok ((populate K (sectionEntries doc K) w).withLog l) := by
  unfold wellFormedSection at h
  cases hm : doc.member (sectionKey K) with
  | none =>
    have hH : doc.HasMember (sectionKey K) = some false := by
      obtain ⟨top, ht⟩ := Option.isSome_iff_exists.1 hd
      unfold JValue.member at hm
      unfold JValue.HasMember
      simp only [ht, Option.some_bind] at hm
      simp [ht, hm]
    refine ⟨w.log, ?_⟩
    have hs : sectionEntries doc K = [] := by
      simp [sectionEntries, sectionMembers_of_absent K doc hH, parsedEntries]
    rw [initKind_absent K doc w hH, hs]
    rfl
  | some v =>
    simp only [hm] at h
    cases hv : v.members with
    | none => simp [hv] at h
    | some ms =>
      simp only [hv] at h
      have hobj : v = JValue.obj ms := by
        cases v <;> simp [JValue.members] at hv
        rw [hv]
      subst hobj
      refine ⟨(populate K (parsedEntries ms) w).log ++ [sectionDone K], ?_⟩
      rw [initKind_present K doc w ms hm, initLoop_ok K hK ms w h]
      simp only [sectionEntries, sectionMembers_of_present K doc ms hm]
      rfl

/-- The block of a kind on a document whose section of the kind has a member
that fails a read: it stops in the state reached by the entries before it. -/
theorem initKind_abort (K : Asset_Type) (hK : K.IsKind) (doc : JValue) (w : World)
    (l₁ l₂ : List (String × JValue)) (name : String) (value : JValue)
    (h : doc.member (sectionKey K) = some (JValue.obj (l₁ ++ (name, value) :: l₂)))
    (h₁ : entriesOk l₁ = true) (hbad : readEntry value = none) :
    initKind K doc w = .error (populate K (parsedEntries l₁) w) := by
  rw [initKind_present K doc w _ h, initLoop_abort K hK l₁ l₂ name value w h₁ hbad]

/-- What `initAssetManager` does once the file is read and parsed. -/
theorem initAssetManager_eq (w : World) (doc : JValue)
    (h : UMap.find? w.files w.am.m_assetFilepath = some (some doc)) :
    initAssetManager w = initDocument doc w := by
  simp only [initAssetManager, h, initDocument, initKind, sectionKey, sectionStep, sectionDone]

/-! ## `initAssetManager` on a parsed document -/

theorem isSome_members_of_member {doc : JValue} {key : String} {v : JValue}
    (h : doc.member key = some v) : doc.members.isSome = true := by
  unfold JValue.member at h
  cases hm : doc.members with
  | none => simp [hm] at h
  | some top => rfl

/-- On a well-formed document the three blocks return, in the state the
entries of the three sections lead to, in the order textures, audios, fonts
(the log apart). -/
theorem initDocument_ok (doc : JValue) (w : World) (h : wellFormed doc = true) :
    ∃ l, initDocument doc w = .ok ((populated doc w).withLog l) := by
  simp only [wellFormed, Bool.and_eq_true] at h
  obtain ⟨⟨⟨hd, h1⟩, h2⟩, h3⟩ := h
  obtain ⟨l1, e1⟩ := initKind_ok ASSET_TEXTURES (Or.inl rfl) doc w hd h1
  obtain ⟨l2, e2⟩ := initKind_ok ASSET_AUDIO (Or.inr (Or.inl rfl)) doc
    ((populate ASSET_TEXTURES (sectionEntries doc ASSET_TEXTURES) w).withLog l1) hd h2
  rw [populate_log, withLog_withLog] at e2
  obtain ⟨l3, e3⟩ := initKind_ok ASSET_FONT (Or.inr (Or.inr rfl)) doc
    ((populate ASSET_AUDIO (sectionEntries doc ASSET_AUDIO)
        (populate ASSET_TEXTURES (sectionEntries doc ASSET_TEXTURES) w)).withLog l2) hd h3
  rw [populate_log, withLog_withLog] at e3
  refine ⟨l3, ?_⟩
  simp only [initDocument, e1, e2]
  exact e3

/-- On a document whose section of kind `K` has a member that fails a read,
the sections before it being well-formed, the blocks stop at that member, in
the state the earlier sections and the earlier entries of the section lead to
(the log apart). -/
theorem initDocument_abort (K : Asset_Type) (hK : K.IsKind) (doc : JValue) (w : World)
    (l₁ l₂ : List (String × JValue)) (name : String) (value : JValue)
    (hbefore : wellFormedBefore K doc = true)
    (h : doc.member (sectionKey K) = some (JValue.obj (l₁ ++ (name, value) :: l₂)))
    (h₁ : entriesOk l₁ = true) (hbad : readEntry value = none) :
    ∃ l, initDocument doc w
      = .error ((populate K (parsedEntries l₁) (populatedBefore K doc w)).withLog l) := by
  have hd := isSome_members_of_member h
  rcases hK with rfl | rfl | rfl
  · refine ⟨(populate ASSET_TEXTURES (parsedEntries l₁) w).log, ?_⟩
    simp only [initDocument,
      initKind_abort ASSET_TEXTURES (Or.inl rfl) doc w l₁ l₂ name value h h₁ hbad]
    rfl
  · obtain ⟨l1, e1⟩ := initKind_ok ASSET_TEXTURES (Or.inl rfl) doc w hd hbefore
    refine ⟨l1, ?_⟩
    simp only [initDocument, e1,
      initKind_abort ASSET_AUDIO (Or.inr (Or.inl rfl)) doc _ l₁ l₂ name value h h₁ hbad]
    rw [populate_log]
    rfl
  · simp only [wellFormedBefore, Bool.and_eq_true] at hbefore
    obtain ⟨l1, e1⟩ := initKind_ok ASSET_TEXTURES (Or.inl rfl) doc w hd hbefore.1
    obtain ⟨l2, e2⟩ := initKind_ok ASSET_AUDIO (Or.inr (Or.inl rfl)) doc
      ((populate ASSET_TEXTURES (sectionEntries doc ASSET_TEXTURES) w).withLog l1) hd
      hbefore.2
    rw [populate_log, withLog_withLog] at e2
    refine ⟨l2, ?_⟩
    simp only [initDocument, e1, e2,
      initKind_abort ASSET_FONT (Or.inr (Or.inr rfl)) doc _ l₁ l₂ name value h h₁ hbad]
    rw [populate_log]
    rfl

theorem returned_initKind (K : Asset_Type) (hK : K.IsKind) (doc : JValue) (w : World) :
    returned (initKind K doc w) = (doc.members.isSome && wellFormedSection doc K) := by
  cases hd : doc.members with
  | none =>
    have hH : doc.HasMember (sectionKey K) = none := by simp [JValue.HasMember, hd]
    simp only [initKind, initSection, hH]
    rfl
  | some top =>
    cases hm : doc.member (sectionKey K) with
    | none =>
      have hH : doc.HasMember (sectionKey K) = some false := by
        unfold JValue.member at hm
        unfold JValue.HasMember
        simp only [hd, Option.some_bind] at hm
        simp [hd, hm]
      rw [initKind_absent K doc w hH]
      simp [returned, wellFormedSection, hm]
    | some v =>
      have hH : doc.HasMember (sectionKey K) = some true := by
        unfold JValue.member at hm
        unfold JValue.HasMember
        simp only [hd, Option.some_bind] at hm
        simp [hd, hm]
      cases hv : v.members with
      | none =>
        simp only [initKind, initSection, hH, hm, Option.some_bind, hv]
        simp [returned, wellFormedSection, hm, hv]
      | some ms =>
        have hobj : v = JValue.obj ms := by
          cases v <;> simp [JValue.members] at hv
          rw [hv]
        subst hobj
        rw [initKind_present K doc w ms hm]
        have hr := returned_initLoop K hK ms w
        cases hl : initLoop (sectionStep K) ms w with
        | error e =>
          rw [hl] at hr
          simp only [returned] at hr
          simp [returned, wellFormedSection, hm, JValue.members, ← hr]
        | ok w' =>
          rw [hl] at hr
          simp only [returned] at hr
          simp [returned, wellFormedSection, hm, JValue.members, ← hr]

/-- The three blocks return exactly on the well-formed documents. -/
theorem returned_initDocument (doc : JValue) (w : World) :
    returned (initDocument doc w) = wellFormed doc := by
  have r1 := returned_initKind ASSET_TEXTURES (Or.inl rfl) doc w
  unfold initDocument wellFormed
  cases h1 : initKind ASSET_TEXTURES doc w with
  | error e =>
    rw [h1] at r1
    simp only [returned] at r1
    have : (doc.members.isSome && wellFormedSection doc ASSET_TEXTURES) = false := r1.symm
    simp [returned, this]
  | ok w1 =>
    rw [h1] at r1
    simp only [returned] at r1
    have r2 := returned_initKind ASSET_AUDIO (Or.inr (Or.inl rfl)) doc w1
    have h12 : (doc.members.isSome && wellFormedSection doc ASSET_TEXTURES) = true := r1.symm
    simp only [Bool.and_eq_true] at h12
    simp only [h12.1, h12.2, Bool.true_and] at r2 ⊢
    cases h2 : initKind ASSET_AUDIO doc w1 with
    | error e =>
      rw [h2] at r2
      simp only [returned] at r2
      simp [returned, ← r2]
    | ok w2 =>
      rw [h2] at r2
      simp only [returned] at r2
      have r3 := returned_initKind ASSET_FONT (Or.inr (Or.inr rfl)) doc w2
      simp only [h12.1, Bool.true_and] at r3
      simp only [r3, ← r2, Bool.true_and]

theorem World.store_log (w : World) (l : List String) (K : Asset_Type) :
    (w.withLog l).store K = w.store K := by
  cases K <;> rfl

theorem World.editor_log (w : World) (l : List String) (K : Asset_Type) :
    (w.withLog l).editor K = w.editor K := rfl

/-- The stores, the editor entries and the external calls after the three
sections of a document were read. -/
theorem populated_views (doc : JValue) (w : World) :
    (populated doc w).store ASSET_TEXTURES
      = UMap.assignAll (w.store ASSET_TEXTURES)
          (storeAssignments ASSET_TEXTURES (sectionEntries doc ASSET_TEXTURES)) ∧
    (populated doc w).store ASSET_AUDIO
      = UMap.assignAll (w.store ASSET_AUDIO)
          (storeAssignments ASSET_AUDIO (sectionEntries doc ASSET_AUDIO)) ∧
    (populated doc w).store ASSET_FONT
      = UMap.assignAll (w.store ASSET_FONT)
          (storeAssignments ASSET_FONT (sectionEntries doc ASSET_FONT)) ∧
    (populated doc w).editor ASSET_TEXTURES
      = UMap.assignAll
          (UMap.assignAll (w.editor ASSET_TEXTURES)
            (editorAssignments (sectionEntries doc ASSET_TEXTURES)))
          (editorAssignments (sectionEntries doc ASSET_FONT)) ∧
    (populated doc w).editor ASSET_AUDIO
      = UMap.assignAll (w.editor ASSET_AUDIO)
          (editorAssignments (sectionEntries doc ASSET_AUDIO)) ∧
    (populated doc w).editor ASSET_FONT = w.editor ASSET_FONT ∧
    (populated doc w).calls
      = w.calls ++ (sectionEntries doc ASSET_TEXTURES).map (fun e => loadCall ASSET_TEXTURES e.1 e.2.2)
          ++ (sectionEntries doc ASSET_AUDIO).map (fun e => loadCall ASSET_AUDIO e.1 e.2.2)
          ++ (sectionEntries doc ASSET_FONT).map (fun e => loadCall ASSET_FONT e.1 e.2.2) := by
  have kT : Asset_Type.IsKind ASSET_TEXTURES := Or.inl rfl
  have kA : Asset_Type.IsKind ASSET_AUDIO := Or.inr (Or.inl rfl)
  have kF : Asset_Type.IsKind ASSET_FONT := Or.inr (Or.inr rfl)
  unfold populated populatedBefore
  refine ⟨?_, ?_, ?_, ?_, ?_, ?_, ?_⟩
  · rw [populate_store_ne ASSET_FONT ASSET_TEXTURES kF (by decide),
      populate_store_ne ASSET_AUDIO ASSET_TEXTURES kA (by decide),
      populate_store_self ASSET_TEXTURES kT]
  · rw [populate_store_ne ASSET_FONT ASSET_AUDIO kF (by decide),
      populate_store_self ASSET_AUDIO kA,
      populate_store_ne ASSET_TEXTURES ASSET_AUDIO kT (by decide)]
  · rw [populate_store_self ASSET_FONT kF,
      populate_store_ne ASSET_AUDIO ASSET_FONT kA (by decide),
      populate_store_ne ASSET_TEXTURES ASSET_FONT kT (by decide)]
  · have h1 := populate_editor_self ASSET_FONT kF (sectionEntries doc ASSET_FONT)
      (populate ASSET_AUDIO (sectionEntries doc ASSET_AUDIO)
        (populate ASSET_TEXTURES (sectionEntries doc ASSET_TEXTURES) w))
    have h2 := populate_editor_self ASSET_TEXTURES kT (sectionEntries doc ASSET_TEXTURES) w
    simp only [editorKind] at h1 h2
    rw [h1, populate_editor_ne ASSET_AUDIO ASSET_TEXTURES kA (by decide), h2]
  · have h1 := populate_editor_self ASSET_AUDIO kA (sectionEntries doc ASSET_AUDIO)
      (populate ASSET_TEXTURES (sectionEntries doc ASSET_TEXTURES) w)
    simp only [editorKind] at h1
    rw [populate_editor_ne ASSET_FONT ASSET_AUDIO kF (by decide), h1,
      populate_editor_ne ASSET_TEXTURES ASSET_AUDIO kT (by decide)]
  · rw [populate_editor_ne ASSET_FONT ASSET_FONT kF (by decide),
      populate_editor_ne ASSET_AUDIO ASSET_FONT kA (by decide),
      populate_editor_ne ASSET_TEXTURES ASSET_FONT kT (by decide)]
  · rw [populate_calls ASSET_FONT kF, populate_calls ASSET_AUDIO kA,
      populate_calls ASSET_TEXTURES kT]

/-! ## `initAssetManager` on a readable document -/

/-- On a well-formed document `initAssetManager` returns, with the registry and
the external calls the entries of the three sections lead to. -/
theorem initialized_wellFormed (w : World) (doc : JValue)
    (hfile : UMap.find? w.files w.am.m_assetFilepath = some (some doc))
    (hwf : wellFormed doc = true) :
    returned (initAssetManager w) = true ∧
    (initialized w).am = (populated doc w).am ∧
    (initialized w).calls = (populated doc w).calls := by
  obtain ⟨l, hl⟩ := initDocument_ok doc w hwf
  rw [initialized, initAssetManager_eq w doc hfile, hl]
  exact ⟨rfl, rfl, rfl⟩

theorem initialized_views (w : World) (doc : JValue)
    (hfile : UMap.find? w.files w.am.m_assetFilepath = some (some doc))
    (hwf : wellFormed doc = true) (K : Asset_Type) :
    (initialized w).store K = (populated doc w).store K ∧
    (initialized w).editor K = (populated doc w).editor K :=
  ⟨World.store_congr (initialized_wellFormed w doc hfile hwf).2.1 K,
    World.editor_congr (initialized_wellFormed w doc hfile hwf).2.1 K⟩

theorem readEntry_of (v : JValue) (u : UUID) (x : String)
    (h3 : (v.member "UUID").bind JValue.GetUint64 = some u)
    (h4 : (v.member "filepath").bind JValue.GetString = some x) :
    readEntry v = some (u, c_str x) := by
  unfold readEntry
  rw [h3, h4]

theorem entryValue_uuid (u : UUID) (p : String) (hu : u < 2 ^ 64) :
    ((entryValue u p).member "UUID").bind JValue.GetUint64 = some u := by
  have h1 : (entryValue u p).member "UUID" = some (JValue.number (u : Nat)) := by
    simp [entryValue, JValue.member, JValue.members, JValue.findMember]
  rw [h1, Option.some_bind]
  exact GetUint64_number u hu

theorem entryValue_filepath (u : UUID) (p : String) :
    ((entryValue u p).member "filepath").bind JValue.GetString = some p := by
  have h2 : (entryValue u p).member "filepath" = some (JValue.str p) := by
    simp [entryValue, JValue.member, JValue.members, JValue.findMember]
  rw [h2, Option.some_bind]
  rfl

theorem readEntry_entryValue (u : UUID) (p : String) (hu : u < 2 ^ 64) :
    readEntry (entryValue u p) = some (u, c_str p) :=
  readEntry_of _ u p (entryValue_uuid u p hu) (entryValue_filepath u p)

theorem readEntry_eq_none_of_lacks (value : JValue)
    (h : value.member "UUID" = none ∨ value.member "filepath" = none) :
    readEntry value = none := by
  unfold readEntry
  rcases h with h | h
  · simp [h]
  · cases (value.member "UUID").bind JValue.GetUint64 <;> simp [h]

/-! ## A document with a textures section only -/

theorem texturesDocument_sections (entries : List (String × UUID × String)) :
    sectionMembers (texturesDocument entries) ASSET_TEXTURES
      = entries.map (fun e => (e.1, entryValue e.2.1 e.2.2)) ∧
    sectionMembers (texturesDocument entries) ASSET_AUDIO = [] ∧
    sectionMembers (texturesDocument entries) ASSET_FONT = [] := by
  refine ⟨?_, ?_, ?_⟩ <;>
    simp [sectionMembers, texturesDocument, JValue.member, JValue.members, JValue.findMember,
      sectionKey]

theorem parsedEntries_entryValues (entries : List (String × UUID × String))
    (h64 : ∀ e ∈ entries, e.2.1 < 2 ^ 64) :
    parsedEntries (entries.map (fun e => (e.1, entryValue e.2.1 e.2.2)))
      = entries.map (fun e => (c_str e.1, e.2.1, c_str e.2.2)) := by
  induction entries with
  | nil => rfl
  | cons e es ih =>
    have he := readEntry_entryValue e.2.1 e.2.2 (h64 e (List.mem_cons_self _ _))
    rw [List.map_cons, parsedEntries_cons_some _ _ _ _ he,
      ih (fun x hx => h64 x (List.mem_cons_of_mem _ hx))]
    rfl

theorem entriesOk_entryValues (entries : List (String × UUID × String))
    (h64 : ∀ e ∈ entries, e.2.1 < 2 ^ 64) :
    entriesOk (entries.map (fun e => (e.1, entryValue e.2.1 e.2.2))) = true := by
  induction entries with
  | nil => rfl
  | cons e es ih =>
    have he := readEntry_entryValue e.2.1 e.2.2 (h64 e (List.mem_cons_self _ _))
    rw [List.map_cons, entriesOk_cons, ih (fun x hx => h64 x (List.mem_cons_of_mem _ hx))]
    simp [he]

theorem wellFormed_texturesDocument (entries : List (String × UUID × String))
    (h64 : ∀ e ∈ entries, e.2.1 < 2 ^ 64) : wellFormed (texturesDocument entries) = true := by
  have h1 : wellFormedSection (texturesDocument entries) ASSET_TEXTURES = true := by
    have := entriesOk_entryValues entries h64
    simpa [wellFormedSection, texturesDocument, JValue.member, JValue.members,
      JValue.findMember, sectionKey] using this
  have h2 : wellFormedSection (texturesDocument entries) ASSET_AUDIO = true := by
    simp [wellFormedSection, texturesDocument, JValue.member, JValue.members,
      JValue.findMember, sectionKey]
  have h3 : wellFormedSection (texturesDocument entries) ASSET_FONT = true := by
    simp [wellFormedSection, texturesDocument, JValue.member, JValue.members,
      JValue.findMember, sectionKey]
  simp only [wellFormed, h1, h2, h3, Bool.and_true]
  rfl

theorem map_c_str_of_nulFree (entries : List (String × UUID × String))
    (hnul : ∀ e ∈ entries, NulFree e.1 ∧ NulFree e.2.2) :
    entries.map (fun e => (c_str e.1, e.2.1, c_str e.2.2)) = entries := by
  conv_rhs => rw [← List.map_id entries]
  apply List.map_congr_left
  intro e he
  obtain ⟨h1, h2⟩ := hnul e he
  obtain ⟨n, u, p⟩ := e
  show (c_str n, u, c_str p) = (n, u, p)
  rw [show c_str n = n from h1, show c_str p = p from h2]

/-- Claim C14, as stated, fails: the document has the single section
`"textures"` with the single entry named `a`, NUL, `b` (identifier 42, path
`hero.png`); `initAssetManager` on a fresh registry returns, and the image store
and the editor map hold 42 under the display name `a`, not under the name of
the document. -/
theorem init_textures_document_counterexample :
    Examples.nulDoc = JValue.obj [("textures", JValue.obj
      [(Examples.nulName, JValue.obj
        [("UUID", JValue.number 42), ("filepath", JValue.str "hero.png")])])] ∧
    returned (initAssetManager (Examples.wDoc Examples.nulDoc)) = true ∧
    (initialized (Examples.wDoc Examples.nulDoc)).store ASSET_TEXTURES
      = [(42, (some "hero.png", "a"))] ∧
    (initialized (Examples.wDoc Examples.nulDoc)).editor ASSET_TEXTURES
      = [(42, ("a", "hero.png"))] ∧
    Examples.nulName ≠ "a" := by
  refine ⟨by rfl, by rfl, by rfl, by rfl, by decide⟩

/-- Claim C14, amended. For every document whose only section is `"textures"`,
with entries `name_j ↦ {"UUID": u_j, "filepath": p_j}` of pairwise distinct
64-bit identifiers whose names and paths have no NUL character:
`initAssetManager` on a fresh registry returns; the image store then holds
exactly the identifiers `u_j`, each with the display name `name_j` and a handle
loaded from `p_j`, in document order; the editor map holds exactly the entries
`(Image, u_j) ↦ (name_j, p_j)`; the audio and font stores and their editor
entries are empty; and the image load primitive was invoked once per entry. -/
theorem init_textures_document (entries : List (String × UUID × String)) (eng : Engine)
    (files : UMap String (Option JValue))
    (hfile : UMap.find? files "./Json/assets_serialized.json"
      = some (some (texturesDocument entries)))
    (hnd : (entries.map (fun e => e.2.1)).Nodup)
    (h64 : ∀ e ∈ entries, e.2.1 < 2 ^ 64)
    (hnul : ∀ e ∈ entries, NulFree e.1 ∧ NulFree e.2.2) :
    returned (initAssetManager (World.fresh eng files)) = true ∧
    (initialized (World.fresh eng files)).store ASSET_TEXTURES
      = entries.map (fun e => (e.2.1, (some e.2.2, e.1))) ∧
    (initialized (World.fresh eng files)).editor ASSET_TEXTURES
      = entries.map (fun e => (e.2.1, (e.1, e.2.2))) ∧
    (initialized (World.fresh eng files)).store ASSET_AUDIO = [] ∧
    (initialized (World.fresh eng files)).store ASSET_FONT = [] ∧
    (initialized (World.fresh eng files)).editor ASSET_AUDIO = [] ∧
    (initialized (World.fresh eng files)).editor ASSET_FONT = [] ∧
    (initialized (World.fresh eng files)).calls
      = entries.map (fun e => ExtCall.LoadTexture e.2.2) := by
  have hfile' : UMap.find? (World.fresh eng files).files
      (World.fresh eng files).am.m_assetFilepath = some (some (texturesDocument entries)) :=
    hfile
  have hwf := wellFormed_texturesDocument entries h64
  obtain ⟨hret, _, hcalls⟩ := initialized_wellFormed _ _ hfile' hwf
  have hv := fun K => initialized_views _ _ hfile' hwf K
  obtain ⟨sT, sA, sF⟩ := texturesDocument_sections entries
  have eT : sectionEntries (texturesDocument entries) ASSET_TEXTURES = entries := by
    rw [sectionEntries, sT, parsedEntries_entryValues entries h64,
      map_c_str_of_nulFree entries hnul]
  have eA : sectionEntries (texturesDocument entries) ASSET_AUDIO = [] := by
    rw [sectionEntries, sA]; rfl
  have eF : sectionEntries (texturesDocument entries) ASSET_FONT = [] := by
    rw [sectionEntries, sF]; rfl
  obtain ⟨p1, p2, p3, p4, p5, p6, p7⟩ :=
    populated_views (texturesDocument entries) (World.fresh eng files)
  simp only [eT, eA, eF] at p1 p2 p3 p4 p5 p7
  have hfreshS : ∀ K, (World.fresh eng files).store K = [] := by
    intro K; cases K <;> rfl
  have hfreshE : ∀ K, (World.fresh eng files).editor K = [] := by
    intro K; rfl
  have hk1 : ((storeAssignments ASSET_TEXTURES entries).map Prod.fst).Nodup := by
    simpa [storeAssignments, List.map_map, Function.comp] using hnd
  have hk2 : ((editorAssignments entries).map Prod.fst).Nodup := by
    simpa [editorAssignments, List.map_map, Function.comp] using hnd
  refine ⟨hret, ?_, ?_, ?_, ?_, ?_, ?_, ?_⟩
  · rw [(hv ASSET_TEXTURES).1, p1, hfreshS,
      UMap.assignAll_fresh _ _ hk1 (by intro kv _; simp [UMap.keys])]
    simp [storeAssignments, loadedHandle]
  · rw [(hv ASSET_TEXTURES).2, p4, hfreshE]
    show UMap.assignAll (UMap.assignAll [] (editorAssignments entries)) [] = _
    rw [UMap.assignAll_nil,
      UMap.assignAll_fresh _ _ hk2 (by intro kv _; simp [UMap.keys])]
    simp [editorAssignments]
  · rw [(hv ASSET_AUDIO).1, p2, hfreshS]; rfl
  · rw [(hv ASSET_FONT).1, p3, hfreshS]; rfl
  · rw [(hv ASSET_AUDIO).2, p5, hfreshE]; rfl
  · rw [(hv ASSET_FONT).2, p6, hfreshE]
  · rw [hcalls, p7]
    simp [World.fresh, loadCall]

/-- Claim C14, amended, at the input of the scenario: the document
`{"textures": {"Hero": {"UUID": 42, "filepath": "hero.png"}}}` yields exactly
one image store entry, with identifier 42, and exactly one editor-map entry,
`(Image, 42) ↦ ("Hero", "hero.png")`. -/
theorem init_textures_document_witness :
    (Examples.heroDoc = JValue.obj [("textures", JValue.obj
        [("Hero", JValue.obj
          [("UUID", JValue.number 42), ("filepath", JValue.str "hero.png")])])] ∧
      UMap.find? [("./Json/assets_serialized.json", some Examples.heroDoc)]
          "./Json/assets_serialized.json"
        = some (some (texturesDocument [("Hero", 42, "hero.png")])) ∧
      ([("Hero", 42, "hero.png")].map (fun e : String × UUID × String => e.2.1)).Nodup ∧
      (∀ e ∈ [(("Hero", 42, "hero.png") : String × UUID × String)], e.2.1 < 2 ^ 64) ∧
      (∀ e ∈ [(("Hero", 42, "hero.png") : String × UUID × String)],
        NulFree e.1 ∧ NulFree e.2.2)) ∧
    (initialized (Examples.wDoc Examples.heroDoc)).store ASSET_TEXTURES
      = [(42, (some "hero.png", "Hero"))] ∧
    (initialized (Examples.wDoc Examples.heroDoc)).editor ASSET_TEXTURES
      = [(42, ("Hero", "hero.png"))] :=
  ⟨⟨by rfl, by rfl, by decide, by decide, by decide⟩,
    (init_textures_document [("Hero", 42, "hero.png")] Examples.counting
      [("./Json/assets_serialized.json", some Examples.heroDoc)] (by rfl) (by decide)
      (by decide) (by decide)).2.1,
    (init_textures_document [("Hero", 42, "hero.png")] Examples.counting
      [("./Json/assets_serialized.json", some Examples.heroDoc)] (by rfl) (by decide)
      (by decide) (by decide)).2.2.1⟩

/-! ## One entry of a well-formed document -/

theorem find?_storeAssignments_last (K : Asset_Type) (m : UMap UUID StoreEntry)
    (es₁ es₂ : List (String × UUID × String)) (n : String) (u : UUID) (p : String)
    (h : ∀ e ∈ es₂, e.2.1 ≠ u) :
    UMap.find? (UMap.assignAll m (storeAssignments K (es₁ ++ (n, u, p) :: es₂))) u
      = some (loadedHandle K p, n) := by
  have hs : storeAssignments K (es₁ ++ (n, u, p) :: es₂)
      = storeAssignments K es₁ ++ (u, (loadedHandle K p, n)) :: storeAssignments K es₂ := by
    simp [storeAssignments]
  rw [hs]
  apply UMap.find?_assignAll_last
  intro kv hkv
  obtain ⟨e, he, rfl⟩ := List.mem_map.1 hkv
  exact h e he

theorem find?_editorAssignments_last (m : EditorEntries)
    (es₁ es₂ : List (String × UUID × String)) (n : String) (u : UUID) (p : String)
    (h : ∀ e ∈ es₂, e.2.1 ≠ u) :
    UMap.find? (UMap.assignAll m (editorAssignments (es₁ ++ (n, u, p) :: es₂))) u
      = some (n, p) := by
  have hs : editorAssignments (es₁ ++ (n, u, p) :: es₂)
      = editorAssignments es₁ ++ (u, (n, p)) :: editorAssignments es₂ := by
    simp [editorAssignments]
  rw [hs]
  apply UMap.find?_assignAll_last
  intro kv hkv
  obtain ⟨e, he, rfl⟩ := List.mem_map.1 hkv
  exact h e he

theorem find?_editorAssignments_of_not_mem (m : EditorEntries)
    (es : List (String × UUID × String)) (u : UUID) (h : ∀ e ∈ es, e.2.1 ≠ u) :
    UMap.find? (UMap.assignAll m (editorAssignments es)) u = UMap.find? m u := by
  apply UMap.find?_assignAll_of_not_mem
  intro kv hkv
  obtain ⟨e, he, rfl⟩ := List.mem_map.1 hkv
  exact h e he

/-- Claim C15, as stated, fails, in four ways. (1) Fonts: after
`initAssetManager` on `{"fonts": {"F": {"UUID": 100, "filepath": "f.ttf"}}}`
the font store holds 100 named `F`, and the editor map has no entry
`(Font, 100)`. (2) One identifier twice in a section: after the document with
the textures `A` and `B`, both with identifier 1, the image store holds 1 under
the name `B`, not `A`. (3) A name with a NUL character is stored cut at the
NUL. (4) An entry that follows a malformed one is never read: the call fails
an assertion and the image store stays empty. -/
theorem init_entry_populated_counterexample :
    (returned (initAssetManager (Examples.wFonts Examples.counting)) = true ∧
      UMap.find? ((initialized (Examples.wFonts Examples.counting)).store ASSET_FONT) 100
        = some (some "f.ttf", "F") ∧
      UMap.find? ((initialized (Examples.wFonts Examples.counting)).editor ASSET_FONT) 100
        = none) ∧
    (returned (initAssetManager (Examples.wDoc Examples.dupDoc)) = true ∧
      UMap.find? ((initialized (Examples.wDoc Examples.dupDoc)).store ASSET_TEXTURES) 1
        = some (some "b.png", "B")) ∧
    (returned (initAssetManager (Examples.wDoc Examples.nulDoc)) = true ∧
      UMap.find? ((initialized (Examples.wDoc Examples.nulDoc)).store ASSET_TEXTURES) 42
        = some (some "hero.png", "a") ∧ Examples.nulName ≠ "a") ∧
    (returned (initAssetManager (Examples.wDoc Examples.badFirstDoc)) = false ∧
      UMap.find? ((initialized (Examples.wDoc Examples.badFirstDoc)).store ASSET_TEXTURES) 1
        = none) := by
  refine ⟨⟨by rfl, by rfl, by rfl⟩, ⟨by rfl, by rfl⟩, ⟨by rfl, by rfl, by decide⟩,
    ⟨by rfl, by rfl⟩⟩

/-- Claim C15, amended. For every document on which `initAssetManager` does not
fail an assertion (a well-formed document) and each section `S` of kind `K`
containing an entry `name ↦ {"UUID": u, "filepath": p}`, with `u` a 64-bit
identifier that no later entry of `S` carries and `name`, `p` without NUL
character: `initAssetManager` returns, and the store of `K` then holds `u` with
the display name `name` and, for image and font, a handle loaded from `p`; for
`S` = audios the editor map holds `(Audio, u) ↦ (name, p)`; for `S` = textures
it holds `(Image, u) ↦ (name, p)` when no entry of the fonts section carries
`u`. No statement is made about the editor-map entry of a font. -/
theorem init_entry_populated (K : Asset_Type) (hK : K.IsKind) (w : World) (doc : JValue)
    (hfile : UMap.find? w.files w.am.m_assetFilepath = some (some doc))
    (hwf : wellFormed doc = true) (l₁ l₂ : List (String × JValue)) (name : String)
    (u : UUID) (p : String)
    (hsec : sectionMembers doc K = l₁ ++ (name, entryValue u p) :: l₂)
    (hu : u < 2 ^ 64) (hname : NulFree name) (hp : NulFree p)
    (hlast : ∀ e ∈ parsedEntries l₂, e.2.1 ≠ u) :
    returned (initAssetManager w) = true ∧
    UMap.find? ((initialized w).store K) u = some (loadedHandle K p, name) ∧
    (K = ASSET_AUDIO →
      UMap.find? ((initialized w).editor ASSET_AUDIO) u = some (name, p)) ∧
    (K = ASSET_TEXTURES → (∀ e ∈ sectionEntries doc ASSET_FONT, e.2.1 ≠ u) →
      UMap.find? ((initialized w).editor ASSET_TEXTURES) u = some (name, p)) := by
  obtain ⟨hret, _, _⟩ := initialized_wellFormed w doc hfile hwf
  have hv := fun K' => initialized_views w doc hfile hwf K'
  have hes : sectionEntries doc K = parsedEntries l₁ ++ (name, u, p) :: parsedEntries l₂ := by
    rw [sectionEntries, hsec, parsedEntries_append,
      parsedEntries_cons_some name _ l₂ _ (readEntry_entryValue u p hu)]
    rw [show c_str name = name from hname, show c_str p = p from hp]
  obtain ⟨p1, p2, p3, p4, p5, _, _⟩ := populated_views doc w
  refine ⟨hret, ?_, ?_, ?_⟩
  · rw [(hv K).1]
    rcases hK with rfl | rfl | rfl
    · rw [p1, hes]; exact find?_storeAssignments_last _ _ _ _ _ _ _ hlast
    · rw [p2, hes]; exact find?_storeAssignments_last _ _ _ _ _ _ _ hlast
    · rw [p3, hes]; exact find?_storeAssignments_last _ _ _ _ _ _ _ hlast
  · intro hk
    subst hk
    rw [(hv ASSET_AUDIO).2, p5, hes]
    exact find?_editorAssignments_last _ _ _ _ _ _ hlast
  · intro hk hfont
    subst hk
    rw [(hv ASSET_TEXTURES).2, p4, find?_editorAssignments_of_not_mem _ _ _ hfont, hes]
    exact find?_editorAssignments_last _ _ _ _ _ _ hlast

/-- Claim C15, amended, at a concrete input: the audio entry `S` of a document
with a textures and an audios section. -/
theorem init_entry_populated_witness :
    (Asset_Type.IsKind ASSET_AUDIO ∧
      UMap.find? (Examples.wDoc Examples.noFontsDoc).files
          (Examples.wDoc Examples.noFontsDoc).am.m_assetFilepath
        = some (some Examples.noFontsDoc) ∧
      wellFormed Examples.noFontsDoc = true ∧
      sectionMembers Examples.noFontsDoc ASSET_AUDIO = [] ++ ("S", entryValue 4 "s.wav") :: [] ∧
      (4 : UUID) < 2 ^ 64 ∧ NulFree "S" ∧ NulFree "s.wav" ∧
      (∀ e ∈ parsedEntries [], e.2.1 ≠ 4)) ∧
    UMap.find? ((initialized (Examples.wDoc Examples.noFontsDoc)).store ASSET_AUDIO) 4
      = some (loadedHandle ASSET_AUDIO "s.wav", "S") ∧
    UMap.find? ((initialized (Examples.wDoc Examples.noFontsDoc)).editor ASSET_AUDIO) 4
      = some ("S", "s.wav") :=
  ⟨⟨Or.inr (Or.inl rfl), by rfl, by rfl, by rfl, by decide, by decide, by decide,
      by intro e he; cases he⟩,
    (init_entry_populated ASSET_AUDIO (Or.inr (Or.inl rfl)) (Examples.wDoc Examples.noFontsDoc)
      Examples.noFontsDoc (by rfl) (by rfl) [] [] "S" 4 "s.wav" (by rfl) (by decide)
      (by decide) (by decide) (by intro e he; cases he)).2.1,
    (init_entry_populated ASSET_AUDIO (Or.inr (Or.inl rfl)) (Examples.wDoc Examples.noFontsDoc)
      Examples.noFontsDoc (by rfl) (by rfl) [] [] "S" 4 "s.wav" (by rfl) (by decide)
      (by decide) (by decide) (by intro e he; cases he)).2.2.1 rfl⟩

/-! ## A document that lacks a section -/

theorem entriesOk_sectionMembers (doc : JValue) (K : Asset_Type)
    (h : wellFormedSection doc K = true) : entriesOk (sectionMembers doc K) = true := by
  unfold wellFormedSection at h
  unfold sectionMembers
  cases hm : doc.member (sectionKey K) with
  | none => rfl
  | some v =>
    simp only [hm] at h
    cases hv : v.members with
    | none => simp [hv] at h
    | some ms =>
      simp only [hv] at h
      simpa [hv] using h

theorem mem_parsedEntries {ms : List (String × JValue)} {m : String × JValue}
    {r : UUID × String} (hm : m ∈ ms) (hr : readEntry m.2 = some r) :
    (c_str m.1, r.1, r.2) ∈ parsedEntries ms := by
  unfold parsedEntries
  rw [List.mem_filterMap]
  exact ⟨m, hm, by simp [hr]⟩

theorem wellFormedSection_of_wellFormed (doc : JValue) (h : wellFormed doc = true)
    (K : Asset_Type) (hK : K.IsKind) : wellFormedSection doc K = true := by
  simp only [wellFormed, Bool.and_eq_true] at h
  rcases hK with rfl | rfl | rfl
  · exact h.1.1.2
  · exact h.1.2
  · exact h.2

/-- Claim C16, as stated, fails, in two ways. (1) The document
`{"textures": {"Bad": {}, "A": {...}}}` lacks `"audios"` and `"fonts"`, and
`initAssetManager` fails an assertion on its first texture. (2) The document
`{"fonts": {"F": {"UUID": 100, "filepath": "f.ttf"}}}` lacks `"textures"`;
`initAssetManager` returns, and the editor entries of the image kind, empty
before the call, hold `100 ↦ ("F", "f.ttf")` after it. -/
theorem init_missing_section_counterexample :
    (Examples.badFirstDoc.HasMember "audios" = some false ∧
      returned (initAssetManager (Examples.wDoc Examples.badFirstDoc)) = false) ∧
    (Examples.fontsDoc.HasMember "textures" = some false ∧
      returned (initAssetManager (Examples.wFonts Examples.counting)) = true ∧
      (Examples.wFonts Examples.counting).editor ASSET_TEXTURES = [] ∧
      (initialized (Examples.wFonts Examples.counting)).editor ASSET_TEXTURES
        = [(100, ("F", "f.ttf"))]) := by
  refine ⟨⟨by rfl, by rfl⟩, ⟨by rfl, by rfl, by rfl, by rfl⟩⟩

/-- Claim C16, amended. For every well-formed document (an object whose
sections, where present, are objects with entries that pass the reads) that
lacks the top-level key of a kind `K`, and every registry state:
`initAssetManager` returns; the store of `K` is unchanged; the editor entries of
`K` are unchanged when `K` is audio or font, and when `K` is image and the
document has no font entry; and every entry of the sections that are present is
loaded: its identifier is a key of the store of the kind of its section, and
the load primitive of that kind was invoked with its path. -/
theorem init_missing_section (K : Asset_Type) (hK : K.IsKind) (w : World) (doc : JValue)
    (hfile : UMap.find? w.files w.am.m_assetFilepath = some (some doc))
    (hwf : wellFormed doc = true)
    (hmiss : doc.HasMember (sectionKey K) = some false) :
    returned (initAssetManager w) = true ∧
    (initialized w).store K = w.store K ∧
    (K ≠ ASSET_TEXTURES → (initialized w).editor K = w.editor K) ∧
    (K = ASSET_TEXTURES → sectionEntries doc ASSET_FONT = [] →
      (initialized w).editor K = w.editor K) ∧
    (∀ K' : Asset_Type, K'.IsKind → ∀ m ∈ sectionMembers doc K',
      ∃ r, readEntry m.2 = some r ∧
        UMap.contains ((initialized w).store K') r.1 = true ∧
        loadCall K' (c_str m.1) r.2 ∈ (initialized w).calls) := by
  obtain ⟨hret, _, hcalls⟩ := initialized_wellFormed w doc hfile hwf
  have hv := fun K' => initialized_views w doc hfile hwf K'
  have hes : sectionEntries doc K = [] := by
    rw [sectionEntries, sectionMembers_of_absent K doc hmiss]; rfl
  obtain ⟨p1, p2, p3, p4, p5, p6, p7⟩ := populated_views doc w
  refine ⟨hret, ?_, ?_, ?_, ?_⟩
  · rw [(hv K).1]
    rcases hK with rfl | rfl | rfl
    · rw [p1, hes]; rfl
    · rw [p2, hes]; rfl
    · rw [p3, hes]; rfl
  · intro hne
    rw [(hv K).2]
    rcases hK with rfl | rfl | rfl
    · exact absurd rfl hne
    · rw [p5, hes]; rfl
    · exact p6
  · intro hk hfont
    subst hk
    rw [(hv ASSET_TEXTURES).2, p4, hes, hfont]
    rfl
  · intro K' hK' m hm
    have hok := entriesOk_sectionMembers doc K' (wellFormedSection_of_wellFormed doc hwf K' hK')
    have hsome : (readEntry m.2).isSome = true := by
      have := List.all_eq_true.1 hok m hm
      simpa using this
    obtain ⟨r, hr⟩ := Option.isSome_iff_exists.1 hsome
    have hmem : (c_str m.1, r.1, r.2) ∈ sectionEntries doc K' := mem_parsedEntries hm hr
    refine ⟨r, hr, ?_, ?_⟩
    · rw [(hv K').1]
      have hs : (r.1, (loadedHandle K' r.2, c_str m.1))
          ∈ storeAssignments K' (sectionEntries doc K') :=
        List.mem_map_of_mem (fun e : String × UUID × String =>
          (e.2.1, (loadedHandle K' e.2.2, e.1))) hmem
      rcases hK' with rfl | rfl | rfl
      · rw [p1]; exact UMap.contains_assignAll_of_mem _ _ _ hs
      · rw [p2]; exact UMap.contains_assignAll_of_mem _ _ _ hs
      · rw [p3]; exact UMap.contains_assignAll_of_mem _ _ _ hs
    · rw [hcalls, p7]
      have hc : loadCall K' (c_str m.1) r.2
          ∈ (sectionEntries doc K').map (fun e => loadCall K' e.1 e.2.2) :=
        List.mem_map_of_mem (fun e : String × UUID × String => loadCall K' e.1 e.2.2) hmem
      rcases hK' with rfl | rfl | rfl <;> simp only [List.mem_append]
      · exact Or.inl (Or.inl (Or.inr hc))
      · exact Or.inl (Or.inr hc)
      · exact Or.inr hc

/-- Claim C16, amended, at a concrete input: a document with textures and
audios and without `"fonts"`. -/
theorem init_missing_section_witness :
    (Asset_Type.IsKind ASSET_FONT ∧
      UMap.find? (Examples.wDoc Examples.noFontsDoc).files
          (Examples.wDoc Examples.noFontsDoc).am.m_assetFilepath
        = some (some Examples.noFontsDoc) ∧
      wellFormed Examples.noFontsDoc = true ∧
      Examples.noFontsDoc.HasMember (sectionKey ASSET_FONT) = some false) ∧
    returned (initAssetManager (Examples.wDoc Examples.noFontsDoc)) = true ∧
    (initialized (Examples.wDoc Examples.noFontsDoc)).store ASSET_FONT
      = (Examples.wDoc Examples.noFontsDoc).store ASSET_FONT :=
  ⟨⟨Or.inr (Or.inr rfl), by rfl, by rfl, by rfl⟩,
    (init_missing_section ASSET_FONT (Or.inr (Or.inr rfl)) (Examples.wDoc Examples.noFontsDoc)
      Examples.noFontsDoc (by rfl) (by rfl) (by rfl)).1,
    (init_missing_section ASSET_FONT (Or.inr (Or.inr rfl)) (Examples.wDoc Examples.noFontsDoc)
      Examples.noFontsDoc (by rfl) (by rfl) (by rfl)).2.1⟩

/-! ## A malformed entry -/

/-- What `initAssetManager` does on a document whose section of kind `K` has a
member that fails a read. -/
theorem initialized_abort (K : Asset_Type) (hK : K.IsKind) (w : World) (doc : JValue)
    (hfile : UMap.find? w.files w.am.m_assetFilepath = some (some doc))
    (hbefore : wellFormedBefore K doc = true)
    (l₁ l₂ : List (String × JValue)) (name : String) (value : JValue)
    (hsec : doc.member (sectionKey K) = some (JValue.obj (l₁ ++ (name, value) :: l₂)))
    (h₁ : entriesOk l₁ = true) (hbad : readEntry value = none) :
    returned (initAssetManager w) = false ∧
    (initialized w).am = (populate K (parsedEntries l₁) (populatedBefore K doc w)).am ∧
    (initialized w).calls = (populate K (parsedEntries l₁) (populatedBefore K doc w)).calls := by
  obtain ⟨l, hl⟩ := initDocument_abort K hK doc w l₁ l₂ name value hbefore hsec h₁ hbad
  rw [initialized, initAssetManager_eq w doc hfile, hl]
  exact ⟨rfl, rfl, rfl⟩

/-- Claim C17. If an entry of the section of kind `K` lacks the `"UUID"` member
or the `"filepath"` member, the sections before it and the entries before it in
its section being well-formed, `initAssetManager` stops at that entry (the
rapidjson assertion fails, the call does not return): the registry and the
external calls are exactly those reached by the earlier sections and by the
earlier entries of the section, so the malformed entry, the entries after it and
the later sections add nothing, and what was populated before stays as it was
populated. -/
theorem init_aborts_at_malformed_entry (K : Asset_Type) (hK : K.IsKind) (w : World)
    (doc : JValue)
    (hfile : UMap.find? w.files w.am.m_assetFilepath = some (some doc))
    (hbefore : wellFormedBefore K doc = true)
    (l₁ l₂ : List (String × JValue)) (name : String) (value : JValue)
    (hsec : doc.member (sectionKey K) = some (JValue.obj (l₁ ++ (name, value) :: l₂)))
    (h₁ : entriesOk l₁ = true)
    (hbad : value.member "UUID" = none ∨ value.member "filepath" = none) :
    returned (initAssetManager w) = false ∧
    (initialized w).am = (populate K (parsedEntries l₁) (populatedBefore K doc w)).am ∧
    (initialized w).calls = (populate K (parsedEntries l₁) (populatedBefore K doc w)).calls ∧
    (∀ K' : Asset_Type,
      (initialized w).store K'
        = (populate K (parsedEntries l₁) (populatedBefore K doc w)).store K' ∧
      (initialized w).editor K'
        = (populate K (parsedEntries l₁) (populatedBefore K doc w)).editor K') := by
  obtain ⟨h1, h2, h3⟩ := initialized_abort K hK w doc hfile hbefore l₁ l₂ name value hsec h₁
    (readEntry_eq_none_of_lacks value hbad)
  exact ⟨h1, h2, h3, fun K' => ⟨World.store_congr h2 K', World.editor_congr h2 K'⟩⟩

/-- Claim C17 at a concrete input: the second of three textures has no
`"filepath"`; the first texture stays loaded, the third one and the audio
section are never read. -/
theorem init_aborts_at_malformed_entry_witness :
    (Asset_Type.IsKind ASSET_TEXTURES ∧
      UMap.find? (Examples.wDoc Examples.badMiddleDoc).files
          (Examples.wDoc Examples.badMiddleDoc).am.m_assetFilepath
        = some (some Examples.badMiddleDoc) ∧
      wellFormedBefore ASSET_TEXTURES Examples.badMiddleDoc = true ∧
      Examples.badMiddleDoc.member (sectionKey ASSET_TEXTURES)
        = some (JValue.obj ([("A", entryValue 1 "a.png")]
            ++ ("Bad", JValue.obj [("UUID", JValue.number 2)])
              :: [("C", entryValue 3 "c.png")])) ∧
      entriesOk [("A", entryValue 1 "a.png")] = true ∧
      (JValue.obj [("UUID", JValue.number 2)]).member "filepath" = none) ∧
    returned (initAssetManager (Examples.wDoc Examples.badMiddleDoc)) = false ∧
    (initialized (Examples.wDoc Examples.badMiddleDoc)).store ASSET_TEXTURES
      = [(1, (some "a.png", "A"))] ∧
    (initialized (Examples.wDoc Examples.badMiddleDoc)).store ASSET_AUDIO = [] :=
  ⟨⟨Or.inl rfl, by rfl, by rfl, by rfl, by rfl, by rfl⟩,
    (init_aborts_at_malformed_entry ASSET_TEXTURES (Or.inl rfl)
      (Examples.wDoc Examples.badMiddleDoc) Examples.badMiddleDoc (by rfl) (by rfl)
      [("A", entryValue 1 "a.png")] [("C", entryValue 3 "c.png")] "Bad"
      (JValue.obj [("UUID", JValue.number 2)]) (by rfl) (by rfl) (Or.inr (by rfl))).1,
    ((init_aborts_at_malformed_entry ASSET_TEXTURES (Or.inl rfl)
      (Examples.wDoc Examples.badMiddleDoc) Examples.badMiddleDoc (by rfl) (by rfl)
      [("A", entryValue 1 "a.png")] [("C", entryValue 3 "c.png")] "Bad"
      (JValue.obj [("UUID", JValue.number 2)]) (by rfl) (by rfl) (Or.inr (by rfl))).2.2.2
        ASSET_TEXTURES).1,
    ((init_aborts_at_malformed_entry ASSET_TEXTURES (Or.inl rfl)
      (Examples.wDoc Examples.badMiddleDoc) Examples.badMiddleDoc (by rfl) (by rfl)
      [("A", entryValue 1 "a.png")] [("C", entryValue 3 "c.png")] "Bad"
      (JValue.obj [("UUID", JValue.number 2)]) (by rfl) (by rfl) (Or.inr (by rfl))).2.2.2
        ASSET_AUDIO).1⟩

/-! ## File names -/

theorem toNat_ofNat_small (n : Nat) (h : n < 55296) : (Char.ofNat n).toNat = n := by
  unfold Char.ofNat
  have hv : n.isValidChar := Or.inl h
  simp only [hv, dite_true]
  unfold Char.ofNatAux Char.toNat
  simp [UInt32.toNat]

theorem toLower_toNat (c : Char) :
    c.toLower.toNat = if 65 ≤ c.toNat ∧ c.toNat ≤ 90 then c.toNat + 32 else c.toNat := by
  unfold Char.toLower
  by_cases h : c.toNat ≥ 65 ∧ c.toNat ≤ 90
  · simp only [h, and_self, if_true]
    exact toNat_ofNat_small _ (by omega)
  · simp only [h, if_false]

theorem toNat_inj (a b : Char) (h : a.toNat = b.toNat) : a = b := by
  apply Char.ext
  apply UInt32.ext  
  exact h

theorem toLower_toLower (c : Char) : c.toLower.toLower = c.toLower := by
  apply toNat_inj
  rw [toLower_toNat c.toLower, toLower_toNat c]
  split_ifs <;> omega

theorem toLower_eq_dot (c : Char) : c.toLower = '.' ↔ c = '.' := by
  constructor
  · intro h
    apply toNat_inj
    have := congrArg Char.toNat h
    rw [toLower_toNat] at this
    have h46 : ('.' : Char).toNat = 46 := rfl
    rw [h46] at this ⊢
    split_ifs at this <;> omega
  · rintro rfl; rfl
/-! ## Facts about characters and positions -/

theorem find_last_of_eq_none (s : List Char) (c : Char) :
    find_last_of s c = none ↔ c ∉ s := by
  induction s with
  | nil => simp [find_last_of]
  | cons x xs ih =>
    unfold find_last_of
    cases h : find_last_of xs c with
    | some i =>
      have : c ∈ xs := by
        by_contra hc
        rw [ih.2 hc] at h
        cases h
      simp [this]
    | none =>
      have hx : c ∉ xs := ih.1 h
      by_cases hxc : x = c
      · simp [hxc]
      · have : c ≠ x := fun e => hxc e.symm
        simp [hxc, hx, this]

theorem find_last_of_append (pre suf : List Char) (c : Char) (h : c ∉ suf) :
    find_last_of (pre ++ c :: suf) c = some pre.length := by
  induction pre with
  | nil =>
    show find_last_of (c :: suf) c = some 0
    unfold find_last_of
    rw [(find_last_of_eq_none suf c).2 h]
    simp
  | cons x xs ih =>
    show find_last_of (x :: (xs ++ c :: suf)) c = _
    unfold find_last_of
    rw [ih]
    rfl

theorem find_last_of_append_of_not_mem (pre suf : List Char) (c : Char) (h : c ∉ suf) :
    find_last_of (pre ++ suf) c = find_last_of pre c := by
  induction pre with
  | nil =>
    show find_last_of suf c = none
    exact (find_last_of_eq_none suf c).2 h
  | cons x xs ih =>
    show find_last_of (x :: (xs ++ suf)) c = find_last_of (x :: xs) c
    unfold find_last_of
    rw [ih]

theorem find_last_of_lt (s : List Char) (c : Char) (i : Nat) (h : find_last_of s c = some i) :
    i < s.length := by
  induction s generalizing i with
  | nil => simp [find_last_of] at h
  | cons x xs ih =>
    unfold find_last_of at h
    cases hx : find_last_of xs c with
    | some j =>
      rw [hx] at h
      have := ih j hx
      simp only [Option.some.injEq] at h
      simp only [List.length_cons]
      omega
    | none =>
      rw [hx] at h
      by_cases hxc : x = c
      · simp only [hxc, if_true, Option.some.injEq] at h
        simp only [List.length_cons]
        omega
      · simp [hxc] at h

theorem find_last_of_map_toLower (s : List Char) :
    find_last_of (s.map Char.toLower) '.' = find_last_of s '.' := by
  induction s with
  | nil => rfl
  | cons x xs ih =>
    show find_last_of (x.toLower :: xs.map Char.toLower) '.' = find_last_of (x :: xs) '.'
    unfold find_last_of
    rw [ih]
    cases find_last_of xs '.' with
    | some i => rfl
    | none =>
      by_cases hx : x = '.'
      · simp [hx, (toLower_eq_dot '.').2 rfl]
      · have : ¬ x.toLower = '.' := fun e => hx ((toLower_eq_dot x).1 e)
        simp [hx, this]

theorem size_t_of_nonneg (z : Int) (h0 : 0 ≤ z) (h1 : z < 2 ^ 64) : size_t z = z.toNat := by
  unfold size_t
  rw [Int.emod_eq_of_lt h0 h1]

theorem size_t_of_neg (z : Int) (h0 : -(2 ^ 64) ≤ z) (h1 : z < 0) :
    size_t z = (z + 2 ^ 64).toNat := by
  unfold size_t
  rw [← Int.add_emod_self, Int.emod_eq_of_lt (by omega) (by omega)]


theorem determineFileType_of_no_dot (s : String) (h : '.' ∉ s.data) :
    determineFileType s = some UNKNOWN_ASSET_TYPE := by
  unfold determineFileType
  rw [(find_last_of_eq_none s.data '.').2 h]

theorem determineFileType_of_dot (s : String) (pre suf : List Char)
    (hs : s.data = pre ++ '.' :: suf) (h : '.' ∉ suf) :
    determineFileType s =
      if String.mk (('.' :: suf).map Char.toLower) = ".png" then some ASSET_TEXTURES
      else if String.mk (('.' :: suf).map Char.toLower) = ".wav"
          ∨ String.mk (('.' :: suf).map Char.toLower) = ".ogg" then some ASSET_AUDIO
      else if String.mk (('.' :: suf).map Char.toLower) = ".ttf" then some ASSET_FONT
      else some UNKNOWN_ASSET_TYPE := by
  unfold determineFileType
  rw [hs, find_last_of_append pre suf '.' h]
  have hsub : substrFrom (pre ++ '.' :: suf) pre.length = some ('.' :: suf) := by
    unfold substrFrom
    rw [if_pos (by simp), List.drop_left]
  simp only [hsub]

theorem toLower_eq_of_sameLetter {a b : Char} (h : sameLetter a b) : a.toLower = b.toLower := by
  rcases h with h | ⟨_, h⟩ | ⟨_, h⟩
  · rw [h]
  · rw [h, toLower_toLower]
  · rw [h, toLower_toLower]

theorem map_toLower_of_forall₂ {l l' : List Char} (h : List.Forall₂ sameLetter l l') :
    l.map Char.toLower = l'.map Char.toLower := by
  induction h with
  | nil => rfl
  | cons hab _ ih => simp only [List.map_cons, toLower_eq_of_sameLetter hab, ih]

theorem map_toLower_of_differOnlyInCase {s s' : String} (h : DifferOnlyInCase s s') :
    s.data.map Char.toLower = s'.data.map Char.toLower :=
  map_toLower_of_forall₂ h

theorem determineFileType_lower (s : String) :
    determineFileType s = determineFileType (String.mk (s.data.map Char.toLower)) := by
  unfold determineFileType
  simp only [find_last_of_map_toLower]
  cases h : find_last_of s.data '.' with
  | none => rfl
  | some i =>
    have hi := find_last_of_lt _ _ _ h
    have h1 : substrFrom s.data i = some (s.data.drop i) := by
      unfold substrFrom; rw [if_pos (by omega)]
    have h2 : substrFrom (s.data.map Char.toLower) i = some ((s.data.drop i).map Char.toLower) := by
      unfold substrFrom; rw [if_pos (by rw [List.length_map]; omega), List.map_drop]
    simp only [h1, h2, List.map_map]
    have : (Char.toLower ∘ Char.toLower) = Char.toLower := by
      funext c; exact toLower_toLower c
    rw [this]

theorem determineFileType_case_insensitive (s s' : String) (h : DifferOnlyInCase s s') :
    determineFileType s = determineFileType s' := by
  rw [determineFileType_lower s, determineFileType_lower s', map_toLower_of_differOnlyInCase h]

theorem take_size_t_slack (name : List Char) (k p : Nat) (hk : k < p)
    (hlen : p + 1 + name.length < 2 ^ 64) :
    name.take (size_t ((k : Int) - p - 1)) = name := by
  rw [size_t_of_neg _ (by omega) (by omega)]
  apply List.take_of_length_le
  omega



theorem size_t_natCast (n : Nat) (h : n < 2 ^ 64) : size_t (n : Int) = n := by
  rw [size_t_of_nonneg _ (by omega) (by omega)]
  rfl

/-- The call on a path without `/`. -/
theorem extractFilenameWithPath_no_slash (s : String) (hlen : s.length < 2 ^ 64)
    (hslash : '/' ∉ s.data) :
    (∀ base ext : List Char, s.data = base ++ '.' :: ext → '.' ∉ ext →
      extractFilenameWithPath s = some (String.mk base)) ∧
    ('.' ∉ s.data → extractFilenameWithPath s = some s) := by
  have hl : s.length = s.data.length := rfl
  have h0 : size_t (((size_t (-1) : Nat) : Int) + 1) = 0 := by decide
  constructor
  · intro base ext hs hext
    unfold extractFilenameWithPath
    rw [(find_last_of_eq_none s.data '/').2 hslash]
    simp only [h0]
    rw [hs, find_last_of_append base ext '.' hext]
    have hb : base.length < 2 ^ 64 := by
      rw [hl, hs] at hlen
      simp only [List.length_append, List.length_cons] at hlen
      omega
    have hc : size_t ((base.length : Int) - ((size_t (-1) : Nat) : Int) - 1) = base.length := by
      have e : ((size_t (-1) : Nat) : Int) = 2 ^ 64 - 1 := by decide
      rw [e, size_t_of_neg _ (by omega) (by omega)]
      omega
    simp only [hc, substr, Nat.zero_le, if_true, List.drop_zero, List.take_left', Option.map_some']
  · intro hdot
    unfold extractFilenameWithPath
    rw [(find_last_of_eq_none s.data '/').2 hslash, (find_last_of_eq_none s.data '.').2 hdot]
    simp only [h0]
    have hc : size_t ((s.length : Int) - ((size_t (-1) : Nat) : Int) - 1) = s.length := by
      have e : ((size_t (-1) : Nat) : Int) = 2 ^ 64 - 1 := by decide
      rw [e, size_t_of_neg _ (by omega) (by omega)]
      omega
    rw [hl] at hc
    simp only [hc, substr, Nat.zero_le, if_true, List.drop_zero, hl, List.take_length,
      Option.map_some']

/-- The call on a path with a `/`: `dir` is what precedes the last `/`. -/
theorem extractFilenameWithPath_slash (s : String) (hlen : s.length < 2 ^ 64)
    (dir name : List Char) (hs : s.data = dir ++ '/' :: name) (hname : '/' ∉ name) :
    (∀ base ext : List Char, name = base ++ '.' :: ext → '.' ∉ ext →
      extractFilenameWithPath s = some (String.mk base)) ∧
    ('.' ∉ name → extractFilenameWithPath s = some (String.mk name)) := by
  have hl : s.length = dir.length + 1 + name.length := by
    show s.data.length = _
    rw [hs]; simp only [List.length_append, List.length_cons]; omega
  have hpos : size_t ((dir.length : Int) + 1) = dir.length + 1 := by
    have := size_t_natCast (dir.length + 1) (by omega)
    simpa using this
  have hdrop : (dir ++ '/' :: name).drop (dir.length + 1) = name := by
    have : dir ++ '/' :: name = (dir ++ ['/']) ++ name := by simp
    rw [this]
    exact List.drop_left' (by simp)
  constructor
  · intro base ext hn hext
    unfold extractFilenameWithPath
    rw [hs, find_last_of_append dir name '/' hname]
    have hs2 : dir ++ '/' :: name = (dir ++ '/' :: base) ++ '.' :: ext := by
      rw [hn]; simp
    have hfd : find_last_of (dir ++ '/' :: name) '.' = some (dir.length + 1 + base.length) := by
      rw [hs2, find_last_of_append _ ext '.' hext]
      simp only [List.length_append, List.length_cons]
      congr 1
      omega
    rw [hfd]
    simp only []
    have hc : size_t (((dir.length + 1 + base.length : Nat) : Int) - (dir.length : Int) - 1)
        = base.length := by
      have hb : base.length < 2 ^ 64 := by
        rw [hn] at hl
        simp only [List.length_append, List.length_cons] at hl
        omega
      have e : ((dir.length + 1 + base.length : Nat) : Int) - (dir.length : Int) - 1
          = (base.length : Int) := by omega
      rw [e, size_t_natCast _ hb]
    rw [hpos, hc]
    unfold substr
    rw [if_pos (by simp only [List.length_append, List.length_cons]; omega), hdrop, hn,
      List.take_left']
    · rfl
    · rfl
  · intro hdot
    unfold extractFilenameWithPath
    rw [hs, find_last_of_append dir name '/' hname]
    have hdot' : '.' ∉ '/' :: name := by
      intro c
      rcases List.mem_cons.1 c with c | c
      · exact absurd c (by decide)
      · exact hdot c
    rw [find_last_of_append_of_not_mem dir ('/' :: name) '.' hdot']
    simp only []
    rw [hpos]
    unfold substr
    rw [if_pos (by simp only [List.length_append, List.length_cons]; omega), hdrop]
    cases hk : find_last_of dir '.' with
    | none =>
      simp only []
      have hc : size_t ((s.length : Int) - (dir.length : Int) - 1) = name.length := by
        have e : (s.length : Int) - (dir.length : Int) - 1 = (name.length : Int) := by omega
        rw [e, size_t_natCast _ (by omega)]
      rw [hc, List.take_length]
      rfl
    | some k =>
      simp only []
      have hkl := find_last_of_lt _ _ _ hk
      rw [take_size_t_slack name k dir.length hkl (by omega)]
      rfl

/-- Claim C26. For every path string `s`: `determineFileType(s)` returns (the
`substr` call does not throw); it is Unknown when `s` contains no `.`;
otherwise, `e` being the text of `s` from its last `.` to the end in lower case,
it is Image when `e` is `.png`, Audio when `e` is `.wav` or `.ogg`, Font when `e`
is `.ttf`, and Unknown for every other `e`. -/
theorem determineFileType_by_extension (s : String) :
    ('.' ∉ s.data → determineFileType s = some UNKNOWN_ASSET_TYPE) ∧
    (∀ (pre suf : List Char) (e : String), s.data = pre ++ '.' :: suf → '.' ∉ suf →
      e = String.mk (('.' :: suf).map Char.toLower) →
      (e = ".png" → determineFileType s = some ASSET_TEXTURES) ∧
      (e = ".wav" ∨ e = ".ogg" → determineFileType s = some ASSET_AUDIO) ∧
      (e = ".ttf" → determineFileType s = some ASSET_FONT) ∧
      (e ≠ ".png" → e ≠ ".wav" → e ≠ ".ogg" → e ≠ ".ttf" →
        determineFileType s = some UNKNOWN_ASSET_TYPE)) := by
  refine ⟨determineFileType_of_no_dot s, ?_⟩
  intro pre suf e hs hsuf he
  have h := determineFileType_of_dot s pre suf hs hsuf
  rw [← he] at h
  refine ⟨?_, ?_, ?_, ?_⟩
  · intro h1
    rw [h, if_pos h1]
  · intro h2
    have h1 : e ≠ ".png" := by
      rcases h2 with h2 | h2 <;> rw [h2] <;> decide
    rw [h, if_neg h1, if_pos h2]
  · intro h3
    have h1 : e ≠ ".png" := by rw [h3]; decide
    have h2 : ¬ (e = ".wav" ∨ e = ".ogg") := by rw [h3]; decide
    rw [h, if_neg h1, if_neg h2, if_pos h3]
  · intro h1 h2 h2' h3
    have h23 : ¬ (e = ".wav" ∨ e = ".ogg") := fun c => c.elim h2 h2'
    rw [h, if_neg h1, if_neg h23, if_neg h3]

/-- Claim C26 at concrete inputs: `sfx/Boom.OGG` is Audio, `fonts.d/readme` (a
`.` in a directory only) is Unknown, `Makefile` is Unknown. -/
theorem determineFileType_by_extension_witness :
    ("sfx/Boom.OGG".data = "sfx/Boom".data ++ '.' :: "OGG".data ∧ '.' ∉ "OGG".data ∧
      ".ogg" = String.mk (('.' :: "OGG".data).map Char.toLower)) ∧
    determineFileType "sfx/Boom.OGG" = some ASSET_AUDIO ∧
    determineFileType "fonts.d/readme" = some UNKNOWN_ASSET_TYPE ∧
    ('.' ∉ "Makefile".data ∧ determineFileType "Makefile" = some UNKNOWN_ASSET_TYPE) :=
  ⟨⟨by decide, by decide, by decide⟩,
    ((determineFileType_by_extension "sfx/Boom.OGG").2 "sfx/Boom".data "OGG".data ".ogg"
      (by decide) (by decide) (by decide)).2.1 (Or.inr rfl),
    ((determineFileType_by_extension "fonts.d/readme").2 "fonts".data "d/readme".data
      ".d/readme" (by decide) (by decide) (by decide)).2.2.2 (by decide) (by decide)
      (by decide) (by decide),
    by decide, (determineFileType_by_extension "Makefile").1 (by decide)⟩

/-- Claim C27. For all path strings `s` and `s'` that differ only in the case
of ASCII letters, `determineFileType(s) = determineFileType(s')`; and
`determineFileType("models/hero.PNG")` is Image. -/
theorem determineFileType_ignores_case (s s' : String) (h : DifferOnlyInCase s s') :
    determineFileType s = determineFileType s' ∧
    determineFileType "models/hero.PNG" = some ASSET_TEXTURES :=
  ⟨determineFileType_case_insensitive s s' h, by decide⟩

/-- Claim C27 at a concrete input: `Models/Hero.Png` and `models/hero.PNG`. -/
theorem determineFileType_ignores_case_witness :
    DifferOnlyInCase "Models/Hero.Png" "models/hero.PNG" ∧
    determineFileType "Models/Hero.Png" = determineFileType "models/hero.PNG" :=
  ⟨by decide, (determineFileType_ignores_case "Models/Hero.Png" "models/hero.PNG" (by decide)).1⟩

/-- Claim C28. For every path string `s` (of a length that fits `size_t`), split
as `dir ++ name` where `name` is the text after the last `/` (`dir` is empty
when `s` has no `/`, and ends with the last `/` otherwise):
`extractFilenameWithPath(s)` returns (the `substr` call does not throw); it is
`name` without its last `.` and what follows it, and all of `name` when `name`
has no `.`, also when `dir` contains a `.`, in which case the length handed to
`substr` wraps around modulo `2 ^ 64`. -/
theorem extractFilenameWithPath_is_stem (s : String) (hlen : s.length < 2 ^ 64)
    (dir name : List Char) (hs : s.data = dir ++ name) (hname : '/' ∉ name)
    (hdir : dir = [] ∨ ∃ d, dir = d ++ ['/']) :
    (∀ base ext : List Char, name = base ++ '.' :: ext → '.' ∉ ext →
      extractFilenameWithPath s = some (String.mk base)) ∧
    ('.' ∉ name → extractFilenameWithPath s = some (String.mk name)) := by
  rcases hdir with rfl | ⟨d, rfl⟩
  · have hs' : s.data = name := by simpa using hs
    obtain ⟨h1, h2⟩ := extractFilenameWithPath_no_slash s hlen (by rw [hs']; exact hname)
    refine ⟨fun base ext hn hext => h1 base ext (by rw [hs', hn]) hext, ?_⟩
    intro hdot
    rw [h2 (by rw [hs']; exact hdot)]
    congr 1
    show s = String.mk name
    rw [← hs']
  · have hs' : s.data = d ++ '/' :: name := by simpa using hs
    exact extractFilenameWithPath_slash s hlen d name hs' hname

/-- Claim C28 at concrete inputs: `assets/v1.2/hero` (a `.` in a directory only,
the length wraps around) gives `hero`; `assets/hero.tar.gz` gives `hero.tar`. -/
theorem extractFilenameWithPath_is_stem_witness :
    ("assets/v1.2/hero".length < 2 ^ 64 ∧
      "assets/v1.2/hero".data = "assets/v1.2/".data ++ "hero".data ∧ '/' ∉ "hero".data ∧
      '.' ∉ "hero".data ∧
      size_t ((9 : Int) - 11 - 1) = 2 ^ 64 - 3) ∧
    extractFilenameWithPath "assets/v1.2/hero" = some "hero" ∧
    extractFilenameWithPath "assets/hero.tar.gz" = some "hero.tar" :=
  ⟨⟨by decide, by decide, by decide, by decide, by decide⟩,
    (extractFilenameWithPath_is_stem "assets/v1.2/hero" (by decide) "assets/v1.2/".data
      "hero".data (by decide) (by decide) (Or.inr ⟨"assets/v1.2".data, by decide⟩)).2
      (by decide),
    (extractFilenameWithPath_is_stem "assets/hero.tar.gz" (by decide) "assets/".data
      "hero.tar.gz".data (by decide) (by decide) (Or.inr ⟨"assets".data, by decide⟩)).1
      "hero.tar".data "gz".data (by decide) (by decide)⟩

/-! ## What `unloadAudio` leaves alone -/

theorem World.touchEditor_editor_any (w : World) (K K' : Asset_Type) :
    (w.touchEditor K).editor K' = w.editor K' := by
  by_cases h : K' = K
  · subst h; exact World.touchEditor_editor w K'
  · simp only [World.touchEditor, World.editor, UMap.get, UMap.find?_index_ne _ h]

theorem World.touchEditor_store (w : World) (K K' : Asset_Type) :
    (w.touchEditor K).store K' = w.store K' := by
  cases K' <;> rfl

/-- The fields one iteration of the loop of `unloadAudio` leaves alone. -/
theorem unloadAudioStep_frame (i : UUID) (acc : Bool × World) (e : UUID × (String × String)) :
    (unloadAudioStep i acc e).2.am.m_EditorMap = acc.2.am.m_EditorMap ∧
    (unloadAudioStep i acc e).2.am.m_textureMap = acc.2.am.m_textureMap ∧
    (unloadAudioStep i acc e).2.am.m_fontMap = acc.2.am.m_fontMap ∧
    (unloadAudioStep i acc e).2.files = acc.2.files ∧
    (unloadAudioStep i acc e).2.writable = acc.2.writable ∧
    (unloadAudioStep i acc e).2.s_Engine = acc.2.s_Engine ∧
    ((unloadAudioStep i acc e).2.am.m_audioMap = acc.2.am.m_audioMap ∨
      (unloadAudioStep i acc e).2.am.m_audioMap = UMap.index acc.2.am.m_audioMap i) := by
  by_cases h : e.1 = i
  · rw [unloadAudioStep_eq i acc e h]
    obtain ⟨h1, h2, h3, h4, _⟩ := unloadAudioFound_fields i acc.2
    refine ⟨h2, h3, h4, ?_, ?_, ?_, Or.inr h1⟩ <;>
      simp [unloadAudioFound, unloadAudioStep, World.touchAudio, World.ANALYTICS, World.call]
  · rw [unloadAudioStep_ne i acc e h]
    exact ⟨rfl, rfl, rfl, rfl, rfl, rfl, Or.inl rfl⟩

/-- The fields the loop of `unloadAudio` leaves alone. -/
theorem unloadAudio_loop_frame (i : UUID) (entries : EditorEntries) (acc : Bool × World) :
    (entries.foldl (unloadAudioStep i) acc).2.am.m_EditorMap = acc.2.am.m_EditorMap ∧
    (entries.foldl (unloadAudioStep i) acc).2.am.m_textureMap = acc.2.am.m_textureMap ∧
    (entries.foldl (unloadAudioStep i) acc).2.am.m_fontMap = acc.2.am.m_fontMap ∧
    (entries.foldl (unloadAudioStep i) acc).2.files = acc.2.files ∧
    (entries.foldl (unloadAudioStep i) acc).2.writable = acc.2.writable ∧
    (entries.foldl (unloadAudioStep i) acc).2.s_Engine = acc.2.s_Engine ∧
    ((entries.foldl (unloadAudioStep i) acc).2.am.m_audioMap = acc.2.am.m_audioMap ∨
      (entries.foldl (unloadAudioStep i) acc).2.am.m_audioMap
        = UMap.index acc.2.am.m_audioMap i) := by
  induction entries generalizing acc with
  | nil => exact ⟨rfl, rfl, rfl, rfl, rfl, rfl, Or.inl rfl⟩
  | cons e es ih =>
    rw [List.foldl_cons]
    obtain ⟨a1, a2, a3, a4, a5, a6, a7⟩ := ih (unloadAudioStep i acc e)
    obtain ⟨b1, b2, b3, b4, b5, b6, b7⟩ := unloadAudioStep_frame i acc e
    refine ⟨a1.trans b1, a2.trans b2, a3.trans b3, a4.trans b4, a5.trans b5, a6.trans b6, ?_⟩
    rcases a7 with a7 | a7 <;> rcases b7 with b7 | b7
    · exact Or.inl (a7.trans b7)
    · exact Or.inr (a7.trans b7)
    · right; rw [a7, b7]
    · right; rw [a7, b7, UMap.index_index]

theorem UMap.erase_index {K V : Type} [DecidableEq K] [Inhabited V] (m : UMap K V) (k : K) :
    UMap.erase (UMap.index m k) k = UMap.erase m k := by
  unfold UMap.index
  by_cases hc : UMap.contains m k = true
  · simp [hc]
  · simp [hc, UMap.erase, List.filter_append]

/-- What `unloadAudio(i)` does in every state: the editor entry of `i` is
erased; the audio store loses `i`, or ends with the entry `i ↦ ""`; nothing
else of the registry changes, and no file is written. -/
theorem unloadAudio_frame (i : UUID) (w : World) :
    (unloadAudio i w).editor ASSET_AUDIO = UMap.erase (w.editor ASSET_AUDIO) i ∧
    (∀ K, K ≠ ASSET_AUDIO → (unloadAudio i w).editor K = w.editor K) ∧
    (unloadAudio i w).am.m_textureMap = w.am.m_textureMap ∧
    (unloadAudio i w).am.m_fontMap = w.am.m_fontMap ∧
    (unloadAudio i w).files = w.files ∧
    (unloadAudio i w).writable = w.writable ∧
    (unloadAudio i w).s_Engine = w.s_Engine ∧
    ((unloadAudio i w).am.m_audioMap = UMap.erase w.am.m_audioMap i ∨
      (unloadAudio i w).am.m_audioMap = UMap.erase w.am.m_audioMap i ++ [(i, "")]) := by
  obtain ⟨a1, a2, a3, a4, a5, a6, a7⟩ := unloadAudio_loop_frame i
    ((w.touchEditor ASSET_AUDIO).editor ASSET_AUDIO) (false, w.touchEditor ASSET_AUDIO)
  simp only [World.touchEditor_EditorMap, World.touchEditor_audioMap] at a1 a7
  have b2 : (false, w.touchEditor ASSET_AUDIO).2.am.m_textureMap = w.am.m_textureMap := rfl
  have b3 : (false, w.touchEditor ASSET_AUDIO).2.am.m_fontMap = w.am.m_fontMap := rfl
  have b4 : (false, w.touchEditor ASSET_AUDIO).2.files = w.files := rfl
  have b5 : (false, w.touchEditor ASSET_AUDIO).2.writable = w.writable := rfl
  have b6 : (false, w.touchEditor ASSET_AUDIO).2.s_Engine = w.s_Engine := rfl
  rw [b2] at a2
  rw [b3] at a3
  rw [b4] at a4
  rw [b5] at a5
  rw [b6] at a6
  have hc : UMap.contains (UMap.erase w.am.m_audioMap i) i = false := by
    simp [UMap.contains, UMap.find?_erase_self]
  unfold unloadAudio
  simp only []
  generalize List.foldl (unloadAudioStep i) (false, w.touchEditor ASSET_AUDIO)
    ((w.touchEditor ASSET_AUDIO).editor ASSET_AUDIO) = r at a1 a2 a3 a4 a5 a6 a7
  obtain ⟨found, w'⟩ := r
  simp only at a1 a2 a3 a4 a5 a6 a7
  have he : UMap.erase w'.am.m_audioMap i = UMap.erase w.am.m_audioMap i := by
    rcases a7 with a7 | a7
    · rw [a7]
    · rw [a7, UMap.erase_index]
  cases found
  · simp only [Bool.not_false, if_true, World.touchAudio, World.touchEditor, World.ANALYTICS,
      World.editor, a1, a2, a3, a4, a5, a6, he, UMap.index_index, UMap.get_modify_index,
      UMap.index_of_not_contains hc]
    refine ⟨trivial, ?_, trivial, trivial, trivial, trivial, trivial, Or.inr rfl⟩
    intro K hK
    rw [UMap.get_modify_index_ne _ _ hK]
  · simp only [Bool.not_true, Bool.false_eq_true, if_false, World.touchEditor,
      World.editor, a1, a2, a3, a4, a5, a6, he, UMap.index_index, UMap.get_modify_index]
    refine ⟨trivial, ?_, trivial, trivial, trivial, trivial, trivial, Or.inl trivial⟩
    intro K hK
    rw [UMap.get_modify_index_ne _ _ hK]
/-! ## Unload and modify do not write the asset file -/

theorem unload_files (K : Asset_Type) (i : UUID) (w : World) : (unload K i w).files = w.files := by
  cases K
  · rfl
  · exact (unloadAudio_frame i w).2.2.2.2.1
  · rfl
  · rfl
  · rfl

theorem modify_files (K : Asset_Type) (i : UUID) (p : String) (w : World) :
    (modify K i p w).files = w.files := by
  cases K <;> rfl

/-- Claim C22, as stated, fails. After `loadTexture("A", "a.png")` on a fresh
registry (identifier 100) the asset file holds the texture `A`. After
`unloadTexture(100)` the editor map has no texture, and the asset file still
holds the texture `A`; after `modifyTexture(100, "b.png")` the editor map holds
the path `b.png`, and the asset file still holds the path `a.png`: neither call
wrote the file. -/
theorem unload_modify_persist_counterexample :
    ((unloadTexture 100 (loadTexture "A" "a.png" Examples.w0)).editor ASSET_TEXTURES = [] ∧
      sectionMembers (editorMapDocument
        (unloadTexture 100 (loadTexture "A" "a.png" Examples.w0)).am.m_EditorMap) ASSET_TEXTURES
        = [] ∧
      UMap.find? (unloadTexture 100 (loadTexture "A" "a.png" Examples.w0)).files serializedPath
        = some (some (JValue.obj [("textures", JValue.obj [("A", entryValue 100 "a.png")])]))) ∧
    ((modifyTexture 100 "b.png" (loadTexture "A" "a.png" Examples.w0)).editor ASSET_TEXTURES
        = [(100, ("A", "b.png"))] ∧
      sectionMembers (editorMapDocument
        (modifyTexture 100 "b.png" (loadTexture "A" "a.png" Examples.w0)).am.m_EditorMap)
          ASSET_TEXTURES
        = [("A", entryValue 100 "b.png")] ∧
      UMap.find? (modifyTexture 100 "b.png" (loadTexture "A" "a.png" Examples.w0)).files
          serializedPath
        = some (some (JValue.obj [("textures", JValue.obj [("A", entryValue 100 "a.png")])]))) := by
  refine ⟨⟨by rfl, by rfl, by rfl⟩, ⟨by rfl, by rfl, by rfl⟩⟩

/-- Claim C22, amended. No `unload` and no `modify` writes the asset file: for
every kind, identifier, path and state, the files after the call are the files
before it, so the persisted document is the one written by the last `load` of a
new path (or by the last explicit `SerializeEditorMap`), whatever the call did
to the editor map. -/
theorem unload_modify_do_not_persist (K : Asset_Type) (i : UUID) (p : String) (w : World) :
    (unload K i w).files = w.files ∧ (modify K i p w).files = w.files ∧
    UMap.find? (unload K i w).files serializedPath = UMap.find? w.files serializedPath ∧
    UMap.find? (modify K i p w).files serializedPath = UMap.find? w.files serializedPath := by
  refine ⟨unload_files K i w, modify_files K i p w, ?_, ?_⟩
  · rw [unload_files]
  · rw [modify_files]

/-! ## Teardown -/

theorem UMap.contains_erase_self {K V : Type} [DecidableEq K] (m : UMap K V) (k : K) :
    UMap.contains (UMap.erase m k) k = false := by
  simp [UMap.contains, UMap.find?_erase_self]

/-- After `unload(i)` of kind `K` the editor entries of `K` do not have `i`. -/
theorem unload_editor_not_contains (K : Asset_Type) (hK : K.IsKind) (i : UUID) (w : World) :
    UMap.contains ((unload K i w).editor K) i = false := by
  rcases hK with rfl | rfl | rfl
  · rw [(unload_erases ASSET_TEXTURES (Or.inl rfl) i w).2]
    exact UMap.contains_erase_self _ _
  · show UMap.contains ((unloadAudio i w).editor ASSET_AUDIO) i = false
    rw [(unloadAudio_frame i w).1]
    exact UMap.contains_erase_self _ _
  · rw [(unload_erases ASSET_FONT (Or.inr rfl) i w).2]
    exact UMap.contains_erase_self _ _

/-- A teardown loop over a non-empty list ends in its first iteration, right
after the `unload`. -/
theorem unloadLoop_cons (K : Asset_Type) (hK : K.IsKind) (suffix : String)
    (e : UUID × (String × String)) (rest : List (UUID × (String × String))) (w : World) :
    unloadLoop K suffix (e :: rest) w = .error (unload K e.1 w) := by
  obtain ⟨uuid, assetPair⟩ := e
  simp only [unloadLoop, unload_editor_not_contains K hK uuid w, Bool.false_eq_true, if_false]

theorem returned_unloadLoop (K : Asset_Type) (hK : K.IsKind) (suffix : String)
    (es : List (UUID × (String × String))) (w : World) :
    (es = [] ∧ unloadLoop K suffix es w = .ok w) ∨
    (es ≠ [] ∧ returned (unloadLoop K suffix es w) = false) := by
  cases es with
  | nil => exact Or.inl ⟨rfl, rfl⟩
  | cons e rest =>
    right
    rw [unloadLoop_cons K hK]
    exact ⟨by simp, rfl⟩

/-- The registry with its four maps cleared. -/
theorem unloadAssetManager_of_empty (w : World) (hT : w.editor ASSET_TEXTURES = [])
    (hA : w.editor ASSET_AUDIO = []) (hF : w.editor ASSET_FONT = []) :
    returned (unloadAssetManager w) = true ∧
    (finalState (unloadAssetManager w)).am.m_textureMap = [] ∧
    (finalState (unloadAssetManager w)).am.m_audioMap = [] ∧
    (finalState (unloadAssetManager w)).am.m_fontMap = [] ∧
    (finalState (unloadAssetManager w)).am.m_EditorMap = [] ∧
    (finalState (unloadAssetManager w)).calls = w.calls ∧
    (finalState (unloadAssetManager w)).files = w.files := by
  unfold unloadAssetManager
  simp only [World.touchEditor_editor, hT, unloadLoop, World.touchEditor_editor_any, hA, hF]
  exact ⟨rfl, rfl, rfl, rfl, rfl, rfl, rfl⟩

theorem unloadAssetManager_of_nonempty (w : World)
    (h : w.editor ASSET_TEXTURES ≠ [] ∨ w.editor ASSET_AUDIO ≠ [] ∨ w.editor ASSET_FONT ≠ []) :
    returned (unloadAssetManager w) = false := by
  have kT : Asset_Type.IsKind ASSET_TEXTURES := Or.inl rfl
  have kA : Asset_Type.IsKind ASSET_AUDIO := Or.inr (Or.inl rfl)
  have kF : Asset_Type.IsKind ASSET_FONT := Or.inr (Or.inr rfl)
  unfold unloadAssetManager
  simp only [World.touchEditor_editor]
  cases hT : w.editor ASSET_TEXTURES with
  | cons e rest => rw [unloadLoop_cons _ kT]; rfl
  | nil =>
    simp only [unloadLoop, World.touchEditor_editor_any]
    cases hA : w.editor ASSET_AUDIO with
    | cons e rest => rw [unloadLoop_cons _ kA]; rfl
    | nil =>
      simp only [unloadLoop, World.touchEditor_editor_any]
      cases hF : w.editor ASSET_FONT with
      | cons e rest => rw [unloadLoop_cons _ kF]; rfl
      | nil =>
        rcases h with h | h | h
        · exact absurd hT h
        · exact absurd hA h
        · exact absurd hF h

/-- Claim C23, evaluated where it fails. After one `loadTexture` on a fresh
registry the editor map holds one texture; the first loop of
`unloadAssetManager` calls `unloadTexture` on it, which erases the element the
loop stands on, and the call ends there, undefined: it does not return. The
same happens after one load per kind. In general `unloadAssetManager` returns
exactly when the editor map has no texture, no audio and no font entry, and
then the three stores and the editor map are empty. -/
theorem unloadAssetManager_erases_under_iteration :
    ((loadTexture "A" "a.png" Examples.w0).editor ASSET_TEXTURES = [(100, ("A", "a.png"))] ∧
      returned (unloadAssetManager (loadTexture "A" "a.png" Examples.w0)) = false) ∧
    (Examples.wThree.store ASSET_TEXTURES = [(100, (some "a.png", "A"))] ∧
      Examples.wThree.store ASSET_AUDIO = [(101, (none, "S"))] ∧
      Examples.wThree.store ASSET_FONT = [(102, (some "f.ttf", "F"))] ∧
      returned (unloadAssetManager Examples.wThree) = false) ∧
    (∀ w : World,
      (returned (unloadAssetManager w) = false ∧
        (w.editor ASSET_TEXTURES ≠ [] ∨ w.editor ASSET_AUDIO ≠ [] ∨ w.editor ASSET_FONT ≠ [])) ∨
      (returned (unloadAssetManager w) = true ∧
        w.editor ASSET_TEXTURES = [] ∧ w.editor ASSET_AUDIO = [] ∧ w.editor ASSET_FONT = [] ∧
        (finalState (unloadAssetManager w)).am.m_textureMap = [] ∧
        (finalState (unloadAssetManager w)).am.m_audioMap = [] ∧
        (finalState (unloadAssetManager w)).am.m_fontMap = [] ∧
        (finalState (unloadAssetManager w)).am.m_EditorMap = [])) := by
  refine ⟨⟨by rfl, by rfl⟩, ⟨by rfl, by rfl, by rfl, by rfl⟩, ?_⟩
  intro w
  by_cases h : w.editor ASSET_TEXTURES ≠ [] ∨ w.editor ASSET_AUDIO ≠ [] ∨ w.editor ASSET_FONT ≠ []
  · exact Or.inl ⟨unloadAssetManager_of_nonempty w h, h⟩
  · simp only [not_or, not_not] at h
    obtain ⟨hT, hA, hF⟩ := h
    obtain ⟨r, a, b, c, d, _, _⟩ := unloadAssetManager_of_empty w hT hA hF
    exact Or.inr ⟨r, hT, hA, hF, a, b, c, d⟩

/-- Claim C24, as stated, fails. After `loadTexture("A", "a.png")` on a fresh
registry, `unloadTexture(100)` empties the image store and invokes no external
primitive: the calls are the one load. After `loadFont("F", "f.ttf")`,
`unloadFont(100)` does the same. After one load per kind, the calls
`unloadAssetManager` leaves are the three loads: the first loop calls
`unloadTexture`, which invokes nothing, and ends there. -/
theorem teardown_unload_calls_counterexample :
    ((unloadTexture 100 (loadTexture "A" "a.png" Examples.w0)).store ASSET_TEXTURES = [] ∧
      (unloadTexture 100 (loadTexture "A" "a.png" Examples.w0)).calls
        = [ExtCall.LoadTexture "a.png"]) ∧
    ((unloadFont 100 (loadFont "F" "f.ttf" Examples.w0)).store ASSET_FONT = [] ∧
      (unloadFont 100 (loadFont "F" "f.ttf" Examples.w0)).calls = [ExtCall.LoadFont "f.ttf"]) ∧
    (finalState (unloadAssetManager Examples.wThree)).calls
      = [ExtCall.LoadTexture "a.png", ExtCall.LoadAudio "S" "s.wav", ExtCall.LoadFont "f.ttf"] := by
  refine ⟨⟨by rfl, by rfl⟩, ⟨by rfl, by rfl⟩, by rfl⟩

/-- Claim C24, amended. `unloadTexture(i)` and `unloadFont(i)` invoke no
external primitive (they erase the store entry and the editor entry).
`unloadAudio(i)` invokes the audio unload-by-name primitive exactly once, with
the name stored under `i`, when the editor map has the audio entry `i`, and
invokes nothing otherwise. On a registry whose editor map has no entry,
`unloadAssetManager` returns and invokes no external primitive. -/
theorem unload_primitive_invocations (w : World) (i : UUID)
    (hwf : UMap.WF (w.editor ASSET_AUDIO)) :
    (unloadTexture i w).calls = w.calls ∧
    (unloadFont i w).calls = w.calls ∧
    (i ∈ UMap.keys (w.editor ASSET_AUDIO) →
      (unloadAudio i w).calls = w.calls ++ [ExtCall.UnLoadAudio (UMap.get w.am.m_audioMap i)]) ∧
    (i ∉ UMap.keys (w.editor ASSET_AUDIO) → (unloadAudio i w).calls = w.calls) ∧
    (w.editor ASSET_TEXTURES = [] → w.editor ASSET_AUDIO = [] → w.editor ASSET_FONT = [] →
      returned (unloadAssetManager w) = true ∧
      (finalState (unloadAssetManager w)).calls = w.calls) := by
  refine ⟨rfl, rfl, fun h => (unloadAudio_of_present i w hwf h).2.2,
    fun h => (unloadAudio_of_absent i w h).2.2, ?_⟩
  intro hT hA hF
  obtain ⟨r, _, _, _, _, c, _⟩ := unloadAssetManager_of_empty w hT hA hF
  exact ⟨r, c⟩

/-- Claim C24, amended, at a concrete input: after `loadAudio("S", "s.wav")` on
a fresh registry (identifier 100), `unloadAudio(100)` invokes the audio unload
once, with the name `S`. -/
theorem unload_primitive_invocations_witness :
    (UMap.WF ((loadAudio "S" "s.wav" Examples.w0).editor ASSET_AUDIO) ∧
      100 ∈ UMap.keys ((loadAudio "S" "s.wav" Examples.w0).editor ASSET_AUDIO)) ∧
    (unloadAudio 100 (loadAudio "S" "s.wav" Examples.w0)).calls
      = [ExtCall.LoadAudio "S" "s.wav", ExtCall.UnLoadAudio "S"] :=
  ⟨⟨by decide, by decide⟩,
    (unload_primitive_invocations (loadAudio "S" "s.wav" Examples.w0) 100 (by decide)).2.2.1
      (by decide)⟩

/-! ## Writing the editor map and reading it back -/

theorem c_str_c_str (s : String) : c_str (c_str s) = c_str s := by
  unfold c_str
  simp only [List.takeWhile_idem]

/-- The entries `initAssetManager` reads in the section of kind `K` of the
document `SerializeEditorMap` builds. -/
theorem sectionEntries_editorMapDocument (r : UMap Asset_Type EditorEntries) (K : Asset_Type)
    (hK : K.IsKind) (h64 : ∀ e ∈ UMap.get r K, e.1 < 2 ^ 64) :
    sectionEntries (editorMapDocument r) K
      = (UMap.get r K).map (fun e => (c_str e.2.1, e.1, c_str e.2.2)) ∧
    entriesOk (sectionMembers (editorMapDocument r) K) = true := by
  by_cases hc : UMap.contains r K = true
  · have hm : sectionMembers (editorMapDocument r) K
        = ((UMap.get r K).map (fun e => (c_str e.2.1, e.1, c_str e.2.2))).map
            (fun e => (e.1, entryValue e.2.1 e.2.2)) := by
      rw [sectionMembers_editorMapDocument r K hK hc, List.map_map]
      rfl
    have h64' : ∀ e ∈ (UMap.get r K).map (fun e => (c_str e.2.1, e.1, c_str e.2.2)),
        e.2.1 < 2 ^ 64 := by
      intro e he
      obtain ⟨x, hx, rfl⟩ := List.mem_map.1 he
      exact h64 x hx
    constructor
    · rw [sectionEntries, hm, parsedEntries_entryValues _ h64', List.map_map]
      apply List.map_congr_left
      intro e _
      show (c_str (c_str e.2.1), e.1, c_str (c_str e.2.2)) = _
      rw [c_str_c_str, c_str_c_str]
    · rw [hm]
      exact entriesOk_entryValues _ h64'
  · have hc' : UMap.contains r K = false := by simpa using hc
    have hm : sectionMembers (editorMapDocument r) K = [] :=
      sectionMembers_of_absent K _ (by rw [editorMapDocument_HasMember r K hK, hc'])
    have hg : UMap.get r K = [] := by
      unfold UMap.contains at hc'
      cases hf : UMap.find? r K with
      | none => simp [UMap.get, hf]; rfl
      | some v => simp [hf] at hc'
    rw [sectionEntries, hm, hg]
    exact ⟨rfl, rfl⟩

theorem wellFormedSection_editorMapDocument (r : UMap Asset_Type EditorEntries)
    (K : Asset_Type) (hK : K.IsKind) (h64 : ∀ e ∈ UMap.get r K, e.1 < 2 ^ 64) :
    wellFormedSection (editorMapDocument r) K = true := by
  have hok := (sectionEntries_editorMapDocument r K hK h64).2
  unfold wellFormedSection
  by_cases hc : UMap.contains r K = true
  · rw [editorMapDocument_member r K hK hc]
    simp only [JValue.members]
    rw [sectionMembers_editorMapDocument r K hK hc] at hok
    exact hok
  · have hc' : UMap.contains r K = false := by simpa using hc
    have hh := editorMapDocument_HasMember r K hK
    rw [hc'] at hh
    have hn : (editorMapDocument r).member (sectionKey K) = none := by
      unfold JValue.HasMember at hh
      unfold JValue.member
      cases hm : (editorMapDocument r).members with
      | none => rfl
      | some top =>
        simp only [hm, Option.map_some', Option.some.injEq] at hh
        cases hx : JValue.findMember top (sectionKey K) with
        | none => simp [hx]
        | some v => simp [hx] at hh
    rw [hn]

theorem wellFormed_editorMapDocument (r : UMap Asset_Type EditorEntries)
    (h64 : ∀ K, K.IsKind → ∀ e ∈ UMap.get r K, e.1 < 2 ^ 64) :
    wellFormed (editorMapDocument r) = true := by
  have kT : Asset_Type.IsKind ASSET_TEXTURES := Or.inl rfl
  have kA : Asset_Type.IsKind ASSET_AUDIO := Or.inr (Or.inl rfl)
  have kF : Asset_Type.IsKind ASSET_FONT := Or.inr (Or.inr rfl)
  have h0 : (editorMapDocument r).members.isSome = true := by
    rw [editorMapDocument_eq]; rfl
  simp only [wellFormed, h0, wellFormedSection_editorMapDocument r _ kT (h64 _ kT),
    wellFormedSection_editorMapDocument r _ kA (h64 _ kA),
    wellFormedSection_editorMapDocument r _ kF (h64 _ kF), Bool.and_self]

theorem freshOver_file (r : UMap Asset_Type EditorEntries) (w : World) (eng : Engine)
    (hw : w.writable = true) :
    UMap.find? (freshOver r w eng).files (freshOver r w eng).am.m_assetFilepath
      = some (some (editorMapDocument r)) := by
  show UMap.find? (SerializeEditorMap r w).files serializedPath = _
  rw [SerializeEditorMap_files]
  simp only [hw, if_true]
  exact UMap.find?_update_self _ _ _

theorem editorAssignments_map (es : EditorEntries) :
    editorAssignments (es.map (fun e => (e.2.1, e.1, e.2.2))) = es := by
  unfold editorAssignments
  rw [List.map_map]
  conv_rhs => rw [← List.map_id es]
  rfl

theorem map_c_str_editor_of_nulFree (es : EditorEntries)
    (hnul : ∀ e ∈ es, NulFree e.2.1 ∧ NulFree e.2.2) :
    es.map (fun e => (c_str e.2.1, e.1, c_str e.2.2)) = es.map (fun e => (e.2.1, e.1, e.2.2)) := by
  apply List.map_congr_left
  intro e he
  obtain ⟨h1, h2⟩ := hnul e he
  rw [show c_str e.2.1 = e.2.1 from h1, show c_str e.2.2 = e.2.2 from h2]

theorem UMap.assignAll_nil_left {K V : Type} [DecidableEq K] [Inhabited V] (kvs : List (K × V))
    (h : UMap.WF kvs) : UMap.assignAll ([] : UMap K V) kvs = kvs := by
  rw [UMap.assignAll_fresh _ _ h (by intro kv _; simp [UMap.keys])]
  rfl

/-- Claim C21, as stated, fails. (1) The editor map with one entry per kind:
image `T` (1), audio `S` (2), font `F` (3). `initAssetManager` on a fresh
registry over the document written for it returns, and the editor map rebuilt
holds the font as an image, `(Image, 3) ↦ ("F", "f.ttf")`, and no font entry.
(2) The editor map with the single image named `a`, NUL, `b`: the editor map
rebuilt holds the image under the name `a`. -/
theorem round_trip_counterexample :
    (UMap.get Examples.onePerKind ASSET_FONT = [(3, ("F", "f.ttf"))] ∧
      returned (initAssetManager (freshOver Examples.onePerKind Examples.w0 Examples.counting))
        = true ∧
      (initialized (freshOver Examples.onePerKind Examples.w0 Examples.counting)).editor
          ASSET_TEXTURES = [(1, ("T", "t.png")), (3, ("F", "f.ttf"))] ∧
      (initialized (freshOver Examples.onePerKind Examples.w0 Examples.counting)).editor
          ASSET_FONT = []) ∧
    (UMap.get Examples.nulMap ASSET_TEXTURES = [(1, (Examples.nulName, "a.png"))] ∧
      (initialized (freshOver Examples.nulMap Examples.w0 Examples.counting)).editor
          ASSET_TEXTURES = [(1, ("a", "a.png"))] ∧
      Examples.nulName ≠ "a") := by
  refine ⟨⟨by rfl, by rfl, by rfl, by rfl⟩, ⟨by rfl, by rfl, by decide⟩⟩

/-- Claim C21, amended. For every editor map `r` whose identifiers are 64-bit
and distinct within a kind and whose names and paths have no NUL character,
and every state `w` in which the asset file can be written:
`initAssetManager` on a fresh registry over the document `SerializeEditorMap`
wrote for `r` returns; the audio entries of the editor map rebuilt are exactly
the audio entries of `r`, in the same order; and when `r` has no font entry, its
image entries are exactly the image entries of `r` and it has no font entry.
Two entries of one kind may share a display name. -/
theorem round_trip_audio_image (r : UMap Asset_Type EditorEntries) (w : World) (eng : Engine)
    (hw : w.writable = true)
    (h64 : ∀ K, K.IsKind → ∀ e ∈ UMap.get r K, e.1 < 2 ^ 64)
    (hnul : ∀ K, K.IsKind → ∀ e ∈ UMap.get r K, NulFree e.2.1 ∧ NulFree e.2.2)
    (hwf : ∀ K, K.IsKind → UMap.WF (UMap.get r K)) :
    returned (initAssetManager (freshOver r w eng)) = true ∧
    (initialized (freshOver r w eng)).editor ASSET_AUDIO = UMap.get r ASSET_AUDIO ∧
    (UMap.get r ASSET_FONT = [] →
      (initialized (freshOver r w eng)).editor ASSET_TEXTURES = UMap.get r ASSET_TEXTURES ∧
      (initialized (freshOver r w eng)).editor ASSET_FONT = []) := by
  have kT : Asset_Type.IsKind ASSET_TEXTURES := Or.inl rfl
  have kA : Asset_Type.IsKind ASSET_AUDIO := Or.inr (Or.inl rfl)
  have kF : Asset_Type.IsKind ASSET_FONT := Or.inr (Or.inr rfl)
  have hfile := freshOver_file r w eng hw
  have hdoc := wellFormed_editorMapDocument r h64
  obtain ⟨hret, _, _⟩ := initialized_wellFormed _ _ hfile hdoc
  have hv := fun K => initialized_views _ _ hfile hdoc K
  obtain ⟨_, _, _, p4, p5, p6, _⟩ := populated_views (editorMapDocument r) (freshOver r w eng)
  have hE : ∀ K, (freshOver r w eng).editor K = [] := fun _ => rfl
  have hes : ∀ K, K.IsKind →
      editorAssignments (sectionEntries (editorMapDocument r) K) = UMap.get r K := by
    intro K hK
    rw [(sectionEntries_editorMapDocument r K hK (h64 K hK)).1,
      map_c_str_editor_of_nulFree _ (hnul K hK), editorAssignments_map]
  refine ⟨hret, ?_, ?_⟩
  · rw [(hv ASSET_AUDIO).2, p5, hE, hes _ kA, UMap.assignAll_nil_left _ (hwf _ kA)]
  · intro hfont
    constructor
    · rw [(hv ASSET_TEXTURES).2, p4, hE, hes _ kT, hes _ kF, hfont,
        UMap.assignAll_nil_left _ (hwf _ kT)]
      rfl
    · rw [(hv ASSET_FONT).2, p6, hE]

/-- Claim C21, amended, at a concrete input: an editor map with two images and
one audio clip. -/
theorem round_trip_audio_image_witness :
    (Examples.w0.writable = true ∧
      (∀ K, K.IsKind → ∀ e ∈ UMap.get Examples.noFontMap K, e.1 < 2 ^ 64) ∧
      (∀ K, K.IsKind → ∀ e ∈ UMap.get Examples.noFontMap K, NulFree e.2.1 ∧ NulFree e.2.2) ∧
      (∀ K, K.IsKind → UMap.WF (UMap.get Examples.noFontMap K)) ∧
      UMap.get Examples.noFontMap ASSET_FONT = []) ∧
    (initialized (freshOver Examples.noFontMap Examples.w0 Examples.counting)).editor ASSET_AUDIO
      = [(2, ("S", "s.wav"))] ∧
    (initialized (freshOver Examples.noFontMap Examples.w0 Examples.counting)).editor
        ASSET_TEXTURES = [(1, ("T", "t.png")), (5, ("U", "u.png"))] :=
  ⟨⟨by rfl, by intro K hK; rcases hK with rfl | rfl | rfl <;> decide,
      by intro K hK; rcases hK with rfl | rfl | rfl <;> decide,
      by intro K hK; rcases hK with rfl | rfl | rfl <;> decide, by rfl⟩,
    (round_trip_audio_image Examples.noFontMap Examples.w0 Examples.counting (by rfl)
      (by intro K hK; rcases hK with rfl | rfl | rfl <;> decide)
      (by intro K hK; rcases hK with rfl | rfl | rfl <;> decide)
      (by intro K hK; rcases hK with rfl | rfl | rfl <;> decide)).2.1,
    ((round_trip_audio_image Examples.noFontMap Examples.w0 Examples.counting (by rfl)
      (by intro K hK; rcases hK with rfl | rfl | rfl <;> decide)
      (by intro K hK; rcases hK with rfl | rfl | rfl <;> decide)
      (by intro K hK; rcases hK with rfl | rfl | rfl <;> decide)).2.2 (by rfl)).1⟩

/-! ## Identifiers shared by two assets -/

theorem UMap.contains_erase_imp {K V : Type} [DecidableEq K] (m : UMap K V) (k j : K)
    (h : UMap.contains (UMap.erase m k) j = true) : UMap.contains m j = true := by
  by_cases hj : j = k
  · subst hj
    rw [UMap.contains_erase_self] at h
    cases h
  · unfold UMap.contains at h ⊢
    rw [UMap.find?_erase_ne _ hj] at h
    exact h

theorem UMap.contains_mapVal {K V W : Type} [DecidableEq K] (g : V → W) (m : UMap K V) (k : K) :
    UMap.contains (m.map (fun e => (e.1, g e.2))) k = UMap.contains m k := by
  simp [UMap.contains, UMap.find?_mapVal]

theorem UMap.keys_mapVal {K V W : Type} [DecidableEq K] (g : V → W) (m : UMap K V) :
    UMap.keys (m.map (fun e => (e.1, g e.2))) = UMap.keys m := by
  simp [UMap.keys, List.map_map, Function.comp]

theorem UMap.WF_mapVal {K V W : Type} [DecidableEq K] (g : V → W) (m : UMap K V) :
    UMap.WF (m.map (fun e => (e.1, g e.2))) ↔ UMap.WF m := by
  unfold UMap.WF
  rw [UMap.keys_mapVal]

theorem UMap.WF_assignAll {K V : Type} [DecidableEq K] [Inhabited V] (m : UMap K V)
    (kvs : List (K × V)) (h : UMap.WF m) : UMap.WF (UMap.assignAll m kvs) := by
  induction kvs generalizing m with
  | nil => exact h
  | cons kv kvs ih =>
    rw [UMap.assignAll_cons]
    exact ih _ (UMap.WF_update h _ _)

theorem UMap.contains_assignAll_imp {K V : Type} [DecidableEq K] [Inhabited V] (m : UMap K V)
    (kvs : List (K × V)) (j : K) (h : UMap.contains (UMap.assignAll m kvs) j = true) :
    UMap.contains m j = true ∨ ∃ kv ∈ kvs, kv.1 = j := by
  by_cases hj : ∃ kv ∈ kvs, kv.1 = j
  · exact Or.inr hj
  · left
    have hn : ∀ kv ∈ kvs, kv.1 ≠ j := fun kv hkv c => hj ⟨kv, hkv, c⟩
    unfold UMap.contains at h ⊢
    rw [UMap.find?_assignAll_of_not_mem _ _ _ hn] at h
    exact h

theorem UMap.WF_erase_append {K V : Type} [DecidableEq K] {m : UMap K V} (h : UMap.WF m)
    (k : K) (v : V) : UMap.WF (UMap.erase m k ++ [(k, v)]) := by
  have h1 := UMap.WF_erase h k
  have hk : k ∉ UMap.keys (UMap.erase m k) :=
    (UMap.contains_eq_false_iff _ _).1 (UMap.contains_erase_self m k)
  unfold UMap.WF UMap.keys at *
  rw [List.map_append, List.nodup_append]
  refine ⟨h1, by simp, ?_⟩
  intro a ha hb
  have : a = k := by simpa using hb
  exact hk (this ▸ ha)

theorem UMap.contains_append_single {K V : Type} [DecidableEq K] (m : UMap K V) (k j : K)
    (v : V) (h : UMap.contains (m ++ [(k, v)]) j = true) :
    UMap.contains m j = true ∨ j = k := by
  by_cases hj : j = k
  · exact Or.inr hj
  · left
    unfold UMap.contains at h ⊢
    rw [UMap.find?_append] at h
    cases hf : UMap.find? m j with
    | some x => rfl
    | none =>
      have hk : ¬ k = j := fun c => hj c.symm
      simp [hf, UMap.find?, hk] at h

/-- One step keeps the identifiers distinct when its stores keep their keys
distinct and gain at most the identifier `id` in the store of kind `Kop`, an
identifier that is not a key of another store. -/
theorem distinct_of_step (w w' : World) (Kop : Asset_Type) (id : UUID)
    (h0 : DistinctIdentifiers w)
    (hwf : ∀ K, UMap.WF (w'.store K))
    (hsub : ∀ K j, UMap.contains (w'.store K) j = true →
      UMap.contains (w.store K) j = true ∨ (K = Kop ∧ j = id))
    (hguard : ∀ K, K ≠ Kop → UMap.contains (w.store K) id = false) :
    DistinctIdentifiers w' := by
  refine ⟨hwf, ?_⟩
  intro K K' j hne hK
  by_contra hK'
  have hK' : UMap.contains (w'.store K') j = true := by simpa using hK'
  rcases hsub K j hK with a | ⟨a1, a2⟩ <;> rcases hsub K' j hK' with b | ⟨b1, b2⟩
  · rw [h0.2 K K' j hne a] at b; cases b
  · subst b1 b2
    rw [hguard K hne] at a; cases a
  · subst a1 a2
    rw [hguard K' (fun c => hne c.symm)] at b; cases b
  · exact hne (a1.trans b1.symm)

theorem distinct_congr {w w' : World} (h : ∀ K, w'.store K = w.store K)
    (h0 : DistinctIdentifiers w) : DistinctIdentifiers w' := by
  refine ⟨fun K => by rw [h K]; exact h0.1 K, ?_⟩
  intro K K' i hne
  rw [h K, h K']
  exact h0.2 K K' i hne

theorem distinct_fresh (eng : Engine) (files : UMap String (Option JValue)) :
    DistinctIdentifiers (World.fresh eng files) := by
  have hs : ∀ K, (World.fresh eng files).store K = [] := by
    intro K; cases K <;> rfl
  refine ⟨fun K => by rw [hs K]; exact List.nodup_nil, ?_⟩
  intro K K' i _ h
  rw [hs K] at h
  cases h

theorem load_of_not_kind (K : Asset_Type) (hK : ¬ K.IsKind) (n p : String) (w : World) :
    load K n p w = w := by
  cases K
  · exact absurd (Or.inl rfl) hK
  · exact absurd (Or.inr (Or.inl rfl)) hK
  · exact absurd (Or.inr (Or.inr rfl)) hK
  · rfl
  · rfl

theorem distinct_load (K : Asset_Type) (n p : String) (w : World)
    (h0 : DistinctIdentifiers w)
    (hg : ∀ K' : Asset_Type, UMap.contains (w.store K') (nextUUID w) = false) :
    DistinctIdentifiers (load K n p w) := by
  by_cases hK : K.IsKind
  · cases hl : pathLoaded (w.editor K) p with
    | true =>
      rw [load_of_loaded K hK n p w hl]
      exact distinct_congr (fun K' => World.store_congr rfl K') h0
    | false =>
      have hs := (load_of_not_loaded K hK n p w hl).1
      apply distinct_of_step w _ K (nextUUID w) h0
      · intro K'
        by_cases hk : K' = K
        · subst hk
          rw [hs]
          exact UMap.WF_update (h0.1 K') _ _
        · rw [(load_frame K K' hK hk n p w).1]
          exact h0.1 K'
      · intro K' j hj
        by_cases hk : K' = K
        · subst hk
          rw [hs, UMap.contains_update] at hj
          rcases Bool.or_eq_true _ _ ▸ hj with a | a
          · exact Or.inl a
          · exact Or.inr ⟨rfl, of_decide_eq_true a⟩
        · rw [(load_frame K K' hK hk n p w).1] at hj
          exact Or.inl hj
      · intro K' _
        exact hg K'
  · rw [load_of_not_kind K hK]
    exact h0

theorem unloadAudio_store (i : UUID) (w : World) :
    ((unloadAudio i w).store ASSET_AUDIO = UMap.erase (w.store ASSET_AUDIO) i ∨
      (unloadAudio i w).store ASSET_AUDIO = UMap.erase (w.store ASSET_AUDIO) i ++ [(i, (none, ""))]) ∧
    ∀ K, K ≠ ASSET_AUDIO → (unloadAudio i w).store K = w.store K := by
  obtain ⟨_, _, hT, hF, _, _, _, hA⟩ := unloadAudio_frame i w
  constructor
  · rcases hA with hA | hA
    · left
      show (unloadAudio i w).am.m_audioMap.map _ = _
      rw [hA]
      exact UMap.map_erase (fun (v : String) => ((none : Option String), v)) _ _
    · right
      show (unloadAudio i w).am.m_audioMap.map _ = _
      rw [hA, List.map_append]
      congr 1
      exact UMap.map_erase (fun (v : String) => ((none : Option String), v)) _ _
  · intro K hK
    cases K
    · show (unloadAudio i w).am.m_textureMap.map _ = _
      rw [hT]; rfl
    · exact absurd rfl hK
    · show (unloadAudio i w).am.m_fontMap.map _ = _
      rw [hF]; rfl
    · rfl
    · rfl

theorem distinct_unload (K : Asset_Type) (i : UUID) (w : World)
    (h0 : DistinctIdentifiers w)
    (hg : ∀ K' : Asset_Type, K' ≠ K → UMap.contains (w.store K') i = false) :
    DistinctIdentifiers (unload K i w) := by
  cases K
  · have hK : Asset_Type.HasHandle ASSET_TEXTURES := Or.inl rfl
    apply distinct_of_step w _ ASSET_TEXTURES i h0
    · intro K'
      by_cases hk : K' = ASSET_TEXTURES
      · subst hk
        rw [(unload_erases _ hK i w).1]
        exact UMap.WF_erase (h0.1 _) _
      · rw [(unload_frame _ K' hK hk i w).1]
        exact h0.1 K'
    · intro K' j hj
      by_cases hk : K' = ASSET_TEXTURES
      · subst hk
        rw [(unload_erases _ hK i w).1] at hj
        exact Or.inl (UMap.contains_erase_imp _ _ _ hj)
      · rw [(unload_frame _ K' hK hk i w).1] at hj
        exact Or.inl hj
    · exact hg
  · obtain ⟨hA, hO⟩ := unloadAudio_store i w
    apply distinct_of_step w _ ASSET_AUDIO i h0
    · intro K'
      by_cases hk : K' = ASSET_AUDIO
      · subst hk
        show UMap.WF ((unloadAudio i w).store ASSET_AUDIO)
        rcases hA with hA | hA
        · rw [hA]; exact UMap.WF_erase (h0.1 _) _
        · rw [hA]; exact UMap.WF_erase_append (h0.1 _) _ _
      · show UMap.WF ((unloadAudio i w).store K')
        rw [hO K' hk]
        exact h0.1 K'
    · intro K' j hj
      by_cases hk : K' = ASSET_AUDIO
      · subst hk
        have hj' : UMap.contains ((unloadAudio i w).store ASSET_AUDIO) j = true := hj
        rcases hA with hA | hA
        · rw [hA] at hj'
          exact Or.inl (UMap.contains_erase_imp _ _ _ hj')
        · rw [hA] at hj'
          rcases UMap.contains_append_single _ _ _ _ hj' with c | c
          · exact Or.inl (UMap.contains_erase_imp _ _ _ c)
          · exact Or.inr ⟨rfl, c⟩
      · have hj' : UMap.contains ((unloadAudio i w).store K') j = true := hj
        rw [hO K' hk] at hj'
        exact Or.inl hj'
    · exact hg
  · have hK : Asset_Type.HasHandle ASSET_FONT := Or.inr rfl
    apply distinct_of_step w _ ASSET_FONT i h0
    · intro K'
      by_cases hk : K' = ASSET_FONT
      · subst hk
        rw [(unload_erases _ hK i w).1]
        exact UMap.WF_erase (h0.1 _) _
      · rw [(unload_frame _ K' hK hk i w).1]
        exact h0.1 K'
    · intro K' j hj
      by_cases hk : K' = ASSET_FONT
      · subst hk
        rw [(unload_erases _ hK i w).1] at hj
        exact Or.inl (UMap.contains_erase_imp _ _ _ hj)
      · rw [(unload_frame _ K' hK hk i w).1] at hj
        exact Or.inl hj
    · exact hg
  · exact h0
  · exact h0

theorem distinct_modify (K : Asset_Type) (i : UUID) (p : String) (w : World)
    (h0 : DistinctIdentifiers w)
    (hg : ∀ K' : Asset_Type, K' ≠ K → UMap.contains (w.store K') i = false) :
    DistinctIdentifiers (modify K i p w) := by
  by_cases hK : K.HasHandle
  · apply distinct_of_step w _ K i h0
    · intro K'
      by_cases hk : K' = K
      · subst hk
        rw [(modify_fields _ hK i p w).1]
        exact UMap.WF_update (h0.1 _) _ _
      · rw [(modify_frame _ K' hK hk i p w).1]
        exact h0.1 K'
    · intro K' j hj
      by_cases hk : K' = K
      · subst hk
        rw [(modify_fields _ hK i p w).1, UMap.contains_update] at hj
        rcases Bool.or_eq_true _ _ ▸ hj with a | a
        · exact Or.inl a
        · exact Or.inr ⟨rfl, of_decide_eq_true a⟩
      · rw [(modify_frame _ K' hK hk i p w).1] at hj
        exact Or.inl hj
    · exact hg
  · have : modify K i p w = w := by
      cases K
      · exact absurd (Or.inl rfl) hK
      · rfl
      · exact absurd (Or.inr rfl) hK
      · rfl
      · rfl
    rw [this]
    exact h0

/-- The stores after `initAssetManager` has read a well-formed document. -/
theorem init_store (doc : JValue) (w : World) (hwf : wellFormed doc = true) (K : Asset_Type)
    (hK : K.IsKind) :
    (initialized (w.withAssetFile doc)).store K
      = UMap.assignAll (w.store K) (storeAssignments K (sectionEntries doc K)) := by
  have hfile : UMap.find? (w.withAssetFile doc).files (w.withAssetFile doc).am.m_assetFilepath
      = some (some doc) := by
    show UMap.find? (UMap.update w.files w.am.m_assetFilepath (fun _ => some doc))
      w.am.m_assetFilepath = _
    rw [UMap.find?_update_self]
  have hs : ∀ K, (w.withAssetFile doc).store K = w.store K := by
    intro K; cases K <;> rfl
  obtain ⟨p1, p2, p3, _⟩ := populated_views doc (w.withAssetFile doc)
  rw [(initialized_views _ doc hfile hwf K).1]
  rcases hK with rfl | rfl | rfl
  · rw [p1, hs]
  · rw [p2, hs]
  · rw [p3, hs]

theorem store_of_not_kind (w : World) (K : Asset_Type) (hK : ¬ K.IsKind) : w.store K = [] := by
  cases K
  · exact absurd (Or.inl rfl) hK
  · exact absurd (Or.inr (Or.inl rfl)) hK
  · exact absurd (Or.inr (Or.inr rfl)) hK
  · rfl
  · rfl

theorem distinct_init (doc : JValue) (w : World) (h0 : DistinctIdentifiers w)
    (hg : (Op.init doc).collisionFree w) :
    DistinctIdentifiers (initialized (w.withAssetFile doc)) := by
  obtain ⟨hwf, hids⟩ := hg
  have hmem : ∀ K, K.IsKind → ∀ j,
      UMap.contains ((initialized (w.withAssetFile doc)).store K) j = true →
      UMap.contains (w.store K) j = true ∨ ∃ e ∈ sectionEntries doc K, e.2.1 = j := by
    intro K hK j hj
    rw [init_store doc w hwf K hK] at hj
    rcases UMap.contains_assignAll_imp _ _ _ hj with a | ⟨kv, hkv, rfl⟩
    · exact Or.inl a
    · obtain ⟨e, he, rfl⟩ := List.mem_map.1 hkv
      exact Or.inr ⟨e, he, rfl⟩
  constructor
  · intro K
    by_cases hK : K.IsKind
    · rw [init_store doc w hwf K hK]
      exact UMap.WF_assignAll _ _ (h0.1 K)
    · rw [store_of_not_kind _ K hK]
      exact List.nodup_nil
  · intro K K' j hne hj
    by_contra hj'
    have hj' : UMap.contains ((initialized (w.withAssetFile doc)).store K') j = true := by
      simpa using hj'
    have hK : K.IsKind := by
      by_contra c
      rw [store_of_not_kind _ K c] at hj
      cases hj
    have hK' : K'.IsKind := by
      by_contra c
      rw [store_of_not_kind _ K' c] at hj'
      cases hj'
    rcases hmem K hK j hj with a | ⟨e, he, rfl⟩ <;>
      rcases hmem K' hK' _ hj' with b | ⟨e', he', hee⟩
    · rw [h0.2 K K' j hne a] at b; cases b
    · subst hee
      rw [(hids K' K hK' hK (fun c => hne c.symm) e' he').1] at a
      cases a
    · rw [(hids K K' hK hK' hne e he).1] at b
      cases b
    · exact (hids K K' hK hK' hne e he).2 e' he' hee

theorem distinct_run (op : Op) (w : World) (h0 : DistinctIdentifiers w)
    (hg : op.collisionFree w) : DistinctIdentifiers (op.run w) := by
  cases op with
  | init doc => exact distinct_init doc w h0 hg
  | load K n p => exact distinct_load K n p w h0 hg
  | unload K i => exact distinct_unload K i w h0 hg
  | modify K i p => exact distinct_modify K i p w h0 hg

theorem distinct_runOps (ops : List Op) (w : World) (h0 : DistinctIdentifiers w)
    (hg : CollisionFree ops w) : DistinctIdentifiers (runOps ops w) := by
  induction ops generalizing w with
  | nil => exact h0
  | cons op ops ih =>
    exact ih (op.run w) (distinct_run op w h0 hg.1) hg.2

/-- Claim C25, as stated, fails. (1) With a random engine that yields 100
twice, `loadTexture("A", "a.png")` and `loadAudio("S", "s.wav")` on a fresh
registry leave the identifier 100 in the image store and in the audio store.
(2) With an engine whose draws are all different, `loadTexture("A", "a.png")`
(identifier 100) followed by `modifyFont(100, "f.ttf")` leaves 100 in the image
store and in the font store. (3) `initAssetManager` on a document whose
textures and audios sections both carry the identifier 7 leaves 7 in the image
store and in the audio store. No operation checks for a collision. -/
theorem distinct_identifiers_counterexample :
    ((runOps [Op.load ASSET_TEXTURES "A" "a.png", Op.load ASSET_AUDIO "S" "s.wav"]
          Examples.wStuck).store ASSET_TEXTURES = [(100, (some "a.png", "A"))] ∧
      (runOps [Op.load ASSET_TEXTURES "A" "a.png", Op.load ASSET_AUDIO "S" "s.wav"]
          Examples.wStuck).store ASSET_AUDIO = [(100, (none, "S"))] ∧
      ¬ DistinctIdentifiers
        (runOps [Op.load ASSET_TEXTURES "A" "a.png", Op.load ASSET_AUDIO "S" "s.wav"]
          Examples.wStuck)) ∧
    ((runOps [Op.load ASSET_TEXTURES "A" "a.png", Op.modify ASSET_FONT 100 "f.ttf"]
          Examples.w0).store ASSET_TEXTURES = [(100, (some "a.png", "A"))] ∧
      (runOps [Op.load ASSET_TEXTURES "A" "a.png", Op.modify ASSET_FONT 100 "f.ttf"]
          Examples.w0).store ASSET_FONT = [(100, (some "f.ttf", ""))]) ∧
    ((runOps [Op.init Examples.sharedIdDoc] Examples.w0).store ASSET_TEXTURES
        = [(7, (some "a.png", "A"))] ∧
      (runOps [Op.init Examples.sharedIdDoc] Examples.w0).store ASSET_AUDIO
        = [(7, (none, "S"))]) := by
  refine ⟨⟨by rfl, by rfl, ?_⟩, ⟨by rfl, by rfl⟩, ⟨by rfl, by rfl⟩⟩
  intro h
  have := h.2 ASSET_TEXTURES ASSET_AUDIO 100 (by decide) (by rfl)
  exact absurd this (by decide)

/-- Claim C25, amended. In every state reached from a fresh registry by a
sequence of operations (`initAssetManager` on a document, `load`, `unload`,
`modify`) each of which is collision-free — the identifier a `load` draws is
not yet a key of any store, the identifier handed to `unload` or `modify` is
not a key of the store of another kind, a document read passes the reads and
carries no identifier in two sections nor one that is a key of the store of
another kind — no store has an identifier twice and no identifier is a key of
the stores of two kinds. -/
theorem distinct_identifiers_without_collision (eng : Engine)
    (files : UMap String (Option JValue)) (ops : List Op)
    (h : CollisionFree ops (World.fresh eng files)) :
    DistinctIdentifiers (runOps ops (World.fresh eng files)) :=
  distinct_runOps ops _ (distinct_fresh eng files) h

/-- Claim C25, amended, at a concrete input: on a fresh registry whose engine
yields 100, 101, ..., read the document with the texture `Hero` (42), load an
audio clip (100) and a texture (101), modify the texture 42 and unload the
audio clip 100. -/
theorem distinct_identifiers_without_collision_witness :
    CollisionFree
      [Op.init Examples.heroDoc, Op.load ASSET_AUDIO "S" "s.wav",
        Op.load ASSET_TEXTURES "A" "a.png", Op.modify ASSET_TEXTURES 42 "h2.png",
        Op.unload ASSET_AUDIO 100] (World.fresh Examples.counting []) ∧
    DistinctIdentifiers (runOps
      [Op.init Examples.heroDoc, Op.load ASSET_AUDIO "S" "s.wav",
        Op.load ASSET_TEXTURES "A" "a.png", Op.modify ASSET_TEXTURES 42 "h2.png",
        Op.unload ASSET_AUDIO 100] (World.fresh Examples.counting [])) ∧
    (runOps
      [Op.init Examples.heroDoc, Op.load ASSET_AUDIO "S" "s.wav",
        Op.load ASSET_TEXTURES "A" "a.png", Op.modify ASSET_TEXTURES 42 "h2.png",
        Op.unload ASSET_AUDIO 100] (World.fresh Examples.counting [])).store ASSET_TEXTURES
      = [(42, (some "h2.png", "Hero")), (101, (some "a.png", "A"))] :=
  ⟨⟨by decide, by decide, by decide, by decide, by decide, trivial⟩,
    distinct_identifiers_without_collision Examples.counting []
      [Op.init Examples.heroDoc, Op.load ASSET_AUDIO "S" "s.wav",
        Op.load ASSET_TEXTURES "A" "a.png", Op.modify ASSET_TEXTURES 42 "h2.png",
        Op.unload ASSET_AUDIO 100]
      ⟨by decide, by decide, by decide, by decide, by decide, trivial⟩,
    by rfl⟩

/-! ## Prefabs: which components a document adds -/

theorem isOk_runStatements {T : Type} (stmts : Statements T) (c : T) :
    (runStatements stmts c).isOk = stmts.all Option.isSome := by
  induction stmts generalizing c with
  | nil => rfl
  | cons s rest ih =>
    cases s with
    | none => rfl
    | some f =>
      simp only [runStatements, ih, List.all_cons, Option.isSome_some, Bool.true_and]

theorem Except.reached_both {T U : Type} (f : T → U) (r : Except T T) :
    Except.reached (Except.both f r) = f (Except.reached r) := by
  cases r <;> rfl

theorem Except.isOk_both {T U : Type} (f : T → U) (r : Except T T) :
    (Except.both f r).isOk = r.isOk := by
  cases r <;> rfl

/-- No deserializer touches the component map of the prefab. -/
theorem Prefab.deserializeWith_components (BodySet : Body → Vec2 → ℚ → Int → Body)
    (func : ComponentType) (reader : JValue) (component : ComponentType) (p : Prefab) :
    (Except.reached (Prefab.deserializeWith BodySet func reader component p)).m_components
      = p.m_components := by
  unfold Prefab.deserializeWith
  by_cases h : func ≠ component
  · rw [if_pos h]; rfl
  · rw [if_neg h]
    cases func <;> simp only [Except.reached_both]

/-- Whether a deserializer passes its assertions depends on the reader only. -/
theorem Prefab.isOk_deserializeWith (BodySet : Body → Vec2 → ℚ → Int → Body)
    (func : ComponentType) (reader : JValue) (component : ComponentType) (p p' : Prefab) :
    (Prefab.deserializeWith BodySet func reader component p).isOk
      = (Prefab.deserializeWith BodySet func reader component p').isOk := by
  unfold Prefab.deserializeWith
  by_cases h : func ≠ component
  · rw [if_pos h, if_pos h]; rfl
  · rw [if_neg h, if_neg h]
    cases func <;>
      simp only [Except.isOk_both, DeserializeTransformComponent, DeserializeMovementComponent,
        DeserializePrimitiveComponent, DeserializeSpriteComponent, DeserializePlayerComponent,
        DeserializeNameComponent, DeserializeRigidBody2DComponent, DeserializeFontComponent,
        DeserializeCameraComponent, DeserializeAnimationComponent, DeserializeGemComponent,
        DeserializeUIComponent, DeserializeAudioComponent, DeserializeEnemyComponent,
        DeserializeTileComponent, DeserializeCPPScriptComponent, isOk_runStatements]

theorem Serializer.new_deserializeFunctions :
    Serializer.new.deserializeFunctions
      = [("TransformComponent", .Transform), ("MovementComponent", .Movement),
          ("PrimitiveComponent", .Primitive), ("SpriteComponent", .Sprite),
          ("PlayerComponent", .Player), ("NameComponent", .Name),
          ("RigidBody2DComponent", .RigidBody2D), ("CameraComponent", .Camera),
          ("FontComponent", .Font), ("AnimationComponent", .Animation),
          ("GemComponent", .Gem), ("UIComponent", .UI), ("AudioComponent", .Audio),
          ("EnemyComponent", .Enemy), ("TileComponent", .Tile),
          ("CPPScriptComponent", .CPPScript)] := by
  rfl

/-- The table of the default `Serializer` has a deserializer for exactly the
type names `CreateComponentByTypeName` knows, and it is the one of the type of
the member returned. -/
theorem Serializer.find?_deserializeFunctions (typeName : String) :
    UMap.find? Serializer.new.deserializeFunctions typeName
      = Prefab.CreateComponentByTypeName typeName := by
  by_cases h : typeName ∈ Prefab.knownTags
  · simp only [Prefab.knownTags, List.mem_cons, List.mem_singleton, List.not_mem_nil,
      or_false] at h
    rcases h with rfl | rfl | rfl | rfl | rfl | rfl | rfl | rfl | rfl | rfl | rfl | rfl | rfl |
      rfl | rfl | rfl <;> rfl
  · simp only [Prefab.knownTags, List.mem_cons, List.mem_singleton, List.not_mem_nil,
      or_false, not_or] at h
    obtain ⟨h1, h2, h3, h4, h5, h6, h7, h8, h9, h10, h11, h12, h13, h14, h15, h16⟩ := h
    rw [Serializer.new_deserializeFunctions]
    simp only [UMap.find?, Prefab.CreateComponentByTypeName, h1, h2, h3, h4, h5, h6, h7, h8, h9,
      h10, h11, h12, h13, h14, h15, h16, Ne.symm h1, Ne.symm h2, Ne.symm h3, Ne.symm h4,
      Ne.symm h5, Ne.symm h6, Ne.symm h7, Ne.symm h8, Ne.symm h9, Ne.symm h10, Ne.symm h11,
      Ne.symm h12, Ne.symm h13, Ne.symm h14, Ne.symm h15, Ne.symm h16, if_false]

theorem Prefab.isSome_CreateComponentByTypeName (typeName : String) :
    (Prefab.CreateComponentByTypeName typeName).isSome = true ↔ typeName ∈ Prefab.knownTags := by
  constructor
  · intro h
    by_contra hn
    simp only [Prefab.knownTags, List.mem_cons, List.mem_singleton, List.not_mem_nil,
      or_false, not_or] at hn
    obtain ⟨h1, h2, h3, h4, h5, h6, h7, h8, h9, h10, h11, h12, h13, h14, h15, h16⟩ := hn
    simp only [Prefab.CreateComponentByTypeName, h1, h2, h3, h4, h5, h6, h7, h8, h9,
      h10, h11, h12, h13, h14, h15, h16, if_false, Option.isSome_none] at h
    cases h
  · intro h
    simp only [Prefab.knownTags, List.mem_cons, List.mem_singleton, List.not_mem_nil,
      or_false] at h
    rcases h with rfl | rfl | rfl | rfl | rfl | rfl | rfl | rfl | rfl | rfl | rfl | rfl | rfl |
      rfl | rfl | rfl <;> rfl

theorem UMap.contains_emplace {K V : Type} [DecidableEq K] (m : UMap K V) (k j : K) (v : V) :
    UMap.contains (UMap.emplace m k v) j = (UMap.contains m j || decide (j = k)) := by
  unfold UMap.emplace
  by_cases hc : UMap.contains m k = true
  · rw [if_pos hc]
    by_cases hj : j = k
    · subst hj; simp [hc]
    · simp [hj]
  · rw [if_neg hc]
    unfold UMap.contains
    rw [UMap.find?_append]
    cases hf : UMap.find? m j with
    | some x => simp
    | none =>
      by_cases hj : j = k
      · subst hj; simp [UMap.find?]
      · have hk : ¬ k = j := fun c => hj c.symm
        simp [UMap.find?, hj, hk]

/-- A member whose name selects no component leaves the prefab as it is, and
the loop goes on. -/
theorem Prefab.deserializeMember_unknown (BodySet : Body → Vec2 → ℚ → Int → Body)
    (serializer : Serializer) (name : String) (value : JValue) (p : Prefab)
    (h : Prefab.CreateComponentByTypeName (c_str name) = none) :
    Prefab.deserializeMember BodySet serializer name value p = .ok p := by
  simp only [Prefab.deserializeMember, h]

/-- A member whose name selects a component: the component is added to the
map, and the deserializer of its type is run on the value. -/
theorem Prefab.deserializeMember_known (BodySet : Body → Vec2 → ℚ → Int → Body)
    (name : String) (value : JValue) (p : Prefab) (T : ComponentType)
    (h : Prefab.CreateComponentByTypeName (c_str name) = some T) :
    Prefab.deserializeMember BodySet Serializer.new name value p
      = Prefab.deserializeWith BodySet T value T (p.AddComponent (c_str name) T) := by
  simp only [Prefab.deserializeMember, h, Serializer.Deserialize,
    Serializer.find?_deserializeFunctions]

/-- The component map after one member, whether or not its deserializer
passes. -/
theorem Prefab.deserializeMember_components (BodySet : Body → Vec2 → ℚ → Int → Body)
    (name : String) (value : JValue) (p : Prefab) (T : String) :
    UMap.contains
        (Except.reached (Prefab.deserializeMember BodySet Serializer.new name value p)).m_components
        T
      = (UMap.contains p.m_components T ||
          (decide (T = c_str name) && (Prefab.CreateComponentByTypeName T).isSome)) := by
  cases h : Prefab.CreateComponentByTypeName (c_str name) with
  | none =>
    rw [Prefab.deserializeMember_unknown _ _ _ _ _ h]
    by_cases hT : T = c_str name
    · subst hT; simp [h, Except.reached]
    · simp [hT, Except.reached]
  | some C =>
    rw [Prefab.deserializeMember_known _ _ _ _ C h, Prefab.deserializeWith_components]
    show UMap.contains (UMap.emplace p.m_components (c_str name) C) T = _
    rw [UMap.contains_emplace]
    by_cases hT : T = c_str name
    · subst hT; simp [h]
    · simp [hT]

theorem Prefab.isOk_deserializeMember (BodySet : Body → Vec2 → ℚ → Int → Body)
    (name : String) (value : JValue) (p : Prefab) :
    (Prefab.deserializeMember BodySet Serializer.new name value p).isOk
      = Prefab.membersAccepted BodySet [(name, value)] := by
  cases h : Prefab.CreateComponentByTypeName (c_str name) with
  | none =>
    rw [Prefab.deserializeMember_unknown _ _ _ _ _ h]
    simp [Prefab.membersAccepted, h, Except.isOk, Except.toBool]
  | some C =>
    rw [Prefab.deserializeMember_known _ _ _ _ C h]
    simp only [Prefab.membersAccepted, List.all_cons, h, List.all_nil, Bool.and_true,
      Prefab.accepts]
    exact Prefab.isOk_deserializeWith _ _ _ _ _ _

theorem Prefab.membersAccepted_cons (BodySet : Body → Vec2 → ℚ → Int → Body)
    (m : String × JValue) (ms : List (String × JValue)) :
    Prefab.membersAccepted BodySet (m :: ms)
      = (Prefab.membersAccepted BodySet [m] && Prefab.membersAccepted BodySet ms) := by
  simp [Prefab.membersAccepted]

/-- The loop of `DeserializePrefab` over members that are all accepted: it
returns, and the component map has gained the names that select a component. -/
theorem Prefab.deserializeMembers_accepted (BodySet : Body → Vec2 → ℚ → Int → Body)
    (ms : List (String × JValue)) (p : Prefab)
    (hok : Prefab.membersAccepted BodySet ms = true) :
    (Prefab.deserializeMembers BodySet Serializer.new ms p).isOk = true ∧
    ∀ T : String,
      UMap.contains
          (Except.reached (Prefab.deserializeMembers BodySet Serializer.new ms p)).m_components T
        = (UMap.contains p.m_components T ||
            (decide (T ∈ ms.map (fun m => c_str m.1)) &&
              (Prefab.CreateComponentByTypeName T).isSome)) := by
  induction ms generalizing p with
  | nil =>
    refine ⟨rfl, ?_⟩
    intro T
    simp [Prefab.deserializeMembers, Except.reached]
  | cons m ms ih =>
    obtain ⟨name, value⟩ := m
    rw [Prefab.membersAccepted_cons, Bool.and_eq_true] at hok
    have h1 := Prefab.isOk_deserializeMember BodySet name value p
    rw [hok.1] at h1
    have h2 := fun T => Prefab.deserializeMember_components BodySet name value p T
    simp only [Prefab.deserializeMembers]
    cases hr : Prefab.deserializeMember BodySet Serializer.new name value p with
    | error e => rw [hr] at h1; cases h1
    | ok p' =>
      rw [hr] at h2
      simp only [Except.reached] at h2
      obtain ⟨i1, i2⟩ := ih p' hok.2
      refine ⟨i1, ?_⟩
      intro T
      rw [i2 T, h2 T]
      have hd : decide (T ∈ List.map (fun m => c_str m.1) ((name, value) :: ms))
          = (decide (T = c_str name) || decide (T ∈ List.map (fun m => c_str m.1) ms)) := by
        rw [List.map_cons, ← Bool.decide_or]
        simp only [List.mem_cons]
      rw [hd]
      generalize UMap.contains p.m_components T = a
      generalize decide (T = c_str name) = b
      generalize decide (T ∈ List.map (fun m => c_str m.1) ms) = c
      generalize (Prefab.CreateComponentByTypeName T).isSome = d
      cases a <;> cases b <;> cases c <;> cases d <;> rfl

/-- Claim C29, as stated, fails, whatever `Body::Set` does. (1) On the document
`{"GemComponent": 5, "UIComponent": {}}` the deserializer of the first member
fails its first assertion (`HasMember` on a value that is no object): the call
does not return, and `UIComponent`, a key of the document and a known tag, is
not a component of the prefab. (2) On the document whose single key is
`GemComponent`, NUL, `x` the call returns and the prefab has the component
`GemComponent`, which is not a key of the document. -/
theorem deserializePrefab_counterexample :
    (∀ BodySet : Body → Vec2 → ℚ → Int → Body,
      (Prefab.DeserializePrefab BodySet Serializer.new (some Examples.badGemDoc)
        Prefab.new).isOk = false ∧
      (Except.reached (Prefab.DeserializePrefab BodySet Serializer.new
        (some Examples.badGemDoc) Prefab.new)).HasComponent "UIComponent" = false ∧
      Examples.badGemDoc.HasMember "UIComponent" = some true ∧
      (Prefab.CreateComponentByTypeName "UIComponent").isSome = true) ∧
    (∀ BodySet : Body → Vec2 → ℚ → Int → Body,
      (Prefab.DeserializePrefab BodySet Serializer.new (some Examples.nulTagDoc)
        Prefab.new).isOk = true ∧
      (Except.reached (Prefab.DeserializePrefab BodySet Serializer.new
        (some Examples.nulTagDoc) Prefab.new)).HasComponent "GemComponent" = true ∧
      Examples.nulTagDoc.HasMember "GemComponent" = some false) := by
  refine ⟨fun _ => ⟨by rfl, by rfl, by rfl, by rfl⟩, fun _ => ⟨by rfl, by rfl, by rfl⟩⟩

/-- Claim C29, amended. For every JSON object `d` in which the value of each
key that selects a component passes the assertions of the deserializer of that
component, every `Body::Set`, and a prefab whose component map is empty:
`DeserializePrefab` with the default `Serializer` returns, and afterwards
`HasComponent(T)` holds exactly for the tags `T` that are known to
`CreateComponentByTypeName` and are the name, read as a C string, of a key of
`d`. A key whose name selects no component leaves the prefab as it is, and the
keys after it are processed. -/
theorem deserializePrefab_components (BodySet : Body → Vec2 → ℚ → Int → Body)
    (ms : List (String × JValue)) (p : Prefab) (hempty : p.m_components = [])
    (hok : Prefab.membersAccepted BodySet ms = true) :
    (Prefab.DeserializePrefab BodySet Serializer.new (some (JValue.obj ms)) p).isOk = true ∧
    (∀ T : String,
      (Except.reached (Prefab.DeserializePrefab BodySet Serializer.new (some (JValue.obj ms))
          p)).HasComponent T = true ↔
        (∃ m ∈ ms, c_str m.1 = T) ∧ (Prefab.CreateComponentByTypeName T).isSome = true) ∧
    (∀ (name : String) (value : JValue) (q : Prefab),
      Prefab.CreateComponentByTypeName (c_str name) = none →
      Prefab.deserializeMember BodySet Serializer.new name value q = .ok q) := by
  obtain ⟨h1, h2⟩ := Prefab.deserializeMembers_accepted BodySet ms p hok
  refine ⟨h1, ?_, fun name value q h => Prefab.deserializeMember_unknown _ _ _ _ _ h⟩
  intro T
  show UMap.contains (Except.reached
    (Prefab.deserializeMembers BodySet Serializer.new ms p)).m_components T = true ↔ _
  rw [h2 T, hempty]
  simp only [UMap.contains, UMap.find?_nil, Option.isSome_none, Bool.false_or,
    Bool.and_eq_true, decide_eq_true_eq, List.mem_map]

/-- Claim C29, amended, at a concrete input: the document
`{"TransformComponent": {"Identity": 3, "Rotation": 90}, "Bogus": 1,
"NameComponent": {"Name": "hero"}}` on a fresh prefab. The call returns; the
prefab has `NameComponent`, the key after the unknown one, and has no
`Bogus`. -/
theorem deserializePrefab_components_witness :
    (Prefab.new.m_components = [] ∧
      Examples.mixedPrefabDoc = JValue.obj
        [("TransformComponent",
            JValue.obj [("Identity", JValue.number 3), ("Rotation", JValue.number 90)]),
          ("Bogus", JValue.number 1),
          ("NameComponent", JValue.obj [("Name", JValue.str "hero")])] ∧
      Prefab.membersAccepted Examples.bodySet
        [("TransformComponent",
            JValue.obj [("Identity", JValue.number 3), ("Rotation", JValue.number 90)]),
          ("Bogus", JValue.number 1),
          ("NameComponent", JValue.obj [("Name", JValue.str "hero")])] = true) ∧
    (Prefab.DeserializePrefab Examples.bodySet Serializer.new (some Examples.mixedPrefabDoc)
      Prefab.new).isOk = true ∧
    (Except.reached (Prefab.DeserializePrefab Examples.bodySet Serializer.new
      (some Examples.mixedPrefabDoc) Prefab.new)).HasComponent "NameComponent" = true ∧
    ¬ (Except.reached (Prefab.DeserializePrefab Examples.bodySet Serializer.new
      (some Examples.mixedPrefabDoc) Prefab.new)).HasComponent "Bogus" = true :=
  ⟨⟨rfl, by rfl, by rfl⟩,
    (deserializePrefab_components Examples.bodySet _ Prefab.new rfl (by rfl)).1,
    ((deserializePrefab_components Examples.bodySet _ Prefab.new rfl (by rfl)).2.1
      "NameComponent").2
      ⟨⟨("NameComponent", JValue.obj [("Name", JValue.str "hero")]), by simp, by decide⟩,
        by rfl⟩,
    fun h => absurd
      (((deserializePrefab_components Examples.bodySet _ Prefab.new rfl (by rfl)).2.1
        "Bogus").1 h).2 (by decide)⟩

/-- Claim C30, evaluated where it fails. The body of the constructor `Prefab()`
is commented out, so the component map of a freshly constructed prefab is
empty: `GetComponent(T)`, which is `m_components.at(T)`, throws
`std::out_of_range` for every `T`, in particular for the four type names
`SerializerDeserializerTester` asks for; `HasComponent` is false for them and
`IsPrefabValid` is false. -/
theorem getComponent_on_new_prefab_throws :
    Prefab.new.m_components = [] ∧
    (∀ T : String, Prefab.GetComponent Prefab.new T = none) ∧
    Prefab.GetComponent Prefab.new "TransformComponent" = none ∧
    Prefab.GetComponent Prefab.new "MovementComponent" = none ∧
    Prefab.GetComponent Prefab.new "PrimitiveComponent" = none ∧
    Prefab.GetComponent Prefab.new "SpriteComponent" = none ∧
    Prefab.HasComponent Prefab.new "TransformComponent" = false ∧
    Prefab.IsPrefabValid Prefab.new = false :=
  ⟨rfl, fun _ => rfl, rfl, rfl, rfl, rfl, rfl, rfl⟩

/-! ## Numbers written and read back -/

theorem asInt_range (z : Int) : -(2 ^ 31 : Int) ≤ asInt z ∧ asInt z < 2 ^ 31 := by
  unfold asInt
  have h1 := Int.emod_nonneg (z + 2 ^ 31) (show (2 ^ 32 : Int) ≠ 0 by norm_num)
  have h2 := Int.emod_lt_of_pos (z + 2 ^ 31) (show (0 : Int) < 2 ^ 32 by norm_num)
  constructor <;> omega

theorem asInt_of_range (z : Int) (h : -(2 ^ 31 : Int) ≤ z ∧ z < 2 ^ 31) : asInt z = z := by
  unfold asInt
  rw [Int.emod_eq_of_lt (by omega) (by omega)]
  omega

theorem GetInt_asInt (z : Int) : JValue.GetInt (JValue.number (asInt z)) = some (asInt z) := by
  simp only [JValue.GetInt]
  rw [if_pos (asInt_range z)]

theorem GetUint64_asUint64 (n : Nat) :
    JValue.GetUint64 (JValue.number (asUint64 n)) = some (asUint64 n) :=
  GetUint64_number _ (Nat.mod_lt _ (by norm_num))

theorem GetUint_asUnsigned (n : Nat) :
    JValue.GetUint (JValue.number (asUnsigned n)) = some (asUnsigned n) := by
  have h : (0 : Int) ≤ ((asUnsigned n : Nat) : Int) ∧ ((asUnsigned n : Nat) : Int) < 2 ^ 32 :=
    ⟨Int.ofNat_nonneg _, by
      have := Nat.mod_lt n (show 0 < 2 ^ 32 by norm_num)
      unfold asUnsigned; exact_mod_cast this⟩
  simp only [JValue.GetUint]
  rw [if_pos h, Int.toNat_ofNat]

/-! ## The dispatch tables -/

theorem Serializer.new_serializeFunctions :
    Serializer.new.serializeFunctions
      = [("TransformComponent", .Transform), ("MovementComponent", .Movement),
          ("PrimitiveComponent", .Primitive), ("SpriteComponent", .Sprite),
          ("PlayerComponent", .Player), ("NameComponent", .Name),
          ("RigidBody2DComponent", .RigidBody2D), ("CameraComponent", .Camera),
          ("FontComponent", .Font), ("AnimationComponent", .Animation),
          ("GemComponent", .Gem), ("UIComponent", .UI), ("AudioComponent", .Audio),
          ("EnemyComponent", .Enemy), ("TileComponent", .Tile),
          ("CPPScriptComponent", .CPPScript)] := by
  rfl

/-- The table of the default `Serializer` has a serializer for exactly the
type names `CreateComponentByTypeName` knows, and it is the one of the type of
the member returned. -/
theorem Serializer.find?_serializeFunctions (typeName : String) :
    UMap.find? Serializer.new.serializeFunctions typeName
      = Prefab.CreateComponentByTypeName typeName := by
  by_cases h : typeName ∈ Prefab.knownTags
  · simp only [Prefab.knownTags, List.mem_cons, List.mem_singleton, List.not_mem_nil,
      or_false] at h
    rcases h with rfl | rfl | rfl | rfl | rfl | rfl | rfl | rfl | rfl | rfl | rfl | rfl | rfl |
      rfl | rfl | rfl <;> rfl
  · simp only [Prefab.knownTags, List.mem_cons, List.mem_singleton, List.not_mem_nil,
      or_false, not_or] at h
    obtain ⟨h1, h2, h3, h4, h5, h6, h7, h8, h9, h10, h11, h12, h13, h14, h15, h16⟩ := h
    rw [Serializer.new_serializeFunctions]
    simp only [UMap.find?, Prefab.CreateComponentByTypeName, h1, h2, h3, h4, h5, h6, h7, h8, h9,
      h10, h11, h12, h13, h14, h15, h16, Ne.symm h1, Ne.symm h2, Ne.symm h3, Ne.symm h4,
      Ne.symm h5, Ne.symm h6, Ne.symm h7, Ne.symm h8, Ne.symm h9, Ne.symm h10, Ne.symm h11,
      Ne.symm h12, Ne.symm h13, Ne.symm h14, Ne.symm h15, Ne.symm h16, if_false]

theorem Prefab.serializeWith_self (T : ComponentType) (writer : Writer) (p : Prefab) :
    (Prefab.serializeWith T writer T p).isOk = true := by
  unfold Prefab.serializeWith
  rw [if_neg (by simp)]
  cases T <;> rfl

/-- Claim C31. For the default `Serializer` and every type name: the function
registered for serializing and the function registered for deserializing are
both the one of the component `CreateComponentByTypeName` returns for that name,
and there is none when it returns no component. So the two tables and
`CreateComponentByTypeName` have the same tags, the 16 distinct names of
`knownTags`; `Serialize` and `Deserialize` run the function of that component
on every tag a prefab accepts, and do nothing on any other name. -/
theorem dispatch_tables_pair_every_tag (BodySet : Body → Vec2 → ℚ → Int → Body)
    (typeName : String) (writer : Writer) (reader : JValue) (component : ComponentType)
    (p : Prefab) :
    UMap.find? Serializer.new.serializeFunctions typeName
        = Prefab.CreateComponentByTypeName typeName ∧
    UMap.find? Serializer.new.deserializeFunctions typeName
        = Prefab.CreateComponentByTypeName typeName ∧
    UMap.contains Serializer.new.serializeFunctions typeName
        = UMap.contains Serializer.new.deserializeFunctions typeName ∧
    ((Prefab.CreateComponentByTypeName typeName).isSome = true ↔
        typeName ∈ Prefab.knownTags) ∧
    Prefab.knownTags.length = 16 ∧ Prefab.knownTags.Nodup ∧
    (UMap.keys Serializer.new.serializeFunctions).length = 16 ∧
    (UMap.keys Serializer.new.deserializeFunctions).length = 16 ∧
    Serializer.new.Serialize writer typeName component p
        = (match Prefab.CreateComponentByTypeName typeName with
          | some T => Prefab.serializeWith T writer component p
          | none => .ok writer) ∧
    Serializer.new.Deserialize BodySet reader component typeName p
        = (match Prefab.CreateComponentByTypeName typeName with
          | some T => Prefab.deserializeWith BodySet T reader component p
          | none => .ok p) := by
  refine ⟨Serializer.find?_serializeFunctions typeName,
    Serializer.find?_deserializeFunctions typeName, ?_,
    Prefab.isSome_CreateComponentByTypeName typeName, rfl, by decide, rfl, rfl, ?_, ?_⟩
  · simp only [UMap.contains, Serializer.find?_serializeFunctions,
      Serializer.find?_deserializeFunctions]
  · simp only [Serializer.Serialize, Serializer.find?_serializeFunctions]
  · simp only [Serializer.Deserialize, Serializer.find?_deserializeFunctions]

/-! ## Frame: the other kinds -/

/-- Claim C32. For a kind `K` and any other kind `K'`, `load`, `unload` and
`modify` of kind `K` leave the store and the editor entries of `K'` as they
were. A `load` of kind `K` of a path that no editor entry of kind `K` has
inserts its entry, whatever the entries of the other kinds hold. -/
theorem operations_leave_other_kinds (K K' : Asset_Type) (hK : K.IsKind) (hne : K' ≠ K)
    (n p : String) (i : UUID) (w : World) :
    ((load K n p w).store K' = w.store K' ∧ (load K n p w).editor K' = w.editor K') ∧
    ((unload K i w).store K' = w.store K' ∧ (unload K i w).editor K' = w.editor K') ∧
    ((modify K i p w).store K' = w.store K' ∧ (modify K i p w).editor K' = w.editor K') ∧
    ((∀ e ∈ w.editor K, e.2.2 ≠ p) →
      UMap.find? ((load K n p w).editor K) (nextUUID w) = some (n, p) ∧
      UMap.find? ((load K n p w).store K) (nextUUID w) = some (loadedHandle K p, n)) := by
  refine ⟨load_frame K K' hK hne n p w, ?_, ?_, ?_⟩
  · rcases hK with rfl | rfl | rfl
    · exact unload_frame _ K' (Or.inl rfl) hne i w
    · exact ⟨(unloadAudio_store i w).2 K' hne, (unloadAudio_frame i w).2.1 K' hne⟩
    · exact unload_frame _ K' (Or.inr rfl) hne i w
  · rcases hK with rfl | rfl | rfl
    · exact modify_frame _ K' (Or.inl rfl) hne i p w
    · exact ⟨rfl, rfl⟩
    · exact modify_frame _ K' (Or.inr rfl) hne i p w
  · intro h
    have hl := (pathLoaded_eq_false_iff _ _).2 h
    constructor
    · rw [load_editor_self K hK n p w hl, UMap.find?_update_self]
    · rw [(load_of_not_loaded K hK n p w hl).1, UMap.find?_update_self]

/-- Claim C32 at a concrete input: in the registry that has the image
`a.png`, the load, unload and modify of the audio kind leave the image entries
as they were, and the audio `a.png` is loaded although the path is already
loaded as an image. -/
theorem operations_leave_other_kinds_witness :
    (Asset_Type.IsKind ASSET_AUDIO ∧ ASSET_TEXTURES ≠ ASSET_AUDIO ∧
      pathLoaded (Examples.wTexture.editor ASSET_TEXTURES) "a.png" = true ∧
      ∀ e ∈ Examples.wTexture.editor ASSET_AUDIO, e.2.2 ≠ "a.png") ∧
    (load ASSET_AUDIO "S" "a.png" Examples.wTexture).editor ASSET_TEXTURES
      = Examples.wTexture.editor ASSET_TEXTURES ∧
    (load ASSET_AUDIO "S" "a.png" Examples.wTexture).store ASSET_TEXTURES
      = Examples.wTexture.store ASSET_TEXTURES ∧
    UMap.find? ((load ASSET_AUDIO "S" "a.png" Examples.wTexture).editor ASSET_AUDIO)
      (nextUUID Examples.wTexture) = some ("S", "a.png") :=
  ⟨⟨Or.inr (Or.inl rfl), by decide, by decide, by decide⟩,
    (operations_leave_other_kinds ASSET_AUDIO ASSET_TEXTURES (Or.inr (Or.inl rfl)) (by decide)
      "S" "a.png" 0 Examples.wTexture).1.2,
    (operations_leave_other_kinds ASSET_AUDIO ASSET_TEXTURES (Or.inr (Or.inl rfl)) (by decide)
      "S" "a.png" 0 Examples.wTexture).1.1,
    ((operations_leave_other_kinds ASSET_AUDIO ASSET_TEXTURES (Or.inr (Or.inl rfl)) (by decide)
      "S" "a.png" 0 Examples.wTexture).2.2.2 (by decide)).1⟩

/-! ## Round trips of single components -/

theorem deserialize_serialized_transform (c c0 : TransformComponent) :
    (Writer.document (SerializeTransformComponent [] c)).map
        (fun reader => DeserializeTransformComponent reader c0)
      = some (.ok { c with m_EntityIdentity := asInt c.m_EntityIdentity }) := by
  have h : Writer.document (SerializeTransformComponent [] c) = some (.obj
      [("Identity", .number (asInt c.m_EntityIdentity)),
       ("Transform", .arr [.real c.m_Transform.x, .real c.m_Transform.y, .real c.m_TransformZ]),
       ("Scale", .arr [.real c.m_Scale.x, .real c.m_Scale.y]),
       ("Rotation", .real c.m_Rotation)]) := rfl
  rw [h]
  simp [DeserializeTransformComponent, transformStatements, ifMember,
    ifArrayMember, JValue.HasMember, JValue.member, JValue.members, JValue.findMember,
    floatAt, JValue.GetFloat, JValue.IsNumber, GetInt_asInt, runStatements]

theorem deserialize_serialized_movement (c c0 : MovementComponent) :
    (Writer.document (SerializeMovementComponent [] c)).map
        (fun reader => DeserializeMovementComponent reader c0)
      = some (.ok { c with m_EntityIdentity := asInt c.m_EntityIdentity }) := by
  have h : Writer.document (SerializeMovementComponent [] c) = some (.obj
      [("Identity", .number (asInt c.m_EntityIdentity)),
       ("Direction", .arr [.real c.m_Direction.x, .real c.m_Direction.y]),
       ("Speed", .real c.m_Speed)]) := rfl
  rw [h]
  simp [DeserializeMovementComponent, movementStatements, ifMember,
    ifArrayMember, JValue.HasMember, JValue.member, JValue.members, JValue.findMember,
    floatAt, JValue.GetFloat, JValue.IsNumber, GetInt_asInt, runStatements]

theorem deserialize_serialized_primitive (c c0 : PrimitiveComponent) :
    (Writer.document (SerializePrimitiveComponent [] c)).map
        (fun reader => DeserializePrimitiveComponent reader c0)
      = some (.ok { c with m_EntityIdentity := asInt c.m_EntityIdentity,
                           m_PrimitiveID := asInt c.m_PrimitiveID }) := by
  have h : Writer.document (SerializePrimitiveComponent [] c) = some (.obj
      [("Identity", .number (asInt c.m_EntityIdentity)),
       ("PrimitiveID", .number (asInt c.m_PrimitiveID)),
       ("Offset", .real c.m_Offset),
       ("Color", .arr [.real c.m_Color.x, .real c.m_Color.y, .real c.m_Color.z]),
       ("Alpha", .real c.m_Alpha)]) := rfl
  rw [h]
  simp [DeserializePrimitiveComponent, primitiveStatements, ifMember,
    ifArrayMember, JValue.HasMember, JValue.member, JValue.members, JValue.findMember,
    floatAt, JValue.GetFloat, JValue.IsNumber, GetInt_asInt, runStatements]

theorem deserialize_serialized_sprite (c c0 : SpriteComponent) :
    (Writer.document (SerializeSpriteComponent [] c)).map
        (fun reader => DeserializeSpriteComponent reader c0)
      = some (.ok { c with m_EntityIdentity := asInt c.m_EntityIdentity,
                           m_TexKey := c_str c.m_TexKey,
                           UUID := asUint64 c.UUID }) := by
  have h : Writer.document (SerializeSpriteComponent [] c) = some (.obj
      [("Identity", .number (asInt c.m_EntityIdentity)),
       ("TexKey", .str (c_str c.m_TexKey)),
       ("UUID", .number (asUint64 c.UUID)),
       ("Width", .real c.m_SpriteWidth),
       ("Height", .real c.m_SpriteHeight),
       ("Alpha", .real c.m_Alpha),
       ("Color", .arr [.real c.m_Color.x, .real c.m_Color.y, .real c.m_Color.z])]) := rfl
  rw [h]
  simp [DeserializeSpriteComponent, spriteStatements, ifMember,
    ifArrayMember, JValue.HasMember, JValue.member, JValue.members, JValue.findMember,
    floatAt, JValue.GetFloat, JValue.GetString, JValue.IsNumber, GetInt_asInt,
    GetUint64_asUint64, c_str_c_str, runStatements]

/-- Claim C33, as stated, fails on a texture key with a NUL character: the
sprite with the key `a`, NUL, `b` comes back with the key `a`. -/
theorem component_round_trip_counterexample :
    (Writer.document (SerializeSpriteComponent [] Examples.nulSprite)).map
        (fun reader => DeserializeSpriteComponent reader {})
      = some (.ok { m_TexKey := "a" }) ∧
    Examples.nulSprite.m_TexKey ≠ "a" := by
  constructor
  · rw [deserialize_serialized_sprite]
    rfl
  · decide

/-- Claim C33, amended. For records whose integer fields hold values of their
types (`Identity` and `PrimitiveID` an `int`, the `UUID` of a sprite a 64-bit
unsigned) and, for a sprite, whose texture key has no NUL character:
deserializing the document the serializer of the type writes into any record of
the type returns, and the record is then the one that was serialized. -/
theorem component_round_trip (t t0 : TransformComponent) (m m0 : MovementComponent)
    (q q0 : PrimitiveComponent) (s s0 : SpriteComponent)
    (ht : FitsInt t.m_EntityIdentity) (hm : FitsInt m.m_EntityIdentity)
    (hq : FitsInt q.m_EntityIdentity ∧ FitsInt q.m_PrimitiveID)
    (hs : FitsInt s.m_EntityIdentity ∧ FitsUint64 s.UUID ∧ NulFree s.m_TexKey) :
    (Writer.document (SerializeTransformComponent [] t)).map
        (fun reader => DeserializeTransformComponent reader t0) = some (.ok t) ∧
    (Writer.document (SerializeMovementComponent [] m)).map
        (fun reader => DeserializeMovementComponent reader m0) = some (.ok m) ∧
    (Writer.document (SerializePrimitiveComponent [] q)).map
        (fun reader => DeserializePrimitiveComponent reader q0) = some (.ok q) ∧
    (Writer.document (SerializeSpriteComponent [] s)).map
        (fun reader => DeserializeSpriteComponent reader s0) = some (.ok s) := by
  refine ⟨?_, ?_, ?_, ?_⟩
  · rw [deserialize_serialized_transform, ht]
  · rw [deserialize_serialized_movement, hm]
  · rw [deserialize_serialized_primitive, hq.1, hq.2]
  · rw [deserialize_serialized_sprite, hs.1, hs.2.1, hs.2.2]

/-- Claim C33, amended, at a concrete input: the four records the authors'
tester populates. -/
theorem component_round_trip_witness :
    (FitsInt Examples.testerTransform.m_EntityIdentity ∧
      FitsInt Examples.testerMovement.m_EntityIdentity ∧
      (FitsInt Examples.testerPrimitive.m_EntityIdentity ∧
        FitsInt Examples.testerPrimitive.m_PrimitiveID) ∧
      (FitsInt Examples.testerSprite.m_EntityIdentity ∧ FitsUint64 Examples.testerSprite.UUID ∧
        NulFree Examples.testerSprite.m_TexKey)) ∧
    (Writer.document (SerializeTransformComponent [] Examples.testerTransform)).map
        (fun reader => DeserializeTransformComponent reader {})
      = some (.ok Examples.testerTransform) ∧
    (Writer.document (SerializeSpriteComponent [] Examples.testerSprite)).map
        (fun reader => DeserializeSpriteComponent reader {})
      = some (.ok Examples.testerSprite) :=
  ⟨⟨by decide, by decide, ⟨by decide, by decide⟩, by decide, by decide, by decide⟩,
    (component_round_trip Examples.testerTransform {} Examples.testerMovement {}
      Examples.testerPrimitive {} Examples.testerSprite {} (by decide) (by decide)
      ⟨by decide, by decide⟩ ⟨by decide, by decide, by decide⟩).1,
    (component_round_trip Examples.testerTransform {} Examples.testerMovement {}
      Examples.testerPrimitive {} Examples.testerSprite {} (by decide) (by decide)
      ⟨by decide, by decide⟩ ⟨by decide, by decide, by decide⟩).2.2.2⟩

/-- What deserializing the document `SerializeCameraComponent` writes for `c`
makes of a camera `c0`. -/
theorem deserialize_serialized_camera (c c0 : CameraComponent) :
    (Writer.document (SerializeCameraComponent [] c)).map
        (fun reader => DeserializeCameraComponent reader c0)
      = some (.ok { c with
          m_EntityIdentity := asInt c.m_EntityIdentity,
          m_IsActive := c0.m_IsActive,
          m_Active := c.m_IsActive,
          m_FOV := c0.m_FOV,
          velocity := ⟨c.velocity.y, c.velocity.x⟩ }) := by
  have h : Writer.document (SerializeCameraComponent [] c) = some (.obj
      [("m_Active", .bool c.m_IsActive),
       ("m_SmoothDampActive", .bool c.m_SmoothDampActive),
       ("Identity", .number (asInt c.m_EntityIdentity)),
       ("m_Fov", .real c.m_FOV),
       ("m_PerspectiveNear", .real c.m_PerspectiveNear),
       ("m_PerspectiveFar", .real c.m_PerspectiveFar),
       ("m_OrthoFar", .real c.m_OrthoFar),
       ("m_OrthoNear", .real c.m_OrthoNear),
       ("m_OrthoSize", .real c.m_OrthoSize),
       ("m_CameraDistance", .real c.m_CameraDistance),
       ("velocity", .arr [.real c.velocity.x, .real c.velocity.y])]) := rfl
  rw [h]
  simp [DeserializeCameraComponent, cameraStatements, ifMember,
    ifArrayMember, JValue.HasMember, JValue.member, JValue.members, JValue.findMember,
    floatAt, JValue.GetFloat, JValue.GetBool, JValue.IsNumber, GetInt_asInt, runStatements]

/-- Claim C34, evaluated where it fails. Deserializing the document `SerializeCameraComponent`
writes for a camera `c` returns, and the velocity of the record is the velocity
of `c` with its two components exchanged: `x` is read from the second element
of the array, where `y` was written, and `y` from the first. The camera with
velocity `(1, 2)` comes back with velocity `(2, 1)`. -/
theorem camera_velocity_comes_back_exchanged :
    (∀ c c0 : CameraComponent, ∃ c',
      (Writer.document (SerializeCameraComponent [] c)).map
          (fun reader => DeserializeCameraComponent reader c0) = some (.ok c') ∧
      c'.velocity.x = c.velocity.y ∧ c'.velocity.y = c.velocity.x) ∧
    (∃ c',
      (Writer.document (SerializeCameraComponent [] Examples.movingCamera)).map
          (fun reader => DeserializeCameraComponent reader {}) = some (.ok c') ∧
      c'.velocity = ⟨2, 1⟩ ∧ Examples.movingCamera.velocity = ⟨1, 2⟩ ∧
      c'.velocity.x ≠ Examples.movingCamera.velocity.x) := by
  constructor
  · intro c c0
    exact ⟨_, deserialize_serialized_camera c c0, rfl, rfl⟩
  · exact ⟨_, deserialize_serialized_camera _ _, rfl, rfl, by decide⟩

/-- Claim C35, evaluated where it fails. `SerializeCameraComponent` writes the field of view under
the key `m_Fov`; `DeserializeCameraComponent` reads it from the key `m_FOV`,
which the document does not have. Deserializing the document written for a
camera `c` into a camera `c0` returns and leaves the field of view of `c0` as it
was: the camera with field of view 60 comes back, into a new record, with field
of view 0. -/
theorem camera_field_of_view_is_not_read_back :
    (∀ c c0 : CameraComponent, ∃ c',
      (Writer.document (SerializeCameraComponent [] c)).map
          (fun reader => DeserializeCameraComponent reader c0) = some (.ok c') ∧
      c'.m_FOV = c0.m_FOV) ∧
    (∀ c : CameraComponent,
      (Writer.document (SerializeCameraComponent [] c)).map
          (fun reader => (reader.HasMember "m_Fov", reader.HasMember "m_FOV"))
        = some (some true, some false)) ∧
    (∃ c',
      (Writer.document (SerializeCameraComponent [] Examples.movingCamera)).map
          (fun reader => DeserializeCameraComponent reader {}) = some (.ok c') ∧
      c'.m_FOV = 0 ∧ Examples.movingCamera.m_FOV = 60) := by
  refine ⟨?_, ?_, ?_⟩
  · intro c c0
    exact ⟨_, deserialize_serialized_camera c c0, rfl⟩
  · intro c
    rfl
  · exact ⟨_, deserialize_serialized_camera _ _, rfl, rfl⟩

/-! ## Deserializing the empty object -/

/-- Claim C36, as stated, fails for `DeserializeRigidBody2DComponent` when
`Body::Set` stores its arguments: the function calls
`m_body.Set(Scale, Mass, body_type)` whatever keys the reader has, with the
value-initialised locals when the keys are absent. On the empty object a body
of mass 5 and width `(2, 3)` ends with mass 0 and width `(0, 0)`. -/
theorem empty_object_counterexample :
    DeserializeRigidBody2DComponent Examples.bodySet (.obj []) Examples.heavyBody
      = .ok { m_body := { width := ⟨0, 0⟩, mass := 0 } } ∧
    Examples.heavyBody.m_body.mass = 5 ∧
    DeserializeRigidBody2DComponent Examples.bodySet (.obj []) Examples.heavyBody
      ≠ .ok Examples.heavyBody := by
  refine ⟨rfl, rfl, ?_⟩
  intro h
  have h2 : (Except.reached (DeserializeRigidBody2DComponent Examples.bodySet (.obj [])
      Examples.heavyBody)).m_body.mass = (Except.reached (Except.ok
        Examples.heavyBody : Except RigidBody2DComponent RigidBody2DComponent)).m_body.mass := by
    rw [h]
  revert h2
  decide

/-- Claim C36, amended. On the empty object every deserializer returns. Fifteen
of them leave the record as it was. `DeserializeRigidBody2DComponent` leaves
`m_EntityIdentity` and `m_offset` as they were and makes `m_body` what
`Body::Set` makes of it with the scale `(0, 0)`, the mass 0 and the body type
0. -/
theorem empty_object_leaves_record (BodySet : Body → Vec2 → ℚ → Int → Body) :
    (∀ c, DeserializeTransformComponent (.obj []) c = .ok c) ∧
    (∀ c, DeserializeMovementComponent (.obj []) c = .ok c) ∧
    (∀ c, DeserializePrimitiveComponent (.obj []) c = .ok c) ∧
    (∀ c, DeserializeSpriteComponent (.obj []) c = .ok c) ∧
    (∀ c, DeserializeNameComponent (.obj []) c = .ok c) ∧
    (∀ c, DeserializePlayerComponent (.obj []) c = .ok c) ∧
    (∀ c, DeserializeCameraComponent (.obj []) c = .ok c) ∧
    (∀ c, DeserializeFontComponent (.obj []) c = .ok c) ∧
    (∀ c, DeserializeAnimationComponent (.obj []) c = .ok c) ∧
    (∀ c, DeserializeGemComponent (.obj []) c = .ok c) ∧
    (∀ c, DeserializeUIComponent (.obj []) c = .ok c) ∧
    (∀ c, DeserializeAudioComponent (.obj []) c = .ok c) ∧
    (∀ c, DeserializeEnemyComponent (.obj []) c = .ok c) ∧
    (∀ c, DeserializeTileComponent (.obj []) c = .ok c) ∧
    (∀ c, DeserializeCPPScriptComponent (.obj []) c = .ok c) ∧
    (∀ c, DeserializeRigidBody2DComponent BodySet (.obj []) c
      = .ok { c with m_body := BodySet c.m_body ⟨0, 0⟩ 0 0 }) :=
  ⟨fun _ => rfl, fun _ => rfl, fun _ => rfl, fun _ => rfl, fun _ => rfl, fun _ => rfl,
    fun _ => rfl, fun _ => rfl, fun _ => rfl, fun _ => rfl, fun _ => rfl, fun _ => rfl,
    fun _ => rfl, fun _ => rfl, fun _ => rfl, fun _ => rfl⟩

/-! ## Readers with and without a member -/

theorem JValue.findMember_withoutMember_self (ms : List (String × JValue)) (name : String) :
    JValue.findMember (withoutMember ms name) name = none := by
  induction ms with
  | nil => rfl
  | cons m ms ih =>
    obtain ⟨k, v⟩ := m
    by_cases h : k = name
    · simpa [withoutMember, List.filter_cons, h] using ih
    · simpa [withoutMember, List.filter_cons, h, JValue.findMember] using ih

theorem JValue.findMember_withoutMember_ne (ms : List (String × JValue)) (name key : String)
    (hne : key ≠ name) :
    JValue.findMember (withoutMember ms name) key = JValue.findMember ms key := by
  induction ms with
  | nil => rfl
  | cons m ms ih =>
    obtain ⟨k, v⟩ := m
    by_cases h : k = name
    · subst h
      have hk : ¬ k = key := fun e => hne e.symm
      have hf : withoutMember ((k, v) :: ms) k = withoutMember ms k := by
        simp [withoutMember, List.filter_cons]
      rw [hf, ih]
      simp only [JValue.findMember, if_neg hk]
    · have hf : withoutMember ((k, v) :: ms) name = (k, v) :: withoutMember ms name := by
        simp [withoutMember, List.filter_cons, h]
      rw [hf]
      by_cases hk : k = key
      · simp only [JValue.findMember, if_pos hk]
      · simp only [JValue.findMember, if_neg hk, ih]

theorem ifMember_obj {T : Type} (ms : List (String × JValue)) (key : String)
    (body : JValue → Statements T) :
    ifMember (.obj ms) key body
      = (match JValue.findMember ms key with
        | some v => body v
        | none => []) := by
  unfold ifMember
  cases h : JValue.findMember ms key <;>
    simp [JValue.HasMember, JValue.member, JValue.members, h]

theorem ifMember_withoutMember_self {T : Type} (ms : List (String × JValue)) (name : String)
    (body : JValue → Statements T) :
    ifMember (.obj (withoutMember ms name)) name body = [] := by
  rw [ifMember_obj, JValue.findMember_withoutMember_self]

theorem ifMember_withoutMember_ne {T : Type} (ms : List (String × JValue)) (name key : String)
    (hne : key ≠ name) (body : JValue → Statements T) :
    ifMember (.obj (withoutMember ms name)) key body = ifMember (.obj ms) key body := by
  rw [ifMember_obj, ifMember_obj, JValue.findMember_withoutMember_ne _ _ _ hne]

/-! ## What a run of statements leaves alone -/

theorem Statements.keeps_nil {T α : Type} (g : T → α) : Statements.Keeps g ([] : Statements T) := by
  intro f hf
  cases hf

theorem Statements.keeps_append {T α : Type} (g : T → α) (a b : Statements T)
    (ha : Statements.Keeps g a) (hb : Statements.Keeps g b) : Statements.Keeps g (a ++ b) := by
  intro f hf
  rcases List.mem_append.1 hf with h | h
  · exact ha f h
  · exact hb f h

theorem Statements.keeps_cons {T α : Type} (g : T → α) (s : Option (T → T)) (b : Statements T)
    (hs : ∀ f, s = some f → ∀ c, g (f c) = g c) (hb : Statements.Keeps g b) :
    Statements.Keeps g (s :: b) := by
  intro f hf
  rcases List.mem_cons.1 hf with h | h
  · exact hs f h.symm
  · exact hb f h

theorem Statements.keeps_map {T α β : Type} (g : T → α) (o : Option β) (h : β → T → T)
    (hh : ∀ a c, g (h a c) = g c) : ∀ f, o.map h = some f → ∀ c, g (f c) = g c := by
  intro f hf c
  cases o with
  | none => cases hf
  | some a =>
    simp only [Option.map_some', Option.some.injEq] at hf
    subst hf
    exact hh a c

theorem Statements.keeps_ifMember {T α : Type} (g : T → α) (reader : JValue) (key : String)
    (body : JValue → Statements T) (hb : ∀ v, Statements.Keeps g (body v)) :
    Statements.Keeps g (ifMember reader key body) := by
  unfold ifMember
  cases reader.HasMember key with
  | none => intro f hf; simp at hf
  | some b =>
    cases b with
    | false => exact Statements.keeps_nil g
    | true =>
      cases reader.member key with
      | none => intro f hf; simp at hf
      | some v => exact hb v

theorem reached_runStatements_keeps {T α : Type} (g : T → α) (stmts : Statements T)
    (h : Statements.Keeps g stmts) (c : T) :
    g (Except.reached (runStatements stmts c)) = g c := by
  induction stmts generalizing c with
  | nil => rfl
  | cons s rest ih =>
    cases s with
    | none => rfl
    | some f =>
      have hrest : Statements.Keeps g rest := fun f' hf' => h f' (List.mem_cons_of_mem _ hf')
      show g (Except.reached (runStatements rest (f c))) = g c
      rw [ih hrest, h f (List.mem_cons_self _ _)]

/-! ## The colour of a primitive and of a sprite -/

theorem primitiveStatements_without_color (ms : List (String × JValue))
    (h : ∀ xs, JValue.findMember ms "Color" = some (.arr xs) → xs.length ≠ 3) :
    primitiveStatements (.obj ms) = primitiveStatements (.obj (withoutMember ms "Color")) := by
  have hb : ifArrayMember (.obj ms) "Color" (fun colorArray =>
      if colorArray.length = 3 then
        [(floatAt colorArray 0).map (fun a (c : PrimitiveComponent) =>
            { c with m_Color := { c.m_Color with x := a } }),
         (floatAt colorArray 1).map (fun a c => { c with m_Color := { c.m_Color with y := a } }),
         (floatAt colorArray 2).map (fun a c => { c with m_Color := { c.m_Color with z := a } })]
      else []) = [] := by
    unfold ifArrayMember
    rw [ifMember_obj]
    cases hf : JValue.findMember ms "Color" with
    | none => rfl
    | some v =>
      cases v with
      | arr xs => simp only [if_neg (h xs hf)]
      | _ => rfl
  unfold primitiveStatements
  rw [hb]
  simp only [ifArrayMember, ifMember_withoutMember_self,
    ifMember_withoutMember_ne _ "Color" "Identity" (by decide),
    ifMember_withoutMember_ne _ "Color" "PrimitiveID" (by decide),
    ifMember_withoutMember_ne _ "Color" "Offset" (by decide),
    ifMember_withoutMember_ne _ "Color" "Alpha" (by decide)]

theorem spriteStatements_without_color (ms : List (String × JValue))
    (h : ∀ xs, JValue.findMember ms "Color" = some (.arr xs) → xs.length ≠ 3) :
    spriteStatements (.obj ms) = spriteStatements (.obj (withoutMember ms "Color")) := by
  have hb : ifArrayMember (.obj ms) "Color" (fun colorArray =>
      if colorArray.length = 3 then
        [(floatAt colorArray 0).map (fun a (c : SpriteComponent) =>
            { c with m_Color := { c.m_Color with x := a } }),
         (floatAt colorArray 1).map (fun a c => { c with m_Color := { c.m_Color with y := a } }),
         (floatAt colorArray 2).map (fun a c => { c with m_Color := { c.m_Color with z := a } })]
      else []) = [] := by
    unfold ifArrayMember
    rw [ifMember_obj]
    cases hf : JValue.findMember ms "Color" with
    | none => rfl
    | some v =>
      cases v with
      | arr xs => simp only [if_neg (h xs hf)]
      | _ => rfl
  unfold spriteStatements
  rw [hb]
  simp only [ifArrayMember, ifMember_withoutMember_self,
    ifMember_withoutMember_ne _ "Color" "Identity" (by decide),
    ifMember_withoutMember_ne _ "Color" "TexKey" (by decide),
    ifMember_withoutMember_ne _ "Color" "UUID" (by decide),
    ifMember_withoutMember_ne _ "Color" "Width" (by decide),
    ifMember_withoutMember_ne _ "Color" "Height" (by decide),
    ifMember_withoutMember_ne _ "Color" "Alpha" (by decide)]

theorem primitiveStatements_keep_color (ms : List (String × JValue)) :
    Statements.Keeps PrimitiveComponent.m_Color
      (primitiveStatements (.obj (withoutMember ms "Color"))) := by
  unfold primitiveStatements
  simp only [ifArrayMember, ifMember_withoutMember_self, List.append_nil]
  refine Statements.keeps_append _ _ _ (Statements.keeps_append _ _ _
    (Statements.keeps_append _ _ _ ?_ ?_) ?_) ?_ <;>
  · apply Statements.keeps_ifMember
    intro v
    exact Statements.keeps_cons _ _ _ (Statements.keeps_map _ _ _ (fun _ _ => rfl))
      (Statements.keeps_nil _)

theorem spriteStatements_keep_color (ms : List (String × JValue)) :
    Statements.Keeps SpriteComponent.m_Color
      (spriteStatements (.obj (withoutMember ms "Color"))) := by
  unfold spriteStatements
  simp only [ifArrayMember, ifMember_withoutMember_self, List.append_nil]
  refine Statements.keeps_append _ _ _ (Statements.keeps_append _ _ _
    (Statements.keeps_append _ _ _ (Statements.keeps_append _ _ _
      (Statements.keeps_append _ _ _ ?_ ?_) ?_) ?_) ?_) ?_ <;>
  · apply Statements.keeps_ifMember
    intro v
    exact Statements.keeps_cons _ _ _ (Statements.keeps_map _ _ _ (fun _ _ => rfl))
      (Statements.keeps_nil _)

/-- Claim C37. When the `Color` member of the reader is not an array of exactly
3 elements (another length, not an array, or absent), `DeserializePrimitiveComponent`
and `DeserializeSpriteComponent` do what they do on the reader without that
member, so every other field present is deserialized as before, and the colour
of the record is left as it was. -/
theorem color_needs_three_elements (ms : List (String × JValue))
    (h : ∀ xs, JValue.findMember ms "Color" = some (.arr xs) → xs.length ≠ 3) :
    (∀ c : PrimitiveComponent,
      DeserializePrimitiveComponent (.obj ms) c
        = DeserializePrimitiveComponent (.obj (withoutMember ms "Color")) c ∧
      (Except.reached (DeserializePrimitiveComponent (.obj ms) c)).m_Color = c.m_Color) ∧
    (∀ c : SpriteComponent,
      DeserializeSpriteComponent (.obj ms) c
        = DeserializeSpriteComponent (.obj (withoutMember ms "Color")) c ∧
      (Except.reached (DeserializeSpriteComponent (.obj ms) c)).m_Color = c.m_Color) := by
  constructor
  · intro c
    have he : DeserializePrimitiveComponent (.obj ms) c
        = DeserializePrimitiveComponent (.obj (withoutMember ms "Color")) c := by
      unfold DeserializePrimitiveComponent
      rw [primitiveStatements_without_color ms h]
    refine ⟨he, ?_⟩
    rw [he]
    exact reached_runStatements_keeps _ _ (primitiveStatements_keep_color ms) c
  · intro c
    have he : DeserializeSpriteComponent (.obj ms) c
        = DeserializeSpriteComponent (.obj (withoutMember ms "Color")) c := by
      unfold DeserializeSpriteComponent
      rw [spriteStatements_without_color ms h]
    refine ⟨he, ?_⟩
    rw [he]
    exact reached_runStatements_keeps _ _ (spriteStatements_keep_color ms) c

/-- Claim C37 at a concrete input: on the reader
`{"Color": [1, 2], "Alpha": 1}` the colour of a primitive stays as it was and
its `Alpha` is deserialized. -/
theorem color_needs_three_elements_witness :
    (∀ xs, JValue.findMember Examples.shortColor "Color" = some (.arr xs) → xs.length ≠ 3) ∧
    DeserializePrimitiveComponent (.obj Examples.shortColor) {}
      = DeserializePrimitiveComponent (.obj (withoutMember Examples.shortColor "Color")) {} ∧
    (Except.reached (DeserializePrimitiveComponent (.obj Examples.shortColor) {})).m_Color
      = ({} : PrimitiveComponent).m_Color ∧
    DeserializePrimitiveComponent (.obj Examples.shortColor) {} = .ok { m_Alpha := 1 } :=
  ⟨fun xs h => by
      have h2 : xs = [JValue.number 1, JValue.number 2] := by
        simpa [Examples.shortColor, JValue.findMember] using h.symm
      rw [h2]; decide,
    ((color_needs_three_elements Examples.shortColor (fun xs h => by
      have h2 : xs = [JValue.number 1, JValue.number 2] := by
        simpa [Examples.shortColor, JValue.findMember] using h.symm
      rw [h2]; decide)).1 {}).1,
    ((color_needs_three_elements Examples.shortColor (fun xs h => by
      have h2 : xs = [JValue.number 1, JValue.number 2] := by
        simpa [Examples.shortColor, JValue.findMember] using h.symm
      rw [h2]; decide)).1 {}).2,
    by rfl⟩

/-! ## Arrays read at fixed indices -/

theorem numbersAt_two (xs : List JValue) :
    numbersAt xs 2 = ((floatAt xs 0).isSome && (floatAt xs 1).isSome) := by
  simp [numbersAt, List.range_succ]

theorem numbersAt_three (xs : List JValue) :
    numbersAt xs 3 = ((floatAt xs 0).isSome && ((floatAt xs 1).isSome && (floatAt xs 2).isSome)) := by
  simp [numbersAt, List.range_succ, Bool.and_assoc]

theorem floatAt_of_length_le (xs : List JValue) (i : Nat) (h : xs.length ≤ i) :
    floatAt xs i = none := by
  simp [floatAt, List.getElem?_eq_none h]

theorem numbersAt_of_short (xs : List JValue) (n : Nat) (h : xs.length < n) :
    numbersAt xs n = false := by
  unfold numbersAt
  rw [List.all_eq_false]
  refine ⟨n - 1, List.mem_range.2 (by omega), ?_⟩
  rw [floatAt_of_length_le xs (n - 1) (by omega)]
  simp

theorem ifMember_of_findMember {T : Type} (ms : List (String × JValue)) (key : String)
    (v : JValue) (hf : JValue.findMember ms key = some v) (body : JValue → Statements T) :
    ifMember (.obj ms) key body = body v := by
  rw [ifMember_obj, hf]

theorem isSome_map_statement {T β : Type} (o : Option β) (h : β → T → T) :
    (o.map h).isSome = o.isSome := by
  cases o <;> rfl

theorem all_isSome_map_cons {T β : Type} (o : Option β) (h : β → T → T) (rest : Statements T) :
    List.all (o.map h :: rest) Option.isSome = (o.isSome && List.all rest Option.isSome) := by
  cases o <;> rfl

theorem isOk_Transform_Transform (BodySet : Body → Vec2 → ℚ → Int → Body)
    (ms : List (String × JValue)) (xs : List JValue)
    (hf : JValue.findMember ms "Transform" = some (.arr xs)) (p : Prefab) :
    (Prefab.deserializeWith BodySet .Transform (.obj ms) .Transform p).isOk
      = ((Prefab.deserializeWith BodySet .Transform (.obj (withoutMember ms "Transform")) .Transform p).isOk &&
          numbersAt xs 3) := by
  simp only [Prefab.deserializeWith, ne_eq, not_true_eq_false, if_false, Except.isOk_both,
    DeserializeTransformComponent, isOk_runStatements, transformStatements, ifArrayMember,
    ifMemberArray, List.all_append, ifMember_withoutMember_self, ifMember_withoutMember_ne,
    String.reduceEq, not_false_eq_true, ifMember_of_findMember _ _ _ hf,
    all_isSome_map_cons, List.all_cons, isSome_map_statement, List.all_nil, numbersAt_two,
    numbersAt_three, Bool.and_true, Bool.true_and]
  ac_rfl

theorem isOk_Transform_Scale (BodySet : Body → Vec2 → ℚ → Int → Body)
    (ms : List (String × JValue)) (xs : List JValue)
    (hf : JValue.findMember ms "Scale" = some (.arr xs)) (p : Prefab) :
    (Prefab.deserializeWith BodySet .Transform (.obj ms) .Transform p).isOk
      = ((Prefab.deserializeWith BodySet .Transform (.obj (withoutMember ms "Scale")) .Transform p).isOk &&
          numbersAt xs 2) := by
  simp only [Prefab.deserializeWith, ne_eq, not_true_eq_false, if_false, Except.isOk_both,
    DeserializeTransformComponent, isOk_runStatements, transformStatements, ifArrayMember,
    ifMemberArray, List.all_append, ifMember_withoutMember_self, ifMember_withoutMember_ne,
    String.reduceEq, not_false_eq_true, ifMember_of_findMember _ _ _ hf,
    all_isSome_map_cons, List.all_cons, isSome_map_statement, List.all_nil, numbersAt_two,
    numbersAt_three, Bool.and_true, Bool.true_and]
  ac_rfl

theorem isOk_Movement_Direction (BodySet : Body → Vec2 → ℚ → Int → Body)
    (ms : List (String × JValue)) (xs : List JValue)
    (hf : JValue.findMember ms "Direction" = some (.arr xs)) (p : Prefab) :
    (Prefab.deserializeWith BodySet .Movement (.obj ms) .Movement p).isOk
      = ((Prefab.deserializeWith BodySet .Movement (.obj (withoutMember ms "Direction")) .Movement p).isOk &&
          numbersAt xs 2) := by
  simp only [Prefab.deserializeWith, ne_eq, not_true_eq_false, if_false, Except.isOk_both,
    DeserializeMovementComponent, isOk_runStatements, movementStatements, ifArrayMember,
    ifMemberArray, List.all_append, ifMember_withoutMember_self, ifMember_withoutMember_ne,
    String.reduceEq, not_false_eq_true, ifMember_of_findMember _ _ _ hf,
    all_isSome_map_cons, List.all_cons, isSome_map_statement, List.all_nil, numbersAt_two,
    numbersAt_three, Bool.and_true, Bool.true_and]
  ac_rfl

theorem isOk_RigidBody2D_Position (BodySet : Body → Vec2 → ℚ → Int → Body)
    (ms : List (String × JValue)) (xs : List JValue)
    (hf : JValue.findMember ms "Position" = some (.arr xs)) (p : Prefab) :
    (Prefab.deserializeWith BodySet .RigidBody2D (.obj ms) .RigidBody2D p).isOk
      = ((Prefab.deserializeWith BodySet .RigidBody2D (.obj (withoutMember ms "Position")) .RigidBody2D p).isOk &&
          numbersAt xs 2) := by
  simp only [Prefab.deserializeWith, ne_eq, not_true_eq_false, if_false, Except.isOk_both,
    DeserializeRigidBody2DComponent, isOk_runStatements, rigidBodyStatements, ifArrayMember,
    ifMemberArray, List.all_append, ifMember_withoutMember_self, ifMember_withoutMember_ne,
    String.reduceEq, not_false_eq_true, ifMember_of_findMember _ _ _ hf,
    all_isSome_map_cons, List.all_cons, isSome_map_statement, List.all_nil, numbersAt_two,
    numbersAt_three, Bool.and_true, Bool.true_and]
  ac_rfl

theorem isOk_RigidBody2D_Width (BodySet : Body → Vec2 → ℚ → Int → Body)
    (ms : List (String × JValue)) (xs : List JValue)
    (hf : JValue.findMember ms "Width" = some (.arr xs)) (p : Prefab) :
    (Prefab.deserializeWith BodySet .RigidBody2D (.obj ms) .RigidBody2D p).isOk
      = ((Prefab.deserializeWith BodySet .RigidBody2D (.obj (withoutMember ms "Width")) .RigidBody2D p).isOk &&
          numbersAt xs 2) := by
  simp only [Prefab.deserializeWith, ne_eq, not_true_eq_false, if_false, Except.isOk_both,
    DeserializeRigidBody2DComponent, isOk_runStatements, rigidBodyStatements, ifArrayMember,
    ifMemberArray, List.all_append, ifMember_withoutMember_self, ifMember_withoutMember_ne,
    String.reduceEq, not_false_eq_true, ifMember_of_findMember _ _ _ hf,
    all_isSome_map_cons, List.all_cons, isSome_map_statement, List.all_nil, numbersAt_two,
    numbersAt_three, Bool.and_true, Bool.true_and]
  ac_rfl

theorem isOk_Camera_velocity (BodySet : Body → Vec2 → ℚ → Int → Body)
    (ms : List (String × JValue)) (xs : List JValue)
    (hf : JValue.findMember ms "velocity" = some (.arr xs)) (p : Prefab) :
    (Prefab.deserializeWith BodySet .Camera (.obj ms) .Camera p).isOk
      = ((Prefab.deserializeWith BodySet .Camera (.obj (withoutMember ms "velocity")) .Camera p).isOk &&
          numbersAt xs 2) := by
  simp only [Prefab.deserializeWith, ne_eq, not_true_eq_false, if_false, Except.isOk_both,
    DeserializeCameraComponent, isOk_runStatements, cameraStatements, ifArrayMember,
    ifMemberArray, List.all_append, ifMember_withoutMember_self, ifMember_withoutMember_ne,
    String.reduceEq, not_false_eq_true, ifMember_of_findMember _ _ _ hf,
    all_isSome_map_cons, List.all_cons, isSome_map_statement, List.all_nil, numbersAt_two,
    numbersAt_three, Bool.and_true, Bool.true_and]
  ac_rfl

theorem isOk_Font_Color (BodySet : Body → Vec2 → ℚ → Int → Body)
    (ms : List (String × JValue)) (xs : List JValue)
    (hf : JValue.findMember ms "Color" = some (.arr xs)) (p : Prefab) :
    (Prefab.deserializeWith BodySet .Font (.obj ms) .Font p).isOk
      = ((Prefab.deserializeWith BodySet .Font (.obj (withoutMember ms "Color")) .Font p).isOk &&
          numbersAt xs 3) := by
  simp only [Prefab.deserializeWith, ne_eq, not_true_eq_false, if_false, Except.isOk_both,
    DeserializeFontComponent, isOk_runStatements, fontStatements, ifArrayMember,
    ifMemberArray, List.all_append, ifMember_withoutMember_self, ifMember_withoutMember_ne,
    String.reduceEq, not_false_eq_true, ifMember_of_findMember _ _ _ hf, JValue.GetArray,
    all_isSome_map_cons, List.all_cons, isSome_map_statement, List.all_nil, numbersAt_two,
    numbersAt_three, Bool.and_true, Bool.true_and]

theorem isOk_Enemy_MaxDelta (BodySet : Body → Vec2 → ℚ → Int → Body)
    (ms : List (String × JValue)) (xs : List JValue)
    (hf : JValue.findMember ms "MaxDelta" = some (.arr xs)) (p : Prefab) :
    (Prefab.deserializeWith BodySet .Enemy (.obj ms) .Enemy p).isOk
      = ((Prefab.deserializeWith BodySet .Enemy (.obj (withoutMember ms "MaxDelta")) .Enemy p).isOk &&
          numbersAt xs 2) := by
  simp only [Prefab.deserializeWith, ne_eq, not_true_eq_false, if_false, Except.isOk_both,
    DeserializeEnemyComponent, isOk_runStatements, enemyStatements, ifArrayMember,
    ifMemberArray, List.all_append, ifMember_withoutMember_self, ifMember_withoutMember_ne,
    String.reduceEq, not_false_eq_true, ifMember_of_findMember _ _ _ hf, JValue.GetArray,
    all_isSome_map_cons, List.all_cons, isSome_map_statement, List.all_nil, numbersAt_two,
    numbersAt_three, Bool.and_true, Bool.true_and]

theorem isOk_Primitive_Color (BodySet : Body → Vec2 → ℚ → Int → Body)
    (ms : List (String × JValue)) (xs : List JValue)
    (hf : JValue.findMember ms "Color" = some (.arr xs)) (p : Prefab) :
    (Prefab.deserializeWith BodySet .Primitive (.obj ms) .Primitive p).isOk
      = ((Prefab.deserializeWith BodySet .Primitive (.obj (withoutMember ms "Color")) .Primitive p).isOk &&
          (decide (xs.length ≠ 3) || numbersAt xs 3)) := by
  by_cases hl : xs.length = 3
  · simp only [Prefab.deserializeWith, ne_eq, not_true_eq_false, if_false, Except.isOk_both,
      DeserializePrimitiveComponent, isOk_runStatements, primitiveStatements, ifArrayMember,
      ifMemberArray, List.all_append, ifMember_withoutMember_self, ifMember_withoutMember_ne,
      String.reduceEq, not_false_eq_true, ifMember_of_findMember _ _ _ hf, hl, if_true,
      all_isSome_map_cons, List.all_cons, isSome_map_statement, List.all_nil, numbersAt_two,
      numbersAt_three, Bool.and_true,
      Bool.true_and, decide_False, decide_True, Bool.not_true, Bool.false_or]
    ac_rfl
  · simp only [Prefab.deserializeWith, ne_eq, not_true_eq_false, if_false, Except.isOk_both,
      DeserializePrimitiveComponent, isOk_runStatements, primitiveStatements, ifArrayMember,
      ifMemberArray, List.all_append, ifMember_withoutMember_self, ifMember_withoutMember_ne,
      String.reduceEq, not_false_eq_true, ifMember_of_findMember _ _ _ hf, hl, if_false,
      all_isSome_map_cons, List.all_cons, isSome_map_statement, List.all_nil, numbersAt_two,
      numbersAt_three, Bool.and_true,
      Bool.true_and, decide_False, decide_True, Bool.not_false, Bool.true_or]

theorem isOk_Sprite_Color (BodySet : Body → Vec2 → ℚ → Int → Body)
    (ms : List (String × JValue)) (xs : List JValue)
    (hf : JValue.findMember ms "Color" = some (.arr xs)) (p : Prefab) :
    (Prefab.deserializeWith BodySet .Sprite (.obj ms) .Sprite p).isOk
      = ((Prefab.deserializeWith BodySet .Sprite (.obj (withoutMember ms "Color")) .Sprite p).isOk &&
          (decide (xs.length ≠ 3) || numbersAt xs 3)) := by
  by_cases hl : xs.length = 3
  · simp only [Prefab.deserializeWith, ne_eq, not_true_eq_false, if_false, Except.isOk_both,
      DeserializeSpriteComponent, isOk_runStatements, spriteStatements, ifArrayMember,
      ifMemberArray, List.all_append, ifMember_withoutMember_self, ifMember_withoutMember_ne,
      String.reduceEq, not_false_eq_true, ifMember_of_findMember _ _ _ hf, hl, if_true,
      all_isSome_map_cons, List.all_cons, isSome_map_statement, List.all_nil, numbersAt_two,
      numbersAt_three, Bool.and_true,
      Bool.true_and, decide_False, decide_True, Bool.not_true, Bool.false_or]
  · simp only [Prefab.deserializeWith, ne_eq, not_true_eq_false, if_false, Except.isOk_both,
      DeserializeSpriteComponent, isOk_runStatements, spriteStatements, ifArrayMember,
      ifMemberArray, List.all_append, ifMember_withoutMember_self, ifMember_withoutMember_ne,
      String.reduceEq, not_false_eq_true, ifMember_of_findMember _ _ _ hf, hl, if_false,
      all_isSome_map_cons, List.all_cons, isSome_map_statement, List.all_nil, numbersAt_two,
      numbersAt_three, Bool.and_true,
      Bool.true_and, decide_False, decide_True, Bool.not_false, Bool.true_or]

/-- The outcome of a deserializer on an object reader that has an array under
one of the keys of `fixedArrays`: it returns exactly when it returns on the
reader without that member and the reads of the array pass their assertions. An
unguarded read fails on an array shorter than `n`; a guarded read is skipped on
an array of another length. -/
theorem isOk_deserializeWith_fixedArray (BodySet : Body → Vec2 → ℚ → Int → Body)
    (T : ComponentType) (K : String) (n : Nat) (guarded : Bool)
    (hmem : (T, K, n, guarded) ∈ fixedArrays)
    (ms : List (String × JValue)) (xs : List JValue)
    (hf : JValue.findMember ms K = some (.arr xs)) (p : Prefab) :
    (Prefab.deserializeWith BodySet T (.obj ms) T p).isOk
      = ((Prefab.deserializeWith BodySet T (.obj (withoutMember ms K)) T p).isOk &&
          (if guarded then (decide (xs.length ≠ n) || numbersAt xs n) else numbersAt xs n)) ∧
    (guarded = false → xs.length < n →
      (Prefab.deserializeWith BodySet T (.obj ms) T p).isOk = false) ∧
    (guarded = true → xs.length ≠ n →
      (Prefab.deserializeWith BodySet T (.obj ms) T p).isOk
        = (Prefab.deserializeWith BodySet T (.obj (withoutMember ms K)) T p).isOk) := by
  have key : (Prefab.deserializeWith BodySet T (.obj ms) T p).isOk
      = ((Prefab.deserializeWith BodySet T (.obj (withoutMember ms K)) T p).isOk &&
          (if guarded then (decide (xs.length ≠ n) || numbersAt xs n) else numbersAt xs n)) := by
    simp only [fixedArrays, List.mem_cons, Prod.mk.injEq, List.mem_singleton, List.not_mem_nil,
      or_false] at hmem
    rcases hmem with ⟨rfl, rfl, rfl, rfl⟩ | ⟨rfl, rfl, rfl, rfl⟩ | ⟨rfl, rfl, rfl, rfl⟩ |
      ⟨rfl, rfl, rfl, rfl⟩ | ⟨rfl, rfl, rfl, rfl⟩ | ⟨rfl, rfl, rfl, rfl⟩ | ⟨rfl, rfl, rfl, rfl⟩ |
      ⟨rfl, rfl, rfl, rfl⟩ | ⟨rfl, rfl, rfl, rfl⟩ | ⟨rfl, rfl, rfl, rfl⟩
    · exact isOk_Transform_Transform BodySet ms xs hf p
    · exact isOk_Transform_Scale BodySet ms xs hf p
    · exact isOk_Movement_Direction BodySet ms xs hf p
    · exact isOk_RigidBody2D_Position BodySet ms xs hf p
    · exact isOk_RigidBody2D_Width BodySet ms xs hf p
    · exact isOk_Camera_velocity BodySet ms xs hf p
    · exact isOk_Font_Color BodySet ms xs hf p
    · exact isOk_Enemy_MaxDelta BodySet ms xs hf p
    · exact isOk_Primitive_Color BodySet ms xs hf p
    · exact isOk_Sprite_Color BodySet ms xs hf p
  refine ⟨key, ?_, ?_⟩
  · intro hg hl
    rw [key, hg, numbersAt_of_short xs n hl]
    simp
  · intro hg hl
    rw [key, hg]
    simp [hl]

theorem withoutMember_cons_self (K : String) (v : JValue) (ms : List (String × JValue)) :
    withoutMember ((K, v) :: ms) K = withoutMember ms K := by
  simp [withoutMember, List.filter_cons]

theorem findMember_cons_self (K : String) (v : JValue) (ms : List (String × JValue)) :
    JValue.findMember ((K, v) :: ms) K = some v := by
  simp only [JValue.findMember, if_true]

/-- Claim C38, evaluated where it fails. Eight reads index an array at fixed
positions without a test of its size, where the sibling reads of the `Color` of
a primitive and of a sprite test `Size() == 3` first. On `{"Transform": [1, 2]}`
`DeserializeTransformComponent` stores the two elements and indexes the array
past its end at `array[2]`; on `{"MaxDelta": []}` the first read of
`DeserializeEnemyComponent` is past the end; `DeserializePrimitiveComponent`
returns on `{"Color": [1, 2]}`. In general, for every object reader whose first
member is an array with fewer elements than are read under `Transform`
(3), `Scale`, `Direction`, `Position`, `Width`, `velocity`, `MaxDelta` (2) or the
`Color` of a font (3), the deserializer does not return, whatever the other
members are; under the `Color` of a primitive or of a sprite such an array is
skipped, and the deserializer does what it does without it. -/
theorem fixed_index_reads_past_the_end (BodySet : Body → Vec2 → ℚ → Int → Body)
    (ms : List (String × JValue)) (xs : List JValue) (p : Prefab) :
    DeserializeTransformComponent (.obj Examples.shortTransform) {}
      = .error { m_Transform := ⟨1, 2⟩ } ∧
    DeserializeEnemyComponent (.obj [("MaxDelta", .arr [])]) {} = .error {} ∧
    DeserializePrimitiveComponent (.obj [("Color", .arr [.number 1, .number 2])]) {}
      = .ok {} ∧
    (Prefab.deserializeWith BodySet .Transform
      (.obj (("Transform", .arr (xs.take 2)) :: ms)) .Transform p).isOk = false ∧
    (Prefab.deserializeWith BodySet .Transform
      (.obj (("Scale", .arr (xs.take 1)) :: ms)) .Transform p).isOk = false ∧
    (Prefab.deserializeWith BodySet .Movement
      (.obj (("Direction", .arr (xs.take 1)) :: ms)) .Movement p).isOk = false ∧
    (Prefab.deserializeWith BodySet .RigidBody2D
      (.obj (("Position", .arr (xs.take 1)) :: ms)) .RigidBody2D p).isOk = false ∧
    (Prefab.deserializeWith BodySet .RigidBody2D
      (.obj (("Width", .arr (xs.take 1)) :: ms)) .RigidBody2D p).isOk = false ∧
    (Prefab.deserializeWith BodySet .Camera
      (.obj (("velocity", .arr (xs.take 1)) :: ms)) .Camera p).isOk = false ∧
    (Prefab.deserializeWith BodySet .Font
      (.obj (("Color", .arr (xs.take 2)) :: ms)) .Font p).isOk = false ∧
    (Prefab.deserializeWith BodySet .Enemy
      (.obj (("MaxDelta", .arr (xs.take 1)) :: ms)) .Enemy p).isOk = false ∧
    (Prefab.deserializeWith BodySet .Primitive
      (.obj (("Color", .arr (xs.take 2)) :: ms)) .Primitive p).isOk
      = (Prefab.deserializeWith BodySet .Primitive
          (.obj (withoutMember ms "Color")) .Primitive p).isOk ∧
    (Prefab.deserializeWith BodySet .Sprite
      (.obj (("Color", .arr (xs.take 2)) :: ms)) .Sprite p).isOk
      = (Prefab.deserializeWith BodySet .Sprite
          (.obj (withoutMember ms "Color")) .Sprite p).isOk := by
  have h2 : (xs.take 2).length < 3 := by
    rw [List.length_take]; omega
  have h1 : (xs.take 1).length < 2 := by
    rw [List.length_take]; omega
  have h3 : (xs.take 2).length ≠ 3 := Nat.ne_of_lt h2
  refine ⟨by rfl, by rfl, by rfl, ?_, ?_, ?_, ?_, ?_, ?_, ?_, ?_, ?_, ?_⟩
  · exact (isOk_deserializeWith_fixedArray BodySet .Transform "Transform" 3 false (by decide) _ _
      (findMember_cons_self _ _ _) p).2.1 rfl h2
  · exact (isOk_deserializeWith_fixedArray BodySet .Transform "Scale" 2 false (by decide) _ _
      (findMember_cons_self _ _ _) p).2.1 rfl h1
  · exact (isOk_deserializeWith_fixedArray BodySet .Movement "Direction" 2 false (by decide) _ _
      (findMember_cons_self _ _ _) p).2.1 rfl h1
  · exact (isOk_deserializeWith_fixedArray BodySet .RigidBody2D "Position" 2 false (by decide) _
      _ (findMember_cons_self _ _ _) p).2.1 rfl h1
  · exact (isOk_deserializeWith_fixedArray BodySet .RigidBody2D "Width" 2 false (by decide) _ _
      (findMember_cons_self _ _ _) p).2.1 rfl h1
  · exact (isOk_deserializeWith_fixedArray BodySet .Camera "velocity" 2 false (by decide) _ _
      (findMember_cons_self _ _ _) p).2.1 rfl h1
  · exact (isOk_deserializeWith_fixedArray BodySet .Font "Color" 3 false (by decide) _ _
      (findMember_cons_self _ _ _) p).2.1 rfl h2
  · exact (isOk_deserializeWith_fixedArray BodySet .Enemy "MaxDelta" 2 false (by decide) _ _
      (findMember_cons_self _ _ _) p).2.1 rfl h1
  · have h := (isOk_deserializeWith_fixedArray BodySet .Primitive "Color" 3 true (by decide) _ _
      (findMember_cons_self "Color" (.arr (xs.take 2)) ms) p).2.2 rfl h3
    rw [withoutMember_cons_self] at h
    exact h
  · have h := (isOk_deserializeWith_fixedArray BodySet .Sprite "Color" 3 true (by decide) _ _
      (findMember_cons_self "Color" (.arr (xs.take 2)) ms) p).2.2 rfl h3
    rw [withoutMember_cons_self] at h
    exact h

/-! ## The round trip of an audio component -/

theorem Reading.tokens_append (a b : List WriterCall) (r : Reading) :
    Reading.tokens (a ++ b) r = (Reading.tokens a r).bind (Reading.tokens b) := by
  induction a generalizing r with
  | nil => rfl
  | cons t ts ih =>
    simp only [List.cons_append, Reading.tokens]
    cases Reading.token t r with
    | none => rfl
    | some r' => exact ih r'

theorem Reading.tokens_audioControlCalls (e : String × AudioControl) (xs : List JValue)
    (rest : List Frame) (root : Option JValue) :
    Reading.tokens (audioControlCalls e) ⟨.array xs :: rest, root⟩
      = some ⟨.array (xs ++ [audioControlValue e]) :: rest, root⟩ := rfl

theorem Reading.tokens_audioControls (l : List (String × AudioControl)) (xs : List JValue)
    (rest : List Frame) (root : Option JValue) :
    Reading.tokens (l.map audioControlCalls).flatten ⟨.array xs :: rest, root⟩
      = some ⟨.array (xs ++ l.map audioControlValue) :: rest, root⟩ := by
  induction l generalizing xs with
  | nil => simp [Reading.tokens]
  | cons e l ih =>
    simp only [List.map_cons, List.flatten_cons]
    rw [Reading.tokens_append, Reading.tokens_audioControlCalls]
    simp only [Option.some_bind, ih, List.append_assoc, List.singleton_append]

theorem document_SerializeAudioComponent (c : AudioComponent) :
    Writer.document (SerializeAudioComponent [] c)
      = some (.obj [("Identity", .number (asInt c.m_EntityIdentity)),
          ("AudioControlMap", .arr (c.m_AudioControlMap.map audioControlValue))]) := by
  unfold Writer.document SerializeAudioComponent
  simp only [List.nil_append, List.append_assoc]
  rw [Reading.tokens_append]
  have h1 : Reading.tokens
      [.StartObject, .String "Identity", .Int c.m_EntityIdentity, .String "AudioControlMap",
        .StartArray] {}
      = some ⟨[.array [], .object [("Identity", .number (asInt c.m_EntityIdentity))]
          (some "AudioControlMap")], none⟩ := rfl
  rw [h1, Option.some_bind, Reading.tokens_append, Reading.tokens_audioControls,
    Option.some_bind]
  rfl

theorem runStatements_audioControlStatements (control : AudioControl) (buffer : AudioControl) :
    runStatements (audioControlStatements
        (.obj [("UUID", .number (asUint64 control.UUID)),
          ("AudioKey", .str (c_str control.m_AudioKey)),
          ("Loop", .bool control.m_IsLooping),
          ("Volume", .real control.m_Volume)])) buffer
      = .ok control.readBack := by
  have h := fun key v hf (body : JValue → Statements AudioControl) =>
    ifMember_of_findMember [("UUID", .number (asUint64 control.UUID)),
      ("AudioKey", .str (c_str control.m_AudioKey)), ("Loop", .bool control.m_IsLooping),
      ("Volume", .real control.m_Volume)] key v hf body
  unfold audioControlStatements
  rw [h "UUID" _ rfl, h "AudioKey" _ rfl, h "Loop" _ rfl, h "Volume" _ rfl, GetUint64_asUint64]
  simp only [JValue.GetString, JValue.GetBool, JValue.GetFloat, Option.map_some',
    List.cons_append, List.nil_append, runStatements, c_str_c_str, AudioControl.readBack]

theorem audioControlStatement_obj (name : String) (value : JValue) (rest : List (String × JValue))
    (buffer : AudioControl)
    (h : runStatements (audioControlStatements value) {} = .ok buffer) :
    audioControlStatement (.obj ((name, value) :: rest))
      = some (fun c => { c with
          m_AudioControlMap := UMap.emplace c.m_AudioControlMap (c_str name) buffer }) := by
  unfold audioControlStatement
  simp only [JValue.firstMember, h]

theorem audioControlStatement_audioControlValue (e : String × AudioControl) :
    audioControlStatement (audioControlValue e)
      = some (fun c => { c with
          m_AudioControlMap := UMap.emplace c.m_AudioControlMap (c_str e.1) e.2.readBack }) := by
  have h := audioControlStatement_obj (c_str e.1) _ [] _
    (runStatements_audioControlStatements e.2 {})
  rw [c_str_c_str] at h
  exact h

theorem runStatements_audioControls (l : List (String × AudioControl)) (c : AudioComponent) :
    runStatements ((l.map audioControlValue).map audioControlStatement) c
      = .ok { c with m_AudioControlMap :=
          (l.foldl (fun m e => UMap.emplace m (c_str e.1) e.2.readBack) c.m_AudioControlMap) } := by
  induction l generalizing c with
  | nil => rfl
  | cons e l ih =>
    rw [List.map_cons, List.map_cons, audioControlStatement_audioControlValue]
    show runStatements ((l.map audioControlValue).map audioControlStatement) _ = _
    rw [ih]
    rfl

/-- What deserializing the document `SerializeAudioComponent` writes for `c`
makes of an audio component `c0`. -/
theorem deserialize_serialized_audio (c c0 : AudioComponent) :
    (Writer.document (SerializeAudioComponent [] c)).map
        (fun reader => DeserializeAudioComponent reader c0)
      = some (.ok
          { m_EntityIdentity := asInt c.m_EntityIdentity,
            m_AudioControlMap :=
              c.m_AudioControlMap.foldl (fun m e => UMap.emplace m (c_str e.1) e.2.readBack)
                c0.m_AudioControlMap }) := by
  rw [document_SerializeAudioComponent]
  simp only [Option.map_some', DeserializeAudioComponent, audioStatements]
  have hI : ifMember (.obj [("Identity", .number (asInt c.m_EntityIdentity)),
      ("AudioControlMap", .arr (c.m_AudioControlMap.map audioControlValue))]) "Identity"
      (fun v => [v.GetInt.map (fun i (c : AudioComponent) => { c with m_EntityIdentity := i })])
      = [some (fun c' => { c' with m_EntityIdentity := asInt c.m_EntityIdentity })] := by
    simp [ifMember, JValue.HasMember, JValue.member, JValue.members, JValue.findMember,
      GetInt_asInt]
  have hA : ifMemberArray (.obj [("Identity", .number (asInt c.m_EntityIdentity)),
      ("AudioControlMap", .arr (c.m_AudioControlMap.map audioControlValue))]) "AudioControlMap"
      (fun Controller => Controller.map audioControlStatement)
      = (c.m_AudioControlMap.map audioControlValue).map audioControlStatement := by
    simp [ifMemberArray, ifMember, JValue.HasMember, JValue.member, JValue.members,
      JValue.findMember, JValue.GetArray]
  rw [hI, hA]
  show some (runStatements (some _ ::
    (c.m_AudioControlMap.map audioControlValue).map audioControlStatement) c0) = _
  simp only [runStatements, runStatements_audioControls]

theorem UMap.foldl_emplace_of_nodup {K V : Type} [DecidableEq K] (l m : UMap K V)
    (h : (UMap.keys (m ++ l)).Nodup) :
    l.foldl (fun m e => UMap.emplace m e.1 e.2) m = m ++ l := by
  induction l generalizing m with
  | nil => simp
  | cons e l ih =>
    have hn : UMap.contains m e.1 = false := by
      rw [UMap.contains_eq_false_iff]
      intro hk
      simp only [UMap.keys, List.map_append, List.map_cons] at h hk
      have := (List.nodup_append.1 h).2.2 hk (List.mem_cons_self _ _)
      exact this
    have hs : UMap.emplace m e.1 e.2 = m ++ [e] := by
      simp only [UMap.emplace, hn, Bool.false_eq_true, if_false]
    simp only [List.foldl_cons, hs]
    rw [ih (m ++ [e]) (by simpa using h)]
    simp

theorem foldl_emplace_readBack (l m : UMap String AudioControl)
    (hc : ∀ e ∈ l, NulFree e.1 ∧ NulFree e.2.m_AudioKey ∧ FitsUint64 e.2.UUID) :
    l.foldl (fun m e => UMap.emplace m (c_str e.1) e.2.readBack) m
      = l.foldl (fun m e => UMap.emplace m e.1 e.2) m := by
  induction l generalizing m with
  | nil => rfl
  | cons e l ih =>
    obtain ⟨h1, h2, h3⟩ := hc e (List.mem_cons_self _ _)
    have hr : e.2.readBack = e.2 := by
      unfold AudioControl.readBack
      rw [h2, h3]
    simp only [List.foldl_cons]
    rw [h1, hr]
    exact ih _ (fun e' he' => hc e' (List.mem_cons_of_mem _ he'))

/-- Claim C39, as stated, fails on the name of a control with a NUL character:
the control named `a`, NUL, `b` comes back under the name `a`, which is no key
of the map that was serialized. -/
theorem audio_round_trip_counterexample :
    (Writer.document (SerializeAudioComponent [] Examples.nulAudio)).map
        (fun reader => DeserializeAudioComponent reader {})
      = some (.ok { m_AudioControlMap := [("a", {})] }) ∧
    UMap.contains Examples.nulAudio.m_AudioControlMap "a" = false ∧
    UMap.keys Examples.nulAudio.m_AudioControlMap = [Examples.nulName] := by
  refine ⟨?_, by decide, rfl⟩
  rw [deserialize_serialized_audio]
  rfl

/-- Claim C39, amended. For an audio component whose `Identity` is an `int`,
whose control map has no key twice, and whose controls have names and audio
keys without NUL character and a 64-bit `UUID`: deserializing the document
`SerializeAudioComponent` writes for it into an audio component with an empty
control map returns, and the record is then the one that was serialized (the
same keys, each with the same control, and the same `Identity`). -/
theorem audio_round_trip (c c0 : AudioComponent) (h0 : c0.m_AudioControlMap = [])
    (hid : FitsInt c.m_EntityIdentity) (hwf : UMap.WF c.m_AudioControlMap)
    (hc : ∀ e ∈ c.m_AudioControlMap,
      NulFree e.1 ∧ NulFree e.2.m_AudioKey ∧ FitsUint64 e.2.UUID) :
    (Writer.document (SerializeAudioComponent [] c)).map
        (fun reader => DeserializeAudioComponent reader c0) = some (.ok c) := by
  rw [deserialize_serialized_audio, h0, foldl_emplace_readBack _ _ hc,
    UMap.foldl_emplace_of_nodup _ _ (by simpa using hwf), hid]
  rfl

/-- Claim C39, amended, at a concrete input: a component with the controls
`jump` and `theme`. -/
theorem audio_round_trip_witness :
    (({} : AudioComponent).m_AudioControlMap = [] ∧
      FitsInt Examples.twoControls.m_EntityIdentity ∧
      UMap.WF Examples.twoControls.m_AudioControlMap ∧
      ∀ e ∈ Examples.twoControls.m_AudioControlMap,
        NulFree e.1 ∧ NulFree e.2.m_AudioKey ∧ FitsUint64 e.2.UUID) ∧
    (Writer.document (SerializeAudioComponent [] Examples.twoControls)).map
        (fun reader => DeserializeAudioComponent reader {}) = some (.ok Examples.twoControls) :=
  ⟨⟨rfl, by decide, by decide, by decide⟩,
    audio_round_trip Examples.twoControls {} rfl (by decide) (by decide) (by decide)⟩

/-! ## Scene entities and prefabs -/

theorem Prefab.serializeWith_append (func : ComponentType) (writer rest : Writer)
    (component : ComponentType) (p : Prefab) :
    Prefab.serializeWith func (writer ++ rest) component p
      = Except.both (fun members => writer ++ members)
          (Prefab.serializeWith func rest component p) := by
  unfold Prefab.serializeWith
  by_cases h : func ≠ component
  · rw [if_pos h, if_pos h]; rfl
  · rw [if_neg h, if_neg h]
    cases func <;>
      simp only [Except.both, SerializeTransformComponent, SerializeMovementComponent,
        SerializePrimitiveComponent, SerializeSpriteComponent, SerializePlayerComponent,
        SerializeNameComponent, SerializeRigidBody2DComponent, SerializefontComponent,
        SerializeCameraComponent, SerializeAnimationComponent, SerializeGemComponent,
        SerializeUIComponent, SerializeAudioComponent, SerializeEnemyComponent,
        SerializeTileComponent, SerializeCPPScriptComponent, List.append_assoc]

theorem Serializer.Serialize_append (s : Serializer) (writer rest : Writer) (typeName : String)
    (component : ComponentType) (p : Prefab) :
    s.Serialize (writer ++ rest) typeName component p
      = Except.both (fun members => writer ++ members)
          (s.Serialize rest typeName component p) := by
  unfold Serializer.Serialize
  cases UMap.find? s.serializeFunctions typeName with
  | none => rfl
  | some func => exact Prefab.serializeWith_append func writer rest component p

theorem Prefab.serializeMembers_append (serializer : Serializer) (p : Prefab)
    (l : List (String × ComponentType)) (writer rest : Writer) :
    Prefab.serializeMembers serializer p l (writer ++ rest)
      = Except.both (fun members => writer ++ members)
          (Prefab.serializeMembers serializer p l rest) := by
  induction l generalizing rest with
  | nil => rfl
  | cons pair l ih =>
    simp only [Prefab.serializeMembers]
    rw [List.append_assoc,
      Serializer.Serialize_append serializer writer (rest ++ [WriterCall.String (c_str pair.1)])]
    cases serializer.Serialize (rest ++ [.String (c_str pair.1)]) pair.1 pair.2 p with
    | error e => rfl
    | ok w' => exact ih w'

/-- Claim C40. On an object, `DeserializePrefab` (given a text that parses to
the object) and `DeserializeSceneEntity` (given the object) end alike, with the
prefab in the same state. `SerializeSceneEntity` appends to its writer the
calls it makes on a new writer, and `SerializePrefab` makes `StartObject`, then
exactly those calls, then `EndObject`; when a call is undefined, both stop
after the same calls. -/
theorem scene_entity_agrees_with_prefab (BodySet : Body → Vec2 → ℚ → Int → Body)
    (serializer : Serializer) (p : Prefab) (ms : List (String × JValue)) (writer : Writer)
    (w : World) :
    Prefab.DeserializePrefab BodySet serializer (some (.obj ms)) p
      = Prefab.DeserializeSceneEntity BodySet serializer (.obj ms) p ∧
    p.SerializeSceneEntity serializer writer
      = Except.both (fun members => writer ++ members) (p.SerializeSceneEntity serializer []) ∧
    (p.SerializePrefab serializer w).map Prod.fst
      = (match p.SerializeSceneEntity serializer [] with
        | .ok members => .ok ([.StartObject] ++ members ++ [.EndObject])
        | .error members => .error ([.StartObject] ++ members)) := by
  refine ⟨rfl, ?_, ?_⟩
  · have h := Prefab.serializeMembers_append serializer p p.m_components writer []
    rw [List.append_nil] at h
    exact h
  · have h := Prefab.serializeMembers_append serializer p p.m_components [.StartObject] []
    rw [List.append_nil] at h
    unfold Prefab.SerializePrefab Prefab.SerializeSceneEntity
    simp only [List.nil_append]
    rw [h]
    cases Prefab.serializeMembers serializer p p.m_components [] with
    | error e => rfl
    | ok members =>
      by_cases hw : w.writable = true
      · simp only [Except.both, hw, if_true]; rfl
      · simp only [Except.both, hw]; rfl

end SOL
